import Mathlib

/-! # kube-router: pod firewall chains, the Linux networking calls of the proxy, the options

A shallow embedding of `pkg/controllers/netpol/pod.go`, of
`pkg/controllers/proxy/linux_networking.go` and of `pkg/options/options.go`.

* Go strings are Lean strings; `[]byte(s)` is the UTF-8 encoding of `s`.
* A `bytes.Buffer` is the list of the strings written to it, oldest first; its
  content (`Buffer.String()`) is their concatenation.  Every `WriteString` of the
  source writes one line of the iptables-restore program.
* `npc.filterTableRules` is a Go map from IP family to buffer.  Go visits the keys of a
  map in an unspecified order, so every `range` over a map takes the order as an
  argument.
* `crypto/sha256` and `encoding/base32` are modelled after FIPS 180-4 and RFC 4648.
* `net.ParseIP` is modelled after `net/netip` of Go 1.22, on characters; `IP.To4` and
  `IP.Equal` after `net`.
* A `*ipvs.Service` is an index into a memory of services; a service that the source
  changes through its pointer is changed in the memory.
* A call to netlink, to IPVS or to the `ip` command is recorded in the list of the calls
  made, and its answer is taken from a `Kernel`, which may answer by the calls made
  before.  Logging is left out.
* A step of the methods for direct server return that leaves the program (a call to
  `netns`, to netlink, to the file system, to a helper of another package, a command) is
  recorded with its answer in the list of the steps made; the answer is taken from a
  `Host`.  A deferred call is the last step of every return after the `defer`.
* A lookup of a link answers with a link and the `nil` error, or with an error and the link
  returned along with it, the `nil` link in netlink.
* A handler of pod events returns the calls it makes on the controller; `none` is a panic.
* A `pflag.FlagSet` is the list of its flags; `AddFlags` returns `none` when it panics.
-/

namespace KubeRouter

/-! ## Go strings and the standard library -/

/-- Bytes of the UTF-8 encoding of one character. -/
def charBytes (c : Char) : List Nat :=
  let v := c.toNat
  if v < 128 then [v]
  else if v < 2048 then [192 + v / 64, 128 + v % 64]
  else if v < 65536 then [224 + v / 4096, 128 + v / 64 % 64, 128 + v % 64]
  else [240 + v / 262144, 128 + v / 4096 % 64, 128 + v / 64 % 64, 128 + v % 64]

/-- The conversion `[]byte(s)`. -/
def stringBytes (s : String) : List Nat := s.data.flatMap charBytes

/-- The function `strings.Join(elems, sep)`. -/
def stringsJoin : List String → String → String
  | [], _ => ""
  | [a], _ => a
  | a :: b :: rest, sep => a ++ sep ++ stringsJoin (b :: rest) sep

/-- Whether `sub` occurs in `s` as a contiguous run of characters. -/
def containsChars : List Char → List Char → Bool
  | [], sub => sub.isEmpty
  | c :: cs, sub => sub.isPrefixOf (c :: cs) || containsChars cs sub

/-- The function `strings.Contains(s, substr)`. -/
def stringsContains (s substr : String) : Bool := containsChars s.data substr.data

namespace SHA256

def add32 (x y : Nat) : Nat := (x + y) % 4294967296

def rotr (n x : Nat) : Nat := ((x >>> n) ||| (x <<< (32 - n))) % 4294967296

def not32 (x : Nat) : Nat := 4294967295 - x % 4294967296

def ch (x y z : Nat) : Nat := (x &&& y) ^^^ (not32 x &&& z)

def maj (x y z : Nat) : Nat := (x &&& y) ^^^ (x &&& z) ^^^ (y &&& z)

def bigSigma0 (x : Nat) : Nat := rotr 2 x ^^^ rotr 13 x ^^^ rotr 22 x

def bigSigma1 (x : Nat) : Nat := rotr 6 x ^^^ rotr 11 x ^^^ rotr 25 x

def smallSigma0 (x : Nat) : Nat := rotr 7 x ^^^ rotr 18 x ^^^ (x >>> 3)

def smallSigma1 (x : Nat) : Nat := rotr 17 x ^^^ rotr 19 x ^^^ (x >>> 10)

/-- The round constants. -/
def K : List Nat :=
  [0x428a2f98, 0x71374491, 0xb5c0fbcf, 0xe9b5dba5, 0x3956c25b, 0x59f111f1, 0x923f82a4, 0xab1c5ed5,
   0xd807aa98, 0x12835b01, 0x243185be, 0x550c7dc3, 0x72be5d74, 0x80deb1fe, 0x9bdc06a7, 0xc19bf174,
   0xe49b69c1, 0xefbe4786, 0x0fc19dc6, 0x240ca1cc, 0x2de92c6f, 0x4a7484aa, 0x5cb0a9dc, 0x76f988da,
   0x983e5152, 0xa831c66d, 0xb00327c8, 0xbf597fc7, 0xc6e00bf3, 0xd5a79147, 0x06ca6351, 0x14292967,
   0x27b70a85, 0x2e1b2138, 0x4d2c6dfc, 0x53380d13, 0x650a7354, 0x766a0abb, 0x81c2c92e, 0x92722c85,
   0xa2bfe8a1, 0xa81a664b, 0xc24b8b70, 0xc76c51a3, 0xd192e819, 0xd6990624, 0xf40e3585, 0x106aa070,
   0x19a4c116, 0x1e376c08, 0x2748774c, 0x34b0bcb5, 0x391c0cb3, 0x4ed8aa4a, 0x5b9cca4f, 0x682e6ff3,
   0x748f82ee, 0x78a5636f, 0x84c87814, 0x8cc70208, 0x90befffa, 0xa4506ceb, 0xbef9a3f7, 0xc67178f2]

/-- The eight working words. -/
structure State where
  a : Nat
  b : Nat
  c : Nat
  d : Nat
  e : Nat
  f : Nat
  g : Nat
  h : Nat

/-- The initial hash value. -/
def init : State :=
  ⟨0x6a09e667, 0xbb67ae85, 0x3c6ef372, 0xa54ff53a, 0x510e527f, 0x9b05688c, 0x1f83d9ab, 0x5be0cd19⟩

/-- Message padding: a one bit, zero bits, and the bit length as 64 bits, big-endian. -/
def pad (msg : List Nat) : List Nat :=
  let bits := 8 * msg.length
  msg ++ [128] ++ List.replicate ((119 - msg.length % 64) % 64) 0 ++
    (List.range 8).map (fun i => bits / 256 ^ (7 - i) % 256)

/-- The big-endian 32-bit word number `i` of a byte string. -/
def word (bs : List Nat) (i : Nat) : Nat :=
  bs.getD (4 * i) 0 * 16777216 + bs.getD (4 * i + 1) 0 * 65536 +
    bs.getD (4 * i + 2) 0 * 256 + bs.getD (4 * i + 3) 0

/-- The 64-word message schedule of a 64-byte block. -/
def schedule (block : List Nat) : List Nat :=
  (List.range 48).foldl
    (fun w i =>
      w ++ [add32 (add32 (smallSigma1 (w.getD (i + 14) 0)) (w.getD (i + 9) 0))
              (add32 (smallSigma0 (w.getD (i + 1) 0)) (w.getD i 0))])
    ((List.range 16).map (word block))

/-- One round of the compression function, with round constant `kw.1` and schedule word
`kw.2`. -/
def round (s : State) (kw : Nat × Nat) : State :=
  let t1 := add32 (add32 (add32 s.h (bigSigma1 s.e)) (add32 (ch s.e s.f s.g) kw.1)) kw.2
  let t2 := add32 (bigSigma0 s.a) (maj s.a s.b s.c)
  ⟨add32 t1 t2, s.a, s.b, s.c, add32 s.d t1, s.e, s.f, s.g⟩

/-- The compression function on one 64-byte block. -/
def compress (s : State) (block : List Nat) : State :=
  let t := (K.zip (schedule block)).foldl round s
  ⟨add32 s.a t.a, add32 s.b t.b, add32 s.c t.c, add32 s.d t.d,
   add32 s.e t.e, add32 s.f t.f, add32 s.g t.g, add32 s.h t.h⟩

/-- The four bytes of a 32-bit word, big-endian. -/
def wordBytes (w : Nat) : List Nat :=
  [w / 16777216 % 256, w / 65536 % 256, w / 256 % 256, w % 256]

/-- The function `sha256.Sum256`: the 32-byte digest of a byte string. -/
def sum256 (msg : List Nat) : List Nat :=
  let p := pad msg
  let s := (List.range (p.length / 64)).foldl
    (fun s i => compress s ((p.drop (64 * i)).take 64)) init
  wordBytes s.a ++ wordBytes s.b ++ wordBytes s.c ++ wordBytes s.d ++
    wordBytes s.e ++ wordBytes s.f ++ wordBytes s.g ++ wordBytes s.h

end SHA256

namespace Base32

/-- The alphabet of `base32.StdEncoding`. -/
def alphabet : List Char := "ABCDEFGHIJKLMNOPQRSTUVWXYZ234567".data

/-- The character that encodes the low five bits of `n`. -/
def digit (n : Nat) : Char := alphabet.getD (n % 32) 'A'

/-- The eight characters that encode a group of five bytes. -/
def quantum (b0 b1 b2 b3 b4 : Nat) : List Char :=
  let n := b0 * 4294967296 + b1 * 16777216 + b2 * 65536 + b3 * 256 + b4
  [digit (n / 34359738368), digit (n / 1073741824), digit (n / 33554432), digit (n / 1048576),
   digit (n / 32768), digit (n / 1024), digit (n / 32), digit n]

/-- The characters of the padded encoding: full groups of five bytes give eight characters,
a shorter last group is filled up with `=`. -/
def encode : List Nat → List Char
  | [] => []
  | [b0] => (quantum b0 0 0 0 0).take 2 ++ List.replicate 6 '='
  | [b0, b1] => (quantum b0 b1 0 0 0).take 4 ++ List.replicate 4 '='
  | [b0, b1, b2] => (quantum b0 b1 b2 0 0).take 5 ++ List.replicate 3 '='
  | [b0, b1, b2, b3] => (quantum b0 b1 b2 b3 0).take 7 ++ List.replicate 1 '='
  | b0 :: b1 :: b2 :: b3 :: b4 :: rest => quantum b0 b1 b2 b3 b4 ++ encode rest

/-- The function `base32.StdEncoding.EncodeToString`. -/
def encodeToString (src : List Nat) : String := String.mk (encode src)

/-- A character of the base32 alphabet: `A`-`Z` or `2`-`7`. -/
def isAlphabetChar (c : Char) : Bool :=
  (65 ≤ c.toNat && c.toNat ≤ 90) || (50 ≤ c.toNat && c.toNat ≤ 55)

end Base32

/-! ## Declarations of the package that `pod.go` uses -/

/-- Modelled from the spec: the constant `kubePodFirewallChainPrefix` is declared outside
`pod.go`; the chain naming rule of the specification gives its value. -/
def kubePodFirewallChainPrefix : String := "KUBE-POD-FW-"

/-- Modelled from the spec: the constant `kubeDefaultNetpolChain` is declared outside
`pod.go`; the list of stable chain names of the specification gives its value. -/
def kubeDefaultNetpolChain : String := "KUBE-DEFAULT-NETPOL"

/-- Modelled from the spec: the constant `kubeForwardChainName` is declared outside
`pod.go`; the list of stable chain names of the specification gives its value. -/
def kubeForwardChainName : String := "KUBE-FORWARD"

/-- Modelled from the spec: the constant `kubeOutputChainName` is declared outside
`pod.go`; the list of stable chain names of the specification gives its value. -/
def kubeOutputChainName : String := "KUBE-OUTPUT"

/-- The type `api.IPFamily`, the key type of `npc.filterTableRules`. -/
inductive IPFamily where
  | IPv4
  | IPv6
  deriving DecidableEq, Repr

/-- The fields of `api.Pod` that `pod.go` reads. -/
structure Pod where
  Name : String
  Namespace : String
  Labels : List (String × String)
  HostIP : String
  PodIP : String
  PodIPs : List String
  deriving DecidableEq, Repr

/-- The struct `podInfo`. -/
structure podInfo where
  ip : String
  ips : List String
  name : String
  namespace_ : String
  labels : List (String × String)
  deriving DecidableEq, Repr

/-- Modelled from the spec: the type of `networkPolicyInfo.policyType` is declared outside
`pod.go`; the data model of the specification gives its three values, the constants
`kubeIngressPolicyType`, `kubeEgressPolicyType` and `kubeBothPolicyType`. -/
inductive PolicyType where
  | kubeIngressPolicyType
  | kubeEgressPolicyType
  | kubeBothPolicyType
  deriving DecidableEq, Repr

/-- The fields of `networkPolicyInfo` that `pod.go` reads; `targetPods` is a Go map keyed by
pod IP. -/
structure networkPolicyInfo where
  name : String
  namespace_ : String
  policyType : PolicyType
  targetPods : List (String × podInfo)
  deriving DecidableEq, Repr

/-- The functions and tables of the package that `pod.go` calls and that are declared in
other files. `getPodIPForFamily` returns `none` where the source returns an error;
`defaultChains` lists the values of the Go map of that name. -/
structure Decls where
  getPodIPForFamily : podInfo → IPFamily → Option String
  networkPolicyChainName : String → String → String → IPFamily → String
  isNetPolActionable : Pod → Bool
  defaultChains : List String

/-- A `bytes.Buffer`: the strings written to it, oldest first. -/
abbrev Buffer := List String

/-- The method `Buffer.String`. -/
def Buffer.String (b : Buffer) : String := String.mk (b.flatMap String.data)

/-- The map `npc.filterTableRules`; `none` where the family is not a key. -/
abbrev FilterTableRules := IPFamily → Option Buffer

/-- The parts of the controller that `syncPodFirewallChains` reads: the buffers, the node
addresses `npc.krNode.GetNodeIPAddrs()` in their string form, and the pods
`npc.podLister.List()`. -/
structure NetworkPolicyController where
  filterTableRules : FilterTableRules
  nodeIPAddrs : List String
  podLister : List Pod

/-- The order in which one `range` over `npc.filterTableRules` visits the families. -/
def rangeOrder (v4First : Bool) : List IPFamily :=
  if v4First then [IPFamily.IPv4, IPFamily.IPv6] else [IPFamily.IPv6, IPFamily.IPv4]

/-- The loop `for ipFamily, filterTableRules := range npc.filterTableRules`: the body gets
the key, the buffer of that key and the variables that live across iterations, and gives
back the buffer and those variables. -/
def rangeFilterTableRules {σ : Type} (v4First : Bool)
    (body : IPFamily → Buffer → σ → Buffer × σ) (rules : FilterTableRules) (s : σ) :
    FilterTableRules × σ :=
  (rangeOrder v4First).foldl
    (fun (acc : FilterTableRules × σ) ipFamily =>
      match acc.1 ipFamily with
      | none => acc
      | some filterTableRules =>
        let r := body ipFamily filterTableRules acc.2
        (Function.update acc.1 ipFamily (some r.1), r.2))
    (rules, s)

/-- The orders in which the `range` loops of one pod iteration of `syncPodFirewallChains`
visit their maps: one flag for each loop over `npc.filterTableRules`, and for each family
the order in which `interceptPodOutboundTraffic` visits `defaultChains`. -/
structure RangeOrders where
  chainDecl : Bool
  netpol : Bool
  inbound : Bool
  outbound : Bool
  dropRules : Bool
  markRule : Bool
  defaultChains : IPFamily → List String

/-- The orders chosen for the maps of one run of `syncPodFirewallChains`: the order of the
pods in `allLocalPods`, and the orders of the loops of each pod iteration. -/
structure Schedule where
  pods : List (String × podInfo) → List (String × podInfo)
  loops : podInfo → RangeOrders

/-- Assignment `m[k] = v` on a Go map kept as a list of entries with distinct keys. -/
def mapInsert {β : Type} (m : List (String × β)) (k : String) (v : β) : List (String × β) :=
  match m with
  | [] => [(k, v)]
  | (k', v') :: rest => if k' = k then (k, v) :: rest else (k', v') :: mapInsert rest k v

/-- The test `_, ok := m[k]` on a Go map. -/
def mapHasKey {β : Type} (m : List (String × β)) (k : String) : Bool :=
  m.any (fun e => e.1 == k)

/-! ## pod.go -/

/-- The function `podFirewallChainName`. -/
def podFirewallChainName (namespace_ podName version : String) : String :=
  let hash := SHA256.sum256 (stringBytes (namespace_ ++ podName ++ version))
  let encoded := Base32.encodeToString hash
  kubePodFirewallChainPrefix ++ String.mk (encoded.data.take 16)

/-- The body of the policy loop of `setupPodNetpolRules` for one policy: the buffer and the
flags `hasIngressPolicy` and `hasEgressPolicy` after it. -/
def policyJump (d : Decls) (pod : podInfo) (podFwChainName version : String)
    (ipFamily : IPFamily) (ip : String) (st : Buffer × Bool × Bool)
    (policy : networkPolicyInfo) : Buffer × Bool × Bool :=
  if !mapHasKey policy.targetPods pod.ip then st
  else
    let comment := "\"run through nw policy " ++ policy.name ++ "\""
    let policyChainName :=
      d.networkPolicyChainName policy.namespace_ policy.name version ipFamily
    match policy.policyType with
    | PolicyType.kubeBothPolicyType =>
      let args := ["-I", podFwChainName, "1", "-m", "comment", "--comment", comment,
        "-j", policyChainName, "\n"]
      (st.1 ++ [stringsJoin args " "], true, true)
    | PolicyType.kubeIngressPolicyType =>
      let args := ["-I", podFwChainName, "1", "-d", ip, "-m", "comment", "--comment", comment,
        "-j", policyChainName, "\n"]
      (st.1 ++ [stringsJoin args " "], true, st.2.2)
    | PolicyType.kubeEgressPolicyType =>
      let args := ["-I", podFwChainName, "1", "-s", ip, "-m", "comment", "--comment", comment,
        "-j", policyChainName, "\n"]
      (st.1 ++ [stringsJoin args " "], st.2.1, true)

/-- The body of the family loop of `setupPodNetpolRules`; the flags `hasIngressPolicy` and
`hasEgressPolicy` are declared before the loop and live across its iterations. -/
def setupPodNetpolRulesBody (d : Decls) (pod : podInfo) (podFwChainName : String)
    (networkPoliciesInfo : List networkPolicyInfo) (version : String)
    (ipFamily : IPFamily) (filterTableRules : Buffer) (flags : Bool × Bool) :
    Buffer × Bool × Bool :=
  match d.getPodIPForFamily pod ipFamily with
  | none => (filterTableRules, flags)
  | some ip =>
    let st := networkPoliciesInfo.foldl (policyJump d pod podFwChainName version ipFamily ip)
      (filterTableRules, flags)
    let buf := st.1
    let hasIngressPolicy := st.2.1
    let hasEgressPolicy := st.2.2
    let buf :=
      if !hasIngressPolicy then
        let comment := "\"run through default ingress network policy chain\""
        let args := ["-I", podFwChainName, "1", "-d", ip, "-m", "comment", "--comment", comment,
          "-j", kubeDefaultNetpolChain, "\n"]
        buf ++ [stringsJoin args " "]
      else buf
    let buf :=
      if !hasEgressPolicy then
        let comment := "\"run through default egress network policy chain\""
        let args := ["-I", podFwChainName, "1", "-s", ip, "-m", "comment", "--comment", comment,
          "-j", kubeDefaultNetpolChain, "\n"]
        buf ++ [stringsJoin args " "]
      else buf
    let comment :=
      "\"rule to permit the traffic traffic to pods when source is the pod's local node\""
    let args := ["-I", podFwChainName, "1", "-m", "comment", "--comment", comment,
      "-m", "addrtype", "--src-type", "LOCAL", "-d", ip, "-j", "ACCEPT", "\n"]
    let buf := buf ++ [stringsJoin args " "]
    let comment := "\"rule to drop invalid state for pod\""
    let args := ["-I", podFwChainName, "1", "-m", "comment", "--comment", comment,
      "-m", "conntrack", "--ctstate", "INVALID", "-j", "DROP", "\n"]
    let buf := buf ++ [stringsJoin args " "]
    let comment := "\"rule for stateful firewall for pod\""
    let args := ["-I", podFwChainName, "1", "-m", "comment", "--comment", comment,
      "-m", "conntrack", "--ctstate", "RELATED,ESTABLISHED", "-j", "ACCEPT", "\n"]
    let buf := buf ++ [stringsJoin args " "]
    (buf, hasIngressPolicy, hasEgressPolicy)

/-- The method `setupPodNetpolRules`. -/
def setupPodNetpolRules (d : Decls) (v4First : Bool) (pod : podInfo) (podFwChainName : String)
    (networkPoliciesInfo : List networkPolicyInfo) (version : String)
    (rules : FilterTableRules) : FilterTableRules :=
  (rangeFilterTableRules v4First
    (setupPodNetpolRulesBody d pod podFwChainName networkPoliciesInfo version)
    rules (false, false)).1

/-- The body of the family loop of `interceptPodInboundTraffic`. -/
def interceptPodInboundTrafficBody (d : Decls) (pod : podInfo) (podFwChainName : String)
    (ipFamily : IPFamily) (filterTableRules : Buffer) (u : Unit) : Buffer × Unit :=
  match d.getPodIPForFamily pod ipFamily with
  | none => (filterTableRules, u)
  | some ip =>
    let comment := "\"rule to jump traffic destined to POD name:" ++ pod.name ++ " namespace: " ++
      pod.namespace_ ++ " to chain " ++ podFwChainName ++ "\""
    let args := ["-A", kubeForwardChainName, "-m", "comment", "--comment", comment, "-d", ip,
      "-j", podFwChainName ++ "\n"]
    let buf := filterTableRules ++ [stringsJoin args " "]
    let args := ["-A", kubeOutputChainName, "-m", "comment", "--comment", comment, "-d", ip,
      "-j", podFwChainName ++ "\n"]
    let buf := buf ++ [stringsJoin args " "]
    let comment := "\"rule to jump traffic destined to POD name:" ++ pod.name ++ " namespace: " ++
      pod.namespace_ ++ " to chain " ++ podFwChainName ++ "\""
    let args := ["-A", kubeForwardChainName, "-m", "physdev", "--physdev-is-bridged",
      "-m", "comment", "--comment", comment,
      "-d", ip,
      "-j", podFwChainName, "\n"]
    let buf := buf ++ [stringsJoin args " "]
    (buf, u)

/-- The method `interceptPodInboundTraffic`. -/
def interceptPodInboundTraffic (d : Decls) (v4First : Bool) (pod : podInfo)
    (podFwChainName : String) (rules : FilterTableRules) : FilterTableRules :=
  (rangeFilterTableRules v4First (interceptPodInboundTrafficBody d pod podFwChainName)
    rules ()).1

/-- The body of the family loop of `interceptPodOutboundTraffic`; `chains` lists the values
of `defaultChains` in the order in which this iteration visits them. -/
def interceptPodOutboundTrafficBody (d : Decls) (chains : IPFamily → List String)
    (pod : podInfo) (podFwChainName : String)
    (ipFamily : IPFamily) (filterTableRules : Buffer) (u : Unit) : Buffer × Unit :=
  match d.getPodIPForFamily pod ipFamily with
  | none => (filterTableRules, u)
  | some ip =>
    let buf := (chains ipFamily).foldl
      (fun (buf : Buffer) chain =>
        let comment := "\"rule to jump traffic from POD name:" ++ pod.name ++ " namespace: " ++
          pod.namespace_ ++ " to chain " ++ podFwChainName ++ "\""
        let args := ["-A", chain, "-m", "comment", "--comment", comment, "-s", ip,
          "-j", podFwChainName, "\n"]
        buf ++ [stringsJoin args " "])
      filterTableRules
    let comment := "\"rule to jump traffic from POD name:" ++ pod.name ++ " namespace: " ++
      pod.namespace_ ++ " to chain " ++ podFwChainName ++ "\""
    let args := ["-A", kubeForwardChainName, "-m", "physdev", "--physdev-is-bridged",
      "-m", "comment", "--comment", comment,
      "-s", ip,
      "-j", podFwChainName, "\n"]
    let buf := buf ++ [stringsJoin args " "]
    (buf, u)

/-- The method `interceptPodOutboundTraffic`. -/
def interceptPodOutboundTraffic (d : Decls) (v4First : Bool) (chains : IPFamily → List String)
    (pod : podInfo) (podFwChainName : String) (rules : FilterTableRules) : FilterTableRules :=
  (rangeFilterTableRules v4First (interceptPodOutboundTrafficBody d chains pod podFwChainName)
    rules ()).1

/-- The body of the family loop of the closure `dropUnmarkedTrafficRules`. -/
def dropUnmarkedTrafficRulesBody (d : Decls) (pod : podInfo) (podFwChainName : String)
    (ipFamily : IPFamily) (filterTableRules : Buffer) (u : Unit) : Buffer × Unit :=
  match d.getPodIPForFamily pod ipFamily with
  | none => (filterTableRules, u)
  | some _ =>
    let comment := "\"rule to log dropped traffic POD name:" ++ pod.name ++ " namespace: " ++
      pod.namespace_ ++ "\""
    let args := ["-A", podFwChainName, "-m", "comment", "--comment", comment,
      "-m", "mark", "!", "--mark", "0x10000/0x10000", "-j", "NFLOG",
      "--nflog-group", "100", "-m", "limit", "--limit", "10/minute", "--limit-burst", "10", "\n"]
    if stringsContains filterTableRules.String (stringsJoin args " ") then (filterTableRules, u)
    else
      let buf := filterTableRules ++ [stringsJoin args " "]
      let comment := "\"rule to REJECT traffic destined for POD name:" ++ pod.name ++
        " namespace: " ++ pod.namespace_ ++ "\""
      let args := ["-A", podFwChainName, "-m", "comment", "--comment", comment,
        "-m", "mark", "!", "--mark", "0x10000/0x10000", "-j", "REJECT", "\n"]
      let buf := buf ++ [stringsJoin args " "]
      let args := ["-A", podFwChainName, "-j", "MARK", "--set-mark", "0/0x10000", "\n"]
      let buf := buf ++ [stringsJoin args " "]
      (buf, u)

/-- The closure `dropUnmarkedTrafficRules` of `syncPodFirewallChains`. -/
def dropUnmarkedTrafficRules (d : Decls) (v4First : Bool) (pod : podInfo)
    (podFwChainName : String) (rules : FilterTableRules) : FilterTableRules :=
  (rangeFilterTableRules v4First (dropUnmarkedTrafficRulesBody d pod podFwChainName)
    rules ()).1

/-- The method `getLocalPods`. -/
def getLocalPods (d : Decls) (npc : NetworkPolicyController)
    (localPods : List (String × podInfo)) (nodeIP : String) : List (String × podInfo) :=
  npc.podLister.foldl
    (fun localPods pod =>
      if pod.HostIP != nodeIP || !d.isNetPolActionable pod then localPods
      else mapInsert localPods pod.PodIP
        { ip := pod.PodIP, ips := pod.PodIPs, name := pod.Name,
          namespace_ := pod.Namespace, labels := pod.Labels })
    localPods

/-- The first family loop of a pod iteration of `syncPodFirewallChains`: the declaration of
the pod chain. -/
def chainDeclBody (d : Decls) (pod : podInfo) (podFwChainName : String)
    (ipFamily : IPFamily) (filterTableRules : Buffer) (u : Unit) : Buffer × Unit :=
  match d.getPodIPForFamily pod ipFamily with
  | none => (filterTableRules, u)
  | some _ => (filterTableRules ++ [":" ++ podFwChainName ++ "\n"], u)

/-- The last family loop of a pod iteration of `syncPodFirewallChains`: the rule that marks
the traffic as accepted. -/
def markRuleBody (d : Decls) (pod : podInfo) (podFwChainName : String)
    (ipFamily : IPFamily) (filterTableRules : Buffer) (u : Unit) : Buffer × Unit :=
  match d.getPodIPForFamily pod ipFamily with
  | none => (filterTableRules, u)
  | some _ =>
    let comment := "\"set mark to ACCEPT traffic that comply to network policies\""
    let args := ["-A", podFwChainName, "-m", "comment", "--comment", comment,
      "-j", "MARK", "--set-mark", "0x20000/0x20000", "\n"]
    (filterTableRules ++ [stringsJoin args " "], u)

/-- The body of the loop `for _, pod := range allLocalPods` of `syncPodFirewallChains`; the
state is the map `activePodFwChains`, kept as the list of its keys, and the buffers. -/
def syncPodFirewallChainsBody (d : Decls) (loops : podInfo → RangeOrders)
    (networkPoliciesInfo : List networkPolicyInfo) (version : String)
    (st : List String × FilterTableRules) (entry : String × podInfo) :
    List String × FilterTableRules :=
  let pod := entry.2
  let o := loops pod
  let podFwChainName := podFirewallChainName pod.namespace_ pod.name version
  let rules := (rangeFilterTableRules o.chainDecl (chainDeclBody d pod podFwChainName) st.2 ()).1
  let activePodFwChains := if podFwChainName ∈ st.1 then st.1 else st.1 ++ [podFwChainName]
  let rules := setupPodNetpolRules d o.netpol pod podFwChainName networkPoliciesInfo version rules
  let rules := interceptPodInboundTraffic d o.inbound pod podFwChainName rules
  let rules := interceptPodOutboundTraffic d o.outbound o.defaultChains pod podFwChainName rules
  let rules := dropUnmarkedTrafficRules d o.dropRules pod podFwChainName rules
  let rules := (rangeFilterTableRules o.markRule (markRuleBody d pod podFwChainName) rules ()).1
  (activePodFwChains, rules)

/-- The map `allLocalPods` that `syncPodFirewallChains` builds from the node addresses. -/
def allLocalPods (d : Decls) (npc : NetworkPolicyController) : List (String × podInfo) :=
  npc.nodeIPAddrs.foldl (getLocalPods d npc) []

/-- The method `syncPodFirewallChains`: the keys of the returned map `activePodFwChains`
and the buffers after the run. -/
def syncPodFirewallChains (d : Decls) (sch : Schedule) (npc : NetworkPolicyController)
    (networkPoliciesInfo : List networkPolicyInfo) (version : String) :
    List String × FilterTableRules :=
  (sch.pods (allLocalPods d npc)).foldl
    (syncPodFirewallChainsBody d sch.loops networkPoliciesInfo version)
    ([], npc.filterTableRules)

/-! ## The lines of the restore program, as text -/

/-- The declaration of a chain. -/
def chainDeclaration (chain : String) : String := ":" ++ chain ++ "\n"

/-- The jump from the pod chain to the chain of a policy: matched on the destination for an
ingress policy, on the source for an egress policy, on neither for a policy of both types. -/
def policyJumpRule (d : Decls) (podFwChainName version : String) (ipFamily : IPFamily)
    (ip : String) (policy : networkPolicyInfo) : String :=
  match policy.policyType with
  | PolicyType.kubeBothPolicyType =>
    "-I " ++ podFwChainName ++ " 1 -m comment --comment \"run through nw policy " ++
      policy.name ++ "\" -j " ++
      d.networkPolicyChainName policy.namespace_ policy.name version ipFamily ++ " \n"
  | PolicyType.kubeIngressPolicyType =>
    "-I " ++ podFwChainName ++ " 1 -d " ++ ip ++
      " -m comment --comment \"run through nw policy " ++ policy.name ++ "\" -j " ++
      d.networkPolicyChainName policy.namespace_ policy.name version ipFamily ++ " \n"
  | PolicyType.kubeEgressPolicyType =>
    "-I " ++ podFwChainName ++ " 1 -s " ++ ip ++
      " -m comment --comment \"run through nw policy " ++ policy.name ++ "\" -j " ++
      d.networkPolicyChainName policy.namespace_ policy.name version ipFamily ++ " \n"

/-- The jump to the default chain for traffic to the pod. -/
def defaultIngressRule (podFwChainName ip : String) : String :=
  "-I " ++ podFwChainName ++ " 1 -d " ++ ip ++
    " -m comment --comment \"run through default ingress network policy chain\" -j " ++
    kubeDefaultNetpolChain ++ " \n"

/-- The jump to the default chain for traffic from the pod. -/
def defaultEgressRule (podFwChainName ip : String) : String :=
  "-I " ++ podFwChainName ++ " 1 -s " ++ ip ++
    " -m comment --comment \"run through default egress network policy chain\" -j " ++
    kubeDefaultNetpolChain ++ " \n"

/-- The rule that accepts traffic to the pod whose source is an address of the node. -/
def localAcceptRule (podFwChainName ip : String) : String :=
  "-I " ++ podFwChainName ++ " 1 -m comment --comment \"rule to permit the traffic traffic " ++
    "to pods when source is the pod's local node\" -m addrtype --src-type LOCAL -d " ++ ip ++
    " -j ACCEPT \n"

/-- The rule that drops traffic in the connection state INVALID. -/
def invalidDropRule (podFwChainName : String) : String :=
  "-I " ++ podFwChainName ++ " 1 -m comment --comment \"rule to drop invalid state for pod\" " ++
    "-m conntrack --ctstate INVALID -j DROP \n"

/-- The rule that accepts traffic of related and established connections. -/
def statefulAcceptRule (podFwChainName : String) : String :=
  "-I " ++ podFwChainName ++ " 1 -m comment --comment \"rule for stateful firewall for pod\" " ++
    "-m conntrack --ctstate RELATED,ESTABLISHED -j ACCEPT \n"

/-- The comment of the rules that send traffic to the pod through its chain. -/
def inboundComment (pod : podInfo) (podFwChainName : String) : String :=
  "\"rule to jump traffic destined to POD name:" ++ pod.name ++ " namespace: " ++
    pod.namespace_ ++ " to chain " ++ podFwChainName ++ "\""

/-- The comment of the rules that send traffic from the pod through its chain. -/
def outboundComment (pod : podInfo) (podFwChainName : String) : String :=
  "\"rule to jump traffic from POD name:" ++ pod.name ++ " namespace: " ++
    pod.namespace_ ++ " to chain " ++ podFwChainName ++ "\""

/-- The rule appended to `chain` that sends traffic to `ip` to the pod chain; its last
argument in the source is the chain name with the newline attached. -/
def inboundRule (chain : String) (pod : podInfo) (podFwChainName ip : String) : String :=
  "-A " ++ chain ++ " -m comment --comment " ++ inboundComment pod podFwChainName ++
    " -d " ++ ip ++ " -j " ++ podFwChainName ++ "\n"

/-- The rule appended to the forward chain that sends bridged traffic to `ip` to the pod
chain. -/
def inboundBridgedRule (pod : podInfo) (podFwChainName ip : String) : String :=
  "-A " ++ kubeForwardChainName ++ " -m physdev --physdev-is-bridged -m comment --comment " ++
    inboundComment pod podFwChainName ++ " -d " ++ ip ++ " -j " ++ podFwChainName ++ " \n"

/-- The rule appended to `chain` that sends traffic from `ip` to the pod chain. -/
def outboundRule (pod : podInfo) (podFwChainName ip chain : String) : String :=
  "-A " ++ chain ++ " -m comment --comment " ++ outboundComment pod podFwChainName ++
    " -s " ++ ip ++ " -j " ++ podFwChainName ++ " \n"

/-- The rule appended to the forward chain that sends bridged traffic from `ip` to the pod
chain. -/
def outboundBridgedRule (pod : podInfo) (podFwChainName ip : String) : String :=
  "-A " ++ kubeForwardChainName ++ " -m physdev --physdev-is-bridged -m comment --comment " ++
    outboundComment pod podFwChainName ++ " -s " ++ ip ++ " -j " ++ podFwChainName ++ " \n"

/-- The rule that logs the traffic no policy has marked. -/
def nflogRule (pod : podInfo) (podFwChainName : String) : String :=
  "-A " ++ podFwChainName ++ " -m comment --comment \"rule to log dropped traffic POD name:" ++
    pod.name ++ " namespace: " ++ pod.namespace_ ++
    "\" -m mark ! --mark 0x10000/0x10000 -j NFLOG --nflog-group 100 " ++
    "-m limit --limit 10/minute --limit-burst 10 \n"

/-- The rule that rejects the traffic no policy has marked. -/
def rejectRule (pod : podInfo) (podFwChainName : String) : String :=
  "-A " ++ podFwChainName ++
    " -m comment --comment \"rule to REJECT traffic destined for POD name:" ++
    pod.name ++ " namespace: " ++ pod.namespace_ ++
    "\" -m mark ! --mark 0x10000/0x10000 -j REJECT \n"

/-- The rule that clears the mark of the policy chains. -/
def markClearRule (podFwChainName : String) : String :=
  "-A " ++ podFwChainName ++ " -j MARK --set-mark 0/0x10000 \n"

/-- The rule that marks the traffic as accepted. -/
def markAcceptRule (podFwChainName : String) : String :=
  "-A " ++ podFwChainName ++ " -m comment --comment \"set mark to ACCEPT traffic that " ++
    "comply to network policies\" -j MARK --set-mark 0x20000/0x20000 \n"

/-- A line that appends a rule to `chain`: it starts with `-A`, the chain and a blank. -/
def appendsTo (chain line : String) : Bool :=
  ("-A " ++ chain ++ " ").data.isPrefixOf line.data

/-- A line: a run of characters that ends with a newline and has no other newline. -/
def isLineChars (l : List Char) : Bool :=
  l.getLast? == some '\n' && !l.dropLast.contains '\n'

/-- A string without a blank and without a newline. -/
def isWord (s : String) : Bool :=
  !s.data.contains ' ' && !s.data.contains '\n'

/-! ## The lines of one pod, in closed form -/

/-- The test of the policy loop: the policy has the primary address of the pod among its
target pods. -/
def policyTargetsPod (pod : podInfo) (policy : networkPolicyInfo) : Bool :=
  mapHasKey policy.targetPods pod.ip

/-- Some policy that targets the pod has type ingress or both. -/
def hasIngressPolicy (pod : podInfo) (networkPoliciesInfo : List networkPolicyInfo) : Bool :=
  networkPoliciesInfo.any (fun policy => policyTargetsPod pod policy &&
    decide (policy.policyType ≠ PolicyType.kubeEgressPolicyType))

/-- Some policy that targets the pod has type egress or both. -/
def hasEgressPolicy (pod : podInfo) (networkPoliciesInfo : List networkPolicyInfo) : Bool :=
  networkPoliciesInfo.any (fun policy => policyTargetsPod pod policy &&
    decide (policy.policyType ≠ PolicyType.kubeIngressPolicyType))

/-- One jump for each policy of the list that targets the pod, in the order of the list. -/
def policyJumpRules (d : Decls) (pod : podInfo) (podFwChainName version : String)
    (ipFamily : IPFamily) (ip : String) (networkPoliciesInfo : List networkPolicyInfo) :
    List String :=
  (networkPoliciesInfo.filter (policyTargetsPod pod)).map
    (policyJumpRule d podFwChainName version ipFamily ip)

/-- The jumps to the default chain. -/
def defaultJumpRules (pod : podInfo) (podFwChainName ip : String)
    (networkPoliciesInfo : List networkPolicyInfo) : List String :=
  (if hasIngressPolicy pod networkPoliciesInfo then [] else [defaultIngressRule podFwChainName ip])
    ++
  (if hasEgressPolicy pod networkPoliciesInfo then [] else [defaultEgressRule podFwChainName ip])

/-- The lines of `setupPodNetpolRules` for one family, in the order in which they are
written. -/
def netpolRules (d : Decls) (pod : podInfo) (podFwChainName : String)
    (networkPoliciesInfo : List networkPolicyInfo) (version : String) (ipFamily : IPFamily)
    (ip : String) : List String :=
  policyJumpRules d pod podFwChainName version ipFamily ip networkPoliciesInfo ++
    defaultJumpRules pod podFwChainName ip networkPoliciesInfo ++
    [localAcceptRule podFwChainName ip, invalidDropRule podFwChainName,
      statefulAcceptRule podFwChainName]

/-- The lines of `interceptPodInboundTraffic` for one family. -/
def inboundRules (pod : podInfo) (podFwChainName ip : String) : List String :=
  [inboundRule kubeForwardChainName pod podFwChainName ip,
    inboundRule kubeOutputChainName pod podFwChainName ip,
    inboundBridgedRule pod podFwChainName ip]

/-- The lines of `interceptPodOutboundTraffic` for one family. -/
def outboundRules (pod : podInfo) (podFwChainName ip : String) (chains : List String) :
    List String :=
  chains.map (outboundRule pod podFwChainName ip) ++ [outboundBridgedRule pod podFwChainName ip]

/-- The lines of `dropUnmarkedTrafficRules` for one family whose buffer holds `buf`: none
when the text of the buffer contains the log rule. -/
def dropRules (pod : podInfo) (podFwChainName : String) (buf : Buffer) : List String :=
  if stringsContains buf.String (nflogRule pod podFwChainName) then []
  else [nflogRule pod podFwChainName, rejectRule pod podFwChainName,
    markClearRule podFwChainName]

/-- The lines before the drop rules in the lines of one pod iteration. -/
def podHeadRules (d : Decls) (chains : List String) (pod : podInfo)
    (networkPoliciesInfo : List networkPolicyInfo) (version : String) (ipFamily : IPFamily)
    (ip : String) : List String :=
  [chainDeclaration (podFirewallChainName pod.namespace_ pod.name version)] ++
    netpolRules d pod (podFirewallChainName pod.namespace_ pod.name version)
      networkPoliciesInfo version ipFamily ip ++
    inboundRules pod (podFirewallChainName pod.namespace_ pod.name version) ip ++
    outboundRules pod (podFirewallChainName pod.namespace_ pod.name version) ip chains

/-- The lines that one pod iteration of `syncPodFirewallChains` appends to the buffer of a
family that holds `buf`: none when the pod has no address in the family. -/
def podRules (d : Decls) (loops : podInfo → RangeOrders) (pod : podInfo)
    (networkPoliciesInfo : List networkPolicyInfo) (version : String) (ipFamily : IPFamily)
    (buf : Buffer) : List String :=
  match d.getPodIPForFamily pod ipFamily with
  | none => []
  | some ip =>
    podHeadRules d ((loops pod).defaultChains ipFamily) pod networkPoliciesInfo version
        ipFamily ip ++
      dropRules pod (podFirewallChainName pod.namespace_ pod.name version)
        (buf ++ podHeadRules d ((loops pod).defaultChains ipFamily) pod networkPoliciesInfo
          version ipFamily ip) ++
      [markAcceptRule (podFirewallChainName pod.namespace_ pod.name version)]

/-- The buffer of a family after the pod iterations over `pods`, in closed form. -/
def bufferAfter (d : Decls) (loops : podInfo → RangeOrders)
    (networkPoliciesInfo : List networkPolicyInfo) (version : String) (ipFamily : IPFamily)
    (pods : List (String × podInfo)) (buf : Buffer) : Buffer :=
  pods.foldl
    (fun buf entry => buf ++ podRules d loops entry.2 networkPoliciesInfo version ipFamily buf)
    buf

/-- The kinds of lines of a pod iteration. -/
inductive LineKind where
  | declaration
  | insertion
  | jumpNewline
  | jumpBlank
  | appended
  deriving DecidableEq, Repr

/-- A line of a kind for the chain `X`: the declaration of `X`; a rule inserted into `X`; a
rule appended to another chain that ends with the jump to `X` and a newline, or with the
jump to `X`, a blank and a newline; a rule appended to `X`. -/
def hasKind (X l : String) : LineKind → Prop
  | LineKind.declaration => l = chainDeclaration X
  | LineKind.insertion => ∃ r, l.data = '-' :: 'I' :: ' ' :: (X.data ++ r)
  | LineKind.jumpNewline =>
    (∃ r, l.data = '-' :: 'A' :: r) ∧ ∃ H, l.data = H ++ X.data ++ "\n".data
  | LineKind.jumpBlank =>
    (∃ r, l.data = '-' :: 'A' :: r) ∧ ∃ H, l.data = H ++ " -j ".data ++ X.data ++ " \n".data
  | LineKind.appended =>
    ∃ z : podInfo, l = nflogRule z X ∨ l = rejectRule z X ∨ l = markClearRule X ∨
      l = markAcceptRule X

/-- The lines of a pod iteration when the test of the drop rules fails. -/
def podRulesAll (d : Decls) (chains : List String) (pod : podInfo)
    (networkPoliciesInfo : List networkPolicyInfo) (version : String) (ipFamily : IPFamily)
    (ip : String) : List String :=
  podHeadRules d chains pod networkPoliciesInfo version ipFamily ip ++
    [nflogRule pod (podFirewallChainName pod.namespace_ pod.name version),
      rejectRule pod (podFirewallChainName pod.namespace_ pod.name version),
      markClearRule (podFirewallChainName pod.namespace_ pod.name version),
      markAcceptRule (podFirewallChainName pod.namespace_ pod.name version)]

/-- The lines of a pod iteration when the test of the drop rules fails: none when the pod
has no address in the family. -/
def podLines (d : Decls) (loops : podInfo → RangeOrders)
    (networkPoliciesInfo : List networkPolicyInfo) (version : String) (ipFamily : IPFamily)
    (pod : podInfo) : List String :=
  match d.getPodIPForFamily pod ipFamily with
  | none => []
  | some ip =>
    podRulesAll d ((loops pod).defaultChains ipFamily) pod networkPoliciesInfo version
      ipFamily ip

/-! ## Example data -/

/-- An instance of the declarations that `pod.go` uses: the address of a pod in a family is
its first address with, or without, a colon. -/
def exampleDecls : Decls where
  getPodIPForFamily := fun pod ipFamily =>
    match ipFamily with
    | IPFamily.IPv4 => pod.ips.find? (fun ip => !ip.data.contains ':')
    | IPFamily.IPv6 => pod.ips.find? (fun ip => ip.data.contains ':')
  networkPolicyChainName := fun ns name version ipFamily =>
    "KUBE-NWPLCY-" ++ ns ++ "-" ++ name ++ "-" ++ version ++
      (match ipFamily with
        | IPFamily.IPv4 => "-4"
        | IPFamily.IPv6 => "-6")
  isNetPolActionable := fun pod => pod.PodIP != "" && pod.HostIP != ""
  defaultChains := ["KUBE-INPUT", "KUBE-FORWARD", "KUBE-OUTPUT"]

/-- The orders of a run that visits every map in the order in which it is written down. -/
def exampleSchedule : Schedule where
  pods := fun m => m
  loops := fun _ =>
    { chainDecl := true, netpol := true, inbound := true, outbound := true, dropRules := true,
      markRule := true, defaultChains := fun _ => exampleDecls.defaultChains }

/-- The pod `web` of the namespace `default`, on the node `192.168.0.1`. -/
def examplePod : Pod where
  Name := "web"
  Namespace := "default"
  Labels := []
  HostIP := "192.168.0.1"
  PodIP := "10.0.0.5"
  PodIPs := ["10.0.0.5"]

/-- The entry of `allLocalPods` for `examplePod`. -/
def examplePodInfo : podInfo where
  ip := "10.0.0.5"
  ips := ["10.0.0.5"]
  name := "web"
  namespace_ := "default"
  labels := []

/-- An ingress policy that targets `examplePod`. -/
def examplePolicy : networkPolicyInfo where
  name := "allow-client"
  namespace_ := "default"
  policyType := PolicyType.kubeIngressPolicyType
  targetPods := [("10.0.0.5", examplePodInfo)]

/-- A node with the address `192.168.0.1`, empty buffers for both families, and
`examplePod` in the lister. -/
def exampleNpc : NetworkPolicyController where
  filterTableRules := fun _ => some []
  nodeIPAddrs := ["192.168.0.1"]
  podLister := [examplePod]

/-- A pod of the host network on the node `192.168.0.1`: its pod IP is the address of the
node. -/
def exampleHostPodA : Pod where
  Name := "kube-proxy-x7k2p"
  Namespace := "kube-system"
  Labels := []
  HostIP := "192.168.0.1"
  PodIP := "192.168.0.1"
  PodIPs := ["192.168.0.1"]

/-- A second pod of the host network on the same node, with the same pod IP. -/
def exampleHostPodB : Pod where
  Name := "node-exporter-m4q9z"
  Namespace := "monitoring"
  Labels := []
  HostIP := "192.168.0.1"
  PodIP := "192.168.0.1"
  PodIPs := ["192.168.0.1"]

/-- The two pods of the host network, as the lister returns them. -/
def exampleHostPods : List Pod := [exampleHostPodA, exampleHostPodB]

/-- The node of `exampleNpc` with `exampleHostPods` in the lister. -/
def exampleHostNpc : NetworkPolicyController where
  filterTableRules := fun _ => some []
  nodeIPAddrs := ["192.168.0.1"]
  podLister := exampleHostPods

/-- Two pods whose namespace and name put one after the other give the same text: the pod
`bc` of the namespace `a`, and the pod `c` of the namespace `ab`. -/
def exampleCollidingPods : List Pod :=
  [{ Name := "bc", Namespace := "a", Labels := [],
     HostIP := "192.168.0.1", PodIP := "10.0.0.7", PodIPs := ["10.0.0.7"] },
   { Name := "c", Namespace := "ab", Labels := [],
     HostIP := "192.168.0.1", PodIP := "10.0.0.8", PodIPs := ["10.0.0.8"] }]

/-- The node of `exampleNpc` with `exampleCollidingPods` in the lister. -/
def exampleCollidingNpc : NetworkPolicyController where
  filterTableRules := fun _ => some []
  nodeIPAddrs := ["192.168.0.1"]
  podLister := exampleCollidingPods

/-! ## The Go standard library: `net.IP` and `net.ParseIP` -/

/-- The type `net.IP`: a slice of bytes; the empty list stands for `nil`. -/
abbrev IP := List Nat

/-- The bytes before the IPv4 address in the 16-byte form of an IPv4 address. -/
def v4InV6Prefix : List Nat := [0, 0, 0, 0, 0, 0, 0, 0, 0, 0, 255, 255]

/-- The method `IP.To4`: the 4-byte form of an IPv4 address, `nil` when the address is not an
IPv4 address. -/
def IP.To4 (ip : IP) : IP :=
  if ip.length = 4 then ip
  else if ip.length = 16 ∧ (ip.take 10).all (fun b => b == 0) ∧ ip.getD 10 0 = 255 ∧
      ip.getD 11 0 = 255 then (ip.drop 12).take 4
  else []

/-- The method `IP.Equal`: an IPv4 address and its 16-byte form are equal. -/
def IP.Equal (ip x : IP) : Bool :=
  if ip.length = x.length then ip == x
  else if ip.length = 4 ∧ x.length = 16 then x.take 12 == v4InV6Prefix && ip == x.drop 12
  else if ip.length = 16 ∧ x.length = 4 then ip.take 12 == v4InV6Prefix && ip.drop 12 == x
  else false

/-- The value of a hexadecimal digit. -/
def hexDigit? (c : Char) : Option Nat :=
  if '0' ≤ c ∧ c ≤ '9' then some (c.toNat - '0'.toNat)
  else if 'a' ≤ c ∧ c ≤ 'f' then some (c.toNat - 'a'.toNat + 10)
  else if 'A' ≤ c ∧ c ≤ 'F' then some (c.toNat - 'A'.toNat + 10)
  else none

/-- The loop of `parseIPv4Fields` in `net/netip`, over the characters that are left:
`atStart` says that the character is the first one, `prevDot` that the one before it is a
dot.  The result is `none` for every error. -/
def parseIPv4FieldsLoop : List Char → Nat → Nat → Nat → Bool → Bool → List Nat →
    Option (List Nat)
  | [], val, pos, _, _, _, fields => if pos < 3 then none else some (fields.set 3 (val % 256))
  | c :: rest, val, pos, digLen, atStart, prevDot, fields =>
    if '0' ≤ c ∧ c ≤ '9' then
      if digLen = 1 ∧ val = 0 then none
      else if val * 10 + (c.toNat - '0'.toNat) > 255 then none
      else parseIPv4FieldsLoop rest (val * 10 + (c.toNat - '0'.toNat)) pos (digLen + 1)
        false false fields
    else if c = '.' then
      if atStart ∨ rest = [] ∨ prevDot then none
      else if pos = 3 then none
      else parseIPv4FieldsLoop rest 0 (pos + 1) 0 false true (fields.set pos (val % 256))
    else none

/-- The function `parseIPv4Fields` of `net/netip`: the four bytes of a dotted IPv4 address. -/
def parseIPv4Fields (s : List Char) : Option (List Nat) :=
  parseIPv4FieldsLoop s 0 0 0 true false [0, 0, 0, 0]

/-- The inner loop of `parseIPv6`: the hexadecimal digits at the start of `s`.  The result
is the number of digits, their value and the rest of `s`; `none` for a fifth digit. -/
def hexGroup : List Char → Nat → Nat → Option (Nat × Nat × List Char)
  | [], off, acc => some (off, acc, [])
  | c :: cs, off, acc =>
    match hexDigit? c with
    | none => some (off, acc, c :: cs)
    | some v =>
      if off > 3 then none
      else if (acc * 16 + v) % 2 ^ 32 > 65535 then none
      else hexGroup cs (off + 1) ((acc * 16 + v) % 2 ^ 32)

/-- The outer loop of `parseIPv6` with `groupsLeft` groups of two bytes to fill: the index
`i` of the source is `16 - 2 * groupsLeft`.  The result is what is left of the text, the
bytes, the index and the position of the ellipsis when the loop ends; `none` for every
error. -/
def parseIPv6Loop : Nat → List Char → List Nat → Option Nat →
    Option (List Char × List Nat × Nat × Option Nat)
  | 0, s, ip, ellipsis => some (s, ip, 16, ellipsis)
  | g + 1, s, ip, ellipsis =>
    match hexGroup s 0 0 with
    | none => none
    | some (off, acc, rest) =>
      if off = 0 then none
      else
        match rest with
        | '.' :: _ =>
          if ellipsis = none ∧ 16 - 2 * (g + 1) ≠ 12 then none
          else if 16 - 2 * (g + 1) + 4 > 16 then none
          else
            match parseIPv4Fields s with
            | none => none
            | some fields =>
              some ([], ip.take (16 - 2 * (g + 1)) ++ fields ++ ip.drop (16 - 2 * (g + 1) + 4),
                16 - 2 * (g + 1) + 4, ellipsis)
        | [] =>
          some ([], (ip.set (16 - 2 * (g + 1)) (acc / 256 % 256)).set (16 - 2 * (g + 1) + 1)
            (acc % 256), 16 - 2 * (g + 1) + 2, ellipsis)
        | [_] => none
        | c :: ':' :: rest2 =>
          if c ≠ ':' then none
          else if ellipsis.isSome then none
          else
            match rest2 with
            | [] =>
              some ([], (ip.set (16 - 2 * (g + 1)) (acc / 256 % 256)).set
                (16 - 2 * (g + 1) + 1) (acc % 256), 16 - 2 * (g + 1) + 2,
                some (16 - 2 * (g + 1) + 2))
            | _ :: _ =>
              parseIPv6Loop g rest2 ((ip.set (16 - 2 * (g + 1)) (acc / 256 % 256)).set
                (16 - 2 * (g + 1) + 1) (acc % 256)) (some (16 - 2 * (g + 1) + 2))
        | c :: rest1 =>
          if c ≠ ':' then none
          else
            parseIPv6Loop g rest1 ((ip.set (16 - 2 * (g + 1)) (acc / 256 % 256)).set
              (16 - 2 * (g + 1) + 1) (acc % 256)) ellipsis

/-- The end of `parseIPv6`: the whole text is used, and the ellipsis stands for the bytes
that are missing. -/
def parseIPv6Finish : List Char × List Nat × Nat × Option Nat → Option (List Nat)
  | (s, ip, i, ellipsis) =>
    if s ≠ [] then none
    else if i < 16 then
      match ellipsis with
      | none => none
      | some e => some (ip.take e ++ List.replicate (16 - i) 0 ++ (ip.drop e).take (i - e))
    else if ellipsis.isSome then none
    else some ip

/-- The function `parseIPv6` of `net/netip`: the 16 bytes of the address and its zone. -/
def parseIPv6 (s : List Char) : Option (List Nat × List Char) :=
  let addr := s.takeWhile (fun c => c ≠ '%')
  let zone := (s.dropWhile (fun c => c ≠ '%')).drop 1
  if s.contains '%' ∧ zone = [] then none
  else
    match addr with
    | ':' :: ':' :: rest =>
      if rest = [] then some (List.replicate 16 0, zone)
      else ((parseIPv6Loop 8 rest (List.replicate 16 0) (some 0)).bind parseIPv6Finish).map
        (fun ip => (ip, zone))
    | _ => ((parseIPv6Loop 8 addr (List.replicate 16 0) none).bind parseIPv6Finish).map
        (fun ip => (ip, zone))

/-- The function `netip.ParseAddr`, with the address in its 16-byte form: the first dot,
colon or percent sign of the text decides how it is read. -/
def ParseAddr (s : List Char) : Option (List Nat × List Char) :=
  match s.find? (fun c => c = '.' ∨ c = ':' ∨ c = '%') with
  | some '.' => (parseIPv4Fields s).map (fun fields => (v4InV6Prefix ++ fields, []))
  | some ':' => parseIPv6 s
  | _ => none

/-- The function `net.ParseIP`: the 16 bytes of the address that the text spells, `nil` when
the text spells no address or names a zone. -/
def ParseIP (s : String) : IP :=
  match ParseAddr s.data with
  | some (ip, []) => ip
  | _ => []

/-- The function `net.CIDRMask(n, n)`: a mask of `n` bits, all of them set. -/
def fullMask (bits : Nat) : List Nat := List.replicate (bits / 8) 255

/-- The function `strings.HasPrefix`. -/
def stringsHasPrefix (s pre : String) : Bool := pre.data.isPrefixOf s.data

/-! ## Declarations that `linux_networking.go` uses -/

/-- The type `ipvs.Service` of `github.com/moby/ipvs`, without its statistics.  The default
value is the zero value of Go. -/
structure Service where
  Address : IP
  Protocol : Nat
  Port : Nat
  FWMark : Nat
  Netmask : Nat
  AddressFamily : Nat
  SchedName : String
  Flags : Nat
  Timeout : Nat
  PEName : String
  deriving DecidableEq, Repr, Inhabited

/-- The type `ipvs.Destination` of `github.com/moby/ipvs`, without its statistics. -/
structure Destination where
  Address : IP
  Port : Nat
  Weight : Int
  ConnectionFlags : Nat
  AddressFamily : Nat
  deriving DecidableEq, Repr, Inhabited

/-- A `netlink.Link`: the attributes of an interface that the source reads. -/
structure Link where
  Name : String
  Index : Nat
  deriving DecidableEq, Repr, Inhabited

/-- A `netlink.Addr`: the address and mask of its `IPNet`, and its scope. -/
structure Addr where
  IP : IP
  Mask : List Nat
  Scope : Nat
  deriving DecidableEq, Repr, Inhabited

/-- A `netlink.Route`: the fields that the source sets or reads.  An address that is absent is
`nil`. -/
structure Route where
  Dst : IP
  DstMask : List Nat
  Src : IP
  Table : Nat
  deriving DecidableEq, Repr, Inhabited

/-- A call that leaves the program: to netlink, to the `ip` command, or to IPVS.  A call that
takes a pointer records the value it points to at the time of the call. -/
inductive Call where
  | AddrAdd (iface : Link) (addr : Addr)
  | AddrDel (iface : Link) (addr : Addr)
  | CombinedOutput (name : String) (args : List String)
  | RouteListFiltered (family : Nat) (filter : Route)
  | RouteDel (route : Route)
  | ipvsNewService (svc : Service)
  | ipvsUpdateService (svc : Service)
  | ipvsNewDestination (svc : Service) (dst : Destination)
  | ipvsUpdateDestination (svc : Service) (dst : Destination)
  deriving DecidableEq, Repr

/-- The answers of the kernel and of the `ip` command.  Every answer may depend on the calls
made before it.  An error is the text of its `Error()`; `none` is the `nil` error. -/
structure Kernel where
  AddrAdd : List Call → Link → Addr → Option String
  AddrDel : List Call → Link → Addr → Option String
  CombinedOutput : List Call → String → List String → String × Option String
  RouteListFiltered : List Call → Nat → Route → List Route × Option String
  RouteDel : List Call → Route → Option String
  ipvsNewService : List Call → Service → Option String
  ipvsUpdateService : List Call → Service → Option String
  ipvsNewDestination : List Call → Service → Destination → Option String
  ipvsUpdateDestination : List Call → Service → Destination → Option String

/-- The declarations of the package `proxy` that `linux_networking.go` uses and that are in
other files: the texts of the errors it compares with, the flag of persistence, the helpers
that change or compare a service, and the helpers that print.  The type `schedFlags` is a
parameter.  A helper that takes a pointer to a service returns the service it leaves behind.
The last field is the text of the error of `safecast.ToUint32`. -/
structure ProxyDecls (schedFlags : Type) where
  IfaceHasAddr : String
  IfaceHasNoAddr : String
  IpvsServerExists : String
  ipvsPersistentFlagHex : Nat
  ipvsSetPersistence : Service → Bool → Int → Service × Option String
  changedIpvsSchedFlags : Service → schedFlags → Bool
  ipvsSetSchedFlags : Service → schedFlags → Service
  ipvsServiceString : Service → String
  ipvsDestinationString : Destination → String
  safecastErrorText : Int → String

/-- Modelled from the spec: the constant `KubeDummyIf`, the interface `kube-dummy-if` onto
which the addresses of the services are bound. -/
def KubeDummyIf : String := "kube-dummy-if"

def ipv4NetMaskBits : Nat := 32

def ipv6NetMaskBits : Nat := 128

/-- The constant `syscall.AF_INET`. -/
def AF_INET : Nat := 2

/-- The constant `syscall.AF_INET6`. -/
def AF_INET6 : Nat := 10

/-- The constant `syscall.RT_SCOPE_LINK`. -/
def RT_SCOPE_LINK : Nat := 253

/-- The constant `unix.RT_TABLE_UNSPEC`. -/
def RT_TABLE_UNSPEC : Nat := 0

/-- The constant `netlink.FAMILY_V6`. -/
def FAMILY_V6 : Nat := 10

/-- The constant `ipvs.RoundRobin`. -/
def RoundRobin : String := "rr"

/-- The function `safecast.ToUint32` on an `int32`: an error for a negative number. -/
def safecastToUint32 {F : Type} (d : ProxyDecls F) (i : Int) : Except String Nat :=
  if i < 0 then Except.error (d.safecastErrorText i) else Except.ok i.toNat

/-- The memory that the pointers `*ipvs.Service` point into: a pointer is an index, and a
service that is created gets the next index. -/
abbrev ServiceHeap := List Service

/-- The service a pointer points to. -/
def ServiceHeap.deref (heap : ServiceHeap) (p : Nat) : Service := heap.getD p default

/-! ## linux_networking.go -/

/-- The error of `ipAddrDel` and `ipAddrAdd` for a node address of the other family; the
source prints the address before the node address. -/
def familyMismatchError (ip nodeIP : String) : String :=
  "nodeIP " ++ ip ++ " does not match family for VIP IP: " ++ nodeIP ++ ", unable to proceed"

/-- The arguments of the `ip route` command after the family. -/
def ipRouteArgs (verb ip nodeIP : String) : List String :=
  ["route", verb, "local", ip, "dev", KubeDummyIf, "table", "local", "proto", "kernel", "scope",
    "host", "src", nodeIP, "table", "local"]

/-- The end of `ipAddrDel`: the route to the address is deleted from the table `local`; that
there is no such route is not an error. -/
def ipAddrDelRoute (k : Kernel) (t : List Call) (ip nodeIP : String)
    (ipRouteCmdArgs : List String) : Option String × List Call :=
  match k.CombinedOutput t "ip" (ipRouteCmdArgs ++ ipRouteArgs "delete" ip nodeIP) with
  | (out, some e) =>
    if !stringsContains out "No such process" then
      (some e, t ++ [Call.CombinedOutput "ip" (ipRouteCmdArgs ++ ipRouteArgs "delete" ip nodeIP)])
    else (none, t ++ [Call.CombinedOutput "ip" (ipRouteCmdArgs ++ ipRouteArgs "delete" ip nodeIP)])
  | (_, none) =>
    (none, t ++ [Call.CombinedOutput "ip" (ipRouteCmdArgs ++ ipRouteArgs "delete" ip nodeIP)])

/-- The part of `ipAddrDel` after the families are compared: the address is removed, then the
route; that the interface has no such address is not an error. -/
def ipAddrDelApply {F : Type} (d : ProxyDecls F) (k : Kernel) (t : List Call) (iface : Link)
    (ip nodeIP : String) (netMask : List Nat) (ipRouteCmdArgs : List String) :
    Option String × List Call :=
  match k.AddrDel t iface { IP := ParseIP ip, Mask := netMask, Scope := RT_SCOPE_LINK } with
  | some e =>
    if e ≠ d.IfaceHasNoAddr then
      (some e, t ++ [Call.AddrDel iface
        { IP := ParseIP ip, Mask := netMask, Scope := RT_SCOPE_LINK }])
    else
      ipAddrDelRoute k (t ++ [Call.AddrDel iface
        { IP := ParseIP ip, Mask := netMask, Scope := RT_SCOPE_LINK }]) ip nodeIP ipRouteCmdArgs
  | none =>
    ipAddrDelRoute k (t ++ [Call.AddrDel iface
      { IP := ParseIP ip, Mask := netMask, Scope := RT_SCOPE_LINK }]) ip nodeIP ipRouteCmdArgs

/-- The method `ipAddrDel`: the error it returns and the calls made, after the calls `t`. -/
def ipAddrDel {F : Type} (d : ProxyDecls F) (k : Kernel) (t : List Call) (iface : Link)
    (ip nodeIP : String) : Option String × List Call :=
  if IP.To4 (ParseIP ip) ≠ [] then
    if IP.To4 (ParseIP nodeIP) = [] then (some (familyMismatchError ip nodeIP), t)
    else ipAddrDelApply d k t iface ip nodeIP (fullMask ipv4NetMaskBits) []
  else
    if IP.To4 (ParseIP nodeIP) ≠ [] then (some (familyMismatchError ip nodeIP), t)
    else if stringsHasPrefix ip "fe80:" then (none, t)
    else ipAddrDelApply d k t iface ip nodeIP (fullMask ipv6NetMaskBits) ["-6"]

/-- The loop of `ipAddrAdd` over the routes listed: a route whose source is absent or is not
the node address is deleted; an error of the deletion is logged only. -/
def ipAddrAddRoutes (parsedNodeIP : IP) : List Route → List Call → List Call
  | [], t => t
  | route :: routes, t =>
    if route.Src = [] ∨ IP.Equal route.Src parsedNodeIP = false then
      ipAddrAddRoutes parsedNodeIP routes (t ++ [Call.RouteDel route])
    else ipAddrAddRoutes parsedNodeIP routes t

/-- The end of `ipAddrAdd` when `addRoute` is set: the route to the address is replaced, and
for an IPv6 address the other routes to it are deleted. -/
def ipAddrAddRoute (k : Kernel) (t : List Call) (ip nodeIP : String) (netMask : List Nat)
    (ipRouteCmdArgs : List String) (isIPv6 : Bool) : Option String × List Call :=
  match k.CombinedOutput t "ip" (ipRouteCmdArgs ++ ipRouteArgs "replace" ip nodeIP) with
  | (_, some e) =>
    (some e, t ++ [Call.CombinedOutput "ip" (ipRouteCmdArgs ++ ipRouteArgs "replace" ip nodeIP)])
  | (_, none) =>
    if isIPv6 then
      match k.RouteListFiltered
        (t ++ [Call.CombinedOutput "ip" (ipRouteCmdArgs ++ ipRouteArgs "replace" ip nodeIP)])
        FAMILY_V6 { Dst := ParseIP ip, DstMask := netMask, Src := [], Table := RT_TABLE_UNSPEC }
      with
      | (_, some e) =>
        (some e, t ++ [Call.CombinedOutput "ip" (ipRouteCmdArgs ++ ipRouteArgs "replace" ip nodeIP),
          Call.RouteListFiltered FAMILY_V6
            { Dst := ParseIP ip, DstMask := netMask, Src := [], Table := RT_TABLE_UNSPEC }])
      | (routes, none) =>
        (none, ipAddrAddRoutes (ParseIP nodeIP) routes
          (t ++ [Call.CombinedOutput "ip" (ipRouteCmdArgs ++ ipRouteArgs "replace" ip nodeIP),
            Call.RouteListFiltered FAMILY_V6
              { Dst := ParseIP ip, DstMask := netMask, Src := [], Table := RT_TABLE_UNSPEC }]))
    else
      (none,
        t ++ [Call.CombinedOutput "ip" (ipRouteCmdArgs ++ ipRouteArgs "replace" ip nodeIP)])

/-- The part of `ipAddrAdd` after the families are compared: the address is added, and that
the interface has the address already is not an error. -/
def ipAddrAddApply {F : Type} (d : ProxyDecls F) (k : Kernel) (t : List Call) (iface : Link)
    (ip nodeIP : String) (addRoute : Bool) (netMask : List Nat) (ipRouteCmdArgs : List String)
    (isIPv6 : Bool) : Option String × List Call :=
  match k.AddrAdd t iface { IP := ParseIP ip, Mask := netMask, Scope := RT_SCOPE_LINK } with
  | some e =>
    if e ≠ d.IfaceHasAddr then
      (some e, t ++ [Call.AddrAdd iface
        { IP := ParseIP ip, Mask := netMask, Scope := RT_SCOPE_LINK }])
    else if !addRoute then
      (none, t ++ [Call.AddrAdd iface
        { IP := ParseIP ip, Mask := netMask, Scope := RT_SCOPE_LINK }])
    else
      ipAddrAddRoute k (t ++ [Call.AddrAdd iface
        { IP := ParseIP ip, Mask := netMask, Scope := RT_SCOPE_LINK }]) ip nodeIP netMask
        ipRouteCmdArgs isIPv6
  | none =>
    if !addRoute then
      (none, t ++ [Call.AddrAdd iface
        { IP := ParseIP ip, Mask := netMask, Scope := RT_SCOPE_LINK }])
    else
      ipAddrAddRoute k (t ++ [Call.AddrAdd iface
        { IP := ParseIP ip, Mask := netMask, Scope := RT_SCOPE_LINK }]) ip nodeIP netMask
        ipRouteCmdArgs isIPv6

/-- The method `ipAddrAdd`: the error it returns and the calls made, after the calls `t`. -/
def ipAddrAdd {F : Type} (d : ProxyDecls F) (k : Kernel) (t : List Call) (iface : Link)
    (ip nodeIP : String) (addRoute : Bool) : Option String × List Call :=
  if IP.To4 (ParseIP ip) ≠ [] then
    if addRoute ∧ IP.To4 (ParseIP nodeIP) = [] then (some (familyMismatchError ip nodeIP), t)
    else ipAddrAddApply d k t iface ip nodeIP addRoute (fullMask ipv4NetMaskBits) [] false
  else
    if addRoute ∧ IP.To4 (ParseIP nodeIP) ≠ [] then (some (familyMismatchError ip nodeIP), t)
    else ipAddrAddApply d k t iface ip nodeIP addRoute (fullMask ipv6NetMaskBits) ["-6"] true

/-- The method `ipvsAddServer`: a destination that exists already is updated. -/
def ipvsAddServer {F : Type} (d : ProxyDecls F) (k : Kernel) (t : List Call)
    (service : Service) (dest : Destination) : Option String × List Call :=
  match k.ipvsNewDestination t service dest with
  | none => (none, t ++ [Call.ipvsNewDestination service dest])
  | some e =>
    if stringsContains e d.IpvsServerExists then
      match k.ipvsUpdateDestination (t ++ [Call.ipvsNewDestination service dest]) service dest
      with
      | some e2 =>
        (some ("failed to update ipvs destination " ++ d.ipvsDestinationString dest ++
          " to the ipvs service " ++ d.ipvsServiceString service ++ " due to : " ++ e2),
          t ++ [Call.ipvsNewDestination service dest, Call.ipvsUpdateDestination service dest])
      | none =>
        (none,
          t ++ [Call.ipvsNewDestination service dest, Call.ipvsUpdateDestination service dest])
    else
      (some ("failed to add ipvs destination " ++ d.ipvsDestinationString dest ++
        " to the ipvs service " ++ d.ipvsServiceString service ++ " due to : " ++ e),
        t ++ [Call.ipvsNewDestination service dest])

/-- The result of `ipvsAddService` and of `ipvsAddFWMarkService`: the list of services
returned (for `ipvsAddFWMarkService`, the list passed), the service returned, the error, the
memory and the calls made. -/
structure IpvsResult where
  svcs : List Nat
  svc : Option Nat
  err : Option String
  heap : ServiceHeap
  trace : List Call
  deriving DecidableEq, Repr

/-- The test of the loop of `ipvsAddService`: the service has the address, the protocol and
the port. -/
def serviceMatches (vip : IP) (protocol port : Nat) (svc : Service) : Bool :=
  IP.Equal vip svc.Address && protocol == svc.Protocol && port == svc.Port

/-- The persistence of the service differs from the one asked for: the flag. -/
def persistenceFlagDiffers {F : Type} (d : ProxyDecls F) (svc : Service) (persistent : Bool) :
    Bool :=
  (persistent && svc.Flags &&& d.ipvsPersistentFlagHex == 0) ||
    (!persistent && svc.Flags &&& d.ipvsPersistentFlagHex != 0)

/-- The third update of `ipvsAddService` for the service at `p`: the name of the scheduler. -/
def ipvsAddServiceScheduler {F : Type} (d : ProxyDecls F) (k : Kernel) (svcs : List Nat)
    (p : Nat) (scheduler : String) (heap : ServiceHeap) (t : List Call) : IpvsResult :=
  if scheduler ≠ (heap.deref p).SchedName then
    match k.ipvsUpdateService t { heap.deref p with SchedName := scheduler } with
    | some e =>
      { svcs := svcs, svc := none,
        err := some ("failed to update the scheduler for " ++
          d.ipvsServiceString { heap.deref p with SchedName := scheduler } ++ " due to " ++ e),
        heap := heap.set p { heap.deref p with SchedName := scheduler },
        trace := t ++ [Call.ipvsUpdateService { heap.deref p with SchedName := scheduler }] }
    | none =>
      { svcs := svcs, svc := some p, err := none,
        heap := heap.set p { heap.deref p with SchedName := scheduler },
        trace := t ++ [Call.ipvsUpdateService { heap.deref p with SchedName := scheduler }] }
  else { svcs := svcs, svc := some p, err := none, heap := heap, trace := t }

/-- The second update of `ipvsAddService` for the service at `p`: the flags of the
scheduler. -/
def ipvsAddServiceSchedFlags {F : Type} (d : ProxyDecls F) (k : Kernel) (svcs : List Nat)
    (p : Nat) (scheduler : String) (flags : F) (heap : ServiceHeap) (t : List Call) :
    IpvsResult :=
  if d.changedIpvsSchedFlags (heap.deref p) flags then
    match k.ipvsUpdateService t (d.ipvsSetSchedFlags (heap.deref p) flags) with
    | some e =>
      { svcs := svcs, svc := none,
        err := some ("failed to update IPVS scheduler flags for " ++
          d.ipvsServiceString (d.ipvsSetSchedFlags (heap.deref p) flags) ++ " due to: " ++ e),
        heap := heap.set p (d.ipvsSetSchedFlags (heap.deref p) flags),
        trace := t ++ [Call.ipvsUpdateService (d.ipvsSetSchedFlags (heap.deref p) flags)] }
    | none =>
      ipvsAddServiceScheduler d k svcs p scheduler
        (heap.set p (d.ipvsSetSchedFlags (heap.deref p) flags))
        (t ++ [Call.ipvsUpdateService (d.ipvsSetSchedFlags (heap.deref p) flags)])
  else ipvsAddServiceScheduler d k svcs p scheduler heap t

/-- The body of the loop of `ipvsAddService` for the service at `p`, which has the address,
the protocol and the port: the service is brought up to date and returned. -/
def ipvsAddServiceUpdate {F : Type} (d : ProxyDecls F) (k : Kernel) (svcs : List Nat)
    (p : Nat) (persistent : Bool) (persistentTimeout : Int) (scheduler : String) (flags : F)
    (heap : ServiceHeap) (t : List Call) : IpvsResult :=
  match safecastToUint32 d persistentTimeout with
  | Except.error e =>
    { svcs := svcs, svc := none,
      err := some ("failed to convert persistent timeout to uint32: " ++ e),
      heap := heap, trace := t }
  | Except.ok ptim =>
    if persistenceFlagDiffers d (heap.deref p) persistent ∨ (heap.deref p).Timeout ≠ ptim then
      match d.ipvsSetPersistence (heap.deref p) persistent persistentTimeout with
      | (svc1, some e) =>
        { svcs := svcs, svc := none,
          err := some ("failed to set persistence for service " ++ d.ipvsServiceString svc1 ++
            " due to: " ++ e),
          heap := heap.set p svc1, trace := t }
      | (svc1, none) =>
        match k.ipvsUpdateService t svc1 with
        | some e =>
          { svcs := svcs, svc := none,
            err := some ("failed to update IPVS persitence / session-affinity for " ++
              d.ipvsServiceString svc1 ++ " due to: " ++ e),
            heap := heap.set p svc1, trace := t ++ [Call.ipvsUpdateService svc1] }
        | none =>
          ipvsAddServiceSchedFlags d k svcs p scheduler flags (heap.set p svc1)
            (t ++ [Call.ipvsUpdateService svc1])
    else ipvsAddServiceSchedFlags d k svcs p scheduler flags heap t

/-- The loop of `ipvsAddService` over the services that are left: `none` when the loop ends
without a return. -/
def ipvsAddServiceLoop {F : Type} (d : ProxyDecls F) (k : Kernel) (svcs : List Nat) (vip : IP)
    (protocol port : Nat) (persistent : Bool) (persistentTimeout : Int) (scheduler : String)
    (flags : F) (heap : ServiceHeap) (t : List Call) : List Nat → Option IpvsResult
  | [] => none
  | p :: rest =>
    if serviceMatches vip protocol port (heap.deref p) then
      some (ipvsAddServiceUpdate d k svcs p persistent persistentTimeout scheduler flags heap t)
    else
      ipvsAddServiceLoop d k svcs vip protocol port persistent persistentTimeout scheduler flags
        heap t rest

/-- The service that `ipvsAddService` builds when no service of the list matches, before its
persistence and the flags of its scheduler are set. -/
def newService (vip : IP) (protocol port : Nat) (scheduler : String) : Service :=
  { Address := vip,
    AddressFamily := if IP.To4 vip ≠ [] then AF_INET else AF_INET6,
    Protocol := protocol, Port := port, SchedName := scheduler,
    Netmask := if IP.To4 vip ≠ [] then ipv4NetMaskBits else ipv6NetMaskBits,
    FWMark := 0, Flags := 0, Timeout := 0, PEName := "" }

/-- The end of `ipvsAddService`, after the loop: a service is created, put into the memory
and appended to the list. -/
def ipvsAddServiceCreate {F : Type} (d : ProxyDecls F) (k : Kernel) (svcs : List Nat) (vip : IP)
    (protocol port : Nat) (persistent : Bool) (persistentTimeout : Int) (scheduler : String)
    (flags : F) (heap : ServiceHeap) (t : List Call) : IpvsResult :=
  match d.ipvsSetPersistence (newService vip protocol port scheduler) persistent
    persistentTimeout with
  | (svc1, some e) =>
    { svcs := svcs, svc := none,
      err := some ("failed to set persistence for service " ++ d.ipvsServiceString svc1 ++
        " due to: " ++ e),
      heap := heap, trace := t }
  | (svc1, none) =>
    match k.ipvsNewService t (d.ipvsSetSchedFlags svc1 flags) with
    | some e =>
      { svcs := svcs, svc := none,
        err := some ("failed to create new service " ++
          d.ipvsServiceString (d.ipvsSetSchedFlags svc1 flags) ++ " due to: " ++ e),
        heap := heap, trace := t ++ [Call.ipvsNewService (d.ipvsSetSchedFlags svc1 flags)] }
    | none =>
      { svcs := svcs ++ [heap.length], svc := some heap.length, err := none,
        heap := heap ++ [d.ipvsSetSchedFlags svc1 flags],
        trace := t ++ [Call.ipvsNewService (d.ipvsSetSchedFlags svc1 flags)] }

/-- The method `ipvsAddService`, from the memory `heap` and after the calls `t`. -/
def ipvsAddService {F : Type} (d : ProxyDecls F) (k : Kernel) (heap : ServiceHeap)
    (t : List Call) (svcs : List Nat) (vip : IP) (protocol port : Nat) (persistent : Bool)
    (persistentTimeout : Int) (scheduler : String) (flags : F) : IpvsResult :=
  match ipvsAddServiceLoop d k svcs vip protocol port persistent persistentTimeout scheduler
    flags heap t svcs with
  | some r => r
  | none =>
    ipvsAddServiceCreate d k svcs vip protocol port persistent persistentTimeout scheduler flags
      heap t

/-- The netmask that `ipvsAddFWMarkService` takes for a family: none for a family that is
neither `AF_INET` nor `AF_INET6`. -/
def netmaskForFamily (family : Nat) : Nat :=
  if family = AF_INET then ipv4NetMaskBits
  else if family = AF_INET6 then ipv6NetMaskBits
  else 0

/-- The fourth update of `ipvsAddFWMarkService` for the service at `p`: the family of the
address. -/
def ipvsAddFWMarkServiceFamily {F : Type} (d : ProxyDecls F) (k : Kernel) (svcs : List Nat)
    (p : Nat) (family : Nat) (heap : ServiceHeap) (t : List Call) : IpvsResult :=
  if (heap.deref p).AddressFamily ≠ family then
    match k.ipvsUpdateService t
      { heap.deref p with AddressFamily := family, Netmask := netmaskForFamily family } with
    | some e =>
      { svcs := svcs, svc := none,
        err := some ("failed to update the address family for service " ++
          d.ipvsServiceString
            { heap.deref p with AddressFamily := family, Netmask := netmaskForFamily family } ++
          " due to " ++ e),
        heap := heap.set p
          { heap.deref p with AddressFamily := family, Netmask := netmaskForFamily family },
        trace := t ++ [Call.ipvsUpdateService
          { heap.deref p with AddressFamily := family, Netmask := netmaskForFamily family }] }
    | none =>
      { svcs := svcs, svc := some p, err := none,
        heap := heap.set p
          { heap.deref p with AddressFamily := family, Netmask := netmaskForFamily family },
        trace := t ++ [Call.ipvsUpdateService
          { heap.deref p with AddressFamily := family, Netmask := netmaskForFamily family }] }
  else { svcs := svcs, svc := some p, err := none, heap := heap, trace := t }

/-- The third update of `ipvsAddFWMarkService` for the service at `p`: the name of the
scheduler. -/
def ipvsAddFWMarkServiceScheduler {F : Type} (d : ProxyDecls F) (k : Kernel) (svcs : List Nat)
    (p : Nat) (family : Nat) (scheduler : String) (heap : ServiceHeap) (t : List Call) :
    IpvsResult :=
  if scheduler ≠ (heap.deref p).SchedName then
    match k.ipvsUpdateService t { heap.deref p with SchedName := scheduler } with
    | some e =>
      { svcs := svcs, svc := none,
        err := some ("failed to update the scheduler for the service " ++
          d.ipvsServiceString { heap.deref p with SchedName := scheduler } ++ " due to " ++ e),
        heap := heap.set p { heap.deref p with SchedName := scheduler },
        trace := t ++ [Call.ipvsUpdateService { heap.deref p with SchedName := scheduler }] }
    | none =>
      ipvsAddFWMarkServiceFamily d k svcs p family
        (heap.set p { heap.deref p with SchedName := scheduler })
        (t ++ [Call.ipvsUpdateService { heap.deref p with SchedName := scheduler }])
  else ipvsAddFWMarkServiceFamily d k svcs p family heap t

/-- The second update of `ipvsAddFWMarkService` for the service at `p`: the flags of the
scheduler. -/
def ipvsAddFWMarkServiceSchedFlags {F : Type} (d : ProxyDecls F) (k : Kernel)
    (svcs : List Nat) (p : Nat) (family : Nat) (scheduler : String) (flags : F)
    (heap : ServiceHeap) (t : List Call) : IpvsResult :=
  if d.changedIpvsSchedFlags (heap.deref p) flags then
    match k.ipvsUpdateService t (d.ipvsSetSchedFlags (heap.deref p) flags) with
    | some e =>
      { svcs := svcs, svc := none,
        err := some ("failed to update scheduler flags for service " ++
          d.ipvsServiceString (d.ipvsSetSchedFlags (heap.deref p) flags) ++ " due to " ++ e),
        heap := heap.set p (d.ipvsSetSchedFlags (heap.deref p) flags),
        trace := t ++ [Call.ipvsUpdateService (d.ipvsSetSchedFlags (heap.deref p) flags)] }
    | none =>
      ipvsAddFWMarkServiceScheduler d k svcs p family scheduler
        (heap.set p (d.ipvsSetSchedFlags (heap.deref p) flags))
        (t ++ [Call.ipvsUpdateService (d.ipvsSetSchedFlags (heap.deref p) flags)])
  else ipvsAddFWMarkServiceScheduler d k svcs p family scheduler heap t

/-- The service that the first update of `ipvsAddFWMarkService` sends to the kernel: the
service after `ipvsSetPersistence`, with the flags of the scheduler set when they differ. -/
def persistenceUpdate {F : Type} (d : ProxyDecls F) (svc1 : Service) (flags : F) : Service :=
  if d.changedIpvsSchedFlags svc1 flags then d.ipvsSetSchedFlags svc1 flags else svc1

/-- The body of the loop of `ipvsAddFWMarkService` for the service at `p`, which has the
mark: the service is brought up to date and returned.  The first update is made when the flag
of persistence differs; the timeout is not compared. -/
def ipvsAddFWMarkServiceUpdate {F : Type} (d : ProxyDecls F) (k : Kernel) (svcs : List Nat)
    (p : Nat) (family : Nat) (persistent : Bool) (persistentTimeout : Int)
    (scheduler : String) (flags : F) (heap : ServiceHeap) (t : List Call) : IpvsResult :=
  if persistenceFlagDiffers d (heap.deref p) persistent then
    match d.ipvsSetPersistence (heap.deref p) persistent persistentTimeout with
    | (svc1, some e) =>
      { svcs := svcs, svc := none,
        err := some ("failed to set persistence for service " ++ d.ipvsServiceString svc1 ++
          " due to: " ++ e),
        heap := heap.set p svc1, trace := t }
    | (svc1, none) =>
      match k.ipvsUpdateService t (persistenceUpdate d svc1 flags) with
      | some e =>
        { svcs := svcs, svc := none,
          err := some ("failed to update persistence flags for service " ++
            d.ipvsServiceString (persistenceUpdate d svc1 flags) ++ " due to " ++ e),
          heap := heap.set p (persistenceUpdate d svc1 flags),
          trace := t ++ [Call.ipvsUpdateService (persistenceUpdate d svc1 flags)] }
      | none =>
        ipvsAddFWMarkServiceSchedFlags d k svcs p family scheduler flags
          (heap.set p (persistenceUpdate d svc1 flags))
          (t ++ [Call.ipvsUpdateService (persistenceUpdate d svc1 flags)])
  else ipvsAddFWMarkServiceSchedFlags d k svcs p family scheduler flags heap t

/-- The loop of `ipvsAddFWMarkService` over the services that are left: `none` when the loop
ends without a return. -/
def ipvsAddFWMarkServiceLoop {F : Type} (d : ProxyDecls F) (k : Kernel) (svcs : List Nat)
    (fwMark family : Nat) (persistent : Bool) (persistentTimeout : Int) (scheduler : String)
    (flags : F) (heap : ServiceHeap) (t : List Call) : List Nat → Option IpvsResult
  | [] => none
  | p :: rest =>
    if fwMark = (heap.deref p).FWMark then
      some (ipvsAddFWMarkServiceUpdate d k svcs p family persistent persistentTimeout scheduler
        flags heap t)
    else
      ipvsAddFWMarkServiceLoop d k svcs fwMark family persistent persistentTimeout scheduler flags
        heap t rest

/-- The service that `ipvsAddFWMarkService` builds when no service of the list has the mark,
before its persistence and the flags of its scheduler are set: its scheduler is round
robin. -/
def newFWMarkService (fwMark family : Nat) : Service :=
  { FWMark := fwMark, AddressFamily := family, Netmask := netmaskForFamily family,
    SchedName := RoundRobin,
    Address := [], Protocol := 0, Port := 0, Flags := 0, Timeout := 0, PEName := "" }

/-- The end of `ipvsAddFWMarkService`, after the loop: a service is created and put into the
memory; the list is not changed. -/
def ipvsAddFWMarkServiceCreate {F : Type} (d : ProxyDecls F) (k : Kernel) (svcs : List Nat)
    (fwMark family : Nat) (persistent : Bool) (persistentTimeout : Int) (flags : F)
    (heap : ServiceHeap) (t : List Call) : IpvsResult :=
  match d.ipvsSetPersistence (newFWMarkService fwMark family) persistent persistentTimeout with
  | (svc1, some e) =>
    { svcs := svcs, svc := none,
      err := some ("failed to set persistence for service " ++ d.ipvsServiceString svc1 ++
        " due to: " ++ e),
      heap := heap, trace := t }
  | (svc1, none) =>
    match k.ipvsNewService t (d.ipvsSetSchedFlags svc1 flags) with
    | some e =>
      { svcs := svcs, svc := none, err := some e, heap := heap,
        trace := t ++ [Call.ipvsNewService (d.ipvsSetSchedFlags svc1 flags)] }
    | none =>
      { svcs := svcs, svc := some heap.length, err := none,
        heap := heap ++ [d.ipvsSetSchedFlags svc1 flags],
        trace := t ++ [Call.ipvsNewService (d.ipvsSetSchedFlags svc1 flags)] }

/-- The method `ipvsAddFWMarkService`, from the memory `heap` and after the calls `t`; the
protocol and the port it takes are not used. -/
def ipvsAddFWMarkService {F : Type} (d : ProxyDecls F) (k : Kernel) (heap : ServiceHeap)
    (t : List Call) (svcs : List Nat) (fwMark family _protocol _port : Nat) (persistent : Bool)
    (persistentTimeout : Int) (scheduler : String) (flags : F) : IpvsResult :=
  match ipvsAddFWMarkServiceLoop d k svcs fwMark family persistent persistentTimeout scheduler
    flags heap t svcs with
  | some r => r
  | none =>
    ipvsAddFWMarkServiceCreate d k svcs fwMark family persistent persistentTimeout flags heap t

/-! ## Words for the claims about the IPVS services -/

/-- The call is an `ipvsUpdateService`. -/
def isUpdateCall : Call → Bool
  | Call.ipvsUpdateService _ => true
  | _ => false

/-- The call is an `ipvsNewService`. -/
def isNewServiceCall : Call → Bool
  | Call.ipvsNewService _ => true
  | _ => false

/-- The fields by which `ipvsAddService` looks a service up. -/
def serviceKey (svc : Service) : IP × Nat × Nat := (svc.Address, svc.Protocol, svc.Port)

/-- The helpers that change a service leave its address, protocol and port alone. -/
def KeepsKey {F : Type} (d : ProxyDecls F) : Prop :=
  (∀ svc persistent timeout,
    serviceKey (d.ipvsSetPersistence svc persistent timeout).1 = serviceKey svc) ∧
  ∀ svc flags, serviceKey (d.ipvsSetSchedFlags svc flags) = serviceKey svc

/-- The arguments of one call of `ipvsAddService`, without the list of services. -/
structure ServiceRequest (F : Type) where
  vip : IP
  protocol : Nat
  port : Nat
  persistent : Bool
  persistentTimeout : Int
  scheduler : String
  flags : F

/-- A sequence of calls of `ipvsAddService` in which every call gets the list that the call
before it returned; an error of a call does not end the sequence.  The result is the list,
the memory and the calls after the last call. -/
def ipvsAddServiceAll {F : Type} (d : ProxyDecls F) (k : Kernel) :
    List (ServiceRequest F) → ServiceHeap → List Call → List Nat →
      List Nat × ServiceHeap × List Call
  | [], heap, t, svcs => (svcs, heap, t)
  | r :: rs, heap, t, svcs =>
    ipvsAddServiceAll d k rs
      (ipvsAddService d k heap t svcs r.vip r.protocol r.port r.persistent r.persistentTimeout
        r.scheduler r.flags).heap
      (ipvsAddService d k heap t svcs r.vip r.protocol r.port r.persistent r.persistentTimeout
        r.scheduler r.flags).trace
      (ipvsAddService d k heap t svcs r.vip r.protocol r.port r.persistent r.persistentTimeout
        r.scheduler r.flags).svcs

/-- What an update of the service at `p` leaves behind: the list passed, the service at `p`
when there is no error, calls of `ipvsUpdateService` only, and a memory that differs at `p`
at most. -/
def UpdatesOnly (r : IpvsResult) (svcs : List Nat) (p : Nat) (heap : ServiceHeap)
    (t : List Call) : Prop :=
  r.svcs = svcs ∧ (r.err = none → r.svc = some p) ∧
    (∃ calls, r.trace = t ++ calls ∧ calls.all isUpdateCall = true) ∧
    r.heap.length = heap.length ∧ ∀ q, q ≠ p → r.heap.deref q = heap.deref q

/-- The memory `heap'` has the services of `heap`, each with the address, protocol and port it
has in `heap`. -/
def KeysKept (heap heap' : ServiceHeap) : Prop :=
  heap'.length = heap.length ∧ ∀ q, serviceKey (heap'.deref q) = serviceKey (heap.deref q)

/-- The 16-byte form of an address of 4 bytes; any other address as it is. -/
def IP.To16 (ip : IP) : IP := if ip.length = 4 then v4InV6Prefix ++ ip else ip

/-- The service `a` matches the address, protocol and port of the service `b`. -/
def keyMatches (b a : Service) : Bool := serviceMatches b.Address b.Protocol b.Port a

/-! ## Example data of the proxy controller -/

/-- The flags of a scheduler, as three booleans. -/
structure ExampleSchedFlags where
  flag1 : Bool
  flag2 : Bool
  flag3 : Bool
  deriving DecidableEq, Repr

/-- The bits of the flags of a scheduler in the flags of a service. -/
def exampleSchedBits (flags : ExampleSchedFlags) : Nat :=
  (if flags.flag1 then 8 else 0) + (if flags.flag2 then 16 else 0) +
    (if flags.flag3 then 32 else 0)

/-- An instance of the declarations that `linux_networking.go` uses: persistence is the bit
`1` of the flags together with the timeout, and the flags of the scheduler are the bits `8`,
`16` and `32`. -/
def exampleProxyDecls : ProxyDecls ExampleSchedFlags where
  IfaceHasAddr := "file exists"
  IfaceHasNoAddr := "cannot assign requested address"
  IpvsServerExists := "file exists"
  ipvsPersistentFlagHex := 1
  ipvsSetPersistence := fun svc persistent timeout =>
    if timeout < 0 then (svc, some "negative timeout")
    else if persistent then
      ({ svc with Flags := svc.Flags ||| 1, Timeout := timeout.toNat }, none)
    else ({ svc with Flags := svc.Flags / 2 * 2, Timeout := 0 }, none)
  changedIpvsSchedFlags := fun svc flags => svc.Flags / 8 % 8 * 8 != exampleSchedBits flags
  ipvsSetSchedFlags := fun svc flags =>
    { svc with Flags := svc.Flags / 64 * 64 + exampleSchedBits flags + svc.Flags % 8 }
  ipvsServiceString := fun svc => svc.SchedName
  ipvsDestinationString := fun _ => "destination"
  safecastErrorText := fun _ => "conversion issue"

/-- A kernel in which every call succeeds, no command prints, and no route is listed. -/
def exampleKernel : Kernel where
  AddrAdd := fun _ _ _ => none
  AddrDel := fun _ _ _ => none
  CombinedOutput := fun _ _ _ => ("", none)
  RouteListFiltered := fun _ _ _ => ([], none)
  RouteDel := fun _ _ => none
  ipvsNewService := fun _ _ => none
  ipvsUpdateService := fun _ _ => none
  ipvsNewDestination := fun _ _ _ => none
  ipvsUpdateDestination := fun _ _ _ => none

/-- A kernel in which the interface has every address already and every destination exists
already. -/
def exampleBusyKernel : Kernel :=
  { exampleKernel with
    AddrAdd := fun _ _ _ => some "file exists"
    ipvsNewDestination := fun _ _ _ => some "file exists" }

/-- The interface `kube-dummy-if`. -/
def exampleLink : Link := { Name := "kube-dummy-if", Index := 7 }

/-- The service `10.96.0.10:53` over UDP, scheduled round robin, without persistence. -/
def exampleService : Service :=
  { Address := [10, 96, 0, 10], Protocol := 17, Port := 53, FWMark := 0, Netmask := 32,
    AddressFamily := 2, SchedName := "rr", Flags := 0, Timeout := 0, PEName := "" }

/-- A destination of `exampleService`. -/
def exampleDestination : Destination :=
  { Address := [10, 244, 1, 5], Port := 53, Weight := 1, ConnectionFlags := 0,
    AddressFamily := 2 }

/-- No flag of the scheduler. -/
def exampleNoFlags : ExampleSchedFlags := { flag1 := false, flag2 := false, flag3 := false }

/-- The service `exampleService` with persistence for 100 seconds. -/
def examplePersistentService : Service := { exampleService with Flags := 1, Timeout := 100 }

/-- A service of the mark `5` for IPv4, scheduled round robin, with persistence for 100
seconds. -/
def exampleFWMarkService : Service :=
  { Address := [], Protocol := 0, Port := 0, FWMark := 5, Netmask := 32, AddressFamily := 2,
    SchedName := "rr", Flags := 1, Timeout := 100, PEName := "" }

/-- Three calls of `ipvsAddService`: twice for `10.96.0.10:53` over UDP, the second time
with the address in its 16-byte form, and once for the same address and port over TCP. -/
def exampleRequests : List (ServiceRequest ExampleSchedFlags) :=
  [{ vip := [10, 96, 0, 10], protocol := 17, port := 53, persistent := false,
     persistentTimeout := 0, scheduler := "rr", flags := exampleNoFlags },
   { vip := [0, 0, 0, 0, 0, 0, 0, 0, 0, 0, 255, 255, 10, 96, 0, 10], protocol := 17, port := 53,
     persistent := false, persistentTimeout := 0, scheduler := "rr", flags := exampleNoFlags },
   { vip := [10, 96, 0, 10], protocol := 6, port := 53, persistent := false,
     persistentTimeout := 0, scheduler := "rr", flags := exampleNoFlags }]

/-! ## The Go standard library: numbers, paths and trimming -/

/-- The function `strconv.Itoa`. -/
def Itoa (n : Int) : String :=
  if n < 0 then "-" ++ String.mk (Nat.toDigits 10 n.natAbs) else String.mk (Nat.toDigits 10 n.toNat)

/-- The value of decimal digits, most significant first. -/
def decimalValue (digits : List Char) : Nat :=
  digits.foldl (fun n c => n * 10 + (c.toNat - '0'.toNat)) 0

/-- The errors of `strconv.Atoi`. -/
inductive AtoiError where
  | invalidSyntax
  | outOfRange
  deriving DecidableEq, Repr

/-- The digits of `strconv.Atoi` after the sign: at least one character, each a decimal
digit, and a value that fits in 64 bits with the sign. -/
def atoiDigits (negative : Bool) (digits : List Char) : Int × Option AtoiError :=
  if digits = [] ∨ ¬ digits.all (fun c => decide ('0' ≤ c ∧ c ≤ '9')) then
    (0, some AtoiError.invalidSyntax)
  else if negative then
    if decimalValue digits > 2 ^ 63 then (-(2 ^ 63), some AtoiError.outOfRange)
    else (-(decimalValue digits : Int), none)
  else
    if decimalValue digits > 2 ^ 63 - 1 then (2 ^ 63 - 1, some AtoiError.outOfRange)
    else ((decimalValue digits : Int), none)

/-- The function `strconv.Atoi` for an `int` of 64 bits: an optional sign and decimal
digits. -/
def Atoi (s : String) : Int × Option AtoiError :=
  match s.data with
  | '-' :: digits => atoiDigits true digits
  | '+' :: digits => atoiDigits false digits
  | digits => atoiDigits false digits

/-- The function `strings.TrimSuffix`. -/
def stringsTrimSuffix (s suffix : String) : String :=
  if suffix.data.isSuffixOf s.data then String.mk (s.data.take (s.data.length - suffix.data.length))
  else s

/-- The function `strings.Trim` for a cutset of one character. -/
def stringsTrimChar (s : String) (c : Char) : String :=
  String.mk ((s.data.dropWhile (fun x => x == c)).reverse.dropWhile (fun x => x == c)).reverse

/-- The pieces of a text between the occurrences of a character. -/
def splitChars (sep : Char) : List Char → List (List Char)
  | [] => [[]]
  | c :: cs =>
    if c = sep then [] :: splitChars sep cs
    else
      match splitChars sep cs with
      | [] => [[c]]
      | piece :: pieces => (c :: piece) :: pieces

/-- The function `strings.Split` for a separator of one character. -/
def stringsSplitChar (s : String) (sep : Char) : List String :=
  (splitChars sep s.data).map String.mk

/-- A run of slashes becomes one slash. -/
def collapseSlashes : List Char → List Char
  | '/' :: '/' :: cs => collapseSlashes ('/' :: cs)
  | c :: cs => c :: collapseSlashes cs
  | [] => []

/-- The function `path.Join` for elements without `.` and `..` and a result that does not end
with a slash: the elements that are not empty, with a slash between them, and a run of
slashes made one slash. -/
def pathJoin (elems : List String) : String :=
  String.mk (collapseSlashes
    (String.intercalate "/" (elems.filter (fun e => e != ""))).data)

/-! ## Declarations that the rest of `linux_networking.go` uses -/

/-- A link that the source asks netlink to add: a `netlink.Iptun` or a `netlink.Ip6tnl` with
its name and local address, or a `netlink.Dummy` with its name. -/
inductive NewLink where
  | Iptun (name : String) (local_ : IP)
  | Ip6tnl (name : String) (local_ : IP)
  | Dummy (name : String)
  deriving DecidableEq, Repr

/-- The fields of the struct `serviceInfo` that `setupRoutesForExternalIPForDSR` reads. -/
structure serviceInfo where
  name : String
  namespace_ : String
  externalIPs : List String
  directServerReturn : Bool
  deriving DecidableEq, Repr

/-- An answer of `netlink.LinkByName`: a link with the `nil` error, or an error with the link
that is returned along with it.  In netlink the link of a lookup that fails is the `nil`
link, `none`. -/
inductive LinkAnswer where
  | found (link : Link)
  | failed (link : Option Link) (err : String)
  deriving DecidableEq, Repr

/-- The link of an answer: `none` is the `nil` link. -/
def LinkAnswer.link : LinkAnswer → Option Link
  | LinkAnswer.found link => some link
  | LinkAnswer.failed link _ => link

/-- The error of an answer: `none` is the `nil` error. -/
def LinkAnswer.err : LinkAnswer → Option String
  | LinkAnswer.found _ => none
  | LinkAnswer.failed _ err => some err

/-- A step of a method that leaves the program, with the answer it got: a call to `netns`, to
netlink, to the file system, to a helper of the package `utils`, or a command started with
`runIPCommandsWithArgs`.  A call to the kernel that `ipAddrAdd` makes is a step `kernel`.  An
error is the text of its `Error()`; `none` is the `nil` error. -/
inductive Step where
  | GetFromPid (pid : Int) (handle : Nat) (err : Option String)
  | NetnsSet (handle : Nat) (err : Option String)
  | NetnsGet (handle : Nat) (err : Option String)
  | Close (handle : Nat)
  | LinkByName (name : String) (link : Option Link) (err : Option String)
  | LinkAdd (link : NewLink) (err : Option String)
  | Sleep (duration : Nat)
  | LinkSetUp (link : Link) (err : Option String)
  | kernel (call : Call)
  | SetSysctlSingleTemplate (template iface : String) (value : Int) (err : Option String)
  | attemptNamespaceResetAfterError (handle : Nat)
  | ReadFile (path : String) (output : String) (err : Option String)
  | ReadDir (path : String) (entries : List String) (err : Option String)
  | RouteTableAdd (id name : String) (err : Option String)
  | ipCommand (ipArgs args : List String) (output : String) (err : Option String)
  deriving DecidableEq, Repr

/-- The answers of the host.  Every answer may depend on the steps made before it.  A lookup
of a link answers with a `LinkAnswer`; the step records its link, `none` for the `nil` link,
and its error.  `rangeServices` is the order in which a `range` visits the services of a
`serviceInfoMap`. -/
structure Host where
  GetFromPid : List Step → Int → Nat × Option String
  NetnsSet : List Step → Nat → Option String
  NetnsGet : List Step → Nat × Option String
  LinkByName : List Step → String → LinkAnswer
  LinkAdd : List Step → NewLink → Option String
  LinkSetUp : List Step → Link → Option String
  SetSysctlSingleTemplate : List Step → String → String → Int → Option String
  ReadFile : List Step → String → String × Option String
  ReadDir : List Step → String → List String × Option String
  RouteTableAdd : List Step → String → String → Option String
  ipCommand : List Step → List String → List String → String × Option String
  rangeServices : List Step → List serviceInfo → List serviceInfo

/-- The declarations of the repository that the rest of `linux_networking.go` uses and that
are in other files: the text of the error `IfaceNotFound`, the names of the tunnel
interfaces, the time to wait for an interface, the template of the sysctl `rp_filter` of the
package `utils`, and the identifier and the name of the routing table of the external
addresses.  The last field is the text of an error of `strconv.Atoi`. -/
structure DSRDecls where
  IfaceNotFound : String
  KubeTunnelIfv4 : String
  KubeTunnelIfv6 : String
  interfaceWaitSleepTime : Nat
  IPv4ConfRPFilterTemplate : String
  externalIPRouteTableID : String
  externalIPRouteTableName : String
  atoiErrorText : String → AtoiError → String

/-- The constant `assumedContainerIfaceName`. -/
def assumedContainerIfaceName : String := "eth0"

def procFSBasePath : String := "/proc"

def procFSCWDRelPath : String := "cwd"

def sysFSBasePath : String := "/sys"

def sysFSNetClassRelPath : String := "class/net"

def sysFSIfLinkRelPath : String := "iflink"

/-- The calls to the kernel among the steps. -/
def kernelCalls : List Step → List Call
  | [] => []
  | Step.kernel c :: steps => c :: kernelCalls steps
  | _ :: steps => kernelCalls steps

/-- The text that `fmt` prints for an error with the verb `%v`. -/
def errorText (err : Option String) : String :=
  err.getD "<nil>"

/-- The closure `listAvailableIfaces` of `findIfaceLinkForPid`: it reads a directory and
writes to the log. -/
def listAvailableIfaces (h : Host) (t : List Step) (pid : Int) : List Step :=
  let ifacesPath := pathJoin [procFSBasePath, Itoa pid, procFSCWDRelPath, sysFSBasePath,
    sysFSNetClassRelPath]
  let answer := h.ReadDir t ifacesPath
  t ++ [Step.ReadDir ifacesPath answer.1 answer.2]

/-- The path that `findIfaceLinkForPid` reads. -/
def ifaceSysPath (pid : Int) : String :=
  pathJoin [procFSBasePath, Itoa pid, procFSCWDRelPath, sysFSBasePath, sysFSNetClassRelPath,
    assumedContainerIfaceName, sysFSIfLinkRelPath]

/-- The function `findIfaceLinkForPid`: the identifier, the error, and the steps. -/
def findIfaceLinkForPid (dd : DSRDecls) (h : Host) (t : List Step) (pid : Int) :
    (Int × Option String) × List Step :=
  let answer := h.ReadFile t (ifaceSysPath pid)
  let t1 := t ++ [Step.ReadFile (ifaceSysPath pid) answer.1 answer.2]
  match answer.2 with
  | some err =>
    ((0, some ("unable to read the ifaceID inside the container from " ++ ifaceSysPath pid ++
      ", output was: " ++ answer.1 ++ ", error was: " ++ err)), listAvailableIfaces h t1 pid)
  | none =>
    let parsed := Atoi (stringsTrimSuffix answer.1 "\n")
    if parsed.1 = 0 ∨ parsed.2 ≠ none then
      ((parsed.1, some ("unable to find the ifaceID inside the container from " ++
        ifaceSysPath pid ++ ", output was: " ++ answer.1 ++ ", error was " ++
        errorText (parsed.2.map (dd.atoiErrorText (stringsTrimSuffix answer.1 "\n"))))),
        listAvailableIfaces h t1 pid)
    else ((parsed.1, none), t1)

/-- The function `getKubeDummyInterface`: the link (`none` is the `nil` link), the error, and
the steps.  The last line of the source returns the link of the first lookup, whether the
lookup succeeded or failed with an error that is not `IfaceNotFound`. -/
def getKubeDummyInterface (dd : DSRDecls) (h : Host) (t : List Step) :
    (Option Link × Option String) × List Step :=
  let found := h.LinkByName t KubeDummyIf
  let t1 := t ++ [Step.LinkByName KubeDummyIf found.link found.err]
  if found.err ≠ none ∧ found.err = some dd.IfaceNotFound then
    let added := h.LinkAdd t1 (NewLink.Dummy KubeDummyIf)
    let t2 := t1 ++ [Step.LinkAdd (NewLink.Dummy KubeDummyIf) added]
    match added with
    | some err => ((none, some ("failed to add dummy interface: " ++ err)), t2)
    | none =>
      let again := h.LinkByName t2 KubeDummyIf
      let t3 := t2 ++ [Step.LinkByName KubeDummyIf again.link again.err]
      match again with
      | LinkAnswer.failed _ err => ((none, some ("failed to get dummy interface: " ++ err)), t3)
      | LinkAnswer.found link =>
        let up := h.LinkSetUp t3 link
        let t4 := t3 ++ [Step.LinkSetUp link up]
        match up with
        | some err => ((none, some ("failed to bring dummy interface up: " ++ err)), t4)
        | none => ((some link, none), t4)
  else ((found.link, none), t1)

/-! ## pod.go: the handlers of the pod events -/

/-- A value of the type `interface{}` that an informer hands to a handler: a pointer to a
pod, a `cache.DeletedFinalStateUnknown` with its key and its object, or a value of another
type. -/
inductive Obj where
  | pod (p : Pod)
  | DeletedFinalStateUnknown (key : String) (obj : Obj)
  | other (description : String)
  deriving Repr

/-- A call that a handler makes on the controller. -/
inductive ControllerCall where
  | RequestFullSync
  deriving DecidableEq, Repr

/-- The method `OnPodUpdate`: the calls on the controller, or `none` when the type assertion
without a second result panics. -/
def OnPodUpdate (obj : Obj) : Option (List ControllerCall) :=
  match obj with
  | Obj.pod _ => some [ControllerCall.RequestFullSync]
  | _ => none

/-- The method `handlePodDelete`. -/
def handlePodDelete (obj : Obj) : Option (List ControllerCall) :=
  match obj with
  | Obj.pod _ => some [ControllerCall.RequestFullSync]
  | Obj.DeletedFinalStateUnknown _ tombstoneObj =>
    match tombstoneObj with
    | Obj.pod _ => some [ControllerCall.RequestFullSync]
    | _ => some []
  | _ => some []

/-- The field `AddFunc` of the handler that `newPodEventHandler` returns. -/
def AddFunc (d : Decls) (obj : Obj) : Option (List ControllerCall) :=
  match obj with
  | Obj.pod p => if d.isNetPolActionable p then OnPodUpdate obj else some []
  | _ => some []

/-- The field `UpdateFunc`; `isPodUpdateNetPolRelevant` is a function of another file. -/
def UpdateFunc (isPodUpdateNetPolRelevant : Pod → Pod → Bool) (oldObj newObj : Obj) :
    Option (List ControllerCall) :=
  match newObj with
  | Obj.pod newPodObj =>
    match oldObj with
    | Obj.pod oldPodObj =>
      if isPodUpdateNetPolRelevant oldPodObj newPodObj then OnPodUpdate newObj else some []
    | _ => some []
  | _ => some []

/-- The field `DeleteFunc`. -/
def DeleteFunc (obj : Obj) : Option (List ControllerCall) :=
  handlePodDelete obj

/-! ## Words for the claims about `findIfaceLinkForPid` -/

/-- A text is a decimal integer `n`: an optional sign, then one or more decimal digits, with
the value `n`. -/
def isDecimalInteger (s : String) (n : Int) : Prop :=
  ∃ digits : List Char, digits ≠ [] ∧ (∀ c ∈ digits, '0' ≤ c ∧ c ≤ '9') ∧
    (((s.data = digits ∨ s.data = '+' :: digits) ∧ n = (decimalValue digits : Int)) ∨
      (s.data = '-' :: digits ∧ n = -(decimalValue digits : Int)))

/-- A number is a value of the type `int` of 64 bits. -/
def fitsInt (n : Int) : Prop :=
  -(2 ^ 63) ≤ n ∧ n < 2 ^ 63

instance instDecidableFitsInt (n : Int) : Decidable (fitsInt n) := by
  unfold fitsInt
  infer_instance

/-- A host with one file, which holds the text given, and no link. -/
def exampleFileHost (content : String) : Host where
  GetFromPid := fun _ _ => (3, none)
  NetnsSet := fun _ _ => none
  NetnsGet := fun _ => (4, none)
  LinkByName := fun _ _ => LinkAnswer.failed none "Link not found"
  LinkAdd := fun _ _ => some "operation not permitted"
  LinkSetUp := fun _ _ => none
  SetSysctlSingleTemplate := fun _ _ _ _ => none
  ReadFile := fun _ path =>
    if path = "/proc/42/cwd/sys/class/net/eth0/iflink" then (content, none)
    else ("", some "no such file or directory")
  ReadDir := fun _ _ => (["eth0", "lo"], none)
  RouteTableAdd := fun _ _ _ => none
  ipCommand := fun _ _ _ => ("", none)
  rangeServices := fun _ svcs => svcs

/-- Declarations for the examples. -/
def exampleDSRDecls : DSRDecls where
  IfaceNotFound := "Link not found"
  KubeTunnelIfv4 := "kube-tunnel-if"
  KubeTunnelIfv6 := "kube-tunnel-v6"
  interfaceWaitSleepTime := 250000000
  IPv4ConfRPFilterTemplate := "net/ipv4/conf/%s/rp_filter"
  externalIPRouteTableID := "79"
  externalIPRouteTableName := "external_ip"
  atoiErrorText := fun s e =>
    "strconv.Atoi: parsing \"" ++ s ++ "\": " ++
      (match e with
       | AtoiError.invalidSyntax => "invalid syntax"
       | AtoiError.outOfRange => "value out of range")

/-! ## linux_networking.go: `configureContainerForDSR` -/

/-- The number of rounds of the loop in which `configureContainerForDSR` waits for the tunnel
interface. -/
def tunnelRetries : Nat := 60

/-- The end of `configureContainerForDSR`: the way back to the namespace of the host.  The
last step is the deferred close of the handle of the endpoint. -/
def configureReturn (h : Host) (t : List Step) (endpointNamespaceHandle : Nat)
    (hostNetworkNamespaceHandle : Nat) : Option String × List Step :=
  let set := h.NetnsSet t hostNetworkNamespaceHandle
  let t1 := t ++ [Step.NetnsSet hostNetworkNamespaceHandle set]
  match set with
  | some err =>
    (some ("failed to set hostNetworkNamespace handle due to " ++ err),
      t1 ++ [Step.Close endpointNamespaceHandle])
  | none =>
    let active := h.NetnsGet t1
    let t2 := t1 ++ [Step.NetnsGet active.1 active.2]
    match active.2 with
    | some err =>
      (some ("failed to get activeNetworkNamespace handle due to " ++ err),
        t2 ++ [Step.Close endpointNamespaceHandle])
    | none => (none, t2 ++ [Step.Close active.1, Step.Close endpointNamespaceHandle])

/-- The three writes of `rp_filter`, and then the way back. -/
def configureSysctl (dd : DSRDecls) (h : Host) (t : List Step) (endpointNamespaceHandle : Nat)
    (hostNetworkNamespaceHandle : Nat) : Option String × List Step :=
  let first := h.SetSysctlSingleTemplate t dd.IPv4ConfRPFilterTemplate "kube-tunnel-if" 0
  let t1 := t ++ [Step.SetSysctlSingleTemplate dd.IPv4ConfRPFilterTemplate "kube-tunnel-if" 0
    first]
  match first with
  | some err =>
    (some ("failed to disable rp_filter on kube-tunnel-if in the endpoint container: " ++ err),
      t1 ++ [Step.attemptNamespaceResetAfterError hostNetworkNamespaceHandle,
        Step.Close endpointNamespaceHandle])
  | none =>
    let second := h.SetSysctlSingleTemplate t1 dd.IPv4ConfRPFilterTemplate
      assumedContainerIfaceName 0
    let t2 := t1 ++ [Step.SetSysctlSingleTemplate dd.IPv4ConfRPFilterTemplate
      assumedContainerIfaceName 0 second]
    match second with
    | some err =>
      (some ("failed to disable rp_filter on eth0 in the endpoint container: " ++ err),
        t2 ++ [Step.attemptNamespaceResetAfterError hostNetworkNamespaceHandle,
          Step.Close endpointNamespaceHandle])
    | none =>
      let third := h.SetSysctlSingleTemplate t2 dd.IPv4ConfRPFilterTemplate "all" 0
      let t3 := t2 ++ [Step.SetSysctlSingleTemplate dd.IPv4ConfRPFilterTemplate "all" 0 third]
      match third with
      | some err =>
        (some ("failed to disable rp_filter on `all` in the endpoint container: " ++ err),
          t3 ++ [Step.attemptNamespaceResetAfterError hostNetworkNamespaceHandle,
            Step.Close endpointNamespaceHandle])
      | none => configureReturn h t3 endpointNamespaceHandle hostNetworkNamespaceHandle

/-- The tunnel interface is brought up and gets the address, then the writes of
`rp_filter`.  The calls that `ipAddrAdd` makes are steps `kernel`. -/
def configureTunnel {F : Type} (d : ProxyDecls F) (dd : DSRDecls) (k : Kernel) (h : Host)
    (t : List Step) (tunIf : Link) (vip : String) (endpointNamespaceHandle : Nat)
    (hostNetworkNamespaceHandle : Nat) : Option String × List Step :=
  let up := h.LinkSetUp t tunIf
  let t1 := t ++ [Step.LinkSetUp tunIf up]
  match up with
  | some err =>
    (some ("failed to bring up ipip tunnel interface in endpoint namespace due to " ++ err),
      t1 ++ [Step.attemptNamespaceResetAfterError hostNetworkNamespaceHandle,
        Step.Close endpointNamespaceHandle])
  | none =>
    let added := ipAddrAdd d k (kernelCalls t1) tunIf vip "" false
    let t2 := t1 ++ (added.2.drop (kernelCalls t1).length).map Step.kernel
    if added.1 ≠ none ∧ added.1 ≠ some d.IfaceHasAddr then
      (some ("failed to assign vip " ++ vip ++ " to kube-tunnel-if interface"),
        t2 ++ [Step.attemptNamespaceResetAfterError hostNetworkNamespaceHandle,
          Step.Close endpointNamespaceHandle])
    else configureSysctl dd h t2 endpointNamespaceHandle hostNetworkNamespaceHandle

/-- The loop that waits for the tunnel interface, with `more + 1` rounds: the answer of the
last lookup, and the steps.  A round sleeps and looks the interface up; the loop goes on
while the answer is `IfaceNotFound` and rounds are left. -/
def waitForTunnel (dd : DSRDecls) (h : Host) (name : String) :
    Nat → List Step → LinkAnswer × List Step
  | 0, t =>
    let t1 := t ++ [Step.Sleep dd.interfaceWaitSleepTime]
    let found := h.LinkByName t1 name
    (found, t1 ++ [Step.LinkByName name found.link found.err])
  | more + 1, t =>
    let t1 := t ++ [Step.Sleep dd.interfaceWaitSleepTime]
    let found := h.LinkByName t1 name
    let t2 := t1 ++ [Step.LinkByName name found.link found.err]
    match found with
    | LinkAnswer.found _ => (found, t2)
    | LinkAnswer.failed _ err =>
      if err = dd.IfaceNotFound then waitForTunnel dd h name more t2
      else (found, t2)

/-- The name of a link that is to be added. -/
def NewLink.Name : NewLink → String
  | NewLink.Iptun name _ => name
  | NewLink.Ip6tnl name _ => name
  | NewLink.Dummy name => name

/-- The tunnel interface is looked up, and created when it is not found.  The loop of the
source has `tunnelRetries` rounds. -/
def configureLookup {F : Type} (d : ProxyDecls F) (dd : DSRDecls) (k : Kernel) (h : Host)
    (t : List Step) (ipTunLink : NewLink) (vip endpointIP : String)
    (endpointNamespaceHandle : Nat) (hostNetworkNamespaceHandle : Nat) :
    Option String × List Step :=
  let found := h.LinkByName t ipTunLink.Name
  let t1 := t ++ [Step.LinkByName ipTunLink.Name found.link found.err]
  match found with
  | LinkAnswer.found tunIf =>
    configureTunnel d dd k h t1 tunIf vip endpointNamespaceHandle hostNetworkNamespaceHandle
  | LinkAnswer.failed _ err =>
    if err ≠ dd.IfaceNotFound then
      (some ("failed to verify if ipip tunnel interface exists in endpoint " ++ endpointIP ++
        " namespace due to " ++ err),
        t1 ++ [Step.attemptNamespaceResetAfterError hostNetworkNamespaceHandle,
          Step.Close endpointNamespaceHandle])
    else
      let added := h.LinkAdd t1 ipTunLink
      let t2 := t1 ++ [Step.LinkAdd ipTunLink added]
      match added with
      | some addErr =>
        (some ("failed to add ipip tunnel interface in endpoint namespace due to " ++ addErr),
          t2 ++ [Step.attemptNamespaceResetAfterError hostNetworkNamespaceHandle,
            Step.Close endpointNamespaceHandle])
      | none =>
        let waited := waitForTunnel dd h ipTunLink.Name (tunnelRetries - 1) t2
        match waited.1 with
        | LinkAnswer.failed _ waitErr =>
          (some ("failed to get " ++ ipTunLink.Name ++ " tunnel interface handle due to " ++
            waitErr),
            waited.2 ++ [Step.attemptNamespaceResetAfterError hostNetworkNamespaceHandle,
              Step.Close endpointNamespaceHandle])
        | LinkAnswer.found tunIf =>
          configureTunnel d dd k h waited.2 tunIf vip endpointNamespaceHandle
            hostNetworkNamespaceHandle

/-- The method `configureContainerForDSR`: the error it returns and the steps made, after the
steps `t`. -/
def configureContainerForDSR {F : Type} (d : ProxyDecls F) (dd : DSRDecls) (k : Kernel)
    (h : Host) (t : List Step) (vip endpointIP containerID : String) (pid : Int)
    (hostNetworkNamespaceHandle : Nat) : Option String × List Step :=
  if ParseIP endpointIP = [] then (some ("failed to parse endpoint IP " ++ endpointIP), t)
  else
    let ipTunLink :=
      if IP.To4 (ParseIP endpointIP) ≠ [] then NewLink.Iptun dd.KubeTunnelIfv4 (ParseIP endpointIP)
      else NewLink.Ip6tnl dd.KubeTunnelIfv6 (ParseIP endpointIP)
    let endpoint := h.GetFromPid t pid
    let t1 := t ++ [Step.GetFromPid pid endpoint.1 endpoint.2]
    match endpoint.2 with
    | some err =>
      (some ("failed to get endpoint namespace (containerID=" ++ containerID ++ ", pid=" ++
        Itoa pid ++ ", error=" ++ err ++ ")"), t1)
    | none =>
      let set := h.NetnsSet t1 endpoint.1
      let t2 := t1 ++ [Step.NetnsSet endpoint.1 set]
      match set with
      | some err =>
        (some ("failed to enter endpoint namespace (containerID=" ++ containerID ++ ", pid=" ++
          Itoa pid ++ ", error=" ++ err ++ ")"), t2 ++ [Step.Close endpoint.1])
      | none =>
        let active := h.NetnsGet t2
        let t3 := t2 ++ [Step.NetnsGet active.1 active.2]
        match active.2 with
        | some err =>
          (some ("failed to get activeNetworkNamespace due to " ++ err),
            t3 ++ [Step.Close endpoint.1])
        | none =>
          configureLookup d dd k h (t3 ++ [Step.Close active.1]) ipTunLink vip endpointIP
            endpoint.1 hostNetworkNamespaceHandle

/-! ## Words for the claims about `configureContainerForDSR` -/

/-- A step of the wait for the tunnel interface that does not end the wait: a sleep, or a
lookup that does not find the interface. -/
def isWaitStep (dd : DSRDecls) (name : String) : Step → Bool
  | Step.Sleep duration => duration == dd.interfaceWaitSleepTime
  | Step.LinkByName n _ err => n == name && err == some dd.IfaceNotFound
  | _ => false

/-- The steps find the tunnel interface `tunIf`, or create it and find it then: one lookup
that succeeds; or a lookup that does not find the interface, the addition of the link, and
sleeps and lookups of which the last lookup, and only that, succeeds. -/
def TunnelFoundOrCreated (dd : DSRDecls) (ipTunLink : NewLink) (tunIf : Link)
    (steps : List Step) : Prop :=
  steps = [Step.LinkByName ipTunLink.Name (some tunIf) none] ∨
  ∃ (first : Option Link) (waits : List Step),
    steps = [Step.LinkByName ipTunLink.Name first (some dd.IfaceNotFound),
        Step.LinkAdd ipTunLink none] ++ waits ++
      [Step.Sleep dd.interfaceWaitSleepTime,
        Step.LinkByName ipTunLink.Name (some tunIf) none] ∧
    ∀ s ∈ waits, isWaitStep dd ipTunLink.Name s = true

/-- The link that `configureContainerForDSR` adds for an endpoint. -/
def tunnelLink (dd : DSRDecls) (endpointIP : String) : NewLink :=
  if IP.To4 (ParseIP endpointIP) ≠ [] then NewLink.Iptun dd.KubeTunnelIfv4 (ParseIP endpointIP)
  else NewLink.Ip6tnl dd.KubeTunnelIfv6 (ParseIP endpointIP)

/-- The address that `ipAddrAdd` adds for a virtual address. -/
def vipAddr (vip : String) : Addr :=
  Addr.mk (ParseIP vip)
    (if IP.To4 (ParseIP vip) ≠ [] then fullMask ipv4NetMaskBits else fullMask ipv6NetMaskBits)
    RT_SCOPE_LINK

/-- A host in which everything succeeds and the tunnel interface exists. -/
def exampleHost : Host where
  GetFromPid := fun _ _ => (3, none)
  NetnsSet := fun _ _ => none
  NetnsGet := fun _ => (4, none)
  LinkByName := fun _ name => LinkAnswer.found (Link.mk name 9)
  LinkAdd := fun _ _ => none
  LinkSetUp := fun _ _ => none
  SetSysctlSingleTemplate := fun _ _ _ _ => none
  ReadFile := fun _ _ => ("", some "no such file or directory")
  ReadDir := fun _ _ => ([], none)
  RouteTableAdd := fun _ _ _ => none
  ipCommand := fun _ _ _ => ("", none)
  rangeServices := fun _ svcs => svcs

/-- A host in which the handle of the active namespace cannot be got. -/
def exampleNoHandleHost : Host where
  GetFromPid := fun _ _ => (3, none)
  NetnsSet := fun _ _ => none
  NetnsGet := fun _ => (0, some "too many open files")
  LinkByName := fun _ name => LinkAnswer.found (Link.mk name 9)
  LinkAdd := fun _ _ => none
  LinkSetUp := fun _ _ => none
  SetSysctlSingleTemplate := fun _ _ _ _ => none
  ReadFile := fun _ _ => ("", some "no such file or directory")
  ReadDir := fun _ _ => ([], none)
  RouteTableAdd := fun _ _ _ => none
  ipCommand := fun _ _ _ => ("", none)
  rangeServices := fun _ svcs => svcs

/-- A host in which the tunnel interface cannot be brought up. -/
def exampleDownHost : Host where
  GetFromPid := fun _ _ => (3, none)
  NetnsSet := fun _ _ => none
  NetnsGet := fun _ => (4, none)
  LinkByName := fun _ name => LinkAnswer.found (Link.mk name 9)
  LinkAdd := fun _ _ => none
  LinkSetUp := fun _ _ => some "operation not permitted"
  SetSysctlSingleTemplate := fun _ _ _ _ => none
  ReadFile := fun _ _ => ("", some "no such file or directory")
  ReadDir := fun _ _ => ([], none)
  RouteTableAdd := fun _ _ _ => none
  ipCommand := fun _ _ _ => ("", none)
  rangeServices := fun _ svcs => svcs

/-- A host in which the tunnel interface is not found until a link has been added. -/
def exampleCreateHost : Host where
  GetFromPid := fun _ _ => (3, none)
  NetnsSet := fun _ _ => none
  NetnsGet := fun _ => (4, none)
  LinkByName := fun t name =>
    if t.any (fun s => match s with
      | Step.LinkAdd _ _ => true
      | _ => false) then LinkAnswer.found (Link.mk name 9)
    else LinkAnswer.failed none "Link not found"
  LinkAdd := fun _ _ => none
  LinkSetUp := fun _ _ => none
  SetSysctlSingleTemplate := fun _ _ _ _ => none
  ReadFile := fun _ _ => ("", some "no such file or directory")
  ReadDir := fun _ _ => ([], none)
  RouteTableAdd := fun _ _ _ => none
  ipCommand := fun _ _ _ => ("", none)
  rangeServices := fun _ svcs => svcs

/-- The steps end with the attempt to go back to the namespace of the host and the deferred
close of the handle of the endpoint. -/
def EndsWithReset (host endpoint : Nat) (steps : List Step) : Prop :=
  ∃ before, steps = before ++ [Step.attemptNamespaceResetAfterError host, Step.Close endpoint]

/-- The steps end with a failure on the way back to the namespace of the host: the switch
fails, or the handle of the active namespace cannot be got after it. -/
def FailsOnReturn (host endpoint : Nat) (steps : List Step) : Prop :=
  ∃ before, (∃ e, steps = before ++ [Step.NetnsSet host (some e), Step.Close endpoint]) ∨
    ∃ back e, steps = before ++ [Step.NetnsSet host none, Step.NetnsGet back (some e),
      Step.Close endpoint]

/-- A host in which no link can be looked up: every lookup fails with an error that is not
`IfaceNotFound`, and with the `nil` link. -/
def exampleNoLookupHost : Host where
  GetFromPid := fun _ _ => (3, none)
  NetnsSet := fun _ _ => none
  NetnsGet := fun _ => (4, none)
  LinkByName := fun _ _ => LinkAnswer.failed none "operation not permitted"
  LinkAdd := fun _ _ => none
  LinkSetUp := fun _ _ => none
  SetSysctlSingleTemplate := fun _ _ _ _ => none
  ReadFile := fun _ _ => ("", some "no such file or directory")
  ReadDir := fun _ _ => ([], none)
  RouteTableAdd := fun _ _ _ => none
  ipCommand := fun _ _ _ => ("", none)
  rangeServices := fun _ svcs => svcs

/-! ## linux_networking.go: `setupRoutesForExternalIPForDSR` -/

/-- The arguments of the command that adds the route of an external address. -/
def routeAddArgs (dd : DSRDecls) (externalIP : String) : List String :=
  ["route", "add", externalIP, "dev", "kube-bridge", "table", dd.externalIPRouteTableID]

/-- The arguments of the command that deletes a route, given the fields of its line. -/
def routeDelArgs (dd : DSRDecls) (route : List String) : List String :=
  ["route", "del", "table", dd.externalIPRouteTableID] ++ route

/-- The inner loop of the closure `setupIPRulesAndRoutes`, over the external addresses of one
service.  The state is the map `activeExternalIPs`, as the list of its keys, and the
steps. -/
def addRoutesOfService (dd : DSRDecls) (h : Host) (ipArgs : List String) (outStr : String)
    (svc : serviceInfo) : List String → List String × List Step → List String × List Step
  | [], state => state
  | externalIP :: externalIPs, (activeExternalIPs, t) =>
    if !svc.directServerReturn then
      addRoutesOfService dd h ipArgs outStr svc externalIPs (activeExternalIPs, t)
    else if !stringsContains outStr externalIP then
      let run := h.ipCommand t ipArgs (routeAddArgs dd externalIP)
      addRoutesOfService dd h ipArgs outStr svc externalIPs
        (activeExternalIPs ++ [externalIP],
          t ++ [Step.ipCommand ipArgs (routeAddArgs dd externalIP) run.1 run.2])
    else
      addRoutesOfService dd h ipArgs outStr svc externalIPs
        (activeExternalIPs ++ [externalIP], t)

/-- The outer loop of the closure `setupIPRulesAndRoutes`, over the services in the order of
the `range`. -/
def addRoutes (dd : DSRDecls) (h : Host) (ipArgs : List String) (outStr : String) :
    List serviceInfo → List String × List Step → List String × List Step
  | [], state => state
  | svc :: svcs, state =>
    addRoutes dd h ipArgs outStr svcs
      (addRoutesOfService dd h ipArgs outStr svc svc.externalIPs state)

/-- The loop of the closure `setupIPRulesAndRoutes` over the lines of the listing. -/
def delRoutes (dd : DSRDecls) (h : Host) (ipArgs : List String)
    (activeExternalIPs : List String) : List String → List Step → List Step
  | [], t => t
  | line :: lines, t =>
    let route := stringsSplitChar (stringsTrimChar line ' ') ' '
    let ip := route.headD ""
    if ip ∉ activeExternalIPs then
      let run := h.ipCommand t ipArgs (routeDelArgs dd route)
      delRoutes dd h ipArgs activeExternalIPs lines
        (t ++ [Step.ipCommand ipArgs (routeDelArgs dd route) run.1 run.2])
    else delRoutes dd h ipArgs activeExternalIPs lines t

/-- The part of the closure `setupIPRulesAndRoutes` after the rule: the table is listed, the
routes are added, and the routes of the listing are cleaned up.  The error of the listing is
not read. -/
def setupRoutes (dd : DSRDecls) (h : Host) (t : List Step) (serviceInfoMap : List serviceInfo)
    (ipArgs : List String) : Option String × List Step :=
  let listed := h.ipCommand t ipArgs ["route", "list", "table", dd.externalIPRouteTableID]
  let t1 := t ++ [Step.ipCommand ipArgs ["route", "list", "table", dd.externalIPRouteTableID]
    listed.1 listed.2]
  let outStr := listed.1
  let added := addRoutes dd h ipArgs outStr (h.rangeServices t1 serviceInfoMap) ([], t1)
  if outStr.length > 0 then
    (none, delRoutes dd h ipArgs added.1
      (stringsSplitChar (stringsTrimChar outStr '\n') '\n') added.2)
  else (none, added.2)

/-- The closure `setupIPRulesAndRoutes` of `setupRoutesForExternalIPForDSR`. -/
def setupIPRulesAndRoutes (dd : DSRDecls) (h : Host) (t : List Step)
    (serviceInfoMap : List serviceInfo) (ipArgs : List String) : Option String × List Step :=
  let rules := h.ipCommand t ipArgs ["rule", "list"]
  let t1 := t ++ [Step.ipCommand ipArgs ["rule", "list"] rules.1 rules.2]
  match rules.2 with
  | some err =>
    (some ("failed to verify if `ip rule add prio 32765 from all lookup external_ip` exists " ++
      "due to: " ++ err), t1)
  | none =>
    if (!stringsContains rules.1 dd.externalIPRouteTableName) &&
        (!stringsContains rules.1 dd.externalIPRouteTableID) then
      let ruleArgs := ["rule", "add", "prio", "32765", "from", "all", "lookup",
        dd.externalIPRouteTableID]
      let run := h.ipCommand t1 ipArgs ruleArgs
      let t2 := t1 ++ [Step.ipCommand ipArgs ruleArgs run.1 run.2]
      match run.2 with
      | some err =>
        (some ("failed to add policy rule `ip rule add prio 32765 from all lookup " ++
          "external_ip` due to " ++ err), t2)
      | none => setupRoutes dd h t2 serviceInfoMap ipArgs
    else setupRoutes dd h t1 serviceInfoMap ipArgs

/-- The method `setupRoutesForExternalIPForDSR`: the error it returns and the steps made.
The map `serviceInfoMap` is the list of its values. -/
def setupRoutesForExternalIPForDSR (dd : DSRDecls) (h : Host) (t : List Step)
    (serviceInfoMap : List serviceInfo) (setupIPv4 setupIPv6 : Bool) :
    Option String × List Step :=
  let added := h.RouteTableAdd t dd.externalIPRouteTableID dd.externalIPRouteTableName
  let t1 := t ++ [Step.RouteTableAdd dd.externalIPRouteTableID dd.externalIPRouteTableName
    added]
  match added with
  | some err => (some ("failed to setup policy routing required for DSR due to " ++ err), t1)
  | none =>
    let v4 := if setupIPv4 then setupIPRulesAndRoutes dd h t1 serviceInfoMap [] else (none, t1)
    match v4.1 with
    | some err => (some err, v4.2)
    | none =>
      if setupIPv6 then setupIPRulesAndRoutes dd h v4.2 serviceInfoMap ["-6"]
      else (none, v4.2)

/-! ## Words for the claims about the routes of the external addresses -/

/-- The external addresses of the services with direct server return, in the order of the
services given. -/
def dsrExternalIPs (svcs : List serviceInfo) : List String :=
  (svcs.filter (fun svc => svc.directServerReturn)).flatMap (fun svc => svc.externalIPs)

/-- The lines of a listing of routes that the cleanup reads. -/
def routeLines (outStr : String) : List String :=
  if outStr.length > 0 then stringsSplitChar (stringsTrimChar outStr '\n') '\n' else []

/-- The fields of a line of a listing. -/
def routeFields (line : String) : List String :=
  stringsSplitChar (stringsTrimChar line ' ') ' '

/-- The destination of a line of a listing: its first field. -/
def routeDestination (line : String) : String :=
  (routeFields line).headD ""

/-- The command of a step that is a command `ip`: the arguments of the family and the other
arguments. -/
def Step.command : Step → Option (List String × List String)
  | Step.ipCommand ipArgs args _ _ => some (ipArgs, args)
  | _ => none

/-- A host with the rule of the table of the external addresses and one route in that table,
to `10.0.0.10`. -/
def exampleRouteHost : Host where
  GetFromPid := fun _ _ => (3, none)
  NetnsSet := fun _ _ => none
  NetnsGet := fun _ => (4, none)
  LinkByName := fun _ name => LinkAnswer.found (Link.mk name 9)
  LinkAdd := fun _ _ => none
  LinkSetUp := fun _ _ => none
  SetSysctlSingleTemplate := fun _ _ _ _ => none
  ReadFile := fun _ _ => ("", some "no such file or directory")
  ReadDir := fun _ _ => ([], none)
  RouteTableAdd := fun _ _ _ => none
  ipCommand := fun _ _ args =>
    if args = ["rule", "list"] then
      ("0:\tfrom all lookup local\n32765:\tfrom all lookup external_ip\n", none)
    else if args = ["route", "list", "table", "79"] then
      ("10.0.0.10 dev kube-bridge scope link \n", none)
    else ("", none)
  rangeServices := fun _ svcs => svcs

/-- A host with the rule of the table of the external addresses and two routes in that
table, to `198.51.100.7` and to `198.51.100.9`. -/
def exampleStaleRouteHost : Host where
  GetFromPid := fun _ _ => (3, none)
  NetnsSet := fun _ _ => none
  NetnsGet := fun _ => (4, none)
  LinkByName := fun _ name => LinkAnswer.found (Link.mk name 9)
  LinkAdd := fun _ _ => none
  LinkSetUp := fun _ _ => none
  SetSysctlSingleTemplate := fun _ _ _ _ => none
  ReadFile := fun _ _ => ("", some "no such file or directory")
  ReadDir := fun _ _ => ([], none)
  RouteTableAdd := fun _ _ _ => none
  ipCommand := fun _ _ args =>
    if args = ["rule", "list"] then
      ("0:\tfrom all lookup local\n32765:\tfrom all lookup external_ip\n", none)
    else if args = ["route", "list", "table", "79"] then
      ("198.51.100.7 dev kube-bridge scope link \n198.51.100.9 dev kube-bridge scope link \n",
        none)
    else ("", none)
  rangeServices := fun _ svcs => svcs

/-- Two services with direct server return, with the external addresses `10.0.0.1` and
`10.0.0.10`, and a service without it, with the external address `10.0.0.77`. -/
def exampleServiceInfoMap : List serviceInfo :=
  [serviceInfo.mk "web" "default" ["10.0.0.1"] true,
    serviceInfo.mk "api" "default" ["10.0.0.10"] true,
    serviceInfo.mk "db" "default" ["10.0.0.77"] false]

/-- A service with direct server return and the external addresses `198.51.100.7` and
`198.51.100.8`. -/
def exampleDSRServiceInfoMap : List serviceInfo :=
  [serviceInfo.mk "web" "default" ["198.51.100.7", "198.51.100.8"] true,
    serviceInfo.mk "db" "default" ["198.51.100.9"] false]

/-! ## options.go -/

/-- The constant `time.Second`, in nanoseconds. -/
def Second : Int := 1000000000

/-- The constant `time.Minute`, in nanoseconds. -/
def Minute : Int := 60 * Second

def DefaultBgpPort : Nat := 179

def DefaultBgpHoldTime : Int := 90 * Second

def defaultHealthCheckPort : Nat := 20244

def defaultOverlayTunnelEncapPort : Nat := 5555

def defaultGoBGPAdminPort : Nat := 50051

/-- The struct `KubeRouterConfig`.  A `time.Duration` is a number of nanoseconds, and a `nil`
slice is the empty list. -/
structure KubeRouterConfig where
  AdvertiseClusterIP : Bool
  AdvertiseExternalIP : Bool
  AdvertiseLoadBalancerIP : Bool
  AdvertiseNodePodCidr : Bool
  AutoMTU : Bool
  BGPGracefulRestart : Bool
  BGPGracefulRestartDeferralTime : Int
  BGPGracefulRestartTime : Int
  BGPHoldTime : Int
  BGPPort : Nat
  CacheSyncTimeout : Int
  CleanupConfig : Bool
  ClusterAsn : Nat
  ClusterIPCIDRs : List String
  DisableSrcDstCheck : Bool
  EnableCNI : Bool
  EnableiBGP : Bool
  EnableIPv4 : Bool
  EnableIPv6 : Bool
  EnableOverlay : Bool
  EnablePodEgress : Bool
  EnablePprof : Bool
  ExcludedCidrs : List String
  ExternalIPCIDRs : List String
  FullMeshMode : Bool
  GlobalHairpinMode : Bool
  GoBGPAdminPort : Nat
  HealthPort : Nat
  HelpRequested : Bool
  HostnameOverride : String
  InjectedRoutesSyncPeriod : Int
  IPTablesSyncPeriod : Int
  IpvsGracefulPeriod : Int
  IpvsGracefulTermination : Bool
  IpvsPermitAll : Bool
  IpvsSyncPeriod : Int
  Kubeconfig : String
  LoadBalancerCIDRs : List String
  LoadBalancerDefaultClass : Bool
  LoadBalancerSyncPeriod : Int
  MasqueradeAll : Bool
  Master : String
  MetricsEnabled : Bool
  MetricsPath : String
  MetricsPort : Nat
  MetricsAddr : String
  NodePortBindOnAllIP : Bool
  NodePortRange : String
  OverlayType : String
  OverlayEncap : String
  OverlayEncapPort : Nat
  OverrideNextHop : Bool
  PeerASNs : List Nat
  PeerMultihopTTL : Nat
  PeerPasswords : List String
  PeerPasswordsFile : String
  PeerPorts : List Nat
  PeerRouters : List IP
  RouterID : String
  RoutesSyncPeriod : Int
  RunFirewall : Bool
  RunRouter : Bool
  RunServiceProxy : Bool
  RunLoadBalancer : Bool
  RuntimeEndpoint : String
  ServiceTCPTimeout : Int
  ServiceTCPFinTimeout : Int
  ServiceUDPTimeout : Int
  Version : Bool
  VLevel : String

/-- The function `NewKubeRouterConfig`.  The fields that the source does not name have the
zero value of their type. -/
def NewKubeRouterConfig : KubeRouterConfig where
  AdvertiseClusterIP := false
  AdvertiseExternalIP := false
  AdvertiseLoadBalancerIP := false
  AdvertiseNodePodCidr := false
  AutoMTU := false
  BGPGracefulRestart := false
  BGPGracefulRestartDeferralTime := 360 * Second
  BGPGracefulRestartTime := 90 * Second
  BGPHoldTime := 90 * Second
  BGPPort := 0
  CacheSyncTimeout := 1 * Minute
  CleanupConfig := false
  ClusterAsn := 0
  ClusterIPCIDRs := ["10.96.0.0/12"]
  DisableSrcDstCheck := false
  EnableCNI := false
  EnableiBGP := false
  EnableIPv4 := false
  EnableIPv6 := false
  EnableOverlay := true
  EnablePodEgress := false
  EnablePprof := false
  ExcludedCidrs := []
  ExternalIPCIDRs := []
  FullMeshMode := false
  GlobalHairpinMode := false
  GoBGPAdminPort := 0
  HealthPort := 0
  HelpRequested := false
  HostnameOverride := ""
  InjectedRoutesSyncPeriod := 60 * Second
  IPTablesSyncPeriod := 5 * Minute
  IpvsGracefulPeriod := 30 * Second
  IpvsGracefulTermination := false
  IpvsPermitAll := false
  IpvsSyncPeriod := 5 * Minute
  Kubeconfig := ""
  LoadBalancerCIDRs := []
  LoadBalancerDefaultClass := false
  LoadBalancerSyncPeriod := Minute
  MasqueradeAll := false
  Master := ""
  MetricsEnabled := false
  MetricsPath := ""
  MetricsPort := 0
  MetricsAddr := ""
  NodePortBindOnAllIP := false
  NodePortRange := "30000-32767"
  OverlayType := "subnet"
  OverlayEncap := ""
  OverlayEncapPort := 0
  OverrideNextHop := false
  PeerASNs := []
  PeerMultihopTTL := 0
  PeerPasswords := []
  PeerPasswordsFile := ""
  PeerPorts := []
  PeerRouters := []
  RouterID := ""
  RoutesSyncPeriod := 5 * Minute
  RunFirewall := false
  RunRouter := false
  RunServiceProxy := false
  RunLoadBalancer := false
  RuntimeEndpoint := ""
  ServiceTCPTimeout := 0 * Second
  ServiceTCPFinTimeout := 0 * Second
  ServiceUDPTimeout := 0 * Second
  Version := false
  VLevel := ""

/-- A flag of a `pflag.FlagSet`: its name and its shorthand. -/
structure Flag where
  Name : String
  Shorthand : String
  deriving DecidableEq, Repr

/-- A `pflag.FlagSet`: the flags added to it, in the order in which they were added. -/
abbrev FlagSet := List Flag

/-- The method `AddFlag` of a `pflag.FlagSet`, which every `Var` method ends with: `none`
when it panics, because the name is defined already, the shorthand is longer than one
character, or the shorthand is used already. -/
def FlagSet.AddFlag (fs : FlagSet) (name shorthand : String) : Option FlagSet :=
  if fs.any (fun f => f.Name == name) then none
  else if shorthand = "" then some (fs ++ [Flag.mk name shorthand])
  else if shorthand.length > 1 then none
  else if fs.any (fun f => f.Shorthand == shorthand) then none
  else some (fs ++ [Flag.mk name shorthand])

/-- One call `fs.XxxVar(&s.F, name, value, usage)` or `fs.XxxVarP(&s.F, name, shorthand,
value, usage)` of `AddFlags`: the value is stored in the field, and a flag with the name and
the shorthand is added.  The usage text is left out. -/
structure FlagCall where
  store : KubeRouterConfig → KubeRouterConfig
  name : String
  shorthand : String

/-- The calls of `AddFlags`, in the order of the source. -/
def flagCalls : List FlagCall :=
  [FlagCall.mk (fun s => { s with AdvertiseClusterIP := false }) "advertise-cluster-ip" "",
    FlagCall.mk (fun s => { s with AdvertiseExternalIP := false }) "advertise-external-ip" "",
    FlagCall.mk (fun s => { s with AdvertiseLoadBalancerIP := false })
      "advertise-loadbalancer-ip" "",
    FlagCall.mk (fun s => { s with AdvertiseNodePodCidr := true }) "advertise-pod-cidr" "",
    FlagCall.mk (fun s => { s with AutoMTU := true }) "auto-mtu" "",
    FlagCall.mk (fun s => { s with BGPGracefulRestart := false }) "bgp-graceful-restart" "",
    FlagCall.mk (fun s => { s with BGPGracefulRestartDeferralTime :=
      s.BGPGracefulRestartDeferralTime })
      "bgp-graceful-restart-deferral-time" "",
    FlagCall.mk (fun s => { s with BGPGracefulRestartTime := s.BGPGracefulRestartTime })
      "bgp-graceful-restart-time" "",
    FlagCall.mk (fun s => { s with BGPHoldTime := DefaultBgpHoldTime }) "bgp-holdtime" "",
    FlagCall.mk (fun s => { s with BGPPort := DefaultBgpPort }) "bgp-port" "",
    FlagCall.mk (fun s => { s with CacheSyncTimeout := s.CacheSyncTimeout })
      "cache-sync-timeout" "",
    FlagCall.mk (fun s => { s with CleanupConfig := false }) "cleanup-config" "",
    FlagCall.mk (fun s => { s with ClusterAsn := s.ClusterAsn }) "cluster-asn" "",
    FlagCall.mk (fun s => { s with DisableSrcDstCheck := true }) "disable-source-dest-check" "",
    FlagCall.mk (fun s => { s with EnableCNI := true }) "enable-cni" "",
    FlagCall.mk (fun s => { s with EnableiBGP := true }) "enable-ibgp" "",
    FlagCall.mk (fun s => { s with EnableIPv4 := true }) "enable-ipv4" "",
    FlagCall.mk (fun s => { s with EnableIPv6 := false }) "enable-ipv6" "",
    FlagCall.mk (fun s => { s with EnableOverlay := true }) "enable-overlay" "",
    FlagCall.mk (fun s => { s with EnablePodEgress := true }) "enable-pod-egress" "",
    FlagCall.mk (fun s => { s with EnablePprof := false }) "enable-pprof" "",
    FlagCall.mk (fun s => { s with ExcludedCidrs := s.ExcludedCidrs }) "excluded-cidrs" "",
    FlagCall.mk (fun s => { s with GlobalHairpinMode := false }) "hairpin-mode" "",
    FlagCall.mk (fun s => { s with GoBGPAdminPort := defaultGoBGPAdminPort }) "gobgp-admin-port" "",
    FlagCall.mk (fun s => { s with HealthPort := defaultHealthCheckPort }) "health-port" "",
    FlagCall.mk (fun s => { s with HelpRequested := false }) "help" "h",
    FlagCall.mk (fun s => { s with HostnameOverride := s.HostnameOverride }) "hostname-override" "",
    FlagCall.mk (fun s => { s with InjectedRoutesSyncPeriod := s.InjectedRoutesSyncPeriod })
      "injected-routes-sync-period" "",
    FlagCall.mk (fun s => { s with IPTablesSyncPeriod := s.IPTablesSyncPeriod })
      "iptables-sync-period" "",
    FlagCall.mk (fun s => { s with IpvsGracefulPeriod := s.IpvsGracefulPeriod })
      "ipvs-graceful-period" "",
    FlagCall.mk (fun s => { s with IpvsGracefulTermination := false })
      "ipvs-graceful-termination" "",
    FlagCall.mk (fun s => { s with IpvsPermitAll := true }) "ipvs-permit-all" "",
    FlagCall.mk (fun s => { s with IpvsSyncPeriod := s.IpvsSyncPeriod }) "ipvs-sync-period" "",
    FlagCall.mk (fun s => { s with Kubeconfig := s.Kubeconfig }) "kubeconfig" "",
    FlagCall.mk (fun s => { s with LoadBalancerDefaultClass := true })
      "loadbalancer-default-class" "",
    FlagCall.mk (fun s => { s with LoadBalancerCIDRs := s.LoadBalancerCIDRs })
      "loadbalancer-ip-range" "",
    FlagCall.mk (fun s => { s with LoadBalancerSyncPeriod := s.LoadBalancerSyncPeriod })
      "loadbalancer-sync-period" "",
    FlagCall.mk (fun s => { s with MasqueradeAll := false }) "masquerade-all" "",
    FlagCall.mk (fun s => { s with Master := s.Master }) "master" "",
    FlagCall.mk (fun s => { s with MetricsPath := "/metrics" }) "metrics-path" "",
    FlagCall.mk (fun s => { s with MetricsPort := 0 }) "metrics-port" "",
    FlagCall.mk (fun s => { s with MetricsAddr := "" }) "metrics-addr" "",
    FlagCall.mk (fun s => { s with NodePortBindOnAllIP := false }) "nodeport-bindon-all-ip" "",
    FlagCall.mk (fun s => { s with FullMeshMode := true }) "nodes-full-mesh" "",
    FlagCall.mk (fun s => { s with OverlayEncap := "ipip" }) "overlay-encap" "",
    FlagCall.mk (fun s => { s with OverlayEncapPort := defaultOverlayTunnelEncapPort })
      "overlay-encap-port" "",
    FlagCall.mk (fun s => { s with OverlayType := s.OverlayType }) "overlay-type" "",
    FlagCall.mk (fun s => { s with OverrideNextHop := false }) "override-nexthop" "",
    FlagCall.mk (fun s => { s with PeerASNs := s.PeerASNs }) "peer-router-asns" "",
    FlagCall.mk (fun s => { s with PeerRouters := s.PeerRouters }) "peer-router-ips" "",
    FlagCall.mk (fun s => { s with PeerMultihopTTL := s.PeerMultihopTTL })
      "peer-router-multihop-ttl" "",
    FlagCall.mk (fun s => { s with PeerPasswords := s.PeerPasswords }) "peer-router-passwords" "",
    FlagCall.mk (fun s => { s with PeerPasswordsFile := s.PeerPasswordsFile })
      "peer-router-passwords-file" "",
    FlagCall.mk (fun s => { s with PeerPorts := s.PeerPorts }) "peer-router-ports" "",
    FlagCall.mk (fun s => { s with RouterID := "" }) "router-id" "",
    FlagCall.mk (fun s => { s with RoutesSyncPeriod := s.RoutesSyncPeriod })
      "routes-sync-period" "",
    FlagCall.mk (fun s => { s with RunFirewall := true }) "run-firewall" "",
    FlagCall.mk (fun s => { s with RunLoadBalancer := false }) "run-loadbalancer" "",
    FlagCall.mk (fun s => { s with RunRouter := true }) "run-router" "",
    FlagCall.mk (fun s => { s with RunServiceProxy := true }) "run-service-proxy" "",
    FlagCall.mk (fun s => { s with RuntimeEndpoint := "" }) "runtime-endpoint" "",
    FlagCall.mk (fun s => { s with ClusterIPCIDRs := s.ClusterIPCIDRs })
      "service-cluster-ip-range" "",
    FlagCall.mk (fun s => { s with ExternalIPCIDRs := s.ExternalIPCIDRs })
      "service-external-ip-range" "",
    FlagCall.mk (fun s => { s with NodePortRange := s.NodePortRange }) "service-node-port-range" "",
    FlagCall.mk (fun s => { s with ServiceTCPTimeout := s.ServiceTCPTimeout })
      "service-tcp-timeout" "",
    FlagCall.mk (fun s => { s with ServiceTCPFinTimeout := s.ServiceTCPFinTimeout })
      "service-tcpfin-timeout" "",
    FlagCall.mk (fun s => { s with ServiceUDPTimeout := s.ServiceUDPTimeout })
      "service-udp-timeout" "",
    FlagCall.mk (fun s => { s with VLevel := "0" }) "v" "v",
    FlagCall.mk (fun s => { s with Version := false }) "version" "V"]

/-- The calls of `AddFlags` one after the other: `none` when a call panics. -/
def runFlagCalls : List FlagCall → KubeRouterConfig → FlagSet →
    Option (KubeRouterConfig × FlagSet)
  | [], s, fs => some (s, fs)
  | call :: calls, s, fs =>
    match fs.AddFlag call.name call.shorthand with
    | none => none
    | some added => runFlagCalls calls (call.store s) added

/-- The method `AddFlags`: the configuration and the flag set after it, or `none` when it
panics. -/
def AddFlags (s : KubeRouterConfig) (fs : FlagSet) : Option (KubeRouterConfig × FlagSet) :=
  runFlagCalls flagCalls s fs

/-! ## Words for the claim about the order of a pod chain -/

/-- A line that inserts a rule at the head of `chain`: it starts with `-I`, the chain, the
position 1 and a blank. -/
def insertsInto (chain line : String) : Bool :=
  ("-I " ++ chain ++ " 1 ").data.isPrefixOf line.data

/-- The rules of `chain` after the lines of a buffer are read one after the other, from an
empty chain: a line with `-I chain 1` puts its rule at the head of the chain, a line with
`-A chain` puts its rule at the end.  A rule is named by its line. -/
def iptablesChain (chain : String) (buf : Buffer) : List String :=
  buf.foldl (fun rules line =>
    if insertsInto chain line then line :: rules
    else if appendsTo chain line then rules ++ [line]
    else rules) []

/-- The rules of the chain of a pod in the order of the specification: the rule for related
and established connections, the rule for invalid ones, the rule for traffic from the node,
the jumps to the chains of the policies, the jumps to the default chain, and the four
appended rules. -/
def specChainRules (d : Decls) (pod : podInfo) (podFwChainName : String)
    (networkPoliciesInfo : List networkPolicyInfo) (version : String) (ipFamily : IPFamily)
    (ip : String) : List String :=
  [statefulAcceptRule podFwChainName, invalidDropRule podFwChainName,
    localAcceptRule podFwChainName ip] ++
    policyJumpRules d pod podFwChainName version ipFamily ip networkPoliciesInfo ++
    defaultJumpRules pod podFwChainName ip networkPoliciesInfo ++
    [nflogRule pod podFwChainName, rejectRule pod podFwChainName,
      markClearRule podFwChainName, markAcceptRule podFwChainName]

/-- The rules of the chain of a pod in the order that the lines of the source give: the rule
for related and established connections, the rule for invalid ones, the rule for traffic
from the node, the jumps to the default chain, for traffic from the pod first, the jumps to
the chains of the policies, the last policy of the list first, and the four appended
rules. -/
def podChainRules (d : Decls) (pod : podInfo) (podFwChainName : String)
    (networkPoliciesInfo : List networkPolicyInfo) (version : String) (ipFamily : IPFamily)
    (ip : String) : List String :=
  [statefulAcceptRule podFwChainName, invalidDropRule podFwChainName,
    localAcceptRule podFwChainName ip] ++
    (defaultJumpRules pod podFwChainName ip networkPoliciesInfo).reverse ++
    (policyJumpRules d pod podFwChainName version ipFamily ip networkPoliciesInfo).reverse ++
    [nflogRule pod podFwChainName, rejectRule pod podFwChainName,
      markClearRule podFwChainName, markAcceptRule podFwChainName]

/-! ## Words for the claim about the jumps to the policy chains -/

/-- A line whose rule jumps to `chain`: it ends with `-j`, the chain, a blank and a
newline. -/
def jumpsTo (chain line : String) : Bool :=
  (" -j " ++ chain ++ " \n").data.isSuffixOf line.data

/-- The policy is one of those for which `setupPodNetpolRules` writes a jump, and the jump
goes to `chain`. -/
def jumpsToChain (d : Decls) (pod : podInfo) (version : String) (ipFamily : IPFamily)
    (chain : String) (policy : networkPolicyInfo) : Bool :=
  mapHasKey policy.targetPods pod.ip &&
    decide (d.networkPolicyChainName policy.namespace_ policy.name version ipFamily = chain)

/-- An ingress policy `web` of the namespace `team-a` that targets `examplePod`. -/
def exampleTeamPolicy : networkPolicyInfo where
  name := "web"
  namespace_ := "team-a"
  policyType := PolicyType.kubeIngressPolicyType
  targetPods := [("10.0.0.5", examplePodInfo)]

/-- An egress policy `a-web` of the namespace `team` that targets no pod.  With the chain
names of `exampleDecls` its chain has the name of the chain of `exampleTeamPolicy`. -/
def exampleOtherPolicy : networkPolicyInfo where
  name := "a-web"
  namespace_ := "team"
  policyType := PolicyType.kubeEgressPolicyType
  targetPods := []

/-! ## Theorems -/

theorem stringBytes_append (a b : String) :
    stringBytes (a ++ b) = stringBytes a ++ stringBytes b := by
  simp [stringBytes, String.data_append, List.flatMap_append]

theorem Base32.digit_alphabet (n : Nat) :
    Base32.isAlphabetChar (Base32.digit n) = true ∧ Base32.digit n ≠ '=' := by
  unfold Base32.digit
  have h : n % 32 < 32 := Nat.mod_lt n (by norm_num)
  generalize n % 32 = k at h
  interval_cases k <;> decide

theorem Base32.encode_sum256_take (msg : List Nat) :
    ∃ b0 b1 b2 b3 b4 b5 b6 b7 b8 b9 : Nat, ∃ rest : List Char,
      Base32.encode (SHA256.sum256 msg) =
        Base32.quantum b0 b1 b2 b3 b4 ++ (Base32.quantum b5 b6 b7 b8 b9 ++ rest) ∧
      rest.length = 40 := by
  simp only [SHA256.sum256, SHA256.wordBytes, List.cons_append, List.nil_append, Base32.encode]
  exact ⟨_, _, _, _, _, _, _, _, _, _, _, rfl, by simp [Base32.quantum]⟩

theorem Base32.quantum_length (b0 b1 b2 b3 b4 : Nat) :
    (Base32.quantum b0 b1 b2 b3 b4).length = 8 := by
  simp [Base32.quantum]

theorem Base32.quantum_alphabet (b0 b1 b2 b3 b4 : Nat) :
    ∀ c ∈ Base32.quantum b0 b1 b2 b3 b4, Base32.isAlphabetChar c = true ∧ c ≠ '=' := by
  intro c hc
  simp only [Base32.quantum, List.mem_cons, List.mem_singleton, List.not_mem_nil, or_false] at hc
  rcases hc with h | h | h | h | h | h | h | h <;> subst h <;> exact Base32.digit_alphabet _

/-- The sixteen characters that follow the prefix in a pod chain name are base32 digits. -/
theorem podFirewallChainName_data (ns name version : String) :
    ∃ cs : List Char, cs.length = 16 ∧
      (∀ c ∈ cs, Base32.isAlphabetChar c = true ∧ c ≠ '=') ∧
      (podFirewallChainName ns name version).data = "KUBE-POD-FW-".data ++ cs := by
  obtain ⟨b0, b1, b2, b3, b4, b5, b6, b7, b8, b9, rest, he, _⟩ :=
    Base32.encode_sum256_take (stringBytes (ns ++ name ++ version))
  refine ⟨Base32.quantum b0 b1 b2 b3 b4 ++ Base32.quantum b5 b6 b7 b8 b9, ?_, ?_, ?_⟩
  · simp [Base32.quantum_length]
  · intro c hc
    rcases List.mem_append.mp hc with h | h
    · exact Base32.quantum_alphabet _ _ _ _ _ c h
    · exact Base32.quantum_alphabet _ _ _ _ _ c h
  · simp only [podFirewallChainName, kubePodFirewallChainPrefix, Base32.encodeToString,
      String.data_append, he]
    congr 1

/-- C1: for all strings, `podFirewallChainName(ns, name, version)` is the prefix
`KUBE-POD-FW-` followed by the first 16 characters of the padded standard base32 encoding of
the SHA-256 digest of the bytes of `ns`, `name` and `version` put one after the other. -/
theorem podFirewallChainName_eq (ns name version : String) :
    podFirewallChainName ns name version =
      "KUBE-POD-FW-" ++ String.mk ((Base32.encodeToString (SHA256.sum256
        (stringBytes ns ++ stringBytes name ++ stringBytes version))).data.take 16) := by
  simp [podFirewallChainName, kubePodFirewallChainPrefix, stringBytes_append]

/-- C2: for all inputs the name returned by `podFirewallChainName` has length 28, hence at
most 29: the prefix of 12 characters and 16 characters of the alphabet `A`-`Z`, `2`-`7`,
none of them the padding character; the encoded digest has 56 characters, so the slice
`encoded[:16]` is in bounds. -/
theorem podFirewallChainName_shape (ns name version : String) :
    (podFirewallChainName ns name version).length = 28 ∧
    (podFirewallChainName ns name version).length ≤ 29 ∧
    "KUBE-POD-FW-".length = 12 ∧
    (Base32.encodeToString (SHA256.sum256 (stringBytes (ns ++ name ++ version)))).length = 56 ∧
    ∃ cs : List Char, cs.length = 16 ∧
      (∀ c ∈ cs, Base32.isAlphabetChar c = true ∧ c ≠ '=') ∧
      podFirewallChainName ns name version = "KUBE-POD-FW-" ++ String.mk cs := by
  obtain ⟨cs, hlen, halpha, hdata⟩ := podFirewallChainName_data ns name version
  have hl : (podFirewallChainName ns name version).length = 28 := by
    show (podFirewallChainName ns name version).data.length = 28
    rw [hdata]; simp [hlen]
  refine ⟨hl, by omega, by decide, ?_, cs, hlen, halpha, String.ext (by simpa using hdata)⟩
  obtain ⟨b0, b1, b2, b3, b4, b5, b6, b7, b8, b9, rest, he, hr⟩ :=
    Base32.encode_sum256_take (stringBytes (ns ++ name ++ version))
  show (Base32.encode _).length = 56
  rw [he]; simp [Base32.quantum_length, hr]


/-! ### The loop over the families -/

theorem rangeFilterTableRules_apply {σ : Type} (v4First : Bool)
    (body : IPFamily → Buffer → σ → Buffer × σ) (g : IPFamily → Buffer → Buffer)
    (P : σ → Prop) (hP : ∀ fam buf s, P s → P (body fam buf s).2)
    (hg : ∀ fam buf s, P s → (body fam buf s).1 = g fam buf)
    (rules : FilterTableRules) (s : σ) (hs : P s) (f : IPFamily) :
    (rangeFilterTableRules v4First body rules s).1 f = (rules f).map (g f) := by
  cases v4First <;> cases f <;>
    simp only [rangeFilterTableRules, rangeOrder, List.foldl_cons, List.foldl_nil, if_true,
      Bool.false_eq_true, if_false] <;>
    cases h4 : rules IPFamily.IPv4 <;> cases h6 : rules IPFamily.IPv6 <;>
    simp [Function.update, h4, h6, hg _ _ _ hs, hg _ _ _ (hP _ _ _ hs)]

theorem rangeFilterTableRules_unit (v4First : Bool)
    (body : IPFamily → Buffer → Unit → Buffer × Unit) (rules : FilterTableRules)
    (f : IPFamily) :
    (rangeFilterTableRules v4First body rules ()).1 f =
      (rules f).map (fun buf => (body f buf ()).1) :=
  rangeFilterTableRules_apply v4First body (fun fam buf => (body fam buf ()).1)
    (fun _ => True) (fun _ _ _ _ => trivial) (fun _ _ _ _ => rfl) rules () trivial f


/-! ### The text of the lines the source builds with `strings.Join` -/

theorem policy_fold (d : Decls) (pod : podInfo) (X version : String) (f : IPFamily)
    (ip : String) (nps : List networkPolicyInfo) (buf : Buffer) (fi fe : Bool) :
    nps.foldl (policyJump d pod X version f ip) (buf, fi, fe) =
      (buf ++ policyJumpRules d pod X version f ip nps,
        fi || hasIngressPolicy pod nps, fe || hasEgressPolicy pod nps) := by
  induction nps generalizing buf fi fe with
  | nil => simp [policyJumpRules, hasIngressPolicy, hasEgressPolicy]
  | cons p ps ih =>
    rw [List.foldl_cons]
    by_cases ht : mapHasKey p.targetPods pod.ip = true
    · cases hty : p.policyType <;>
        simp [policyJump, ht, hty, ih, policyJumpRules, hasIngressPolicy, hasEgressPolicy,
          policyTargetsPod, policyJumpRule, stringsJoin, String.ext_iff]
    · simp [policyJump, ht, ih, policyJumpRules, hasIngressPolicy, hasEgressPolicy,
        policyTargetsPod]


theorem setupPodNetpolRulesBody_eq (d : Decls) (pod : podInfo) (X : String)
    (nps : List networkPolicyInfo) (version : String) (f : IPFamily) (buf : Buffer)
    (fi fe : Bool) (hi : fi = false ∨ fi = hasIngressPolicy pod nps)
    (he : fe = false ∨ fe = hasEgressPolicy pod nps) :
    setupPodNetpolRulesBody d pod X nps version f buf (fi, fe) =
      match d.getPodIPForFamily pod f with
      | none => (buf, fi, fe)
      | some ip => (buf ++ netpolRules d pod X nps version f ip,
          hasIngressPolicy pod nps, hasEgressPolicy pod nps) := by
  unfold setupPodNetpolRulesBody
  cases hip : d.getPodIPForFamily pod f with
  | none => rfl
  | some ip =>
    have hi' : (fi || hasIngressPolicy pod nps) = hasIngressPolicy pod nps := by
      rcases hi with h | h <;> simp [h]
    have he' : (fe || hasEgressPolicy pod nps) = hasEgressPolicy pod nps := by
      rcases he with h | h <;> simp [h]
    simp only [policy_fold, hi', he', netpolRules, defaultJumpRules]
    cases hasIngressPolicy pod nps <;> cases hasEgressPolicy pod nps <;>
      simp [netpolRules, defaultJumpRules, defaultIngressRule, defaultEgressRule,
        localAcceptRule, invalidDropRule, statefulAcceptRule, stringsJoin, String.ext_iff]

theorem setupPodNetpolRules_apply (d : Decls) (v4First : Bool) (pod : podInfo) (X : String)
    (nps : List networkPolicyInfo) (version : String) (rules : FilterTableRules)
    (f : IPFamily) :
    setupPodNetpolRules d v4First pod X nps version rules f =
      (rules f).map (fun buf =>
        match d.getPodIPForFamily pod f with
        | none => buf
        | some ip => buf ++ netpolRules d pod X nps version f ip) := by
  unfold setupPodNetpolRules
  refine rangeFilterTableRules_apply v4First _
    (fun fam buf =>
      match d.getPodIPForFamily pod fam with
      | none => buf
      | some ip => buf ++ netpolRules d pod X nps version fam ip)
    (fun s => (s.1 = false ∨ s.1 = hasIngressPolicy pod nps) ∧
      (s.2 = false ∨ s.2 = hasEgressPolicy pod nps)) ?_ ?_ rules (false, false)
    ⟨Or.inl rfl, Or.inl rfl⟩ f
  · rintro fam buf ⟨fi, fe⟩ ⟨hi, he⟩
    rw [setupPodNetpolRulesBody_eq d pod X nps version fam buf fi fe hi he]
    cases d.getPodIPForFamily pod fam with
    | none => exact ⟨hi, he⟩
    | some ip => exact ⟨Or.inr rfl, Or.inr rfl⟩
  · rintro fam buf ⟨fi, fe⟩ ⟨hi, he⟩
    rw [setupPodNetpolRulesBody_eq d pod X nps version fam buf fi fe hi he]
    show _ = (match d.getPodIPForFamily pod fam with
      | none => buf
      | some ip => buf ++ netpolRules d pod X nps version fam ip)
    cases d.getPodIPForFamily pod fam <;> rfl

theorem interceptPodInboundTraffic_apply (d : Decls) (v4First : Bool) (pod : podInfo)
    (X : String) (rules : FilterTableRules) (f : IPFamily) :
    interceptPodInboundTraffic d v4First pod X rules f =
      (rules f).map (fun buf =>
        match d.getPodIPForFamily pod f with
        | none => buf
        | some ip => buf ++ inboundRules pod X ip) := by
  unfold interceptPodInboundTraffic
  rw [rangeFilterTableRules_unit]
  congr 1
  funext buf
  unfold interceptPodInboundTrafficBody
  cases d.getPodIPForFamily pod f with
  | none => rfl
  | some ip =>
    simp [inboundRules, inboundRule, inboundBridgedRule, inboundComment, stringsJoin,
      String.ext_iff]

theorem outbound_fold (pod : podInfo) (X ip : String) (chains : List String) (buf : Buffer) :
    chains.foldl
      (fun (buf : Buffer) chain =>
        buf ++ [stringsJoin ["-A", chain, "-m", "comment", "--comment",
          "\"rule to jump traffic from POD name:" ++ pod.name ++ " namespace: " ++
            pod.namespace_ ++ " to chain " ++ X ++ "\"", "-s", ip, "-j", X, "\n"] " "])
      buf = buf ++ chains.map (outboundRule pod X ip) := by
  induction chains generalizing buf with
  | nil => simp
  | cons c cs ih =>
    rw [List.foldl_cons, ih]
    simp [outboundRule, outboundComment, stringsJoin, String.ext_iff]

theorem interceptPodOutboundTraffic_apply (d : Decls) (v4First : Bool)
    (chains : IPFamily → List String) (pod : podInfo)
    (X : String) (rules : FilterTableRules) (f : IPFamily) :
    interceptPodOutboundTraffic d v4First chains pod X rules f =
      (rules f).map (fun buf =>
        match d.getPodIPForFamily pod f with
        | none => buf
        | some ip => buf ++ outboundRules pod X ip (chains f)) := by
  unfold interceptPodOutboundTraffic
  rw [rangeFilterTableRules_unit]
  congr 1
  funext buf
  unfold interceptPodOutboundTrafficBody
  cases d.getPodIPForFamily pod f with
  | none => rfl
  | some ip =>
    simp only [outbound_fold]
    simp [outboundRules, outboundBridgedRule, outboundComment, stringsJoin, String.ext_iff]

theorem dropUnmarkedTrafficRules_apply (d : Decls) (v4First : Bool) (pod : podInfo)
    (X : String) (rules : FilterTableRules) (f : IPFamily) :
    dropUnmarkedTrafficRules d v4First pod X rules f =
      (rules f).map (fun buf =>
        match d.getPodIPForFamily pod f with
        | none => buf
        | some _ => buf ++ dropRules pod X buf) := by
  unfold dropUnmarkedTrafficRules
  rw [rangeFilterTableRules_unit]
  congr 1
  funext buf
  unfold dropUnmarkedTrafficRulesBody
  cases d.getPodIPForFamily pod f with
  | none => rfl
  | some ip =>
    have hn : stringsJoin ["-A", X, "-m", "comment", "--comment",
        "\"rule to log dropped traffic POD name:" ++ pod.name ++ " namespace: " ++
          pod.namespace_ ++ "\"",
        "-m", "mark", "!", "--mark", "0x10000/0x10000", "-j", "NFLOG",
        "--nflog-group", "100", "-m", "limit", "--limit", "10/minute", "--limit-burst", "10",
        "\n"] " " = nflogRule pod X := by
      simp [nflogRule, stringsJoin, String.ext_iff]
    simp only [hn, dropRules]
    by_cases hc : stringsContains (Buffer.String buf) (nflogRule pod X) = true
    · simp [hc]
    · simp [hc, rejectRule, markClearRule, stringsJoin, String.ext_iff]

theorem chainDecl_apply (d : Decls) (v4First : Bool) (pod : podInfo)
    (X : String) (rules : FilterTableRules) (f : IPFamily) :
    (rangeFilterTableRules v4First (chainDeclBody d pod X) rules ()).1 f =
      (rules f).map (fun buf =>
        match d.getPodIPForFamily pod f with
        | none => buf
        | some _ => buf ++ [chainDeclaration X]) := by
  rw [rangeFilterTableRules_unit]
  congr 1
  funext buf
  unfold chainDeclBody
  cases d.getPodIPForFamily pod f <;> rfl

theorem markRule_apply (d : Decls) (v4First : Bool) (pod : podInfo)
    (X : String) (rules : FilterTableRules) (f : IPFamily) :
    (rangeFilterTableRules v4First (markRuleBody d pod X) rules ()).1 f =
      (rules f).map (fun buf =>
        match d.getPodIPForFamily pod f with
        | none => buf
        | some _ => buf ++ [markAcceptRule X]) := by
  rw [rangeFilterTableRules_unit]
  congr 1
  funext buf
  unfold markRuleBody
  cases d.getPodIPForFamily pod f with
  | none => rfl
  | some ip => simp [markAcceptRule, stringsJoin, String.ext_iff]

/-! ### One run of `syncPodFirewallChains` -/

theorem syncPodFirewallChainsBody_rules (d : Decls) (loops : podInfo → RangeOrders)
    (nps : List networkPolicyInfo) (version : String)
    (st : List String × FilterTableRules) (entry : String × podInfo) (f : IPFamily) :
    (syncPodFirewallChainsBody d loops nps version st entry).2 f =
      (st.2 f).map (fun buf => buf ++ podRules d loops entry.2 nps version f buf) := by
  simp only [syncPodFirewallChainsBody, markRule_apply, dropUnmarkedTrafficRules_apply,
    interceptPodOutboundTraffic_apply, interceptPodInboundTraffic_apply,
    setupPodNetpolRules_apply, chainDecl_apply, podRules, podHeadRules]
  cases st.2 f with
  | none => rfl
  | some buf =>
    cases d.getPodIPForFamily entry.2 f with
    | none => simp
    | some ip => simp [List.append_assoc]

theorem syncPodFirewallChains_fold_rules (d : Decls) (loops : podInfo → RangeOrders)
    (nps : List networkPolicyInfo) (version : String) (pods : List (String × podInfo))
    (st : List String × FilterTableRules) (f : IPFamily) :
    (pods.foldl (syncPodFirewallChainsBody d loops nps version) st).2 f =
      (st.2 f).map (bufferAfter d loops nps version f pods) := by
  induction pods generalizing st with
  | nil => cases h : st.2 f <;> simp [bufferAfter, h]
  | cons e es ih =>
    rw [List.foldl_cons, ih, syncPodFirewallChainsBody_rules]
    cases h : st.2 f <;> simp [bufferAfter, h]

theorem syncPodFirewallChains_rules (d : Decls) (sch : Schedule) (npc : NetworkPolicyController)
    (nps : List networkPolicyInfo) (version : String) (f : IPFamily) :
    (syncPodFirewallChains d sch npc nps version).2 f =
      (npc.filterTableRules f).map
        (bufferAfter d sch.loops nps version f (sch.pods (allLocalPods d npc))) := by
  unfold syncPodFirewallChains
  rw [syncPodFirewallChains_fold_rules]


/-! ### Rules of different kinds are different lines -/

theorem defaultIngressRule_ne_policyJumpRule (d : Decls) (X version : String) (f : IPFamily)
    (ip : String) (policy : networkPolicyInfo) :
    defaultIngressRule X ip ≠ policyJumpRule d X version f ip policy := by
  cases h : policy.policyType <;>
    simp [defaultIngressRule, policyJumpRule, h, String.ext_iff]

theorem defaultEgressRule_ne_policyJumpRule (d : Decls) (X version : String) (f : IPFamily)
    (ip : String) (policy : networkPolicyInfo) :
    defaultEgressRule X ip ≠ policyJumpRule d X version f ip policy := by
  cases h : policy.policyType <;>
    simp [defaultEgressRule, policyJumpRule, h, String.ext_iff]

theorem defaultIngressRule_ne (X ip : String) :
    defaultIngressRule X ip ≠ defaultEgressRule X ip ∧
    defaultIngressRule X ip ≠ localAcceptRule X ip ∧
    defaultIngressRule X ip ≠ invalidDropRule X ∧
    defaultIngressRule X ip ≠ statefulAcceptRule X := by
  simp [defaultIngressRule, defaultEgressRule, localAcceptRule, invalidDropRule,
    statefulAcceptRule, String.ext_iff]

theorem defaultEgressRule_ne (X ip : String) :
    defaultEgressRule X ip ≠ defaultIngressRule X ip ∧
    defaultEgressRule X ip ≠ localAcceptRule X ip ∧
    defaultEgressRule X ip ≠ invalidDropRule X ∧
    defaultEgressRule X ip ≠ statefulAcceptRule X := by
  simp [defaultIngressRule, defaultEgressRule, localAcceptRule, invalidDropRule,
    statefulAcceptRule, String.ext_iff]


/-! ### The claims about the rules of one pod -/

theorem policyJumpRules_eq_flatMap (d : Decls) (pod : podInfo) (X version : String)
    (f : IPFamily) (ip : String) (nps : List networkPolicyInfo) :
    policyJumpRules d pod X version f ip nps =
      nps.flatMap (fun policy =>
        if mapHasKey policy.targetPods pod.ip then [policyJumpRule d X version f ip policy]
        else []) := by
  unfold policyJumpRules
  induction nps with
  | nil => rfl
  | cons p ps ih =>
    by_cases ht : mapHasKey p.targetPods pod.ip = true
    · rw [List.filter_cons_of_pos (by simpa [policyTargetsPod] using ht), List.map_cons,
        List.flatMap_cons, ih]
      simp [ht]
    · rw [List.filter_cons_of_neg (by simpa [policyTargetsPod] using ht), List.flatMap_cons,
        ih]
      simp [ht]

theorem hasIngressPolicy_iff (pod : podInfo) (nps : List networkPolicyInfo) :
    hasIngressPolicy pod nps = true ↔
      ∃ policy ∈ nps, mapHasKey policy.targetPods pod.ip = true ∧
        (policy.policyType = PolicyType.kubeIngressPolicyType ∨
          policy.policyType = PolicyType.kubeBothPolicyType) := by
  simp only [hasIngressPolicy, policyTargetsPod, List.any_eq_true, Bool.and_eq_true,
    decide_eq_true_eq]
  constructor
  · rintro ⟨p, hp, ht, hty⟩
    exact ⟨p, hp, ht, by cases h : p.policyType <;> simp_all⟩
  · rintro ⟨p, hp, ht, hty⟩
    exact ⟨p, hp, ht, by rcases hty with h | h <;> simp [h]⟩

theorem hasEgressPolicy_iff (pod : podInfo) (nps : List networkPolicyInfo) :
    hasEgressPolicy pod nps = true ↔
      ∃ policy ∈ nps, mapHasKey policy.targetPods pod.ip = true ∧
        (policy.policyType = PolicyType.kubeEgressPolicyType ∨
          policy.policyType = PolicyType.kubeBothPolicyType) := by
  simp only [hasEgressPolicy, policyTargetsPod, List.any_eq_true, Bool.and_eq_true,
    decide_eq_true_eq]
  constructor
  · rintro ⟨p, hp, ht, hty⟩
    exact ⟨p, hp, ht, by cases h : p.policyType <;> simp_all⟩
  · rintro ⟨p, hp, ht, hty⟩
    exact ⟨p, hp, ht, by rcases hty with h | h <;> simp [h]⟩

theorem defaultIngressRule_count (d : Decls) (pod : podInfo) (X version : String)
    (f : IPFamily) (ip : String) (nps : List networkPolicyInfo) :
    (netpolRules d pod X nps version f ip).count (defaultIngressRule X ip) =
      if hasIngressPolicy pod nps then 0 else 1 := by
  have h1 : (policyJumpRules d pod X version f ip nps).count (defaultIngressRule X ip) = 0 := by
    rw [List.count_eq_zero]
    intro hm
    obtain ⟨p, _, hp⟩ := List.mem_map.mp hm
    exact defaultIngressRule_ne_policyJumpRule d X version f ip p hp.symm
  obtain ⟨n1, n2, n3, n4⟩ := defaultIngressRule_ne X ip
  simp only [netpolRules, defaultJumpRules, List.count_append, h1]
  cases hasIngressPolicy pod nps <;> cases hasEgressPolicy pod nps <;>
    simp [List.count_cons, Ne.symm n1, Ne.symm n2, Ne.symm n3, Ne.symm n4]

theorem defaultEgressRule_count (d : Decls) (pod : podInfo) (X version : String)
    (f : IPFamily) (ip : String) (nps : List networkPolicyInfo) :
    (netpolRules d pod X nps version f ip).count (defaultEgressRule X ip) =
      if hasEgressPolicy pod nps then 0 else 1 := by
  have h1 : (policyJumpRules d pod X version f ip nps).count (defaultEgressRule X ip) = 0 := by
    rw [List.count_eq_zero]
    intro hm
    obtain ⟨p, _, hp⟩ := List.mem_map.mp hm
    exact defaultEgressRule_ne_policyJumpRule d X version f ip p hp.symm
  obtain ⟨n1, n2, n3, n4⟩ := defaultEgressRule_ne X ip
  simp only [netpolRules, defaultJumpRules, List.count_append, h1]
  cases hasIngressPolicy pod nps <;> cases hasEgressPolicy pod nps <;>
    simp [List.count_cons, Ne.symm n1, Ne.symm n2, Ne.symm n3, Ne.symm n4]

/-- C5: for every pod and every family in which it has an address `ip`, whichever family
the loop of `setupPodNetpolRules` visits first, the lines that `setupPodNetpolRules` writes
to the buffer of the family hold the jump to the default chain matched on `-d ip` if and
only if no policy that targets the pod has type ingress or both, and the jump to the
default chain matched on `-s ip` if and only if no policy that targets the pod has type
egress or both; neither jump is written twice. -/
theorem setupPodNetpolRules_default_jumps (d : Decls) (v4First : Bool) (pod : podInfo)
    (podFwChainName : String) (networkPoliciesInfo : List networkPolicyInfo)
    (version : String) (rules : FilterTableRules) (ipFamily : IPFamily) (buf : Buffer)
    (ip : String) (hbuf : rules ipFamily = some buf)
    (hip : d.getPodIPForFamily pod ipFamily = some ip) :
    ∃ written : List String,
      setupPodNetpolRules d v4First pod podFwChainName networkPoliciesInfo version rules
        ipFamily = some (buf ++ written) ∧
      (defaultIngressRule podFwChainName ip ∈ written ↔
        ¬ ∃ policy ∈ networkPoliciesInfo, mapHasKey policy.targetPods pod.ip = true ∧
          (policy.policyType = PolicyType.kubeIngressPolicyType ∨
            policy.policyType = PolicyType.kubeBothPolicyType)) ∧
      (defaultEgressRule podFwChainName ip ∈ written ↔
        ¬ ∃ policy ∈ networkPoliciesInfo, mapHasKey policy.targetPods pod.ip = true ∧
          (policy.policyType = PolicyType.kubeEgressPolicyType ∨
            policy.policyType = PolicyType.kubeBothPolicyType)) ∧
      written.count (defaultIngressRule podFwChainName ip) ≤ 1 ∧
      written.count (defaultEgressRule podFwChainName ip) ≤ 1 := by
  refine ⟨netpolRules d pod podFwChainName networkPoliciesInfo version ipFamily ip, ?_,
    ?_, ?_, ?_, ?_⟩
  · rw [setupPodNetpolRules_apply, hbuf, hip]; rfl
  · rw [← hasIngressPolicy_iff, ← List.count_pos_iff, defaultIngressRule_count]
    cases hasIngressPolicy pod networkPoliciesInfo <;> simp
  · rw [← hasEgressPolicy_iff, ← List.count_pos_iff, defaultEgressRule_count]
    cases hasEgressPolicy pod networkPoliciesInfo <;> simp
  · rw [defaultIngressRule_count]; split <;> omega
  · rw [defaultEgressRule_count]; split <;> omega

theorem setupPodNetpolRules_default_jumps_witness :
    exampleNpc.filterTableRules IPFamily.IPv4 = some [] ∧
    exampleDecls.getPodIPForFamily examplePodInfo IPFamily.IPv4 = some "10.0.0.5" ∧
    ∃ written : List String,
      setupPodNetpolRules exampleDecls false examplePodInfo "KUBE-POD-FW-A" [examplePolicy] "1"
        exampleNpc.filterTableRules IPFamily.IPv4 = some ([] ++ written) ∧
      (defaultIngressRule "KUBE-POD-FW-A" "10.0.0.5" ∈ written ↔
        ¬ ∃ policy ∈ [examplePolicy],
          mapHasKey policy.targetPods examplePodInfo.ip = true ∧
          (policy.policyType = PolicyType.kubeIngressPolicyType ∨
            policy.policyType = PolicyType.kubeBothPolicyType)) ∧
      (defaultEgressRule "KUBE-POD-FW-A" "10.0.0.5" ∈ written ↔
        ¬ ∃ policy ∈ [examplePolicy],
          mapHasKey policy.targetPods examplePodInfo.ip = true ∧
          (policy.policyType = PolicyType.kubeEgressPolicyType ∨
            policy.policyType = PolicyType.kubeBothPolicyType)) ∧
      written.count (defaultIngressRule "KUBE-POD-FW-A" "10.0.0.5") ≤ 1 ∧
      written.count (defaultEgressRule "KUBE-POD-FW-A" "10.0.0.5") ≤ 1 :=
  ⟨rfl, rfl, setupPodNetpolRules_default_jumps exampleDecls false examplePodInfo
    "KUBE-POD-FW-A" [examplePolicy] "1" exampleNpc.filterTableRules IPFamily.IPv4 []
    "10.0.0.5" rfl rfl⟩

/-- C10: for every pod with an address `ip` in a family, whichever orders the loops take,
`interceptPodInboundTraffic` appends to the buffer of the family, for the destination `ip`,
one rule of the forward chain, one of the output chain and one of the forward chain with
`-m physdev --physdev-is-bridged`; `interceptPodOutboundTraffic` appends, for the source
`ip`, one rule for each chain of `defaultChains` and then one of the forward chain with
`-m physdev --physdev-is-bridged`; each of these lines ends with the jump to
`podFwChainName` and a newline. -/
theorem intercept_pod_traffic_jumps (d : Decls) (inboundV4First outboundV4First : Bool)
    (chains : IPFamily → List String) (pod : podInfo) (podFwChainName : String)
    (rules : FilterTableRules) (ipFamily : IPFamily) (buf : Buffer) (ip : String)
    (hbuf : rules ipFamily = some buf) (hip : d.getPodIPForFamily pod ipFamily = some ip)
    (hchains : (chains ipFamily).Perm d.defaultChains) :
    interceptPodInboundTraffic d inboundV4First pod podFwChainName rules ipFamily =
      some (buf ++
        ["-A " ++ kubeForwardChainName ++ " -m comment --comment " ++
            inboundComment pod podFwChainName ++ " -d " ++ ip ++ " -j " ++ podFwChainName ++
            "\n",
          "-A " ++ kubeOutputChainName ++ " -m comment --comment " ++
            inboundComment pod podFwChainName ++ " -d " ++ ip ++ " -j " ++ podFwChainName ++
            "\n",
          "-A " ++ kubeForwardChainName ++
            " -m physdev --physdev-is-bridged -m comment --comment " ++
            inboundComment pod podFwChainName ++ " -d " ++ ip ++ " -j " ++ podFwChainName ++
            " \n"]) ∧
    ∃ written : List String,
      interceptPodOutboundTraffic d outboundV4First chains pod podFwChainName rules ipFamily =
        some (buf ++ written ++
          ["-A " ++ kubeForwardChainName ++
            " -m physdev --physdev-is-bridged -m comment --comment " ++
            outboundComment pod podFwChainName ++ " -s " ++ ip ++ " -j " ++ podFwChainName ++
            " \n"]) ∧
      written.Perm (d.defaultChains.map (fun chain =>
        "-A " ++ chain ++ " -m comment --comment " ++ outboundComment pod podFwChainName ++
          " -s " ++ ip ++ " -j " ++ podFwChainName ++ " \n")) := by
  constructor
  · rw [interceptPodInboundTraffic_apply, hbuf, hip]; rfl
  · refine ⟨(chains ipFamily).map (outboundRule pod podFwChainName ip), ?_, ?_⟩
    · rw [interceptPodOutboundTraffic_apply, hbuf, hip]
      simp [outboundRules, outboundBridgedRule]
    · exact hchains.map _

theorem intercept_pod_traffic_jumps_witness :
    exampleNpc.filterTableRules IPFamily.IPv4 = some [] ∧
    exampleDecls.getPodIPForFamily examplePodInfo IPFamily.IPv4 = some "10.0.0.5" ∧
    (["KUBE-OUTPUT", "KUBE-INPUT", "KUBE-FORWARD"] : List String).Perm
      exampleDecls.defaultChains ∧
    interceptPodInboundTraffic exampleDecls true examplePodInfo "KUBE-POD-FW-A"
        exampleNpc.filterTableRules IPFamily.IPv4 =
      some ([] ++
        ["-A " ++ kubeForwardChainName ++ " -m comment --comment " ++
            inboundComment examplePodInfo "KUBE-POD-FW-A" ++ " -d " ++ "10.0.0.5" ++ " -j " ++
            "KUBE-POD-FW-A" ++ "\n",
          "-A " ++ kubeOutputChainName ++ " -m comment --comment " ++
            inboundComment examplePodInfo "KUBE-POD-FW-A" ++ " -d " ++ "10.0.0.5" ++ " -j " ++
            "KUBE-POD-FW-A" ++ "\n",
          "-A " ++ kubeForwardChainName ++
            " -m physdev --physdev-is-bridged -m comment --comment " ++
            inboundComment examplePodInfo "KUBE-POD-FW-A" ++ " -d " ++ "10.0.0.5" ++ " -j " ++
            "KUBE-POD-FW-A" ++ " \n"]) ∧
    ∃ written : List String,
      interceptPodOutboundTraffic exampleDecls false
          (fun _ => ["KUBE-OUTPUT", "KUBE-INPUT", "KUBE-FORWARD"]) examplePodInfo
          "KUBE-POD-FW-A" exampleNpc.filterTableRules IPFamily.IPv4 =
        some ([] ++ written ++
          ["-A " ++ kubeForwardChainName ++
            " -m physdev --physdev-is-bridged -m comment --comment " ++
            outboundComment examplePodInfo "KUBE-POD-FW-A" ++ " -s " ++ "10.0.0.5" ++ " -j " ++
            "KUBE-POD-FW-A" ++ " \n"]) ∧
      written.Perm (exampleDecls.defaultChains.map (fun chain =>
        "-A " ++ chain ++ " -m comment --comment " ++
          outboundComment examplePodInfo "KUBE-POD-FW-A" ++
          " -s " ++ "10.0.0.5" ++ " -j " ++ "KUBE-POD-FW-A" ++ " \n")) :=
  ⟨rfl, rfl, by decide,
    intercept_pod_traffic_jumps exampleDecls true false
      (fun _ => ["KUBE-OUTPUT", "KUBE-INPUT", "KUBE-FORWARD"]) examplePodInfo "KUBE-POD-FW-A"
      exampleNpc.filterTableRules IPFamily.IPv4 [] "10.0.0.5" rfl rfl (by decide)⟩


/-! ### The map `allLocalPods` and the returned chain names -/

theorem mem_mapInsert {β : Type} (m : List (String × β)) (k : String) (v : β)
    (e : String × β) (he : e ∈ mapInsert m k v) : e = (k, v) ∨ e ∈ m := by
  induction m with
  | nil => simpa [mapInsert] using he
  | cons x xs ih =>
    unfold mapInsert at he
    split at he
    · rcases List.mem_cons.mp he with h | h
      · exact Or.inl h
      · exact Or.inr (List.mem_cons_of_mem _ h)
    · rcases List.mem_cons.mp he with h | h
      · exact Or.inr (h ▸ List.mem_cons_self _ _)
      · rcases ih h with h' | h'
        · exact Or.inl h'
        · exact Or.inr (List.mem_cons_of_mem _ h')

theorem mapInsert_keys {β : Type} (m : List (String × β)) (k : String) (v : β)
    (k' : String) :
    k' ∈ (mapInsert m k v).map Prod.fst ↔ k' = k ∨ k' ∈ m.map Prod.fst := by
  induction m with
  | nil => simp [mapInsert]
  | cons x xs ih =>
    unfold mapInsert
    split
    · rename_i hx
      simp only [List.map_cons, List.mem_cons]
      constructor
      · rintro (h | h)
        · exact Or.inl h
        · exact Or.inr (Or.inr h)
      · rintro (h | h | h)
        · exact Or.inl h
        · exact Or.inl (h.trans hx)
        · exact Or.inr h
    · simp only [List.map_cons, List.mem_cons, ih]
      tauto

/-- What `getLocalPods` records about a pod of the lister. -/
theorem getLocalPods_fold_mem (d : Decls) (nodeIP : String) (pods : List Pod)
    (m : List (String × podInfo)) (e : String × podInfo)
    (he : e ∈ pods.foldl
      (fun localPods pod =>
        if pod.HostIP != nodeIP || !d.isNetPolActionable pod then localPods
        else mapInsert localPods pod.PodIP
          { ip := pod.PodIP, ips := pod.PodIPs, name := pod.Name,
            namespace_ := pod.Namespace, labels := pod.Labels })
      m) :
    e ∈ m ∨ ∃ p ∈ pods, d.isNetPolActionable p = true ∧ p.HostIP = nodeIP ∧
      e.1 = p.PodIP ∧ e.2.name = p.Name ∧ e.2.namespace_ = p.Namespace := by
  induction pods generalizing m with
  | nil => exact Or.inl he
  | cons p ps ih =>
    rw [List.foldl_cons] at he
    rcases ih _ he with h | ⟨q, hq, h⟩
    · split at h
      · exact Or.inl h
      · rename_i hc
        rcases mem_mapInsert _ _ _ _ h with h' | h'
        · refine Or.inr ⟨p, List.mem_cons_self _ _, ?_, ?_, ?_⟩
          · have hc' : p.HostIP = nodeIP ∧ d.isNetPolActionable p = true := by simpa using hc
            exact hc'.2
          · have hc' : p.HostIP = nodeIP ∧ d.isNetPolActionable p = true := by simpa using hc
            exact hc'.1
          · simp [h']
        · exact Or.inl h'
    · exact Or.inr ⟨q, List.mem_cons_of_mem _ hq, h⟩

theorem getLocalPods_fold_keys (d : Decls) (nodeIP : String) (pods : List Pod)
    (m : List (String × podInfo)) (k : String)
    (hk : k ∈ m.map Prod.fst ∨ ∃ p ∈ pods, d.isNetPolActionable p = true ∧
      p.HostIP = nodeIP ∧ k = p.PodIP) :
    k ∈ (pods.foldl
      (fun localPods pod =>
        if pod.HostIP != nodeIP || !d.isNetPolActionable pod then localPods
        else mapInsert localPods pod.PodIP
          { ip := pod.PodIP, ips := pod.PodIPs, name := pod.Name,
            namespace_ := pod.Namespace, labels := pod.Labels })
      m).map Prod.fst := by
  induction pods generalizing m with
  | nil =>
    rcases hk with h | ⟨p, hp, _⟩
    · exact h
    · cases hp
  | cons p ps ih =>
    rw [List.foldl_cons]
    apply ih
    rcases hk with h | ⟨q, hq, ha, hh, hkq⟩
    · left
      split
      · exact h
      · exact (mapInsert_keys _ _ _ _).mpr (Or.inr h)
    · rcases List.mem_cons.mp hq with h | h
      · left
        subst h
        simp only [hh, ha, bne_self_eq_false, Bool.not_true, Bool.or_self, Bool.false_eq_true,
          if_false]
        exact (mapInsert_keys _ _ _ _).mpr (Or.inl hkq)
      · exact Or.inr ⟨q, h, ha, hh, hkq⟩

theorem allLocalPods_fold_mem (d : Decls) (npc : NetworkPolicyController)
    (ips : List String) (m : List (String × podInfo)) (e : String × podInfo)
    (he : e ∈ ips.foldl (getLocalPods d npc) m) :
    e ∈ m ∨ ∃ p ∈ npc.podLister, d.isNetPolActionable p = true ∧ p.HostIP ∈ ips ∧
      e.1 = p.PodIP ∧ e.2.name = p.Name ∧ e.2.namespace_ = p.Namespace := by
  induction ips generalizing m with
  | nil => exact Or.inl he
  | cons ip rest ih =>
    rw [List.foldl_cons] at he
    rcases ih _ he with h | ⟨p, hp, ha, hh, h⟩
    · rcases getLocalPods_fold_mem d ip npc.podLister m e h with h' | ⟨p, hp, ha, hh, h'⟩
      · exact Or.inl h'
      · exact Or.inr ⟨p, hp, ha, hh ▸ List.mem_cons_self _ _, h'⟩
    · exact Or.inr ⟨p, hp, ha, List.mem_cons_of_mem _ hh, h⟩

theorem allLocalPods_fold_keys (d : Decls) (npc : NetworkPolicyController)
    (ips : List String) (m : List (String × podInfo)) (k : String)
    (hk : k ∈ m.map Prod.fst ∨ ∃ p ∈ npc.podLister, d.isNetPolActionable p = true ∧
      p.HostIP ∈ ips ∧ k = p.PodIP) :
    k ∈ (ips.foldl (getLocalPods d npc) m).map Prod.fst := by
  induction ips generalizing m with
  | nil =>
    rcases hk with h | ⟨p, _, _, hh, _⟩
    · exact h
    · cases hh
  | cons ip rest ih =>
    rw [List.foldl_cons]
    apply ih
    rcases hk with h | ⟨p, hp, ha, hh, hkp⟩
    · exact Or.inl (getLocalPods_fold_keys d ip npc.podLister m k (Or.inl h))
    · rcases List.mem_cons.mp hh with h | h
      · exact Or.inl (getLocalPods_fold_keys d ip npc.podLister m k
          (Or.inr ⟨p, hp, ha, h, hkp⟩))
      · exact Or.inr ⟨p, hp, ha, h, hkp⟩

/-- Every entry of `allLocalPods` is the record of a pod of the lister that is actionable
and whose host IP is an address of the node. -/
theorem allLocalPods_mem (d : Decls) (npc : NetworkPolicyController) (e : String × podInfo)
    (he : e ∈ allLocalPods d npc) :
    ∃ p ∈ npc.podLister, d.isNetPolActionable p = true ∧ p.HostIP ∈ npc.nodeIPAddrs ∧
      e.1 = p.PodIP ∧ e.2.name = p.Name ∧ e.2.namespace_ = p.Namespace := by
  rcases allLocalPods_fold_mem d npc npc.nodeIPAddrs [] e he with h | h
  · cases h
  · exact h

/-- The pod IP of every actionable pod of the node is a key of `allLocalPods`. -/
theorem allLocalPods_key (d : Decls) (npc : NetworkPolicyController) (p : Pod)
    (hp : p ∈ npc.podLister) (ha : d.isNetPolActionable p = true)
    (hh : p.HostIP ∈ npc.nodeIPAddrs) :
    ∃ e ∈ allLocalPods d npc, e.1 = p.PodIP := by
  have := allLocalPods_fold_keys d npc npc.nodeIPAddrs [] p.PodIP
    (Or.inr ⟨p, hp, ha, hh, rfl⟩)
  obtain ⟨e, he, hk⟩ := List.mem_map.mp this
  exact ⟨e, he, hk⟩

theorem syncPodFirewallChains_fold_active (d : Decls) (loops : podInfo → RangeOrders)
    (nps : List networkPolicyInfo) (version : String) (pods : List (String × podInfo))
    (st : List String × FilterTableRules) (c : String) :
    c ∈ (pods.foldl (syncPodFirewallChainsBody d loops nps version) st).1 ↔
      c ∈ st.1 ∨ ∃ e ∈ pods, c = podFirewallChainName e.2.namespace_ e.2.name version := by
  induction pods generalizing st with
  | nil => simp
  | cons e es ih =>
    rw [List.foldl_cons, ih]
    have h1 : c ∈ (syncPodFirewallChainsBody d loops nps version st e).1 ↔
        c ∈ st.1 ∨ c = podFirewallChainName e.2.namespace_ e.2.name version := by
      simp only [syncPodFirewallChainsBody]
      split
      · rename_i hm
        constructor
        · exact Or.inl
        · rintro (h | h)
          · exact h
          · exact h ▸ hm
      · simp
    rw [h1]
    constructor
    · rintro ((h | h) | ⟨x, hx, h⟩)
      · exact Or.inl h
      · exact Or.inr ⟨e, List.mem_cons_self _ _, h⟩
      · exact Or.inr ⟨x, List.mem_cons_of_mem _ hx, h⟩
    · rintro (h | ⟨x, hx, h⟩)
      · exact Or.inl (Or.inl h)
      · rcases List.mem_cons.mp hx with hx | hx
        · exact Or.inl (Or.inr (hx ▸ h))
        · exact Or.inr ⟨x, hx, h⟩

/-- The keys of the returned map are the chain names of the entries of `allLocalPods`. -/
theorem syncPodFirewallChains_active (d : Decls) (sch : Schedule)
    (npc : NetworkPolicyController) (nps : List networkPolicyInfo) (version : String)
    (hperm : (sch.pods (allLocalPods d npc)).Perm (allLocalPods d npc)) (c : String) :
    c ∈ (syncPodFirewallChains d sch npc nps version).1 ↔
      ∃ e ∈ allLocalPods d npc, c = podFirewallChainName e.2.namespace_ e.2.name version := by
  unfold syncPodFirewallChains
  rw [syncPodFirewallChains_fold_active]
  simp only [List.not_mem_nil, false_or]
  constructor
  · rintro ⟨e, he, h⟩
    exact ⟨e, hperm.mem_iff.mp he, h⟩
  · rintro ⟨e, he, h⟩
    exact ⟨e, hperm.mem_iff.mpr he, h⟩

/-- C9, as amended: whatever the order in which the pods of `allLocalPods` are visited,
every chain name that `syncPodFirewallChains` returns is the name of a pod of the lister
that is actionable and whose host IP is an address of the node; and for every such pod the
returned set holds the name of such a pod with the same pod IP, which is the pod itself
when no other such pod has its pod IP. -/
theorem syncPodFirewallChains_active_chains (d : Decls) (sch : Schedule)
    (npc : NetworkPolicyController) (networkPoliciesInfo : List networkPolicyInfo)
    (version : String)
    (hperm : (sch.pods (allLocalPods d npc)).Perm (allLocalPods d npc)) :
    (∀ c ∈ (syncPodFirewallChains d sch npc networkPoliciesInfo version).1,
      ∃ p ∈ npc.podLister, d.isNetPolActionable p = true ∧ p.HostIP ∈ npc.nodeIPAddrs ∧
        c = podFirewallChainName p.Namespace p.Name version) ∧
    (∀ p ∈ npc.podLister, d.isNetPolActionable p = true → p.HostIP ∈ npc.nodeIPAddrs →
      ∃ q ∈ npc.podLister, d.isNetPolActionable q = true ∧ q.HostIP ∈ npc.nodeIPAddrs ∧
        q.PodIP = p.PodIP ∧
        podFirewallChainName q.Namespace q.Name version ∈
          (syncPodFirewallChains d sch npc networkPoliciesInfo version).1) ∧
    (∀ p ∈ npc.podLister, d.isNetPolActionable p = true → p.HostIP ∈ npc.nodeIPAddrs →
      (∀ q ∈ npc.podLister, d.isNetPolActionable q = true → q.HostIP ∈ npc.nodeIPAddrs →
        q.PodIP = p.PodIP → q = p) →
      podFirewallChainName p.Namespace p.Name version ∈
        (syncPodFirewallChains d sch npc networkPoliciesInfo version).1) := by
  have key : ∀ p ∈ npc.podLister, d.isNetPolActionable p = true →
      p.HostIP ∈ npc.nodeIPAddrs →
      ∃ q ∈ npc.podLister, d.isNetPolActionable q = true ∧ q.HostIP ∈ npc.nodeIPAddrs ∧
        q.PodIP = p.PodIP ∧
        podFirewallChainName q.Namespace q.Name version ∈
          (syncPodFirewallChains d sch npc networkPoliciesInfo version).1 := by
    intro p hp ha hh
    obtain ⟨e, he, hk⟩ := allLocalPods_key d npc p hp ha hh
    obtain ⟨q, hq, hqa, hqh, hqk, hqn, hqs⟩ := allLocalPods_mem d npc e he
    refine ⟨q, hq, hqa, hqh, hqk.symm.trans hk, ?_⟩
    rw [syncPodFirewallChains_active d sch npc networkPoliciesInfo version hperm]
    exact ⟨e, he, by rw [hqn, hqs]⟩
  refine ⟨?_, key, ?_⟩
  · intro c hc
    rw [syncPodFirewallChains_active d sch npc networkPoliciesInfo version hperm] at hc
    obtain ⟨e, he, hce⟩ := hc
    obtain ⟨p, hp, ha, hh, _, hn, hs⟩ := allLocalPods_mem d npc e he
    exact ⟨p, hp, ha, hh, by rw [hce, hn, hs]⟩
  · intro p hp ha hh huniq
    obtain ⟨q, hq, hqa, hqh, hqk, hm⟩ := key p hp ha hh
    rw [← huniq q hq hqa hqh hqk]
    exact hm


theorem syncPodFirewallChains_active_chains_witness :
    (exampleSchedule.pods (allLocalPods exampleDecls exampleHostNpc)).Perm
      (allLocalPods exampleDecls exampleHostNpc) ∧
    (∀ c ∈ (syncPodFirewallChains exampleDecls exampleSchedule exampleHostNpc [] "1").1,
      ∃ p ∈ exampleHostNpc.podLister, exampleDecls.isNetPolActionable p = true ∧
        p.HostIP ∈ exampleHostNpc.nodeIPAddrs ∧
        c = podFirewallChainName p.Namespace p.Name "1") ∧
    (∀ p ∈ exampleHostNpc.podLister, exampleDecls.isNetPolActionable p = true →
      p.HostIP ∈ exampleHostNpc.nodeIPAddrs →
      ∃ q ∈ exampleHostNpc.podLister, exampleDecls.isNetPolActionable q = true ∧
        q.HostIP ∈ exampleHostNpc.nodeIPAddrs ∧ q.PodIP = p.PodIP ∧
        podFirewallChainName q.Namespace q.Name "1" ∈
          (syncPodFirewallChains exampleDecls exampleSchedule exampleHostNpc [] "1").1) ∧
    (∀ p ∈ exampleHostNpc.podLister, exampleDecls.isNetPolActionable p = true →
      p.HostIP ∈ exampleHostNpc.nodeIPAddrs →
      (∀ q ∈ exampleHostNpc.podLister, exampleDecls.isNetPolActionable q = true →
        q.HostIP ∈ exampleHostNpc.nodeIPAddrs → q.PodIP = p.PodIP → q = p) →
      podFirewallChainName p.Namespace p.Name "1" ∈
        (syncPodFirewallChains exampleDecls exampleSchedule exampleHostNpc [] "1").1) :=
  ⟨List.Perm.refl _,
    syncPodFirewallChains_active_chains exampleDecls exampleSchedule exampleHostNpc [] "1"
      (List.Perm.refl _)⟩

set_option maxRecDepth 100000 in
/-- C9, as stated, fails: two actionable pods of the node with the same pod IP share one key
of `allLocalPods`; the later pod of the lister replaces the earlier one, and the chain name
of the earlier one is not returned. -/
theorem syncPodFirewallChains_active_chains_counterexample :
    exampleHostPodA ∈ exampleHostNpc.podLister ∧
    exampleDecls.isNetPolActionable exampleHostPodA = true ∧
    exampleHostPodA.HostIP ∈ exampleHostNpc.nodeIPAddrs ∧
    podFirewallChainName exampleHostPodA.Namespace exampleHostPodA.Name "1" ∉
      (syncPodFirewallChains exampleDecls exampleSchedule exampleHostNpc [] "1").1 := by
  decide

/-! ### The order of the lines of one pod -/

theorem bufferAfter_prefix (d : Decls) (loops : podInfo → RangeOrders)
    (nps : List networkPolicyInfo) (version : String) (f : IPFamily)
    (pods : List (String × podInfo)) (buf : Buffer) :
    ∃ post, bufferAfter d loops nps version f pods buf = buf ++ post := by
  induction pods generalizing buf with
  | nil => exact ⟨[], by simp [bufferAfter]⟩
  | cons e es ih =>
    obtain ⟨post, hpost⟩ := ih (buf ++ podRules d loops e.2 nps version f buf)
    refine ⟨podRules d loops e.2 nps version f buf ++ post, ?_⟩
    simp only [bufferAfter, List.foldl_cons] at hpost ⊢
    rw [hpost, List.append_assoc]

/-- The lines of every pod visited are in the buffer, after the lines of the pods visited
before it. -/
theorem bufferAfter_mem (d : Decls) (loops : podInfo → RangeOrders)
    (nps : List networkPolicyInfo) (version : String) (f : IPFamily)
    (pods : List (String × podInfo)) (buf : Buffer) (e : String × podInfo) (he : e ∈ pods) :
    ∃ pre post, bufferAfter d loops nps version f pods buf =
      pre ++ podRules d loops e.2 nps version f pre ++ post := by
  induction pods generalizing buf with
  | nil => cases he
  | cons x xs ih =>
    rcases List.mem_cons.mp he with h | h
    · subst h
      obtain ⟨post, hpost⟩ :=
        bufferAfter_prefix d loops nps version f xs
          (buf ++ podRules d loops e.2 nps version f buf)
      refine ⟨buf, post, ?_⟩
      simp only [bufferAfter, List.foldl_cons] at hpost ⊢
      exact hpost
    · obtain ⟨pre, post, hpp⟩ := ih (buf ++ podRules d loops x.2 nps version f buf) h
      refine ⟨pre, post, ?_⟩
      simp only [bufferAfter, List.foldl_cons] at hpp ⊢
      exact hpp

/-- C3, as amended: for every pod of `allLocalPods` that has an address in a family with a
buffer, the lines that `syncPodFirewallChains` writes for the pod stand in the buffer of the
family in this order: the declaration of the chain, then the jumps to the policy chains,
then the jumps to the default chain, then the rule that accepts traffic from the node, then
the rule that drops INVALID traffic, and then the rule that accepts RELATED,ESTABLISHED
traffic. Each rule is an insertion `-I chain 1`. -/
theorem syncPodFirewallChains_textual_order (d : Decls) (sch : Schedule)
    (npc : NetworkPolicyController) (networkPoliciesInfo : List networkPolicyInfo)
    (version : String)
    (hperm : (sch.pods (allLocalPods d npc)).Perm (allLocalPods d npc))
    (e : String × podInfo) (he : e ∈ allLocalPods d npc) (ipFamily : IPFamily)
    (buf : Buffer) (hbuf : npc.filterTableRules ipFamily = some buf) (ip : String)
    (hip : d.getPodIPForFamily e.2 ipFamily = some ip) :
    ∃ pre post : List String,
      (syncPodFirewallChains d sch npc networkPoliciesInfo version).2 ipFamily =
        some (pre ++
          [chainDeclaration (podFirewallChainName e.2.namespace_ e.2.name version)] ++
          policyJumpRules d e.2 (podFirewallChainName e.2.namespace_ e.2.name version) version
            ipFamily ip networkPoliciesInfo ++
          defaultJumpRules e.2 (podFirewallChainName e.2.namespace_ e.2.name version) ip
            networkPoliciesInfo ++
          [localAcceptRule (podFirewallChainName e.2.namespace_ e.2.name version) ip,
            invalidDropRule (podFirewallChainName e.2.namespace_ e.2.name version),
            statefulAcceptRule (podFirewallChainName e.2.namespace_ e.2.name version)] ++
          post) := by
  obtain ⟨pre, post, h⟩ := bufferAfter_mem d sch.loops networkPoliciesInfo version ipFamily
    (sch.pods (allLocalPods d npc)) buf e (hperm.mem_iff.mpr he)
  rw [syncPodFirewallChains_rules, hbuf, Option.map_some', h]
  simp only [podRules, hip, podHeadRules, netpolRules]
  exact ⟨pre, _, by simp only [List.append_assoc]; rfl⟩

theorem syncPodFirewallChains_textual_order_witness :
    (exampleSchedule.pods (allLocalPods exampleDecls exampleNpc)).Perm
      (allLocalPods exampleDecls exampleNpc) ∧
    ("10.0.0.5", examplePodInfo) ∈ allLocalPods exampleDecls exampleNpc ∧
    exampleNpc.filterTableRules IPFamily.IPv4 = some [] ∧
    exampleDecls.getPodIPForFamily examplePodInfo IPFamily.IPv4 = some "10.0.0.5" ∧
    ∃ pre post : List String,
      (syncPodFirewallChains exampleDecls exampleSchedule exampleNpc [examplePolicy] "1").2
          IPFamily.IPv4 =
        some (pre ++
          [chainDeclaration (podFirewallChainName "default" "web" "1")] ++
          policyJumpRules exampleDecls examplePodInfo
            (podFirewallChainName "default" "web" "1") "1" IPFamily.IPv4 "10.0.0.5"
            [examplePolicy] ++
          defaultJumpRules examplePodInfo (podFirewallChainName "default" "web" "1")
            "10.0.0.5" [examplePolicy] ++
          [localAcceptRule (podFirewallChainName "default" "web" "1") "10.0.0.5",
            invalidDropRule (podFirewallChainName "default" "web" "1"),
            statefulAcceptRule (podFirewallChainName "default" "web" "1")] ++
          post) :=
  ⟨List.Perm.refl _, by decide, rfl, rfl,
    syncPodFirewallChains_textual_order exampleDecls exampleSchedule exampleNpc
      [examplePolicy] "1" (List.Perm.refl _) ("10.0.0.5", examplePodInfo) (by decide)
      IPFamily.IPv4 [] rfl "10.0.0.5" rfl⟩

set_option maxRecDepth 100000 in
/-- C3, as stated, fails: in the buffer of the run for the pod `default/web` with one ingress
policy, the rule for RELATED,ESTABLISHED does not stand before the rule for INVALID, the
rule that accepts traffic from the node and the jump to the policy chain; the lines stand
in the opposite order. -/
theorem syncPodFirewallChains_textual_order_counterexample :
    ¬ List.Sublist
        [chainDeclaration (podFirewallChainName "default" "web" "1"),
          statefulAcceptRule (podFirewallChainName "default" "web" "1"),
          invalidDropRule (podFirewallChainName "default" "web" "1"),
          localAcceptRule (podFirewallChainName "default" "web" "1") "10.0.0.5",
          policyJumpRule exampleDecls (podFirewallChainName "default" "web" "1") "1"
            IPFamily.IPv4 "10.0.0.5" examplePolicy]
        (((syncPodFirewallChains exampleDecls exampleSchedule exampleNpc [examplePolicy]
          "1").2 IPFamily.IPv4).getD []) ∧
    List.Sublist
        [chainDeclaration (podFirewallChainName "default" "web" "1"),
          policyJumpRule exampleDecls (podFirewallChainName "default" "web" "1") "1"
            IPFamily.IPv4 "10.0.0.5" examplePolicy,
          localAcceptRule (podFirewallChainName "default" "web" "1") "10.0.0.5",
          invalidDropRule (podFirewallChainName "default" "web" "1"),
          statefulAcceptRule (podFirewallChainName "default" "web" "1")]
        (((syncPodFirewallChains exampleDecls exampleSchedule exampleNpc [examplePolicy]
          "1").2 IPFamily.IPv4).getD []) := by
  decide


/-! ### The declarations of the pod chains -/

theorem mapInsert_map_fst {β : Type} (m : List (String × β)) (k : String) (v : β) :
    (mapInsert m k v).map Prod.fst =
      if k ∈ m.map Prod.fst then m.map Prod.fst else m.map Prod.fst ++ [k] := by
  induction m with
  | nil => simp [mapInsert]
  | cons x xs ih =>
    unfold mapInsert
    by_cases hx : x.1 = k
    · simp [hx]
    · have hx' : ¬ k = x.1 := fun h => hx h.symm
      simp only [hx, if_false, List.map_cons, ih, List.mem_cons, hx', false_or]
      split <;> simp

theorem mapInsert_keys_nodup {β : Type} (m : List (String × β)) (k : String) (v : β)
    (h : (m.map Prod.fst).Nodup) : ((mapInsert m k v).map Prod.fst).Nodup := by
  rw [mapInsert_map_fst]
  split
  · exact h
  · rename_i hk
    exact List.Nodup.append h (List.nodup_singleton k) (by simpa using hk)

theorem getLocalPods_keys_nodup (d : Decls) (npc : NetworkPolicyController) (nodeIP : String)
    (m : List (String × podInfo)) (h : (m.map Prod.fst).Nodup) :
    ((getLocalPods d npc m nodeIP).map Prod.fst).Nodup := by
  unfold getLocalPods
  generalize npc.podLister = pods
  induction pods generalizing m with
  | nil => exact h
  | cons p ps ih =>
    rw [List.foldl_cons]
    apply ih
    split
    · exact h
    · exact mapInsert_keys_nodup _ _ _ h

/-- The map `allLocalPods` has no key twice, so no entry twice. -/
theorem allLocalPods_nodup (d : Decls) (npc : NetworkPolicyController) :
    (allLocalPods d npc).Nodup := by
  have h : ∀ (ips : List String) (m : List (String × podInfo)), (m.map Prod.fst).Nodup →
      ((ips.foldl (getLocalPods d npc) m).map Prod.fst).Nodup := by
    intro ips
    induction ips with
    | nil => exact fun m h => h
    | cons ip rest ih => exact fun m h => ih _ (getLocalPods_keys_nodup d npc ip m h)
  exact List.Nodup.of_map _ (h npc.nodeIPAddrs [] List.nodup_nil)

theorem netpolRules_head (d : Decls) (pod : podInfo) (X : String)
    (nps : List networkPolicyInfo) (version : String) (f : IPFamily) (ip : String) :
    ∀ l ∈ netpolRules d pod X nps version f ip, l.data.head? = some '-' := by
  intro l hl
  simp only [netpolRules, policyJumpRules, defaultJumpRules, List.mem_append, List.mem_cons,
    List.mem_singleton, List.mem_map, List.not_mem_nil, or_false] at hl
  rcases hl with ((⟨p, _, rfl⟩ | h | h) | h | h | h)
  · cases hty : p.policyType <;> simp [policyJumpRule, hty]
  · by_cases hc : hasIngressPolicy pod nps = true
    · simp [hc] at h
    · simp only [hc, if_false, List.mem_singleton, Bool.false_eq_true] at h
      subst h; simp [defaultIngressRule]
  · by_cases hc : hasEgressPolicy pod nps = true
    · simp [hc] at h
    · simp only [hc, if_false, List.mem_singleton, Bool.false_eq_true] at h
      subst h; simp [defaultEgressRule]
  · subst h; simp [localAcceptRule]
  · subst h; simp [invalidDropRule]
  · subst h; simp [statefulAcceptRule]

theorem inboundRules_head (pod : podInfo) (X ip : String) :
    ∀ l ∈ inboundRules pod X ip, l.data.head? = some '-' := by
  intro l hl
  simp only [inboundRules, List.mem_cons, List.mem_singleton, List.not_mem_nil, or_false]
    at hl
  rcases hl with h | h | h <;> subst h <;> simp [inboundRule, inboundBridgedRule]

theorem outboundRules_head (pod : podInfo) (X ip : String) (chains : List String) :
    ∀ l ∈ outboundRules pod X ip chains, l.data.head? = some '-' := by
  intro l hl
  simp only [outboundRules, List.mem_append, List.mem_map, List.mem_singleton] at hl
  rcases hl with ⟨c, _, rfl⟩ | h
  · simp [outboundRule]
  · subst h; simp [outboundBridgedRule]

theorem dropRules_head (pod : podInfo) (X : String) (buf : Buffer) :
    ∀ l ∈ dropRules pod X buf, l.data.head? = some '-' := by
  intro l hl
  unfold dropRules at hl
  by_cases hc : stringsContains (Buffer.String buf) (nflogRule pod X) = true
  · simp [hc] at hl
  · simp only [hc, if_false, List.mem_cons, List.mem_singleton, List.not_mem_nil, or_false,
      Bool.false_eq_true] at hl
    rcases hl with h | h | h <;> subst h <;> simp [nflogRule, rejectRule, markClearRule]

theorem markAcceptRule_head (X : String) : (markAcceptRule X).data.head? = some '-' := by
  simp [markAcceptRule]

/-- The lines of a pod iteration are the declaration of the chain and, after it, rules:
lines that start with a dash. -/
theorem podRules_eq_cons (d : Decls) (loops : podInfo → RangeOrders) (pod : podInfo)
    (nps : List networkPolicyInfo) (version : String) (f : IPFamily) (buf : Buffer)
    (ip : String) (hip : d.getPodIPForFamily pod f = some ip) :
    ∃ tail : List String,
      podRules d loops pod nps version f buf =
        chainDeclaration (podFirewallChainName pod.namespace_ pod.name version) :: tail ∧
      ∀ l ∈ tail, l.data.head? = some '-' := by
  refine ⟨_, by simp only [podRules, hip, podHeadRules, List.singleton_append,
    List.cons_append, List.append_assoc]; rfl, ?_⟩
  intro l hl
  simp only [List.mem_append, List.mem_singleton] at hl
  rcases hl with h | h | h | h | h | h
  · cases h
  · exact netpolRules_head _ _ _ _ _ _ _ l h
  · exact inboundRules_head _ _ _ l h
  · exact outboundRules_head _ _ _ _ l h
  · exact dropRules_head _ _ _ l h
  · exact h ▸ markAcceptRule_head _

theorem chainDeclaration_inj (a b : String) (h : chainDeclaration a = chainDeclaration b) :
    a = b := by
  simpa [chainDeclaration, String.ext_iff] using h

theorem chainDeclaration_head (c : String) : (chainDeclaration c).data.head? = some ':' := by
  simp [chainDeclaration]

/-- A pod iteration declares the chain of its pod once, and no other chain. -/
theorem podRules_count_declaration (d : Decls) (loops : podInfo → RangeOrders) (pod : podInfo)
    (nps : List networkPolicyInfo) (version : String) (f : IPFamily) (buf : Buffer)
    (c : String) :
    (podRules d loops pod nps version f buf).count (chainDeclaration c) =
      if (d.getPodIPForFamily pod f).isSome ∧
          podFirewallChainName pod.namespace_ pod.name version = c then 1 else 0 := by
  cases hip : d.getPodIPForFamily pod f with
  | none => simp [podRules, hip]
  | some ip =>
    obtain ⟨tail, heq, htail⟩ := podRules_eq_cons d loops pod nps version f buf ip hip
    have h0 : tail.count (chainDeclaration c) = 0 := by
      rw [List.count_eq_zero]
      intro hm
      have := htail _ hm
      rw [chainDeclaration_head] at this
      simp at this
    rw [heq, List.count_cons, h0]
    by_cases hc : podFirewallChainName pod.namespace_ pod.name version = c
    · simp [hc]
    · have : ¬ chainDeclaration (podFirewallChainName pod.namespace_ pod.name version) =
          chainDeclaration c := fun h => hc (chainDeclaration_inj _ _ h)
      simp [hc, this]


theorem bufferAfter_count_declaration (d : Decls) (loops : podInfo → RangeOrders)
    (nps : List networkPolicyInfo) (version : String) (f : IPFamily)
    (pods : List (String × podInfo)) (buf : Buffer) (c : String) :
    (bufferAfter d loops nps version f pods buf).count (chainDeclaration c) =
      buf.count (chainDeclaration c) +
        pods.countP (fun e => decide ((d.getPodIPForFamily e.2 f).isSome ∧
          podFirewallChainName e.2.namespace_ e.2.name version = c)) := by
  induction pods generalizing buf with
  | nil => simp [bufferAfter]
  | cons e es ih =>
    have h := ih (buf ++ podRules d loops e.2 nps version f buf)
    simp only [bufferAfter, List.foldl_cons] at h ⊢
    rw [h, List.count_append, podRules_count_declaration, List.countP_cons]
    split <;> simp_all
    omega

theorem bufferAfter_mem_line (d : Decls) (loops : podInfo → RangeOrders)
    (nps : List networkPolicyInfo) (version : String) (f : IPFamily)
    (pods : List (String × podInfo)) (buf : Buffer) (l : String)
    (hl : l ∈ bufferAfter d loops nps version f pods buf) :
    l ∈ buf ∨ ∃ e ∈ pods, ∃ pre, l ∈ podRules d loops e.2 nps version f pre := by
  induction pods generalizing buf with
  | nil => exact Or.inl (by simpa [bufferAfter] using hl)
  | cons e es ih =>
    simp only [bufferAfter, List.foldl_cons] at hl ih
    rcases ih _ hl with h | ⟨x, hx, pre, h⟩
    · rcases List.mem_append.mp h with h' | h'
      · exact Or.inl h'
      · exact Or.inr ⟨e, List.mem_cons_self _ _, buf, h'⟩
    · exact Or.inr ⟨x, List.mem_cons_of_mem _ hx, pre, h⟩

theorem countP_unique {α : Type} [DecidableEq α] (l : List α) (hl : l.Nodup) (e : α)
    (he : e ∈ l) (p : α → Bool) (hp : ∀ x ∈ l, p x = true → x = e) :
    l.countP p = if p e then 1 else 0 := by
  by_cases hpe : p e = true
  · have : l.countP p = l.countP (fun x => x == e) := by
      apply List.countP_congr
      intro x hx
      constructor
      · intro h; simpa using hp x hx h
      · intro h
        have : x = e := by simpa using h
        rw [this]; exact hpe
    rw [this, if_pos hpe]
    exact List.count_eq_one_of_mem hl he
  · rw [if_neg hpe, List.countP_eq_zero]
    intro x hx h
    exact hpe (hp x hx h ▸ h)

/-- The keys of `allLocalPods`, the pod IPs, are pairwise different. -/
theorem allLocalPods_keys_nodup (d : Decls) (npc : NetworkPolicyController) :
    ((allLocalPods d npc).map Prod.fst).Nodup := by
  have h : ∀ (ips : List String) (m : List (String × podInfo)), (m.map Prod.fst).Nodup →
      ((ips.foldl (getLocalPods d npc) m).map Prod.fst).Nodup := by
    intro ips
    induction ips with
    | nil => exact fun m h => h
    | cons ip rest ih => exact fun m h => ih _ (getLocalPods_keys_nodup d npc ip m h)
  exact h npc.nodeIPAddrs [] List.nodup_nil

/-- C8, as amended: `allLocalPods` records pods of the lister that are actionable and whose
host IP is an address of the node, under their pod IPs: every pod IP of such a pod is a key,
and no key stands twice.  After one run of `syncPodFirewallChains` from an empty buffer, for
every pod recorded in `allLocalPods` whose chain name no other recorded pod has, the
declaration of its chain stands once in the buffer of a family in which the pod has an
address, and not at all in the buffer of a family in which it has none; every line of the
buffer is written in the iteration of a recorded pod that has an address in the family; and
every chain declared in the buffer is the chain of a pod of the lister that is actionable and
whose host IP is an address of the node. -/
theorem syncPodFirewallChains_chain_declarations (d : Decls) (sch : Schedule)
    (npc : NetworkPolicyController) (networkPoliciesInfo : List networkPolicyInfo)
    (version : String)
    (hperm : (sch.pods (allLocalPods d npc)).Perm (allLocalPods d npc))
    (ipFamily : IPFamily) (hbuf : npc.filterTableRules ipFamily = some []) :
    (∀ e ∈ allLocalPods d npc,
      ∃ p ∈ npc.podLister, d.isNetPolActionable p = true ∧ p.HostIP ∈ npc.nodeIPAddrs ∧
        e.1 = p.PodIP ∧ e.2.name = p.Name ∧ e.2.namespace_ = p.Namespace) ∧
    (∀ p ∈ npc.podLister, d.isNetPolActionable p = true → p.HostIP ∈ npc.nodeIPAddrs →
      ∃ e ∈ allLocalPods d npc, e.1 = p.PodIP) ∧
    ((allLocalPods d npc).map Prod.fst).Nodup ∧
    ∃ buf : Buffer,
      (syncPodFirewallChains d sch npc networkPoliciesInfo version).2 ipFamily = some buf ∧
      (∀ e ∈ allLocalPods d npc,
        (∀ e' ∈ allLocalPods d npc,
          podFirewallChainName e'.2.namespace_ e'.2.name version =
            podFirewallChainName e.2.namespace_ e.2.name version → e' = e) →
        buf.count (chainDeclaration (podFirewallChainName e.2.namespace_ e.2.name version)) =
          if (d.getPodIPForFamily e.2 ipFamily).isSome then 1 else 0) ∧
      (∀ l ∈ buf, ∃ e ∈ allLocalPods d npc, ∃ ip pre,
        d.getPodIPForFamily e.2 ipFamily = some ip ∧
        l ∈ podRules d sch.loops e.2 networkPoliciesInfo version ipFamily pre) ∧
      (∀ c, chainDeclaration c ∈ buf →
        ∃ p ∈ npc.podLister, d.isNetPolActionable p = true ∧ p.HostIP ∈ npc.nodeIPAddrs ∧
          c = podFirewallChainName p.Namespace p.Name version) := by
  refine ⟨allLocalPods_mem d npc, fun p hp ha hh => allLocalPods_key d npc p hp ha hh,
    allLocalPods_keys_nodup d npc,
    _, by rw [syncPodFirewallChains_rules, hbuf]; rfl, ?_, ?_, ?_⟩
  · intro e he huniq
    rw [bufferAfter_count_declaration, List.count_nil, Nat.zero_add, hperm.countP_eq]
    rw [countP_unique _ (allLocalPods_nodup d npc) e he]
    · simp
    · intro x hx hpx
      simp only [decide_eq_true_eq] at hpx
      exact huniq x hx hpx.2
  · intro l hl
    rcases bufferAfter_mem_line _ _ _ _ _ _ _ l hl with h | ⟨e, he, pre, h⟩
    · cases h
    · cases hip : d.getPodIPForFamily e.2 ipFamily with
      | none => simp [podRules, hip] at h
      | some ip => exact ⟨e, hperm.mem_iff.mp he, ip, pre, hip, h⟩
  · intro c hc
    rw [← List.count_pos_iff, bufferAfter_count_declaration, List.count_nil, Nat.zero_add,
      List.countP_pos_iff] at hc
    obtain ⟨e, he, hpe⟩ := hc
    simp only [decide_eq_true_eq] at hpe
    obtain ⟨p, hp, ha, hh, _, hn, hs⟩ := allLocalPods_mem d npc e (hperm.mem_iff.mp he)
    exact ⟨p, hp, ha, hh, by rw [← hpe.2, hn, hs]⟩

set_option maxRecDepth 100000 in
theorem syncPodFirewallChains_chain_declarations_witness :
    (exampleSchedule.pods (allLocalPods exampleDecls exampleNpc)).Perm
      (allLocalPods exampleDecls exampleNpc) ∧
    exampleNpc.filterTableRules IPFamily.IPv4 = some [] ∧
    ("10.0.0.5", examplePodInfo) ∈ allLocalPods exampleDecls exampleNpc ∧
    exampleDecls.getPodIPForFamily examplePodInfo IPFamily.IPv4 = some "10.0.0.5" ∧
    (∀ e' ∈ allLocalPods exampleDecls exampleNpc,
      podFirewallChainName e'.2.namespace_ e'.2.name "1" =
        podFirewallChainName "default" "web" "1" → e' = ("10.0.0.5", examplePodInfo)) ∧
    ∃ buf : Buffer,
      (syncPodFirewallChains exampleDecls exampleSchedule exampleNpc [examplePolicy] "1").2
        IPFamily.IPv4 = some buf ∧
      buf.count (chainDeclaration (podFirewallChainName "default" "web" "1")) = 1 ∧
      (∀ l ∈ buf, ∃ e ∈ allLocalPods exampleDecls exampleNpc, ∃ ip pre,
        exampleDecls.getPodIPForFamily e.2 IPFamily.IPv4 = some ip ∧
        l ∈ podRules exampleDecls exampleSchedule.loops e.2 [examplePolicy] "1"
          IPFamily.IPv4 pre) ∧
      chainDeclaration (podFirewallChainName "default" "web" "1") ∈ buf ∧
      (∀ c, chainDeclaration c ∈ buf →
        ∃ p ∈ exampleNpc.podLister, exampleDecls.isNetPolActionable p = true ∧
          p.HostIP ∈ exampleNpc.nodeIPAddrs ∧
          c = podFirewallChainName p.Namespace p.Name "1") := by
  have hmem : ("10.0.0.5", examplePodInfo) ∈ allLocalPods exampleDecls exampleNpc := by
    decide
  have huniq : ∀ e' ∈ allLocalPods exampleDecls exampleNpc,
      podFirewallChainName e'.2.namespace_ e'.2.name "1" =
        podFirewallChainName "default" "web" "1" → e' = ("10.0.0.5", examplePodInfo) := by
    decide
  obtain ⟨_, _, _, buf, hbuf, hcount, hlines, hdecl⟩ :=
    syncPodFirewallChains_chain_declarations exampleDecls exampleSchedule exampleNpc
      [examplePolicy] "1" (List.Perm.refl _) IPFamily.IPv4 rfl
  have hone : buf.count (chainDeclaration (podFirewallChainName "default" "web" "1")) = 1 :=
    hcount ("10.0.0.5", examplePodInfo) hmem huniq
  exact ⟨List.Perm.refl _, rfl, hmem, rfl, huniq, buf, hbuf, hone, hlines,
    List.count_pos_iff.mp (by rw [hone]; decide), hdecl⟩

set_option maxRecDepth 100000 in
/-- C8, as stated, fails: the pod `kube-system/kube-proxy-x7k2p` is actionable, runs on the
node and has an IPv4 address, but another pod of the lister has the same pod IP, and the
IPv4 buffer holds no declaration of its chain. -/
theorem syncPodFirewallChains_chain_declarations_counterexample :
    exampleHostPodA ∈ exampleHostNpc.podLister ∧
    exampleDecls.isNetPolActionable exampleHostPodA = true ∧
    exampleHostPodA.HostIP ∈ exampleHostNpc.nodeIPAddrs ∧
    exampleDecls.getPodIPForFamily
      { ip := exampleHostPodA.PodIP, ips := exampleHostPodA.PodIPs,
        name := exampleHostPodA.Name, namespace_ := exampleHostPodA.Namespace,
        labels := exampleHostPodA.Labels } IPFamily.IPv4 = some "192.168.0.1" ∧
    (((syncPodFirewallChains exampleDecls exampleSchedule exampleHostNpc [] "1").2
      IPFamily.IPv4).getD []).count
        (chainDeclaration
          (podFirewallChainName exampleHostPodA.Namespace exampleHostPodA.Name "1")) = 0 := by
  decide


/-! ### The rules appended to a pod chain -/

theorem podFirewallChainName_cons (ns name version : String) :
    ∃ cs : List Char, cs.length = 16 ∧
      (∀ c ∈ cs, Base32.isAlphabetChar c = true) ∧
      (podFirewallChainName ns name version).data =
        'K' :: 'U' :: 'B' :: 'E' :: '-' :: 'P' :: 'O' :: 'D' :: '-' :: 'F' :: 'W' :: '-' :: cs := by
  obtain ⟨cs, hlen, halpha, hdata⟩ := podFirewallChainName_data ns name version
  exact ⟨cs, hlen, fun c hc => (halpha c hc).1, by rw [hdata]; rfl⟩

theorem podFirewallChainName_length (ns name version : String) :
    (podFirewallChainName ns name version).data.length = 28 := by
  obtain ⟨cs, hlen, _, hdata⟩ := podFirewallChainName_cons ns name version
  rw [hdata]; simp [hlen]

theorem appendsTo_iff (X l : String) :
    appendsTo X l = true ↔ '-' :: 'A' :: ' ' :: (X.data ++ [' ']) <+: l.data := by
  simp [appendsTo, List.isPrefixOf_iff_prefix]

theorem not_appendsTo_chainDeclaration (X c : String) :
    appendsTo X (chainDeclaration c) = false := by
  rw [← Bool.not_eq_true, appendsTo_iff]
  simp [chainDeclaration]

theorem not_appendsTo_netpolRules (d : Decls) (pod : podInfo) (X' : String)
    (nps : List networkPolicyInfo) (version : String) (f : IPFamily) (ip X : String) :
    ∀ l ∈ netpolRules d pod X' nps version f ip, appendsTo X l = false := by
  intro l hl
  rw [← Bool.not_eq_true, appendsTo_iff]
  simp only [netpolRules, policyJumpRules, defaultJumpRules, List.mem_append, List.mem_cons,
    List.mem_singleton, List.mem_map, List.not_mem_nil, or_false] at hl
  rcases hl with ((⟨p, _, rfl⟩ | h | h) | h | h | h)
  · cases hty : p.policyType <;> simp [policyJumpRule, hty]
  · by_cases hc : hasIngressPolicy pod nps = true
    · simp [hc] at h
    · simp only [hc, if_false, List.mem_singleton, Bool.false_eq_true] at h
      subst h; simp [defaultIngressRule]
  · by_cases hc : hasEgressPolicy pod nps = true
    · simp [hc] at h
    · simp only [hc, if_false, List.mem_singleton, Bool.false_eq_true] at h
      subst h; simp [defaultEgressRule]
  · subst h; simp [localAcceptRule]
  · subst h; simp [invalidDropRule]
  · subst h; simp [statefulAcceptRule]

theorem not_appendsTo_inboundRules (pod : podInfo) (X' ip : String)
    (ns name version : String) :
    ∀ l ∈ inboundRules pod X' ip,
      appendsTo (podFirewallChainName ns name version) l = false := by
  intro l hl
  rw [← Bool.not_eq_true, appendsTo_iff]
  obtain ⟨cs, _, _, hdata⟩ := podFirewallChainName_cons ns name version
  simp only [inboundRules, List.mem_cons, List.mem_singleton, List.not_mem_nil, or_false]
    at hl
  rcases hl with h | h | h <;> subst h <;>
    simp [inboundRule, inboundBridgedRule, hdata, kubeForwardChainName, kubeOutputChainName]

theorem not_appendsTo_outboundBridgedRule (pod : podInfo) (X' ip : String)
    (ns name version : String) :
    appendsTo (podFirewallChainName ns name version) (outboundBridgedRule pod X' ip) = false := by
  rw [← Bool.not_eq_true, appendsTo_iff]
  obtain ⟨cs, _, _, hdata⟩ := podFirewallChainName_cons ns name version
  simp [outboundBridgedRule, hdata, kubeForwardChainName]


theorem prefix_eq_of_length {α : Type} (a b r t : List α) (h : a ++ t <+: b ++ r)
    (hlen : a.length = b.length) : a = b := by
  obtain ⟨s, hs⟩ := h
  rw [List.append_assoc] at hs
  exact (List.append_inj hs hlen).1

theorem not_appendsTo_outboundRule (pod : podInfo) (X' ip chain : String)
    (ns name version : String)
    (hchain : ¬ "KUBE-POD-FW-".data <+: chain.data) :
    appendsTo (podFirewallChainName ns name version) (outboundRule pod X' ip chain) = false := by
  rw [← Bool.not_eq_true, appendsTo_iff]
  obtain ⟨cs, _, _, hdata⟩ := podFirewallChainName_cons ns name version
  intro h
  simp only [outboundRule, String.data_append, hdata, List.cons_append, List.append_assoc]
    at h
  have h' : "KUBE-POD-FW-".data ++ (cs ++ [' ']) <+: chain.data ++
      (" -m comment --comment ".data ++ ((outboundComment pod X').data ++
        (" -s ".data ++ (ip.data ++ (" -j ".data ++ (X'.data ++ " \n".data)))))) := by
    simpa using h
  have h1 : "KUBE-POD-FW-".data <+: chain.data ++
      (" -m comment --comment ".data ++ ((outboundComment pod X').data ++
        (" -s ".data ++ (ip.data ++ (" -j ".data ++ (X'.data ++ " \n".data)))))) :=
    (List.prefix_append _ _).trans h'
  rcases List.prefix_or_prefix_of_prefix h1 (List.prefix_append chain.data _) with h2 | h2
  · exact hchain h2
  · obtain ⟨t, ht⟩ := h2
    rw [← ht] at h1
    have h3 := (List.prefix_append_right_inj chain.data).mp h1
    cases t with
    | nil => exact hchain (by rw [← ht]; simp)
    | cons c t' =>
      have hc : c = ' ' := by
        have := h3
        simp at this
        exact this.1
      have hmem : ' ' ∈ "KUBE-POD-FW-".data := by
        rw [← ht, hc]; simp
      simp at hmem

theorem appendsTo_of_prefix (X rest : String) : appendsTo X ("-A " ++ X ++ " " ++ rest) = true := by
  rw [appendsTo_iff]
  simp

theorem appendsTo_other_chain (ns name version ns' name' version' rest : String)
    (h : appendsTo (podFirewallChainName ns name version)
      ("-A " ++ podFirewallChainName ns' name' version' ++ rest) = true) :
    podFirewallChainName ns name version = podFirewallChainName ns' name' version' := by
  rw [appendsTo_iff] at h
  simp only [String.data_append, List.cons_append, List.append_assoc] at h
  have h' : (podFirewallChainName ns name version).data ++ [' '] <+:
      (podFirewallChainName ns' name' version').data ++ rest.data := by
    simpa using h
  exact String.ext (prefix_eq_of_length _ _ _ _ h'
    ((podFirewallChainName_length _ _ _).trans (podFirewallChainName_length _ _ _).symm))

/-- The rules that a pod iteration appends to a pod chain: the drop rules and the rule that
marks the traffic as accepted when the chain is the chain of the pod, none otherwise. -/
theorem podRules_filter_appendsTo (d : Decls) (loops : podInfo → RangeOrders) (pod : podInfo)
    (nps : List networkPolicyInfo) (version : String) (f : IPFamily) (buf : Buffer)
    (ip : String) (hip : d.getPodIPForFamily pod f = some ip) (ns name : String)
    (hchains : ∀ c ∈ (loops pod).defaultChains f, ¬ "KUBE-POD-FW-".data <+: c.data) :
    (podRules d loops pod nps version f buf).filter
        (appendsTo (podFirewallChainName ns name version)) =
      if podFirewallChainName pod.namespace_ pod.name version =
          podFirewallChainName ns name version then
        dropRules pod (podFirewallChainName pod.namespace_ pod.name version)
          (buf ++ podHeadRules d ((loops pod).defaultChains f) pod nps version f ip) ++
          [markAcceptRule (podFirewallChainName pod.namespace_ pod.name version)]
      else [] := by
  have hhead : (podHeadRules d ((loops pod).defaultChains f) pod nps version f ip).filter
      (appendsTo (podFirewallChainName ns name version)) = [] := by
    rw [List.filter_eq_nil_iff]
    intro l hl
    rw [Bool.not_eq_true]
    simp only [podHeadRules, List.mem_append, List.mem_singleton, outboundRules,
      List.mem_map] at hl
    rcases hl with ((h | h) | h) | (⟨c, hc, rfl⟩ | h)
    · exact h ▸ not_appendsTo_chainDeclaration _ _
    · exact not_appendsTo_netpolRules _ _ _ _ _ _ _ _ l h
    · exact not_appendsTo_inboundRules _ _ _ _ _ _ l h
    · exact not_appendsTo_outboundRule _ _ _ _ _ _ _ (hchains c hc)
    · exact h ▸ not_appendsTo_outboundBridgedRule _ _ _ _ _ _
  simp only [podRules, hip, List.filter_append, hhead, List.nil_append]
  by_cases hX : podFirewallChainName pod.namespace_ pod.name version =
      podFirewallChainName ns name version
  · rw [if_pos hX, ← hX]
    have h1 : ∀ l ∈ dropRules pod (podFirewallChainName pod.namespace_ pod.name version)
        (buf ++ podHeadRules d ((loops pod).defaultChains f) pod nps version f ip),
        appendsTo (podFirewallChainName pod.namespace_ pod.name version) l = true := by
      intro l hl
      unfold dropRules at hl
      split at hl
      · cases hl
      · simp only [List.mem_cons, List.mem_singleton, List.not_mem_nil, or_false] at hl
        rcases hl with h | h | h <;> subst h
        · simpa [nflogRule, String.append_assoc] using appendsTo_of_prefix _ _
        · simpa [rejectRule, String.append_assoc] using appendsTo_of_prefix _ _
        · simpa [markClearRule, String.append_assoc] using appendsTo_of_prefix _ _
    have h2 : appendsTo (podFirewallChainName pod.namespace_ pod.name version)
        (markAcceptRule (podFirewallChainName pod.namespace_ pod.name version)) = true := by
      simpa [markAcceptRule, String.append_assoc] using appendsTo_of_prefix _ _
    rw [List.filter_eq_self.mpr h1]
    simp [h2]
  · rw [if_neg hX]
    have hne : ∀ rest : String, appendsTo (podFirewallChainName ns name version)
        ("-A " ++ podFirewallChainName pod.namespace_ pod.name version ++ rest) = false := by
      intro rest
      rw [← Bool.not_eq_true]
      exact fun h => hX (appendsTo_other_chain _ _ _ _ _ _ _ h).symm
    have h1 : (dropRules pod (podFirewallChainName pod.namespace_ pod.name version)
        (buf ++ podHeadRules d ((loops pod).defaultChains f) pod nps version f ip)).filter
        (appendsTo (podFirewallChainName ns name version)) = [] := by
      rw [List.filter_eq_nil_iff]
      intro l hl
      rw [Bool.not_eq_true]
      unfold dropRules at hl
      split at hl
      · cases hl
      · simp only [List.mem_cons, List.mem_singleton, List.not_mem_nil, or_false] at hl
        rcases hl with h | h | h <;> subst h
        · simpa [nflogRule, String.append_assoc] using hne _
        · simpa [rejectRule, String.append_assoc] using hne _
        · simpa [markClearRule, String.append_assoc] using hne _
    have h2 : appendsTo (podFirewallChainName ns name version)
        (markAcceptRule (podFirewallChainName pod.namespace_ pod.name version)) = false := by
      simpa [markAcceptRule, String.append_assoc] using hne _
    rw [h1]
    simp [h2]


theorem bufferAfter_append (d : Decls) (loops : podInfo → RangeOrders)
    (nps : List networkPolicyInfo) (version : String) (f : IPFamily)
    (l1 l2 : List (String × podInfo)) (buf : Buffer) :
    bufferAfter d loops nps version f (l1 ++ l2) buf =
      bufferAfter d loops nps version f l2 (bufferAfter d loops nps version f l1 buf) := by
  simp [bufferAfter, List.foldl_append]

theorem bufferAfter_cons (d : Decls) (loops : podInfo → RangeOrders)
    (nps : List networkPolicyInfo) (version : String) (f : IPFamily)
    (e : String × podInfo) (l : List (String × podInfo)) (buf : Buffer) :
    bufferAfter d loops nps version f (e :: l) buf =
      bufferAfter d loops nps version f l
        (buf ++ podRules d loops e.2 nps version f buf) := by
  simp [bufferAfter]

/-- The pods with another chain append nothing to a pod chain. -/
theorem bufferAfter_filter_other (d : Decls) (loops : podInfo → RangeOrders)
    (nps : List networkPolicyInfo) (version : String) (f : IPFamily)
    (pods : List (String × podInfo)) (buf : Buffer) (ns name : String)
    (hchains : ∀ e ∈ pods, ∀ c ∈ (loops e.2).defaultChains f, ¬ "KUBE-POD-FW-".data <+: c.data)
    (hother : ∀ e ∈ pods, podFirewallChainName e.2.namespace_ e.2.name version ≠
      podFirewallChainName ns name version) :
    (bufferAfter d loops nps version f pods buf).filter
        (appendsTo (podFirewallChainName ns name version)) =
      buf.filter (appendsTo (podFirewallChainName ns name version)) := by
  induction pods generalizing buf with
  | nil => simp [bufferAfter]
  | cons e es ih =>
    rw [bufferAfter_cons, ih _ (fun x hx => hchains x (List.mem_cons_of_mem _ hx))
      (fun x hx => hother x (List.mem_cons_of_mem _ hx)), List.filter_append]
    cases hip : d.getPodIPForFamily e.2 f with
    | none => simp [podRules, hip]
    | some ip =>
      rw [podRules_filter_appendsTo d loops e.2 nps version f buf ip hip ns name
        (hchains e (List.mem_cons_self _ _)), if_neg (hother e (List.mem_cons_self _ _))]
      simp

/-- The part of the buffer that is written before the drop rules of a pod, the drop rules
and the mark rule of the pod, and the rules appended to its chain when no other pod visited
has the same chain name. -/
theorem bufferAfter_appended (d : Decls) (loops : podInfo → RangeOrders)
    (nps : List networkPolicyInfo) (version : String) (f : IPFamily)
    (pods : List (String × podInfo)) (hnodup : pods.Nodup) (e : String × podInfo)
    (he : e ∈ pods) (ip : String) (hip : d.getPodIPForFamily e.2 f = some ip)
    (hchains : ∀ x ∈ pods, ∀ c ∈ (loops x.2).defaultChains f, ¬ "KUBE-POD-FW-".data <+: c.data)
    (huniq : ∀ x ∈ pods, podFirewallChainName x.2.namespace_ x.2.name version =
      podFirewallChainName e.2.namespace_ e.2.name version → x = e) :
    ∃ (before : List (String × podInfo)) (post : List String),
      (∀ x ∈ before, x ∈ pods ∧ x ≠ e) ∧
      bufferAfter d loops nps version f pods [] =
        (bufferAfter d loops nps version f before [] ++
          podHeadRules d ((loops e.2).defaultChains f) e.2 nps version f ip) ++
        (dropRules e.2 (podFirewallChainName e.2.namespace_ e.2.name version)
          (bufferAfter d loops nps version f before [] ++
            podHeadRules d ((loops e.2).defaultChains f) e.2 nps version f ip) ++
          [markAcceptRule (podFirewallChainName e.2.namespace_ e.2.name version)]) ++ post ∧
      (bufferAfter d loops nps version f pods []).filter
          (appendsTo (podFirewallChainName e.2.namespace_ e.2.name version)) =
        dropRules e.2 (podFirewallChainName e.2.namespace_ e.2.name version)
          (bufferAfter d loops nps version f before [] ++
            podHeadRules d ((loops e.2).defaultChains f) e.2 nps version f ip) ++
          [markAcceptRule (podFirewallChainName e.2.namespace_ e.2.name version)] := by
  obtain ⟨l1, l2, hsplit⟩ := List.append_of_mem he
  have hn1 : e ∉ l1 := by
    intro h
    rw [hsplit] at hnodup
    exact (List.nodup_append.mp hnodup).2.2 h (List.mem_cons_self _ _)
  have hn2 : e ∉ l2 := by
    rw [hsplit] at hnodup
    exact (List.nodup_cons.mp (List.nodup_append.mp hnodup).2.1).1
  have hm1 : ∀ x ∈ l1, x ∈ pods := fun x hx => hsplit ▸ List.mem_append_left _ hx
  have hm2 : ∀ x ∈ l2, x ∈ pods :=
    fun x hx => hsplit ▸ List.mem_append_right _ (List.mem_cons_of_mem _ hx)
  have ho1 : ∀ x ∈ l1, podFirewallChainName x.2.namespace_ x.2.name version ≠
      podFirewallChainName e.2.namespace_ e.2.name version :=
    fun x hx h => hn1 (huniq x (hm1 x hx) h ▸ hx)
  have ho2 : ∀ x ∈ l2, podFirewallChainName x.2.namespace_ x.2.name version ≠
      podFirewallChainName e.2.namespace_ e.2.name version :=
    fun x hx h => hn2 (huniq x (hm2 x hx) h ▸ hx)
  obtain ⟨post, hpost⟩ := bufferAfter_prefix d loops nps version f l2
    (bufferAfter d loops nps version f l1 [] ++
      podRules d loops e.2 nps version f (bufferAfter d loops nps version f l1 []))
  have hbuf : bufferAfter d loops nps version f pods [] =
      bufferAfter d loops nps version f l2
        (bufferAfter d loops nps version f l1 [] ++
          podRules d loops e.2 nps version f (bufferAfter d loops nps version f l1 [])) := by
    rw [hsplit, bufferAfter_append, bufferAfter_cons]
  refine ⟨l1, post, fun x hx => ⟨hm1 x hx, fun h => hn1 (h ▸ hx)⟩, ?_, ?_⟩
  · rw [hbuf, hpost]
    simp only [podRules, hip, List.append_assoc]
  · rw [hbuf, bufferAfter_filter_other d loops nps version f l2 _ _ _
      (fun x hx => hchains x (hm2 x hx)) ho2, List.filter_append,
      bufferAfter_filter_other d loops nps version f l1 _ _ _
      (fun x hx => hchains x (hm1 x hx)) ho1,
      podRules_filter_appendsTo d loops e.2 nps version f _ ip hip _ _ (hchains e he)]
    simp


/-! ### Lines and words -/

theorem containsChars_iff (s sub : List Char) :
    containsChars s sub = true ↔ sub <:+: s := by
  induction s with
  | nil => simp [containsChars, List.infix_nil]
  | cons c cs ih =>
    simp only [containsChars, Bool.or_eq_true, ih, List.infix_cons_iff,
      List.isPrefixOf_iff_prefix]

/-- Two runs that start with a word followed by the same separator start with the same
word. -/
theorem prefix_word_align {α : Type} (x : α) (u w b c : List α) (hu : x ∉ u) (hw : x ∉ w)
    (h : u ++ x :: b <+: w ++ x :: c) : u = w ∧ b <+: c := by
  induction u generalizing w with
  | nil =>
    cases w with
    | nil => exact ⟨rfl, by simpa using h⟩
    | cons y w' =>
      exfalso
      simp only [List.nil_append, List.cons_append, List.cons_prefix_cons] at h
      exact hw (h.1 ▸ List.mem_cons_self _ _)
  | cons a u' ih =>
    cases w with
    | nil =>
      exfalso
      simp only [List.nil_append, List.cons_append, List.cons_prefix_cons] at h
      exact hu (h.1 ▸ List.mem_cons_self _ _)
    | cons y w' =>
      simp only [List.cons_append, List.cons_prefix_cons] at h
      obtain ⟨h1, h2⟩ := ih w' (fun hm => hu (List.mem_cons_of_mem _ hm))
        (fun hm => hw (List.mem_cons_of_mem _ hm)) h.2
      exact ⟨by rw [h.1, h1], h2⟩

/-- Two runs that end with the same separator followed by a word end with the same word. -/
theorem suffix_word_align {α : Type} (x : α) (u w b c : List α) (hu : x ∉ u) (hw : x ∉ w)
    (h : b ++ x :: u <:+ c ++ x :: w) : u = w ∧ b <:+ c := by
  have h' : u.reverse ++ x :: b.reverse <+: w.reverse ++ x :: c.reverse := by
    have := List.reverse_prefix.mpr h
    simpa using this
  obtain ⟨h1, h2⟩ := prefix_word_align x _ _ _ _ (by simpa using hu) (by simpa using hw) h'
  exact ⟨List.reverse_injective h1, List.reverse_prefix.mp h2⟩

theorem isLineChars_iff (l : List Char) :
    isLineChars l = true ↔ ∃ body, l = body ++ ['\n'] ∧ '\n' ∉ body := by
  constructor
  · intro h
    have h' : l.getLast? = some '\n' ∧ '\n' ∉ l.dropLast := by
      simpa [isLineChars] using h
    refine ⟨l.dropLast, ?_, h'.2⟩
    rcases List.eq_nil_or_concat l with hl | ⟨b, a, hl⟩
    · subst hl; simp at h'
    · subst hl
      have ha : a = '\n' := by simpa using h'.1
      simp [ha]
  · rintro ⟨body, rfl, hb⟩
    simp [isLineChars, hb]

/-- A line that occurs in a text made of lines is the end of one of them. -/
theorem line_infix_step (lb cb R : List Char) (hl : '\n' ∉ lb) (hc : '\n' ∉ cb)
    (h : lb ++ ['\n'] <:+: cb ++ '\n' :: R) :
    lb ++ ['\n'] <:+ cb ++ ['\n'] ∨ lb ++ ['\n'] <:+: R := by
  induction cb with
  | nil =>
    rcases List.infix_cons_iff.mp h with h1 | h1
    · left
      have := (prefix_word_align '\n' lb [] [] R hl (by simp) (by simpa using h1)).1
      rw [this]
    · exact Or.inr h1
  | cons a cb' ih =>
    rcases List.infix_cons_iff.mp h with h1 | h1
    · left
      have := (prefix_word_align '\n' lb (a :: cb') [] R hl hc (by simpa using h1)).1
      rw [this]
    · rcases ih (fun hm => hc (List.mem_cons_of_mem _ hm)) h1 with h2 | h2
      · exact Or.inl (h2.trans (List.suffix_cons a _))
      · exact Or.inr h2

theorem line_infix (cs : List String) (L : List Char)
    (hcs : ∀ c ∈ cs, isLineChars c.data = true) (hL : isLineChars L = true)
    (h : L <:+: cs.flatMap String.data) : ∃ c ∈ cs, L <:+ c.data := by
  obtain ⟨lb, rfl, hlb⟩ := (isLineChars_iff L).mp hL
  induction cs with
  | nil =>
    exfalso
    simp only [List.flatMap_nil, List.infix_nil] at h
    simp at h
  | cons c rest ih =>
    obtain ⟨cb, hcb, hcn⟩ := (isLineChars_iff c.data).mp (hcs c (List.mem_cons_self _ _))
    rw [List.flatMap_cons, hcb, List.append_assoc] at h
    rcases line_infix_step lb cb _ hlb hcn (by simpa using h) with h1 | h1
    · exact ⟨c, List.mem_cons_self _ _, hcb ▸ h1⟩
    · obtain ⟨c', hc', hs⟩ := ih (fun x hx => hcs x (List.mem_cons_of_mem _ hx)) h1
      exact ⟨c', List.mem_cons_of_mem _ hc', hs⟩

/-- The last characters of a run and of its end are the same. -/
theorem suffix_tail_eq (k : Nat) (A1 l1 A2 l2 : List Char) (h : A1 ++ l1 <:+ A2 ++ l2)
    (h1 : k ≤ l1.length) (h2 : k ≤ l2.length) :
    l1.reverse.take k = l2.reverse.take k := by
  have h' := List.reverse_prefix.mpr h
  rw [List.reverse_append, List.reverse_append] at h'
  obtain ⟨t, ht⟩ := h'
  have := congrArg (List.take k) ht
  rw [List.append_assoc, List.take_append_of_le_length (by simpa using h1),
    List.take_append_of_le_length (by simpa using h2)] at this
  exact this

theorem isWord_iff (s : String) : isWord s = true ↔ ' ' ∉ s.data ∧ '\n' ∉ s.data := by
  simp [isWord]


theorem isLineChars_append_lit (F : List Char) (lit : String) (hF : '\n' ∉ F)
    (hlit : isLineChars lit.data = true) : isLineChars (F ++ lit.data) = true := by
  obtain ⟨body, hb, hn⟩ := (isLineChars_iff _).mp hlit
  rw [isLineChars_iff]
  exact ⟨F ++ body, by rw [hb, List.append_assoc], by simp [hF, hn]⟩

theorem not_suffix_of_tail (k : Nat) (A1 A2 : List Char) (l1 l2 : String)
    (h1 : k ≤ l1.data.length) (h2 : k ≤ l2.data.length)
    (hne : l1.data.reverse.take k ≠ l2.data.reverse.take k) :
    ¬ A1 ++ l1.data <:+ A2 ++ l2.data :=
  fun h => hne (suffix_tail_eq k A1 l1.data A2 l2.data h h1 h2)

theorem suffix_append_cancel {α : Type} (a b t : List α) (h : a ++ t <:+ b ++ t) : a <:+ b := by
  obtain ⟨s, hs⟩ := h
  exact ⟨s, List.append_cancel_right (by rw [List.append_assoc]; exact hs)⟩

/-- The characters of a pod chain name: no blank, no newline, and the last one is a digit
of the base32 alphabet. -/
theorem podFirewallChainName_chars (ns name version : String) :
    ' ' ∉ (podFirewallChainName ns name version).data ∧
    '\n' ∉ (podFirewallChainName ns name version).data ∧
    ∃ init last, (podFirewallChainName ns name version).data = init ++ [last] ∧
      Base32.isAlphabetChar last = true := by
  obtain ⟨cs, hlen, halpha, hdata⟩ := podFirewallChainName_cons ns name version
  have hne : ∀ c, Base32.isAlphabetChar c = false → c ∉ cs := by
    intro c hc hm
    rw [halpha c hm] at hc
    cases hc
  refine ⟨?_, ?_, ?_⟩
  · rw [hdata]
    simp only [List.mem_cons, not_or]
    exact ⟨by decide, by decide, by decide, by decide, by decide, by decide, by decide,
      by decide, by decide, by decide, by decide, by decide, hne ' ' (by decide)⟩
  · rw [hdata]
    simp only [List.mem_cons, not_or]
    exact ⟨by decide, by decide, by decide, by decide, by decide, by decide, by decide,
      by decide, by decide, by decide, by decide, by decide, hne '\n' (by decide)⟩
  · rcases List.eq_nil_or_concat cs with h | ⟨b, a, h⟩
    · rw [h] at hlen; cases hlen
    · refine ⟨'K' :: 'U' :: 'B' :: 'E' :: '-' :: 'P' :: 'O' :: 'D' :: '-' :: 'F' :: 'W' ::
        '-' :: b, a, ?_, halpha a (by rw [h]; simp)⟩
      rw [hdata, h]; simp


/-! ### Every line written is a line -/

theorem isLine_chainDeclaration (X : String) (hX : '\n' ∉ X.data) :
    isLineChars (chainDeclaration X).data = true := by
  rw [chainDeclaration, String.data_append]
  exact isLineChars_append_lit _ _ (by simp [hX]) (by decide)

theorem isLine_policyJumpRule (d : Decls) (X version : String) (f : IPFamily) (ip : String)
    (p : networkPolicyInfo) (hX : '\n' ∉ X.data) (hip : '\n' ∉ ip.data)
    (hn : '\n' ∉ p.name.data)
    (hc : '\n' ∉ (d.networkPolicyChainName p.namespace_ p.name version f).data) :
    isLineChars (policyJumpRule d X version f ip p).data = true := by
  cases hty : p.policyType <;>
    (simp only [policyJumpRule, hty]
     rw [String.data_append]
     exact isLineChars_append_lit _ _ (by simp [hX, hip, hn, hc]) (by decide))

theorem isLine_defaultIngressRule (X ip : String) (hX : '\n' ∉ X.data) (hip : '\n' ∉ ip.data) :
    isLineChars (defaultIngressRule X ip).data = true := by
  rw [defaultIngressRule, String.data_append]
  exact isLineChars_append_lit _ _ (by simp [hX, hip, kubeDefaultNetpolChain]) (by decide)

theorem isLine_defaultEgressRule (X ip : String) (hX : '\n' ∉ X.data) (hip : '\n' ∉ ip.data) :
    isLineChars (defaultEgressRule X ip).data = true := by
  rw [defaultEgressRule, String.data_append]
  exact isLineChars_append_lit _ _ (by simp [hX, hip, kubeDefaultNetpolChain]) (by decide)

theorem isLine_localAcceptRule (X ip : String) (hX : '\n' ∉ X.data) (hip : '\n' ∉ ip.data) :
    isLineChars (localAcceptRule X ip).data = true := by
  rw [localAcceptRule, String.data_append]
  exact isLineChars_append_lit _ _ (by simp [hX, hip]) (by decide)

theorem isLine_invalidDropRule (X : String) (hX : '\n' ∉ X.data) :
    isLineChars (invalidDropRule X).data = true := by
  rw [invalidDropRule, String.data_append]
  exact isLineChars_append_lit _ _ (by simp [hX]) (by decide)

theorem isLine_statefulAcceptRule (X : String) (hX : '\n' ∉ X.data) :
    isLineChars (statefulAcceptRule X).data = true := by
  rw [statefulAcceptRule, String.data_append]
  exact isLineChars_append_lit _ _ (by simp [hX]) (by decide)

theorem isLine_inboundRule (chain : String) (pod : podInfo) (X ip : String)
    (hc : '\n' ∉ chain.data) (hX : '\n' ∉ X.data) (hip : '\n' ∉ ip.data)
    (hn : '\n' ∉ pod.name.data) (hs : '\n' ∉ pod.namespace_.data) :
    isLineChars (inboundRule chain pod X ip).data = true := by
  rw [inboundRule, String.data_append]
  exact isLineChars_append_lit _ _ (by simp [inboundComment, hc, hX, hip, hn, hs]) (by decide)

theorem isLine_inboundBridgedRule (pod : podInfo) (X ip : String)
    (hX : '\n' ∉ X.data) (hip : '\n' ∉ ip.data)
    (hn : '\n' ∉ pod.name.data) (hs : '\n' ∉ pod.namespace_.data) :
    isLineChars (inboundBridgedRule pod X ip).data = true := by
  rw [inboundBridgedRule, String.data_append]
  exact isLineChars_append_lit _ _
    (by simp [inboundComment, kubeForwardChainName, hX, hip, hn, hs]) (by decide)

theorem isLine_outboundRule (pod : podInfo) (X ip chain : String)
    (hc : '\n' ∉ chain.data) (hX : '\n' ∉ X.data) (hip : '\n' ∉ ip.data)
    (hn : '\n' ∉ pod.name.data) (hs : '\n' ∉ pod.namespace_.data) :
    isLineChars (outboundRule pod X ip chain).data = true := by
  rw [outboundRule, String.data_append]
  exact isLineChars_append_lit _ _ (by simp [outboundComment, hc, hX, hip, hn, hs]) (by decide)

theorem isLine_outboundBridgedRule (pod : podInfo) (X ip : String)
    (hX : '\n' ∉ X.data) (hip : '\n' ∉ ip.data)
    (hn : '\n' ∉ pod.name.data) (hs : '\n' ∉ pod.namespace_.data) :
    isLineChars (outboundBridgedRule pod X ip).data = true := by
  rw [outboundBridgedRule, String.data_append]
  exact isLineChars_append_lit _ _
    (by simp [outboundComment, kubeForwardChainName, hX, hip, hn, hs]) (by decide)

theorem isLine_nflogRule (pod : podInfo) (X : String) (hX : '\n' ∉ X.data)
    (hn : '\n' ∉ pod.name.data) (hs : '\n' ∉ pod.namespace_.data) :
    isLineChars (nflogRule pod X).data = true := by
  rw [nflogRule, String.data_append]
  exact isLineChars_append_lit _ _ (by simp [hX, hn, hs]) (by decide)

theorem isLine_rejectRule (pod : podInfo) (X : String) (hX : '\n' ∉ X.data)
    (hn : '\n' ∉ pod.name.data) (hs : '\n' ∉ pod.namespace_.data) :
    isLineChars (rejectRule pod X).data = true := by
  rw [rejectRule, String.data_append]
  exact isLineChars_append_lit _ _ (by simp [hX, hn, hs]) (by decide)

theorem isLine_markClearRule (X : String) (hX : '\n' ∉ X.data) :
    isLineChars (markClearRule X).data = true := by
  rw [markClearRule, String.data_append]
  exact isLineChars_append_lit _ _ (by simp [hX]) (by decide)

theorem isLine_markAcceptRule (X : String) (hX : '\n' ∉ X.data) :
    isLineChars (markAcceptRule X).data = true := by
  rw [markAcceptRule, String.data_append]
  exact isLineChars_append_lit _ _ (by simp [hX]) (by decide)


/-! ### The log rule of a pod is not the end of another line -/

theorem nflogRule_tail (p : podInfo) (X : String) :
    ∃ F, (nflogRule p X).data = F ++ "-m limit --limit 10/minute --limit-burst 10 \n".data := by
  rw [nflogRule, String.data_append]
  exact ⟨_, rfl⟩

theorem nflogRule_not_suffix_lit (p : podInfo) (X : String) (c : String) (F : List Char)
    (lit : String) (hc : c.data = F ++ lit.data) (hlen : 4 ≤ lit.data.length)
    (hne : "-m limit --limit 10/minute --limit-burst 10 \n".data.reverse.take 4 ≠
      lit.data.reverse.take 4) :
    ¬ (nflogRule p X).data <:+ c.data := by
  obtain ⟨FL, hL⟩ := nflogRule_tail p X
  rw [hL, hc]
  exact not_suffix_of_tail 4 _ _ _ _ (by decide) hlen hne

theorem nflogRule_not_suffix_chain_nl (p : podInfo) (X : String) (c : String) (F : List Char)
    (ns name version : String)
    (hc : c.data = F ++ (podFirewallChainName ns name version).data ++ "\n".data) :
    ¬ (nflogRule p X).data <:+ c.data := by
  obtain ⟨FL, hL⟩ := nflogRule_tail p X
  obtain ⟨_, _, init, last, hX, hlast⟩ := podFirewallChainName_chars ns name version
  rw [hL, hc, hX]
  intro h
  have h' : FL ++ "-m limit --limit 10/minute --limit-burst 10 \n".data <:+
      (F ++ init) ++ [last, '\n'] := by
    simpa [List.append_assoc] using h
  have := suffix_tail_eq 2 _ _ _ _ h' (by decide) (by simp)
  have hl : last = ' ' := by
    have h2 : ['\n', ' '] = ['\n', last] := by simpa using this
    simpa using h2.symm
  rw [hl] at hlast
  exact absurd hlast (by decide)

theorem nflogRule_not_suffix_chain_sp (p : podInfo) (X : String) (c : String) (F : List Char)
    (ns name version : String)
    (hc : c.data = F ++ (podFirewallChainName ns name version).data ++ " \n".data) :
    ¬ (nflogRule p X).data <:+ c.data := by
  obtain ⟨FL, hL⟩ := nflogRule_tail p X
  obtain ⟨_, _, init, last, hX, hlast⟩ := podFirewallChainName_chars ns name version
  rw [hL, hc, hX]
  intro h
  have h' : FL ++ "-m limit --limit 10/minute --limit-burst 10 \n".data <:+
      (F ++ init) ++ [last, ' ', '\n'] := by
    simpa [List.append_assoc] using h
  have := suffix_tail_eq 3 _ _ _ _ h' (by decide) (by simp)
  have hl : last = '0' := by
    have h2 : ['\n', ' ', '0'] = ['\n', ' ', last] := by simpa using this
    simpa using h2.symm
  rw [hl] at hlast
  exact absurd hlast (by decide)

theorem nflogRule_not_suffix_word_sp (p : podInfo) (X : String) (c : String) (F : List Char)
    (w : String) (hw : ' ' ∉ w.data)
    (hc : c.data = F ++ "\" -j ".data ++ w.data ++ " \n".data) :
    ¬ (nflogRule p X).data <:+ c.data := by
  obtain ⟨FL, hL⟩ := nflogRule_tail p X
  rw [hL, hc]
  intro h
  have h1 : (FL ++ "-m limit --limit 10/minute --limit-burst".data) ++ ' ' :: "10".data <:+
      (F ++ "\" -j".data) ++ ' ' :: w.data := by
    apply suffix_append_cancel _ _ " \n".data
    have e1 : ((FL ++ "-m limit --limit 10/minute --limit-burst".data) ++ ' ' :: "10".data) ++
        " \n".data = FL ++ "-m limit --limit 10/minute --limit-burst 10 \n".data := by
      simp
    have e2 : ((F ++ "\" -j".data) ++ ' ' :: w.data) ++ " \n".data =
        F ++ "\" -j ".data ++ w.data ++ " \n".data := by
      simp
    rw [e1, e2]
    exact h
  obtain ⟨_, h2⟩ := suffix_word_align ' ' _ _ _ _ (by decide) hw h1
  exact not_suffix_of_tail 1 _ _ _ _ (by decide) (by decide) (by decide) h2


theorem nflogRule_split (p : podInfo) (X : String) :
    (nflogRule p X).data =
      (((("-A ".data ++ X.data ++
          " -m comment --comment \"rule to log dropped traffic POD".data) ++
        ' ' :: ("name:".data ++ p.name.data)) ++ ' ' :: "namespace:".data) ++
        ' ' :: p.namespace_.data) ++
      ("\" -m mark ! --mark 0x10000/0x10000 -j NFLOG --nflog-group 100 " ++
        "-m limit --limit 10/minute --limit-burst 10 \n").data := by
  simp [nflogRule, String.data_append]

/-- The log rule of a pod is the end of the log rule of another pod only if the two pods
have the same name and namespace. -/
theorem nflogRule_suffix_nflogRule (p q : podInfo) (X X' : String)
    (hpn : ' ' ∉ p.name.data) (hps : ' ' ∉ p.namespace_.data)
    (hqn : ' ' ∉ q.name.data) (hqs : ' ' ∉ q.namespace_.data)
    (h : (nflogRule p X).data <:+ (nflogRule q X').data) :
    p.name = q.name ∧ p.namespace_ = q.namespace_ := by
  rw [nflogRule_split, nflogRule_split] at h
  have h1 := suffix_append_cancel _ _ _ h
  obtain ⟨hs, h2⟩ := suffix_word_align ' ' _ _ _ _ hps hqs h1
  obtain ⟨_, h3⟩ := suffix_word_align ' ' _ _ _ _ (by decide) (by decide) h2
  obtain ⟨hn, _⟩ := suffix_word_align ' ' _ _ _ _
    (by simp [hpn]) (by simp [hqn]) h3
  exact ⟨String.ext (List.append_cancel_left hn), String.ext hs⟩


theorem nflogRule_not_suffix_lit2 (p : podInfo) (X : String) (c : String) (F : List Char)
    (K lit : String) (hc : c.data = F ++ K.data ++ lit.data)
    (hlen : 4 ≤ (K ++ lit).data.length)
    (hne : "-m limit --limit 10/minute --limit-burst 10 \n".data.reverse.take 4 ≠
      (K ++ lit).data.reverse.take 4) :
    ¬ (nflogRule p X).data <:+ c.data :=
  nflogRule_not_suffix_lit p X c F (K ++ lit)
    (by rw [hc, String.data_append, List.append_assoc]) hlen hne

/-- The log rule of a pod is not the end of a line written before the drop rules of a pod
iteration, when the names of the policy chains have no blank. -/
theorem nflogRule_not_suffix_head (d : Decls) (chains : List String) (q : podInfo)
    (nps : List networkPolicyInfo) (version : String) (f : IPFamily) (ip : String)
    (p : podInfo) (X : String)
    (hpol : ∀ policy ∈ nps,
      ' ' ∉ (d.networkPolicyChainName policy.namespace_ policy.name version f).data) :
    ∀ l ∈ podHeadRules d chains q nps version f ip, ¬ (nflogRule p X).data <:+ l.data := by
  intro l hl
  simp only [podHeadRules, netpolRules, policyJumpRules, defaultJumpRules, inboundRules,
    outboundRules, List.mem_append, List.mem_cons, List.mem_singleton, List.mem_map,
    List.mem_filter, List.not_mem_nil, or_false] at hl
  rcases hl with ((h | (⟨pol, ⟨hpm, _⟩, rfl⟩ | h | h) | h | h | h) | h | h | h) |
    ⟨c, _, rfl⟩ | h
  · subst h
    exact nflogRule_not_suffix_chain_nl p X _ ":".data _ _ _
      (by simp only [chainDeclaration, String.data_append]; rfl)
  · cases hty : pol.policyType
    · exact nflogRule_not_suffix_word_sp p X _ _ _ (hpol pol hpm)
        (by simp only [policyJumpRule, hty, String.data_append]; rfl)
    · exact nflogRule_not_suffix_word_sp p X _ _ _ (hpol pol hpm)
        (by simp only [policyJumpRule, hty, String.data_append]; rfl)
    · exact nflogRule_not_suffix_word_sp p X _ _ _ (hpol pol hpm)
        (by simp only [policyJumpRule, hty, String.data_append]; rfl)
  · by_cases hc : hasIngressPolicy q nps = true
    · simp [hc] at h
    · simp only [hc, if_false, List.mem_singleton, Bool.false_eq_true] at h
      subst h
      exact nflogRule_not_suffix_lit2 p X _ _ kubeDefaultNetpolChain " \n"
        (by simp only [defaultIngressRule, String.data_append]; rfl) (by decide) (by decide)
  · by_cases hc : hasEgressPolicy q nps = true
    · simp [hc] at h
    · simp only [hc, if_false, List.mem_singleton, Bool.false_eq_true] at h
      subst h
      exact nflogRule_not_suffix_lit2 p X _ _ kubeDefaultNetpolChain " \n"
        (by simp only [defaultEgressRule, String.data_append]; rfl) (by decide) (by decide)
  · subst h
    exact nflogRule_not_suffix_lit p X _ _ " -j ACCEPT \n"
      (by simp only [localAcceptRule, String.data_append]; rfl) (by decide) (by decide)
  · subst h
    exact nflogRule_not_suffix_lit p X _ _ "-m conntrack --ctstate INVALID -j DROP \n"
      (by simp only [invalidDropRule, String.data_append]; rfl) (by decide) (by decide)
  · subst h
    exact nflogRule_not_suffix_lit p X _ _
      "-m conntrack --ctstate RELATED,ESTABLISHED -j ACCEPT \n"
      (by simp only [statefulAcceptRule, String.data_append]; rfl) (by decide) (by decide)
  · subst h
    exact nflogRule_not_suffix_chain_nl p X _ _ _ _ _
      (by simp only [inboundRule, String.data_append]; rfl)
  · subst h
    exact nflogRule_not_suffix_chain_nl p X _ _ _ _ _
      (by simp only [inboundRule, String.data_append]; rfl)
  · subst h
    exact nflogRule_not_suffix_chain_sp p X _ _ _ _ _
      (by simp only [inboundBridgedRule, String.data_append]; rfl)
  · exact nflogRule_not_suffix_chain_sp p X _ _ _ _ _
      (by simp only [outboundRule, String.data_append]; rfl)
  · subst h
    exact nflogRule_not_suffix_chain_sp p X _ _ _ _ _
      (by simp only [outboundBridgedRule, String.data_append]; rfl)

/-- The log rule of a pod is the end of a drop rule or of the mark rule of a pod iteration
only if the two pods have the same name and namespace. -/
theorem nflogRule_suffix_drop (q : podInfo) (Xq : String) (buf : Buffer) (p : podInfo)
    (X : String) (hpn : ' ' ∉ p.name.data) (hps : ' ' ∉ p.namespace_.data)
    (hqn : ' ' ∉ q.name.data) (hqs : ' ' ∉ q.namespace_.data) :
    ∀ l ∈ dropRules q Xq buf ++ [markAcceptRule Xq], (nflogRule p X).data <:+ l.data →
      p.name = q.name ∧ p.namespace_ = q.namespace_ := by
  intro l hl hs
  rcases List.mem_append.mp hl with h | h
  · unfold dropRules at h
    split at h
    · cases h
    · simp only [List.mem_cons, List.mem_singleton, List.not_mem_nil, or_false] at h
      rcases h with h | h | h <;> subst h
      · exact nflogRule_suffix_nflogRule p q X Xq hpn hps hqn hqs hs
      · exact absurd hs (nflogRule_not_suffix_lit p X _ _
          "\" -m mark ! --mark 0x10000/0x10000 -j REJECT \n"
          (by simp only [rejectRule, String.data_append]; rfl) (by decide) (by decide))
      · exact absurd hs (nflogRule_not_suffix_lit p X _ _ " -j MARK --set-mark 0/0x10000 \n"
          (by simp only [markClearRule, String.data_append]; rfl) (by decide) (by decide))
  · simp only [List.mem_singleton] at h
    subst h
    exact absurd hs (nflogRule_not_suffix_lit p X _ _
      "comply to network policies\" -j MARK --set-mark 0x20000/0x20000 \n"
      (by simp only [markAcceptRule, String.data_append]; rfl) (by decide) (by decide))


theorem podHeadRules_isLine (d : Decls) (chains : List String) (q : podInfo)
    (nps : List networkPolicyInfo) (version : String) (f : IPFamily) (ip : String)
    (hqn : '\n' ∉ q.name.data) (hqs : '\n' ∉ q.namespace_.data) (hipn : '\n' ∉ ip.data)
    (hpol : ∀ policy ∈ nps, '\n' ∉ policy.name.data ∧
      '\n' ∉ (d.networkPolicyChainName policy.namespace_ policy.name version f).data)
    (hch : ∀ c ∈ chains, '\n' ∉ c.data) :
    ∀ l ∈ podHeadRules d chains q nps version f ip, isLineChars l.data = true := by
  intro l hl
  have hX := (podFirewallChainName_chars q.namespace_ q.name version).2.1
  simp only [podHeadRules, netpolRules, policyJumpRules, defaultJumpRules, inboundRules,
    outboundRules, List.mem_append, List.mem_cons, List.mem_singleton, List.mem_map,
    List.mem_filter, List.not_mem_nil, or_false] at hl
  rcases hl with ((h | (⟨pol, ⟨hpm, _⟩, rfl⟩ | h | h) | h | h | h) | h | h | h) |
    ⟨c, hc, rfl⟩ | h
  · exact h ▸ isLine_chainDeclaration _ hX
  · exact isLine_policyJumpRule d _ version f ip pol hX hipn (hpol pol hpm).1 (hpol pol hpm).2
  · by_cases hc : hasIngressPolicy q nps = true
    · simp [hc] at h
    · simp only [hc, if_false, List.mem_singleton, Bool.false_eq_true] at h
      exact h ▸ isLine_defaultIngressRule _ _ hX hipn
  · by_cases hc : hasEgressPolicy q nps = true
    · simp [hc] at h
    · simp only [hc, if_false, List.mem_singleton, Bool.false_eq_true] at h
      exact h ▸ isLine_defaultEgressRule _ _ hX hipn
  · exact h ▸ isLine_localAcceptRule _ _ hX hipn
  · exact h ▸ isLine_invalidDropRule _ hX
  · exact h ▸ isLine_statefulAcceptRule _ hX
  · exact h ▸ isLine_inboundRule _ _ _ _ (by decide) hX hipn hqn hqs
  · exact h ▸ isLine_inboundRule _ _ _ _ (by decide) hX hipn hqn hqs
  · exact h ▸ isLine_inboundBridgedRule _ _ _ hX hipn hqn hqs
  · exact isLine_outboundRule _ _ _ _ (hch c hc) hX hipn hqn hqs
  · exact h ▸ isLine_outboundBridgedRule _ _ _ hX hipn hqn hqs

/-- Every line of a pod iteration is a line, when the names that go into it have no
newline. -/
theorem podRules_isLine (d : Decls) (loops : podInfo → RangeOrders) (q : podInfo)
    (nps : List networkPolicyInfo) (version : String) (f : IPFamily) (buf : Buffer)
    (hqn : '\n' ∉ q.name.data) (hqs : '\n' ∉ q.namespace_.data)
    (hqip : ∀ ip, d.getPodIPForFamily q f = some ip → '\n' ∉ ip.data)
    (hpol : ∀ policy ∈ nps, '\n' ∉ policy.name.data ∧
      '\n' ∉ (d.networkPolicyChainName policy.namespace_ policy.name version f).data)
    (hch : ∀ c ∈ (loops q).defaultChains f, '\n' ∉ c.data) :
    ∀ l ∈ podRules d loops q nps version f buf, isLineChars l.data = true := by
  intro l hl
  unfold podRules at hl
  cases hip : d.getPodIPForFamily q f with
  | none => simp [hip] at hl
  | some ip =>
    have hX := (podFirewallChainName_chars q.namespace_ q.name version).2.1
    simp only [hip, List.mem_append, List.mem_singleton] at hl
    rcases hl with (h | h) | h
    · exact podHeadRules_isLine d _ q nps version f ip hqn hqs (hqip ip hip) hpol hch l h
    · unfold dropRules at h
      split at h
      · cases h
      · simp only [List.mem_cons, List.mem_singleton, List.not_mem_nil, or_false] at h
        rcases h with h | h | h
        · exact h ▸ isLine_nflogRule _ _ hX hqn hqs
        · exact h ▸ isLine_rejectRule _ _ hX hqn hqs
        · exact h ▸ isLine_markClearRule _ hX
    · exact h ▸ isLine_markAcceptRule _ hX

/-- The test of `dropUnmarkedTrafficRules` fails in a run from empty buffers: the text
written before the drop rules of a pod does not contain its log rule, when the names are
words and no pod visited before has the same name and namespace. -/
theorem nflogRule_not_in_buffer (d : Decls) (loops : podInfo → RangeOrders)
    (nps : List networkPolicyInfo) (version : String) (f : IPFamily)
    (before : List (String × podInfo)) (e : String × podInfo) (ip : String)
    (hip : d.getPodIPForFamily e.2 f = some ip)
    (hpods : ∀ x, x ∈ before ∨ x = e →
      isWord x.2.name = true ∧ isWord x.2.namespace_ = true ∧
        ∀ ip', d.getPodIPForFamily x.2 f = some ip' → isWord ip' = true)
    (hpol : ∀ policy ∈ nps, isWord policy.name = true ∧
      isWord (d.networkPolicyChainName policy.namespace_ policy.name version f) = true)
    (hch : ∀ x, x ∈ before ∨ x = e → ∀ c ∈ (loops x.2).defaultChains f, isWord c = true)
    (hother : ∀ x ∈ before, ¬ (e.2.name = x.2.name ∧ e.2.namespace_ = x.2.namespace_)) :
    stringsContains
      (Buffer.String (bufferAfter d loops nps version f before [] ++
        podHeadRules d ((loops e.2).defaultChains f) e.2 nps version f ip))
      (nflogRule e.2 (podFirewallChainName e.2.namespace_ e.2.name version)) = false := by
  rw [← Bool.not_eq_true]
  intro hcontains
  have hinfix := (containsChars_iff _ _).mp hcontains
  have hline : ∀ x, x ∈ before ∨ x = e → ∀ buf, ∀ l ∈ podRules d loops x.2 nps version f buf,
      isLineChars l.data = true := by
    intro x hx buf l hl
    obtain ⟨hn, hs, hi⟩ := hpods x hx
    exact podRules_isLine d loops x.2 nps version f buf ((isWord_iff _).mp hn).2
      ((isWord_iff _).mp hs).2 (fun ip' h => ((isWord_iff _).mp (hi ip' h)).2)
      (fun pol hp => ⟨((isWord_iff _).mp (hpol pol hp).1).2,
        ((isWord_iff _).mp (hpol pol hp).2).2⟩)
      (fun c hc => ((isWord_iff _).mp (hch x hx c hc)).2) l hl
  have hheadsub : ∀ l ∈ podHeadRules d ((loops e.2).defaultChains f) e.2 nps version f ip,
      l ∈ podRules d loops e.2 nps version f [] := by
    intro l hl
    simp only [podRules, hip, List.mem_append]
    exact Or.inl (Or.inl hl)
  have hlines : ∀ c ∈ bufferAfter d loops nps version f before [] ++
      podHeadRules d ((loops e.2).defaultChains f) e.2 nps version f ip,
      isLineChars c.data = true := by
    intro c hc
    rcases List.mem_append.mp hc with h | h
    · rcases bufferAfter_mem_line _ _ _ _ _ _ _ c h with h' | ⟨x, hx, pre, h'⟩
      · cases h'
      · exact hline x (Or.inl hx) pre c h'
    · exact hline e (Or.inr rfl) [] c (hheadsub c h)
  obtain ⟨hen, hes, _⟩ := hpods e (Or.inr rfl)
  have hL : isLineChars
      (nflogRule e.2 (podFirewallChainName e.2.namespace_ e.2.name version)).data = true :=
    isLine_nflogRule _ _ (podFirewallChainName_chars _ _ _).2.1 ((isWord_iff _).mp hen).2
      ((isWord_iff _).mp hes).2
  obtain ⟨c, hc, hsuf⟩ := line_infix _ _ hlines hL hinfix
  have hpolw : ∀ policy ∈ nps,
      ' ' ∉ (d.networkPolicyChainName policy.namespace_ policy.name version f).data :=
    fun pol hp => ((isWord_iff _).mp (hpol pol hp).2).1
  rcases List.mem_append.mp hc with h | h
  · rcases bufferAfter_mem_line _ _ _ _ _ _ _ c h with h' | ⟨x, hx, pre, h'⟩
    · cases h'
    · cases hxip : d.getPodIPForFamily x.2 f with
      | none => simp [podRules, hxip] at h'
      | some ipx =>
        simp only [podRules, hxip, List.append_assoc] at h'
        rcases List.mem_append.mp h' with h2 | h2
        · exact nflogRule_not_suffix_head d _ x.2 nps version f ipx e.2 _ hpolw c h2 hsuf
        · obtain ⟨hxn, hxs, _⟩ := hpods x (Or.inl hx)
          exact hother x hx (nflogRule_suffix_drop x.2 _ _ e.2 _ ((isWord_iff _).mp hen).1
            ((isWord_iff _).mp hes).1 ((isWord_iff _).mp hxn).1 ((isWord_iff _).mp hxs).1
            c h2 hsuf)
  · exact nflogRule_not_suffix_head d _ e.2 nps version f ip e.2 _ hpolw c h hsuf


/-- C6, as amended: after one run of `syncPodFirewallChains` from an empty buffer, for every
pod recorded in `allLocalPods` with an address in the family, if no other recorded pod has
the same chain name, the names, addresses and chain names that go into the lines have no
blank and no newline, and no chain of `defaultChains` starts like a pod chain, then the
rules appended (`-A`) to the chain of the pod in the buffer of the family are, in this
order: the NFLOG rule, the REJECT rule, the rule that clears the mark, and the rule that
sets the mark `0x20000/0x20000`. -/
theorem syncPodFirewallChains_appended_rules (d : Decls) (sch : Schedule)
    (npc : NetworkPolicyController) (networkPoliciesInfo : List networkPolicyInfo)
    (version : String)
    (hperm : (sch.pods (allLocalPods d npc)).Perm (allLocalPods d npc))
    (e : String × podInfo) (he : e ∈ allLocalPods d npc) (ipFamily : IPFamily)
    (hbuf : npc.filterTableRules ipFamily = some []) (ip : String)
    (hip : d.getPodIPForFamily e.2 ipFamily = some ip)
    (huniq : ∀ x ∈ allLocalPods d npc,
      podFirewallChainName x.2.namespace_ x.2.name version =
        podFirewallChainName e.2.namespace_ e.2.name version → x = e)
    (hpods : ∀ x ∈ allLocalPods d npc,
      isWord x.2.name = true ∧ isWord x.2.namespace_ = true ∧
        ∀ ip' ∈ d.getPodIPForFamily x.2 ipFamily, isWord ip' = true)
    (hpol : ∀ policy ∈ networkPoliciesInfo, isWord policy.name = true ∧
      isWord (d.networkPolicyChainName policy.namespace_ policy.name version ipFamily) = true)
    (hloops : ∀ x ∈ allLocalPods d npc,
      ((sch.loops x.2).defaultChains ipFamily).Perm d.defaultChains)
    (hchains : ∀ c ∈ d.defaultChains, isWord c = true ∧ ¬ "KUBE-POD-FW-".data <+: c.data) :
    ∃ buf : Buffer,
      (syncPodFirewallChains d sch npc networkPoliciesInfo version).2 ipFamily = some buf ∧
      buf.filter (appendsTo (podFirewallChainName e.2.namespace_ e.2.name version)) =
        [nflogRule e.2 (podFirewallChainName e.2.namespace_ e.2.name version),
          rejectRule e.2 (podFirewallChainName e.2.namespace_ e.2.name version),
          markClearRule (podFirewallChainName e.2.namespace_ e.2.name version),
          markAcceptRule (podFirewallChainName e.2.namespace_ e.2.name version)] := by
  refine ⟨_, by rw [syncPodFirewallChains_rules, hbuf]; rfl, ?_⟩
  have hmem : ∀ x, x ∈ sch.pods (allLocalPods d npc) ↔ x ∈ allLocalPods d npc :=
    fun x => hperm.mem_iff
  have hch : ∀ x ∈ sch.pods (allLocalPods d npc), ∀ c ∈ (sch.loops x.2).defaultChains ipFamily,
      isWord c = true ∧ ¬ "KUBE-POD-FW-".data <+: c.data :=
    fun x hx c hc => hchains c ((hloops x ((hmem x).mp hx)).mem_iff.mp hc)
  obtain ⟨before, post, hbefore, _, hfilter⟩ :=
    bufferAfter_appended d sch.loops networkPoliciesInfo version ipFamily
      (sch.pods (allLocalPods d npc)) (hperm.nodup_iff.mpr (allLocalPods_nodup d npc)) e
      ((hmem e).mpr he) ip hip (fun x hx c hc => (hch x hx c hc).2)
      (fun x hx h => huniq x ((hmem x).mp hx) h)
  rw [hfilter]
  have hguard := nflogRule_not_in_buffer d sch.loops networkPoliciesInfo version ipFamily
    before e ip hip
    (fun x hx => by
      have hx' : x ∈ allLocalPods d npc := by
        rcases hx with h | h
        · exact (hmem x).mp (hbefore x h).1
        · exact h ▸ he
      exact hpods x hx')
    hpol
    (fun x hx c hc => by
      have hx' : x ∈ sch.pods (allLocalPods d npc) := by
        rcases hx with h | h
        · exact (hbefore x h).1
        · exact h ▸ (hmem e).mpr he
      exact (hch x hx' c hc).1)
    (fun x hx hsame => (hbefore x hx).2
      (huniq x ((hmem x).mp (hbefore x hx).1) (by rw [hsame.1, hsame.2])))
  simp [dropRules, hguard]

set_option maxRecDepth 100000 in
theorem syncPodFirewallChains_appended_rules_witness :
    (exampleSchedule.pods (allLocalPods exampleDecls exampleNpc)).Perm
      (allLocalPods exampleDecls exampleNpc) ∧
    ("10.0.0.5", examplePodInfo) ∈ allLocalPods exampleDecls exampleNpc ∧
    exampleNpc.filterTableRules IPFamily.IPv4 = some [] ∧
    exampleDecls.getPodIPForFamily examplePodInfo IPFamily.IPv4 = some "10.0.0.5" ∧
    (∀ x ∈ allLocalPods exampleDecls exampleNpc,
      podFirewallChainName x.2.namespace_ x.2.name "1" =
        podFirewallChainName "default" "web" "1" → x = ("10.0.0.5", examplePodInfo)) ∧
    (∀ x ∈ allLocalPods exampleDecls exampleNpc,
      isWord x.2.name = true ∧ isWord x.2.namespace_ = true ∧
        ∀ ip' ∈ exampleDecls.getPodIPForFamily x.2 IPFamily.IPv4, isWord ip' = true) ∧
    (∀ policy ∈ [examplePolicy], isWord policy.name = true ∧
      isWord (exampleDecls.networkPolicyChainName policy.namespace_ policy.name "1"
        IPFamily.IPv4) = true) ∧
    (∀ x ∈ allLocalPods exampleDecls exampleNpc,
      ((exampleSchedule.loops x.2).defaultChains IPFamily.IPv4).Perm
        exampleDecls.defaultChains) ∧
    (∀ c ∈ exampleDecls.defaultChains,
      isWord c = true ∧ ¬ "KUBE-POD-FW-".data <+: c.data) ∧
    ∃ buf : Buffer,
      (syncPodFirewallChains exampleDecls exampleSchedule exampleNpc [examplePolicy] "1").2
        IPFamily.IPv4 = some buf ∧
      buf.filter (appendsTo (podFirewallChainName "default" "web" "1")) =
        [nflogRule examplePodInfo (podFirewallChainName "default" "web" "1"),
          rejectRule examplePodInfo (podFirewallChainName "default" "web" "1"),
          markClearRule (podFirewallChainName "default" "web" "1"),
          markAcceptRule (podFirewallChainName "default" "web" "1")] :=
  ⟨List.Perm.refl _, by decide, rfl, rfl, by decide, by decide, by decide, by decide,
    by decide,
    syncPodFirewallChains_appended_rules exampleDecls exampleSchedule exampleNpc
      [examplePolicy] "1" (List.Perm.refl _) ("10.0.0.5", examplePodInfo) (by decide)
      IPFamily.IPv4 rfl "10.0.0.5" rfl (by decide) (by decide) (by decide) (by decide)
      (by decide)⟩

set_option maxRecDepth 100000 in
/-- C6, as stated, fails: the pods `a/bc` and `ab/c` run on the node and have IPv4 addresses,
and both get the chain name of the text `abc`; the IPv4 buffer then holds eight rules
appended to that chain, four for each pod. -/
theorem syncPodFirewallChains_appended_rules_counterexample :
    podFirewallChainName "a" "bc" "1" = podFirewallChainName "ab" "c" "1" ∧
    (allLocalPods exampleDecls exampleCollidingNpc).map (fun e => (e.2.namespace_, e.2.name)) =
      [("a", "bc"), ("ab", "c")] ∧
    ((((syncPodFirewallChains exampleDecls exampleSchedule exampleCollidingNpc [] "1").2
      IPFamily.IPv4).getD []).filter (appendsTo (podFirewallChainName "a" "bc" "1"))).length =
      8 := by
  decide!

/-! ### Lines of different pods and of different kinds are different -/

theorem appended_start (X l : String) (h : hasKind X l LineKind.appended) :
    ∃ r, l.data = '-' :: 'A' :: ' ' :: (X.data ++ r) := by
  obtain ⟨z, h | h | h | h⟩ := h <;> subst h
  · exact ⟨_, by simp only [nflogRule, String.data_append, List.append_assoc,
      List.cons_append, List.nil_append]; rfl⟩
  · exact ⟨_, by simp only [rejectRule, String.data_append, List.append_assoc,
      List.cons_append, List.nil_append]; rfl⟩
  · exact ⟨_, by simp only [markClearRule, String.data_append, List.append_assoc,
      List.cons_append, List.nil_append]; rfl⟩
  · exact ⟨_, by simp only [markAcceptRule, String.data_append, List.append_assoc,
      List.cons_append, List.nil_append]; rfl⟩

/-- A rule appended to a pod chain ends with a literal text: a blank and a newline after
`0`, or after the word `REJECT`. -/
theorem appended_end (X l : String) (h : hasKind X l LineKind.appended) :
    (∃ G, l.data = G ++ ['0', ' ', '\n']) ∨
      ∃ G, l.data = G ++ ' ' :: ("REJECT".data ++ " \n".data) := by
  obtain ⟨z, h | h | h | h⟩ := h <;> subst h
  · left
    rw [nflogRule, String.data_append]
    exact ⟨_ ++ "-m limit --limit 10/minute --limit-burst 1".data, by
      rw [List.append_assoc]; rfl⟩
  · right
    rw [rejectRule, String.data_append]
    exact ⟨_ ++ "\" -m mark ! --mark 0x10000/0x10000 -j".data, by
      rw [List.append_assoc]; rfl⟩
  · left
    rw [markClearRule, String.data_append]
    exact ⟨_ ++ " -j MARK --set-mark 0/0x1000".data, by rw [List.append_assoc]; rfl⟩
  · left
    rw [markAcceptRule, String.data_append]
    exact ⟨_ ++ "comply to network policies\" -j MARK --set-mark 0x20000/0x2000".data, by
      rw [List.append_assoc]; rfl⟩

theorem kind_head (X l : String) (k : LineKind) (h : hasKind X l k) :
    l.data.head? = some (if k = LineKind.declaration then ':' else '-') := by
  cases k with
  | declaration => rw [show l = chainDeclaration X from h]; simp [chainDeclaration]
  | insertion => obtain ⟨r, hr⟩ := h; simp [hr]
  | jumpNewline => obtain ⟨⟨r, hr⟩, _⟩ := h; simp [hr]
  | jumpBlank => obtain ⟨⟨r, hr⟩, _⟩ := h; simp [hr]
  | appended => obtain ⟨r, hr⟩ := appended_start X l h; simp [hr]

theorem kind_second (X l : String) (k : LineKind) (h : hasKind X l k)
    (hk : k ≠ LineKind.declaration) :
    l.data.tail.head? = some (if k = LineKind.insertion then 'I' else 'A') := by
  cases k with
  | declaration => exact absurd rfl hk
  | insertion => obtain ⟨r, hr⟩ := h; simp [hr]
  | jumpNewline => obtain ⟨⟨r, hr⟩, _⟩ := h; simp [hr]
  | jumpBlank => obtain ⟨⟨r, hr⟩, _⟩ := h; simp [hr]
  | appended => obtain ⟨r, hr⟩ := appended_start X l h; simp [hr]

/-- A line is of one kind only, and for one pod chain only. -/
theorem kind_clash (a b v a' b' v' : String) (l : String) (k k' : LineKind)
    (h : hasKind (podFirewallChainName a b v) l k)
    (h' : hasKind (podFirewallChainName a' b' v') l k') :
    k = k' ∧ podFirewallChainName a b v = podFirewallChainName a' b' v' := by
  have hlen : (podFirewallChainName a b v).data.length =
      (podFirewallChainName a' b' v').data.length :=
    (podFirewallChainName_length _ _ _).trans (podFirewallChainName_length _ _ _).symm
  obtain ⟨hsp, _, init, last, hX, hlast⟩ := podFirewallChainName_chars a b v
  obtain ⟨hsp', _, init', last', hX', hlast'⟩ := podFirewallChainName_chars a' b' v'
  have hhead := kind_head _ l k h
  have hhead' := kind_head _ l k' h'
  by_cases hd : k = LineKind.declaration
  · by_cases hd' : k' = LineKind.declaration
    · subst hd; subst hd'
      exact ⟨rfl, chainDeclaration_inj _ _ ((show l = _ from h).symm.trans h')⟩
    · exfalso
      rw [hhead, if_pos hd, if_neg hd'] at hhead'
      simp at hhead'
  · by_cases hd' : k' = LineKind.declaration
    · exfalso
      rw [hhead, if_neg hd, if_pos hd'] at hhead'
      simp at hhead'
    · have hsec := kind_second _ l k h hd
      have hsec' := kind_second _ l k' h' hd'
      by_cases hi : k = LineKind.insertion
      · by_cases hi' : k' = LineKind.insertion
        · subst hi; subst hi'
          obtain ⟨r, hr⟩ := h
          obtain ⟨r', hr'⟩ := h'
          rw [hr] at hr'
          simp only [List.cons.injEq, true_and] at hr'
          exact ⟨rfl, String.ext (List.append_inj hr' hlen).1⟩
        · exfalso
          rw [hsec, if_pos hi, if_neg hi'] at hsec'
          simp at hsec'
      · by_cases hi' : k' = LineKind.insertion
        · exfalso
          rw [hsec, if_neg hi, if_pos hi'] at hsec'
          simp at hsec'
        · -- both lines are rules appended to a chain
          have tailNl : ∀ (Y : String) (i : List Char) (c : Char), Y.data = i ++ [c] →
              hasKind Y l LineKind.jumpNewline → ∃ G, l.data = G ++ [c, '\n'] := by
            rintro Y i c hY ⟨_, H, hH⟩
            exact ⟨H ++ i, by rw [hH, hY]; simp⟩
          have tailSp : ∀ (Y : String) (i : List Char) (c : Char), Y.data = i ++ [c] →
              hasKind Y l LineKind.jumpBlank → ∃ G, l.data = G ++ [c, ' ', '\n'] := by
            rintro Y i c hY ⟨_, H, hH⟩
            exact ⟨H ++ " -j ".data ++ i, by rw [hH, hY]; simp⟩
          have nlsp : ∀ (G G' : List Char) (c c' : Char), Base32.isAlphabetChar c = true →
              l.data = G ++ [c, '\n'] → l.data = G' ++ [c', ' ', '\n'] → False := by
            intro G G' c c' hc h1 h2
            rw [h1] at h2
            have h3 : G ++ [c, '\n'] = (G' ++ [c']) ++ [' ', '\n'] := by simpa using h2
            have h4 := (List.append_inj' h3 rfl).2
            simp only [List.cons.injEq, and_true] at h4
            rw [h4] at hc
            exact absurd hc (by decide)
          have spzero : ∀ (G G' : List Char) (c : Char), Base32.isAlphabetChar c = true →
              l.data = G ++ [c, ' ', '\n'] → l.data = G' ++ ['0', ' ', '\n'] → False := by
            intro G G' c hc h1 h2
            rw [h1] at h2
            have h4 := (List.append_inj' h2 rfl).2
            simp only [List.cons.injEq, and_true] at h4
            rw [h4] at hc
            exact absurd hc (by decide)
          have spreject : ∀ (Y : String), ' ' ∉ Y.data → Y.data.length = 28 →
              hasKind Y l LineKind.jumpBlank →
              (∃ G, l.data = G ++ ' ' :: ("REJECT".data ++ " \n".data)) → False := by
            rintro Y hYsp hYlen ⟨_, H, hH⟩ ⟨G, hG⟩
            rw [hH] at hG
            have h3 : ((H ++ " -j".data) ++ ' ' :: Y.data) ++ " \n".data =
                (G ++ ' ' :: "REJECT".data) ++ " \n".data := by
              simpa using hG
            have h4 := List.append_cancel_right h3
            have h5 := (suffix_word_align ' ' Y.data "REJECT".data (H ++ " -j".data) G hYsp
              (by decide) (by rw [h4])).1
            rw [h5] at hYlen
            exact absurd hYlen (by decide)
          have same : ∀ (A B : List Char) (t : List Char),
              A ++ (podFirewallChainName a b v).data ++ t =
                B ++ (podFirewallChainName a' b' v').data ++ t →
              podFirewallChainName a b v = podFirewallChainName a' b' v' := by
            intro A B t ht
            exact String.ext (List.append_inj' (List.append_cancel_right ht) hlen).2
          cases k with
          | declaration => exact absurd rfl hd
          | insertion => exact absurd rfl hi
          | jumpNewline =>
            cases k' with
            | declaration => exact absurd rfl hd'
            | insertion => exact absurd rfl hi'
            | jumpNewline =>
              obtain ⟨_, H, hH⟩ := h
              obtain ⟨_, H', hH'⟩ := h'
              exact ⟨rfl, same _ _ _ (hH.symm.trans hH')⟩
            | jumpBlank =>
              exfalso
              obtain ⟨G, hG⟩ := tailNl _ init last hX h
              obtain ⟨G', hG'⟩ := tailSp _ init' last' hX' h'
              exact nlsp G G' last last' hlast hG hG'
            | appended =>
              exfalso
              obtain ⟨G, hG⟩ := tailNl _ init last hX h
              rcases appended_end _ l h' with ⟨G', hG'⟩ | ⟨G', hG'⟩
              · exact nlsp G G' last '0' hlast hG hG'
              · exact nlsp G (G' ++ " REJEC".data) last 'T' hlast hG (by rw [hG']; simp)
          | jumpBlank =>
            cases k' with
            | declaration => exact absurd rfl hd'
            | insertion => exact absurd rfl hi'
            | jumpNewline =>
              exfalso
              obtain ⟨G, hG⟩ := tailSp _ init last hX h
              obtain ⟨G', hG'⟩ := tailNl _ init' last' hX' h'
              exact nlsp G' G last' last hlast' hG' hG
            | jumpBlank =>
              obtain ⟨_, H, hH⟩ := h
              obtain ⟨_, H', hH'⟩ := h'
              exact ⟨rfl, same _ _ _ (hH.symm.trans hH')⟩
            | appended =>
              exfalso
              rcases appended_end _ l h' with ⟨G', hG'⟩ | hrej
              · obtain ⟨G, hG⟩ := tailSp _ init last hX h
                exact spzero G G' last hlast hG hG'
              · exact spreject _ hsp (podFirewallChainName_length _ _ _) h hrej
          | appended =>
            cases k' with
            | declaration => exact absurd rfl hd'
            | insertion => exact absurd rfl hi'
            | jumpNewline =>
              exfalso
              obtain ⟨G', hG'⟩ := tailNl _ init' last' hX' h'
              rcases appended_end _ l h with ⟨G, hG⟩ | ⟨G, hG⟩
              · exact nlsp G' G last' '0' hlast' hG' hG
              · exact nlsp G' (G ++ " REJEC".data) last' 'T' hlast' hG' (by rw [hG]; simp)
            | jumpBlank =>
              exfalso
              rcases appended_end _ l h with ⟨G, hG⟩ | hrej
              · obtain ⟨G', hG'⟩ := tailSp _ init' last' hX' h'
                exact spzero G' G last' hlast' hG' hG
              · exact spreject _ hsp' (podFirewallChainName_length _ _ _) h' hrej
            | appended =>
              obtain ⟨r, hr⟩ := appended_start _ l h
              obtain ⟨r', hr'⟩ := appended_start _ l h'
              rw [hr] at hr'
              simp only [List.cons.injEq, true_and] at hr'
              exact ⟨rfl, String.ext (List.append_inj hr' hlen).1⟩

/-! ### The lines of one pod are pairwise different -/

theorem policyJumpRule_tail (d : Decls) (X version : String) (f : IPFamily) (ip : String)
    (p : networkPolicyInfo) :
    ∃ H, (policyJumpRule d X version f ip p).data =
      (H ++ ' ' :: (d.networkPolicyChainName p.namespace_ p.name version f).data) ++
        " \n".data := by
  have key : ∃ H, (policyJumpRule d X version f ip p).data =
      H ++ "\" -j ".data ++ (d.networkPolicyChainName p.namespace_ p.name version f).data ++
        " \n".data := by
    cases h : p.policyType <;>
      simp only [policyJumpRule, h, String.data_append] <;> exact ⟨_, rfl⟩
  obtain ⟨H, hH⟩ := key
  refine ⟨H ++ "\" -j".data, ?_⟩
  rw [hH]
  have : "\" -j ".data = "\" -j".data ++ [' '] := rfl
  rw [this]
  simp only [List.append_assoc, List.singleton_append]

theorem policyJumpRule_inj (d : Decls) (X version : String) (f : IPFamily) (ip : String)
    (p q : networkPolicyInfo)
    (hp : ' ' ∉ (d.networkPolicyChainName p.namespace_ p.name version f).data)
    (hq : ' ' ∉ (d.networkPolicyChainName q.namespace_ q.name version f).data)
    (h : policyJumpRule d X version f ip p = policyJumpRule d X version f ip q) :
    d.networkPolicyChainName p.namespace_ p.name version f =
      d.networkPolicyChainName q.namespace_ q.name version f := by
  obtain ⟨H, hH⟩ := policyJumpRule_tail d X version f ip p
  obtain ⟨H', hH'⟩ := policyJumpRule_tail d X version f ip q
  rw [h, hH'] at hH
  have h1 := List.append_cancel_right hH
  exact String.ext (suffix_word_align ' ' _ _ H H' hp hq (by rw [h1])).1

theorem policyJumpRule_ne (d : Decls) (X version : String) (f : IPFamily) (ip : String)
    (p : networkPolicyInfo) :
    policyJumpRule d X version f ip p ≠ localAcceptRule X ip ∧
    policyJumpRule d X version f ip p ≠ invalidDropRule X ∧
    policyJumpRule d X version f ip p ≠ statefulAcceptRule X := by
  cases h : p.policyType <;>
    simp [policyJumpRule, h, localAcceptRule, invalidDropRule, statefulAcceptRule,
      String.ext_iff]

theorem localAcceptRule_ne (X ip : String) :
    localAcceptRule X ip ≠ invalidDropRule X ∧ localAcceptRule X ip ≠ statefulAcceptRule X ∧
      invalidDropRule X ≠ statefulAcceptRule X := by
  simp [localAcceptRule, invalidDropRule, statefulAcceptRule, String.ext_iff]

theorem policyJumpRules_nodup (d : Decls) (pod : podInfo) (X version : String)
    (f : IPFamily) (ip : String) (nps : List networkPolicyInfo)
    (hnd : (nps.map (fun p => d.networkPolicyChainName p.namespace_ p.name version f)).Nodup)
    (hw : ∀ p ∈ nps, ' ' ∉ (d.networkPolicyChainName p.namespace_ p.name version f).data) :
    (policyJumpRules d pod X version f ip nps).Nodup := by
  unfold policyJumpRules
  apply List.Nodup.map_on
  · intro p hp q hq h
    have hp' := (List.mem_filter.mp hp).1
    have hq' := (List.mem_filter.mp hq).1
    exact List.inj_on_of_nodup_map hnd hp' hq'
      (policyJumpRule_inj d X version f ip p q (hw p hp') (hw q hq') h)
  · exact (List.Nodup.of_map _ hnd).filter _

theorem defaultJumpRules_mem (pod : podInfo) (X ip : String) (nps : List networkPolicyInfo)
    (l : String) (h : l ∈ defaultJumpRules pod X ip nps) :
    l = defaultIngressRule X ip ∨ l = defaultEgressRule X ip := by
  unfold defaultJumpRules at h
  rcases List.mem_append.mp h with h | h
  · by_cases hc : hasIngressPolicy pod nps = true
    · simp [hc] at h
    · simp only [hc, if_false, List.mem_singleton, Bool.false_eq_true] at h
      exact Or.inl h
  · by_cases hc : hasEgressPolicy pod nps = true
    · simp [hc] at h
    · simp only [hc, if_false, List.mem_singleton, Bool.false_eq_true] at h
      exact Or.inr h

theorem defaultJumpRules_nodup (pod : podInfo) (X ip : String)
    (nps : List networkPolicyInfo) : (defaultJumpRules pod X ip nps).Nodup := by
  unfold defaultJumpRules
  cases hasIngressPolicy pod nps <;> cases hasEgressPolicy pod nps <;>
    simp [(defaultIngressRule_ne X ip).1]

theorem netpolRules_nodup (d : Decls) (pod : podInfo) (X version : String)
    (f : IPFamily) (ip : String) (nps : List networkPolicyInfo)
    (hnd : (nps.map (fun p => d.networkPolicyChainName p.namespace_ p.name version f)).Nodup)
    (hw : ∀ p ∈ nps, ' ' ∉ (d.networkPolicyChainName p.namespace_ p.name version f).data) :
    (netpolRules d pod X nps version f ip).Nodup := by
  unfold netpolRules
  rw [List.append_assoc]
  refine List.nodup_append.mpr ⟨policyJumpRules_nodup d pod X version f ip nps hnd hw,
    List.nodup_append.mpr ⟨defaultJumpRules_nodup pod X ip nps, ?_, ?_⟩, ?_⟩
  · have := localAcceptRule_ne X ip
    simp [this.1, this.2.1, this.2.2]
  · intro l hl hl'
    have h1 := defaultIngressRule_ne X ip
    have h2 := defaultEgressRule_ne X ip
    simp only [List.mem_cons, List.mem_singleton, List.not_mem_nil, or_false] at hl'
    rcases defaultJumpRules_mem pod X ip nps l hl with h | h <;> subst h
    · rcases hl' with h | h | h
      · exact h1.2.1 h
      · exact h1.2.2.1 h
      · exact h1.2.2.2 h
    · rcases hl' with h | h | h
      · exact h2.2.1 h
      · exact h2.2.2.1 h
      · exact h2.2.2.2 h
  · intro l hl hl'
    simp only [policyJumpRules, List.mem_map] at hl
    obtain ⟨p, _, rfl⟩ := hl
    have h3 := policyJumpRule_ne d X version f ip p
    rcases List.mem_append.mp hl' with h | h
    · rcases defaultJumpRules_mem pod X ip nps _ h with h | h
      · exact defaultIngressRule_ne_policyJumpRule d X version f ip p h.symm
      · exact defaultEgressRule_ne_policyJumpRule d X version f ip p h.symm
    · simp only [List.mem_cons, List.mem_singleton, List.not_mem_nil, or_false] at h
      rcases h with h | h | h
      · exact h3.1 h
      · exact h3.2.1 h
      · exact h3.2.2 h

theorem netpolRules_kind (d : Decls) (pod : podInfo) (X : String)
    (nps : List networkPolicyInfo) (version : String) (f : IPFamily) (ip : String) :
    ∀ l ∈ netpolRules d pod X nps version f ip, hasKind X l LineKind.insertion := by
  intro l hl
  simp only [netpolRules, List.mem_append, List.mem_cons, List.mem_singleton,
    List.not_mem_nil, or_false] at hl
  rcases hl with ((hl | hl) | hl | hl | hl)
  · simp only [policyJumpRules, List.mem_map] at hl
    obtain ⟨p, _, rfl⟩ := hl
    cases h : p.policyType <;>
      exact ⟨_, by simp only [policyJumpRule, h, String.data_append, List.append_assoc,
        List.cons_append, List.nil_append]; rfl⟩
  · rcases defaultJumpRules_mem pod X ip nps l hl with h | h <;> subst h
    · exact ⟨_, by simp only [defaultIngressRule, String.data_append, List.append_assoc,
        List.cons_append, List.nil_append]; rfl⟩
    · exact ⟨_, by simp only [defaultEgressRule, String.data_append, List.append_assoc,
        List.cons_append, List.nil_append]; rfl⟩
  · subst hl
    exact ⟨_, by simp only [localAcceptRule, String.data_append, List.append_assoc,
      List.cons_append, List.nil_append]; rfl⟩
  · subst hl
    exact ⟨_, by simp only [invalidDropRule, String.data_append, List.append_assoc,
      List.cons_append, List.nil_append]; rfl⟩
  · subst hl
    exact ⟨_, by simp only [statefulAcceptRule, String.data_append, List.append_assoc,
      List.cons_append, List.nil_append]; rfl⟩

theorem inboundRule_kind (chain : String) (pod : podInfo) (X ip : String) :
    hasKind X (inboundRule chain pod X ip) LineKind.jumpNewline :=
  ⟨⟨_, by simp only [inboundRule, String.data_append, List.append_assoc,
      List.cons_append, List.nil_append]; rfl⟩,
    ⟨_, by simp only [inboundRule, String.data_append]; rfl⟩⟩

theorem inboundBridgedRule_kind (pod : podInfo) (X ip : String) :
    hasKind X (inboundBridgedRule pod X ip) LineKind.jumpBlank :=
  ⟨⟨_, by simp only [inboundBridgedRule, String.data_append, List.append_assoc,
      List.cons_append, List.nil_append]; rfl⟩,
    ⟨_, by simp only [inboundBridgedRule, String.data_append]; rfl⟩⟩

theorem outboundRule_kind (pod : podInfo) (X ip chain : String) :
    hasKind X (outboundRule pod X ip chain) LineKind.jumpBlank :=
  ⟨⟨_, by simp only [outboundRule, String.data_append, List.append_assoc,
      List.cons_append, List.nil_append]; rfl⟩,
    ⟨_, by simp only [outboundRule, String.data_append]; rfl⟩⟩

theorem outboundBridgedRule_kind (pod : podInfo) (X ip : String) :
    hasKind X (outboundBridgedRule pod X ip) LineKind.jumpBlank :=
  ⟨⟨_, by simp only [outboundBridgedRule, String.data_append, List.append_assoc,
      List.cons_append, List.nil_append]; rfl⟩,
    ⟨_, by simp only [outboundBridgedRule, String.data_append]; rfl⟩⟩

/-- In two equal lines that end with the same address and the same jump, the texts before
the address end alike: a match on the destination is not a match on the source. -/
theorem destination_ne_source (A B ip X t : List Char) :
    A ++ " -d ".data ++ ip ++ " -j ".data ++ X ++ t ≠
      B ++ " -s ".data ++ ip ++ " -j ".data ++ X ++ t := by
  intro h
  have h1 := List.append_cancel_right (List.append_cancel_right (List.append_cancel_right
    (List.append_cancel_right h)))
  exact absurd (List.append_inj' h1 rfl).2 (by decide)

theorem inboundBridgedRule_ne (pod : podInfo) (X ip chain : String) :
    inboundBridgedRule pod X ip ≠ outboundRule pod X ip chain ∧
      inboundBridgedRule pod X ip ≠ outboundBridgedRule pod X ip := by
  constructor <;> intro h <;> have h' := congrArg String.data h
  · simp only [inboundBridgedRule, outboundRule, String.data_append] at h'
    exact destination_ne_source _ _ _ _ _ h'
  · simp only [inboundBridgedRule, outboundBridgedRule, String.data_append] at h'
    exact destination_ne_source _ _ _ _ _ h'

theorem outboundRule_inj (pod : podInfo) (X ip : String) (c c' : String)
    (h : outboundRule pod X ip c = outboundRule pod X ip c') : c = c' := by
  have h' := congrArg String.data h
  simp only [outboundRule, String.data_append, List.append_cancel_right_eq,
    List.append_cancel_left_eq] at h'
  exact String.ext h'

theorem outboundBridgedRule_ne (pod : podInfo) (X ip : String) (c : String)
    (hc : ' ' ∉ c.data) : outboundBridgedRule pod X ip ≠ outboundRule pod X ip c := by
  intro h
  have h' := congrArg String.data h
  simp only [outboundBridgedRule, outboundRule, String.data_append,
    List.append_cancel_right_eq] at h'
  simp only [List.append_assoc, List.append_cancel_left_eq] at h'
  have h2 : c.data ++ ' ' :: "-m comment --comment ".data <+:
      "KUBE-FORWARD".data ++
        ' ' :: "-m physdev --physdev-is-bridged -m comment --comment ".data :=
    ⟨[], by rw [List.append_nil]; exact h'.symm⟩
  exact absurd (prefix_word_align ' ' _ _ _ _ hc (by decide) h2).2 (by decide)

theorem inboundRule_inj (pod : podInfo) (X ip : String) (c c' : String)
    (h : inboundRule c pod X ip = inboundRule c' pod X ip) : c = c' := by
  have h' := congrArg String.data h
  simp only [inboundRule, String.data_append, List.append_cancel_right_eq,
    List.append_cancel_left_eq] at h'
  exact String.ext h'

theorem appendedRules_nodup (pod : podInfo) (X : String) :
    [nflogRule pod X, rejectRule pod X, markClearRule X, markAcceptRule X].Nodup := by
  simp [nflogRule, rejectRule, markClearRule, markAcceptRule, String.ext_iff]

theorem appendedRules_kind (pod : podInfo) (X : String) :
    ∀ l ∈ [nflogRule pod X, rejectRule pod X, markClearRule X, markAcceptRule X],
      hasKind X l LineKind.appended := by
  intro l hl
  simp only [List.mem_cons, List.mem_singleton, List.not_mem_nil, or_false] at hl
  exact ⟨pod, hl⟩

theorem jumpRules_kind (pod : podInfo) (X ip : String) (chains : List String) :
    ∀ l ∈ inboundRules pod X ip ++ outboundRules pod X ip chains,
      hasKind X l LineKind.jumpNewline ∨ hasKind X l LineKind.jumpBlank := by
  intro l hl
  simp only [inboundRules, outboundRules, List.mem_append, List.mem_cons, List.mem_singleton,
    List.not_mem_nil, or_false, List.mem_map] at hl
  rcases hl with (h | h | h) | ⟨c, _, rfl⟩ | h
  · subst h; exact Or.inl (inboundRule_kind _ pod X ip)
  · subst h; exact Or.inl (inboundRule_kind _ pod X ip)
  · subst h; exact Or.inr (inboundBridgedRule_kind pod X ip)
  · exact Or.inr (outboundRule_kind pod X ip c)
  · subst h; exact Or.inr (outboundBridgedRule_kind pod X ip)

theorem jumpRules_nodup (pod : podInfo) (ns name version ip : String) (chains : List String)
    (hnd : chains.Nodup) (hw : ∀ c ∈ chains, ' ' ∉ c.data) :
    (inboundRules pod (podFirewallChainName ns name version) ip ++
      outboundRules pod (podFirewallChainName ns name version) ip chains).Nodup := by
  have hk : ∀ c l, l = inboundRule c pod (podFirewallChainName ns name version) ip →
      hasKind (podFirewallChainName ns name version) l LineKind.jumpBlank → False := by
    intro c l hl hb
    have := (kind_clash ns name version ns name version l _ _
      (hl ▸ inboundRule_kind c pod _ ip) hb).1
    exact absurd this (by decide)
  have hin : ∀ c, inboundRule c pod (podFirewallChainName ns name version) ip ∉
      inboundBridgedRule pod (podFirewallChainName ns name version) ip ::
        outboundRules pod (podFirewallChainName ns name version) ip chains := by
    intro c hmem
    rcases List.mem_cons.mp hmem with h | h
    · exact hk c _ h.symm (inboundBridgedRule_kind pod _ ip)
    · simp only [outboundRules, List.mem_append, List.mem_map, List.mem_singleton] at h
      rcases h with ⟨c', _, h⟩ | h
      · exact hk c _ h (outboundRule_kind pod _ ip c')
      · exact hk c _ h.symm (outboundBridgedRule_kind pod _ ip)
  have hout : (outboundRules pod (podFirewallChainName ns name version) ip chains).Nodup := by
    unfold outboundRules
    refine List.nodup_append.mpr ⟨hnd.map (fun c c' h => outboundRule_inj pod _ ip c c' h),
      List.nodup_singleton _, ?_⟩
    intro l hl hl'
    obtain ⟨c, hc, rfl⟩ := List.mem_map.mp hl
    exact outboundBridgedRule_ne pod _ ip c (hw c hc) (List.mem_singleton.mp hl').symm
  have hbridged : inboundBridgedRule pod (podFirewallChainName ns name version) ip ∉
      outboundRules pod (podFirewallChainName ns name version) ip chains := by
    intro hmem
    simp only [outboundRules, List.mem_append, List.mem_map, List.mem_singleton] at hmem
    rcases hmem with ⟨c', _, h⟩ | h
    · exact (inboundBridgedRule_ne pod _ ip c').1 h.symm
    · exact (inboundBridgedRule_ne pod _ ip "").2 h
  have h12 : inboundRule kubeForwardChainName pod (podFirewallChainName ns name version) ip ≠
      inboundRule kubeOutputChainName pod (podFirewallChainName ns name version) ip :=
    fun h => absurd (inboundRule_inj pod _ ip _ _ h) (by decide)
  unfold inboundRules
  simp only [List.cons_append, List.nil_append]
  refine List.nodup_cons.mpr ⟨?_, List.nodup_cons.mpr ⟨hin _, List.nodup_cons.mpr
    ⟨hbridged, hout⟩⟩⟩
  intro hmem
  rcases List.mem_cons.mp hmem with h | h
  · exact h12 h
  · exact hin _ h

theorem podRulesAll_kind (d : Decls) (chains : List String) (pod : podInfo)
    (nps : List networkPolicyInfo) (version : String) (f : IPFamily) (ip : String) :
    ∀ l ∈ podRulesAll d chains pod nps version f ip,
      ∃ k, hasKind (podFirewallChainName pod.namespace_ pod.name version) l k := by
  intro l hl
  unfold podRulesAll podHeadRules at hl
  rcases List.mem_append.mp hl with h | h
  · rcases List.mem_append.mp h with h | h
    · rcases List.mem_append.mp h with h | h
      · rcases List.mem_append.mp h with h | h
        · exact ⟨LineKind.declaration, List.mem_singleton.mp h⟩
        · exact ⟨_, netpolRules_kind d pod _ nps version f ip l h⟩
      · rcases jumpRules_kind pod _ ip chains l (List.mem_append.mpr (Or.inl h)) with h | h
        · exact ⟨_, h⟩
        · exact ⟨_, h⟩
    · rcases jumpRules_kind pod _ ip chains l (List.mem_append.mpr (Or.inr h)) with h | h
      · exact ⟨_, h⟩
      · exact ⟨_, h⟩
  · exact ⟨_, appendedRules_kind pod _ l h⟩

theorem podRulesAll_nodup (d : Decls) (chains : List String) (pod : podInfo)
    (nps : List networkPolicyInfo) (version : String) (f : IPFamily) (ip : String)
    (hnd : (nps.map (fun p => d.networkPolicyChainName p.namespace_ p.name version f)).Nodup)
    (hw : ∀ p ∈ nps, ' ' ∉ (d.networkPolicyChainName p.namespace_ p.name version f).data)
    (hcnd : chains.Nodup) (hcw : ∀ c ∈ chains, ' ' ∉ c.data) :
    (podRulesAll d chains pod nps version f ip).Nodup := by
  have clash : ∀ l k k', hasKind (podFirewallChainName pod.namespace_ pod.name version) l k →
      hasKind (podFirewallChainName pod.namespace_ pod.name version) l k' → k = k' :=
    fun l k k' h h' => (kind_clash _ _ _ _ _ _ l k k' h h').1
  have hN := netpolRules_kind d pod (podFirewallChainName pod.namespace_ pod.name version)
    nps version f ip
  have hJ := jumpRules_kind pod (podFirewallChainName pod.namespace_ pod.name version) ip
    chains
  have hA := appendedRules_kind pod (podFirewallChainName pod.namespace_ pod.name version)
  unfold podRulesAll podHeadRules
  rw [List.append_assoc, List.append_assoc, List.append_assoc, List.singleton_append,
    ← List.append_assoc (inboundRules _ _ _)]
  refine List.nodup_cons.mpr ⟨?_, List.nodup_append.mpr
    ⟨netpolRules_nodup d pod _ version f ip nps hnd hw, List.nodup_append.mpr
      ⟨jumpRules_nodup pod _ _ _ ip chains hcnd hcw, appendedRules_nodup pod _, ?_⟩, ?_⟩⟩
  · intro hmem
    have hD : hasKind (podFirewallChainName pod.namespace_ pod.name version)
      (chainDeclaration (podFirewallChainName pod.namespace_ pod.name version))
      LineKind.declaration := rfl
    rcases List.mem_append.mp hmem with h | h
    · exact absurd (clash _ _ _ hD (hN _ h)) (by decide)
    · rcases List.mem_append.mp h with h | h
      · rcases hJ _ h with h | h
        · exact absurd (clash _ _ _ hD h) (by decide)
        · exact absurd (clash _ _ _ hD h) (by decide)
      · exact absurd (clash _ _ _ hD (hA _ h)) (by decide)
  · intro l h h'
    rcases hJ _ h with h | h
    · exact absurd (clash _ _ _ h (hA _ h')) (by decide)
    · exact absurd (clash _ _ _ h (hA _ h')) (by decide)
  · intro l h h'
    rcases List.mem_append.mp h' with h' | h'
    · rcases hJ _ h' with h' | h'
      · exact absurd (clash _ _ _ (hN _ h) h') (by decide)
      · exact absurd (clash _ _ _ (hN _ h) h') (by decide)
    · exact absurd (clash _ _ _ (hN _ h) (hA _ h')) (by decide)

theorem podLines_nodup (d : Decls) (loops : podInfo → RangeOrders)
    (nps : List networkPolicyInfo) (version : String) (f : IPFamily) (pod : podInfo)
    (hnd : (nps.map (fun p => d.networkPolicyChainName p.namespace_ p.name version f)).Nodup)
    (hw : ∀ p ∈ nps, ' ' ∉ (d.networkPolicyChainName p.namespace_ p.name version f).data)
    (hcnd : ((loops pod).defaultChains f).Nodup)
    (hcw : ∀ c ∈ (loops pod).defaultChains f, ' ' ∉ c.data) :
    (podLines d loops nps version f pod).Nodup := by
  unfold podLines
  cases d.getPodIPForFamily pod f with
  | none => exact List.nodup_nil
  | some ip => exact podRulesAll_nodup d _ pod nps version f ip hnd hw hcnd hcw

theorem podLines_disjoint (d : Decls) (loops : podInfo → RangeOrders)
    (nps : List networkPolicyInfo) (version : String) (f : IPFamily) (pod pod' : podInfo)
    (hne : podFirewallChainName pod.namespace_ pod.name version ≠
      podFirewallChainName pod'.namespace_ pod'.name version) :
    (podLines d loops nps version f pod).Disjoint (podLines d loops nps version f pod') := by
  intro l h h'
  unfold podLines at h h'
  cases hip : d.getPodIPForFamily pod f with
  | none => rw [hip] at h; exact absurd h (List.not_mem_nil l)
  | some ip =>
    cases hip' : d.getPodIPForFamily pod' f with
    | none => rw [hip'] at h'; exact absurd h' (List.not_mem_nil l)
    | some ip' =>
      rw [hip] at h
      rw [hip'] at h'
      obtain ⟨k, hk⟩ := podRulesAll_kind d _ pod nps version f ip l h
      obtain ⟨k', hk'⟩ := podRulesAll_kind d _ pod' nps version f ip' l h'
      exact hne (kind_clash _ _ _ _ _ _ l k k' hk hk').2

theorem podRules_sublist (d : Decls) (loops : podInfo → RangeOrders)
    (nps : List networkPolicyInfo) (version : String) (f : IPFamily) (pod : podInfo)
    (buf : Buffer) :
    (podRules d loops pod nps version f buf).Sublist (podLines d loops nps version f pod) := by
  unfold podRules podLines
  cases d.getPodIPForFamily pod f with
  | none => exact List.Sublist.refl _
  | some ip =>
    simp only [podRulesAll]
    rw [List.append_assoc]
    refine List.Sublist.append (List.Sublist.refl _) ?_
    unfold dropRules
    split
    · simp
    · exact List.Sublist.refl _

theorem bufferAfter_sublist (d : Decls) (loops : podInfo → RangeOrders)
    (nps : List networkPolicyInfo) (version : String) (f : IPFamily)
    (pods : List (String × podInfo)) (buf : Buffer) :
    (bufferAfter d loops nps version f pods buf).Sublist
      (buf ++ pods.flatMap (fun e => podLines d loops nps version f e.2)) := by
  induction pods generalizing buf with
  | nil => simp [bufferAfter]
  | cons e pods ih =>
    rw [bufferAfter_cons, List.flatMap_cons, ← List.append_assoc]
    exact (ih _).trans (List.Sublist.append
      (List.Sublist.append (List.Sublist.refl _) (podRules_sublist d loops nps version f e.2 buf))
      (List.Sublist.refl _))

/-- The buffer after the pod iterations from an empty buffer holds no line twice when the
pods have different chain names, the policies different chain names without a blank, and
the default chains are different and without a blank. -/
theorem bufferAfter_nodup (d : Decls) (loops : podInfo → RangeOrders)
    (nps : List networkPolicyInfo) (version : String) (f : IPFamily)
    (pods : List (String × podInfo)) (hpods : pods.Nodup)
    (huniq : ∀ x ∈ pods, ∀ y ∈ pods,
      podFirewallChainName x.2.namespace_ x.2.name version =
        podFirewallChainName y.2.namespace_ y.2.name version → x = y)
    (hnd : (nps.map (fun p => d.networkPolicyChainName p.namespace_ p.name version f)).Nodup)
    (hw : ∀ p ∈ nps, ' ' ∉ (d.networkPolicyChainName p.namespace_ p.name version f).data)
    (hcnd : ∀ x ∈ pods, ((loops x.2).defaultChains f).Nodup)
    (hcw : ∀ x ∈ pods, ∀ c ∈ (loops x.2).defaultChains f, ' ' ∉ c.data) :
    (bufferAfter d loops nps version f pods []).Nodup := by
  refine (bufferAfter_sublist d loops nps version f pods []).nodup ?_
  rw [List.nil_append]
  refine List.nodup_flatMap.mpr ⟨fun x hx =>
    podLines_nodup d loops nps version f x.2 hnd hw (hcnd x hx) (hcw x hx), ?_⟩
  refine List.Pairwise.imp_of_mem ?_ hpods
  intro x y hx hy hxy
  exact podLines_disjoint d loops nps version f x.2 y.2 (fun h => hxy (huniq x hx y hy h))

/-- C7, as amended: after one run of `syncPodFirewallChains` from an empty buffer of a
family, if the pods recorded in `allLocalPods` have pairwise different chain names, the
policies pairwise different chain names, `defaultChains` holds no chain twice, and the
names, addresses and chain names that go into the lines have no blank and no newline, then
every entry of the buffer of the family is one line and no line occurs more than once: no
rule, whether inserted (`-I`) or appended (`-A`), and no chain declaration. -/
theorem syncPodFirewallChains_no_duplicate_rules (d : Decls) (sch : Schedule)
    (npc : NetworkPolicyController) (networkPoliciesInfo : List networkPolicyInfo)
    (version : String)
    (hperm : (sch.pods (allLocalPods d npc)).Perm (allLocalPods d npc))
    (ipFamily : IPFamily) (hbuf : npc.filterTableRules ipFamily = some [])
    (huniq : ∀ x ∈ allLocalPods d npc, ∀ y ∈ allLocalPods d npc,
      podFirewallChainName x.2.namespace_ x.2.name version =
        podFirewallChainName y.2.namespace_ y.2.name version → x = y)
    (hpods : ∀ x ∈ allLocalPods d npc,
      isWord x.2.name = true ∧ isWord x.2.namespace_ = true ∧
        ∀ ip' ∈ d.getPodIPForFamily x.2 ipFamily, isWord ip' = true)
    (hpolnd : (networkPoliciesInfo.map (fun policy =>
      d.networkPolicyChainName policy.namespace_ policy.name version ipFamily)).Nodup)
    (hpol : ∀ policy ∈ networkPoliciesInfo, isWord policy.name = true ∧
      isWord (d.networkPolicyChainName policy.namespace_ policy.name version ipFamily) = true)
    (hloops : ∀ x ∈ allLocalPods d npc,
      ((sch.loops x.2).defaultChains ipFamily).Perm d.defaultChains)
    (hchnd : d.defaultChains.Nodup)
    (hchains : ∀ c ∈ d.defaultChains, isWord c = true) :
    ∃ buf : Buffer,
      (syncPodFirewallChains d sch npc networkPoliciesInfo version).2 ipFamily = some buf ∧
      (∀ l ∈ buf, isLineChars l.data = true) ∧ buf.Nodup := by
  refine ⟨_, by rw [syncPodFirewallChains_rules, hbuf]; rfl, ?_, ?_⟩
  · intro l hl
    rcases bufferAfter_mem_line d sch.loops networkPoliciesInfo version ipFamily _ [] l hl
      with h | ⟨e, he, pre, h⟩
    · exact absurd h (List.not_mem_nil l)
    · have he' := hperm.mem_iff.mp he
      obtain ⟨h1, h2, h3⟩ := hpods e he'
      exact podRules_isLine d sch.loops e.2 networkPoliciesInfo version ipFamily pre
        ((isWord_iff _).mp h1).2 ((isWord_iff _).mp h2).2
        (fun ip hip => ((isWord_iff _).mp (h3 ip (by rw [hip]; rfl))).2)
        (fun policy hp => ⟨((isWord_iff _).mp (hpol policy hp).1).2,
          ((isWord_iff _).mp (hpol policy hp).2).2⟩)
        (fun c hc => ((isWord_iff _).mp (hchains c ((hloops e he').mem_iff.mp hc))).2) l h
  · exact bufferAfter_nodup d sch.loops networkPoliciesInfo version ipFamily _
      (hperm.nodup_iff.mpr (allLocalPods_nodup d npc))
      (fun x hx y hy h => huniq x (hperm.mem_iff.mp hx) y (hperm.mem_iff.mp hy) h)
      hpolnd (fun p hp => ((isWord_iff _).mp (hpol p hp).2).1)
      (fun x hx => (hloops x (hperm.mem_iff.mp hx)).nodup_iff.mpr hchnd)
      (fun x hx c hc => ((isWord_iff _).mp
        (hchains c ((hloops x (hperm.mem_iff.mp hx)).mem_iff.mp hc))).1)

set_option maxRecDepth 100000 in
theorem syncPodFirewallChains_no_duplicate_rules_witness :
    (exampleSchedule.pods (allLocalPods exampleDecls exampleNpc)).Perm
      (allLocalPods exampleDecls exampleNpc) ∧
    exampleNpc.filterTableRules IPFamily.IPv4 = some [] ∧
    (∀ x ∈ allLocalPods exampleDecls exampleNpc, ∀ y ∈ allLocalPods exampleDecls exampleNpc,
      podFirewallChainName x.2.namespace_ x.2.name "1" =
        podFirewallChainName y.2.namespace_ y.2.name "1" → x = y) ∧
    (∀ x ∈ allLocalPods exampleDecls exampleNpc,
      isWord x.2.name = true ∧ isWord x.2.namespace_ = true ∧
        ∀ ip' ∈ exampleDecls.getPodIPForFamily x.2 IPFamily.IPv4, isWord ip' = true) ∧
    ([examplePolicy].map (fun policy => exampleDecls.networkPolicyChainName
      policy.namespace_ policy.name "1" IPFamily.IPv4)).Nodup ∧
    (∀ policy ∈ [examplePolicy], isWord policy.name = true ∧
      isWord (exampleDecls.networkPolicyChainName policy.namespace_ policy.name "1"
        IPFamily.IPv4) = true) ∧
    (∀ x ∈ allLocalPods exampleDecls exampleNpc,
      ((exampleSchedule.loops x.2).defaultChains IPFamily.IPv4).Perm
        exampleDecls.defaultChains) ∧
    exampleDecls.defaultChains.Nodup ∧
    (∀ c ∈ exampleDecls.defaultChains, isWord c = true) ∧
    ∃ buf : Buffer,
      (syncPodFirewallChains exampleDecls exampleSchedule exampleNpc [examplePolicy] "1").2
        IPFamily.IPv4 = some buf ∧
      (∀ l ∈ buf, isLineChars l.data = true) ∧ buf.Nodup :=
  ⟨List.Perm.refl _, rfl, by decide, by decide, by decide, by decide, by decide, by decide,
    by decide,
    syncPodFirewallChains_no_duplicate_rules exampleDecls exampleSchedule exampleNpc
      [examplePolicy] "1" (List.Perm.refl _) IPFamily.IPv4 rfl (by decide) (by decide)
      (by decide) (by decide) (by decide) (by decide) (by decide)⟩

set_option maxRecDepth 100000 in
/-- C7, as stated, fails: the pods `a/bc` and `ab/c` run on the node and have IPv4
addresses, and both get the chain name of the text `abc`; from empty buffers, the IPv4
buffer then holds the inserted rule of the stateful firewall for that chain twice, and the
appended rule that clears the mark twice. -/
theorem syncPodFirewallChains_no_duplicate_rules_counterexample :
    exampleCollidingNpc.filterTableRules IPFamily.IPv4 = some [] ∧
    exampleCollidingNpc.filterTableRules IPFamily.IPv6 = some [] ∧
    "-I ".data <+: (statefulAcceptRule (podFirewallChainName "a" "bc" "1")).data ∧
    "-A ".data <+: (markClearRule (podFirewallChainName "a" "bc" "1")).data ∧
    (((syncPodFirewallChains exampleDecls exampleSchedule exampleCollidingNpc [] "1").2
      IPFamily.IPv4).getD []).count (statefulAcceptRule (podFirewallChainName "a" "bc" "1")) =
      2 ∧
    (((syncPodFirewallChains exampleDecls exampleSchedule exampleCollidingNpc [] "1").2
      IPFamily.IPv4).getD []).count (markClearRule (podFirewallChainName "a" "bc" "1")) =
      2 := by
  decide!

/-! ### The proxy controller: `ipvsAddServer` -/

/-- C16: `ipvsAddServer` calls `ipvsNewDestination` first; it calls `ipvsUpdateDestination`
exactly when that call failed with an error whose text contains `IpvsServerExists`; it
returns `nil` exactly when `ipvsNewDestination` succeeded or that update succeeded; and every
other failure of `ipvsNewDestination` is returned as an error, with its text, without an
update. -/
theorem ipvsAddServer_fallback {F : Type} (d : ProxyDecls F) (k : Kernel) (t : List Call)
    (service : Service) (dest : Destination) :
    (∃ calls, (ipvsAddServer d k t service dest).2 =
        t ++ Call.ipvsNewDestination service dest :: calls ∧
      (calls = [Call.ipvsUpdateDestination service dest] ∨ calls = []) ∧
      (calls = [Call.ipvsUpdateDestination service dest] ↔
        ∃ e, k.ipvsNewDestination t service dest = some e ∧
          stringsContains e d.IpvsServerExists = true)) ∧
    ((ipvsAddServer d k t service dest).1 = none ↔
      (k.ipvsNewDestination t service dest = none ∨
        ((∃ e, k.ipvsNewDestination t service dest = some e ∧
            stringsContains e d.IpvsServerExists = true) ∧
          k.ipvsUpdateDestination (t ++ [Call.ipvsNewDestination service dest]) service dest =
            none))) ∧
    (∀ e, k.ipvsNewDestination t service dest = some e →
      stringsContains e d.IpvsServerExists = false →
      (ipvsAddServer d k t service dest).1 =
          some ("failed to add ipvs destination " ++ d.ipvsDestinationString dest ++
            " to the ipvs service " ++ d.ipvsServiceString service ++ " due to : " ++ e) ∧
        (ipvsAddServer d k t service dest).2 = t ++ [Call.ipvsNewDestination service dest]) := by
  unfold ipvsAddServer
  cases hnew : k.ipvsNewDestination t service dest with
  | none => exact ⟨⟨[], by simp⟩, by simp, by simp⟩
  | some e =>
    by_cases hc : stringsContains e d.IpvsServerExists = true
    · cases hupd : k.ipvsUpdateDestination (t ++ [Call.ipvsNewDestination service dest])
          service dest with
      | none => exact ⟨⟨[Call.ipvsUpdateDestination service dest], by simp [hc]⟩,
          by simp [hc], by simp [hc]⟩
      | some e2 => exact ⟨⟨[Call.ipvsUpdateDestination service dest], by simp [hc]⟩,
          by simp [hc], by simp [hc]⟩
    · simp only [Bool.not_eq_true] at hc
      exact ⟨⟨[], by simp [hc]⟩, by simp [hc], by simp [hc]⟩

/-- A destination that exists already is updated, and a destination that is new is not. -/
theorem ipvsAddServer_fallback_witness :
    ipvsAddServer exampleProxyDecls exampleBusyKernel [] exampleService exampleDestination =
      (none, [Call.ipvsNewDestination exampleService exampleDestination,
        Call.ipvsUpdateDestination exampleService exampleDestination]) ∧
    ipvsAddServer exampleProxyDecls exampleKernel [] exampleService exampleDestination =
      (none, [Call.ipvsNewDestination exampleService exampleDestination]) ∧
    ∃ calls, (ipvsAddServer exampleProxyDecls exampleBusyKernel [] exampleService
        exampleDestination).2 =
        [] ++ Call.ipvsNewDestination exampleService exampleDestination :: calls ∧
      (calls = [Call.ipvsUpdateDestination exampleService exampleDestination] ∨ calls = []) ∧
      (calls = [Call.ipvsUpdateDestination exampleService exampleDestination] ↔
        ∃ e, exampleBusyKernel.ipvsNewDestination [] exampleService exampleDestination =
            some e ∧
          stringsContains e exampleProxyDecls.IpvsServerExists = true) :=
  ⟨by decide, by decide,
    (ipvsAddServer_fallback exampleProxyDecls exampleBusyKernel [] exampleService
      exampleDestination).1⟩

/-! ### The proxy controller: `ipAddrDel` and `ipAddrAdd` -/

/-- C17: when exactly one of `ip` and `nodeIP` parses as an IPv4 address, `ipAddrDel`, and
`ipAddrAdd` with `addRoute` set, return an error and make no call: no address is added or
deleted and no `ip route` command is run. -/
theorem ipAddr_family_mismatch {F : Type} (d : ProxyDecls F) (k : Kernel) (t : List Call)
    (iface : Link) (ip nodeIP : String)
    (h : Xor' (IP.To4 (ParseIP ip) ≠ []) (IP.To4 (ParseIP nodeIP) ≠ [])) :
    ipAddrDel d k t iface ip nodeIP = (some (familyMismatchError ip nodeIP), t) ∧
      ipAddrAdd d k t iface ip nodeIP true = (some (familyMismatchError ip nodeIP), t) := by
  unfold ipAddrDel ipAddrAdd
  rcases h with ⟨h1, h2⟩ | ⟨h1, h2⟩
  · have h2' : IP.To4 (ParseIP nodeIP) = [] := not_not.mp h2
    simp [h1, h2']
  · have h2' : IP.To4 (ParseIP ip) = [] := not_not.mp h2
    simp [h1, h2']

set_option maxRecDepth 100000 in
theorem ipAddr_family_mismatch_witness :
    Xor' (IP.To4 (ParseIP "10.96.0.10") ≠ []) (IP.To4 (ParseIP "2001:db8::1") ≠ []) ∧
    ipAddrDel exampleProxyDecls exampleKernel [] exampleLink "10.96.0.10" "2001:db8::1" =
      (some (familyMismatchError "10.96.0.10" "2001:db8::1"), []) ∧
    ipAddrAdd exampleProxyDecls exampleKernel [] exampleLink "10.96.0.10" "2001:db8::1" true =
      (some (familyMismatchError "10.96.0.10" "2001:db8::1"), []) :=
  ⟨by decide,
    ipAddr_family_mismatch exampleProxyDecls exampleKernel [] exampleLink "10.96.0.10"
      "2001:db8::1" (by decide)⟩

/-- The method `ipAddrAdd` is an error for a node address of the other family when
`addRoute` is set, and the rest of the method otherwise. -/
theorem ipAddrAdd_eq {F : Type} (d : ProxyDecls F) (k : Kernel) (t : List Call)
    (iface : Link) (ip nodeIP : String) (addRoute : Bool) :
    ipAddrAdd d k t iface ip nodeIP addRoute =
      if addRoute = true ∧ Xor' (IP.To4 (ParseIP ip) ≠ []) (IP.To4 (ParseIP nodeIP) ≠ []) then
        (some (familyMismatchError ip nodeIP), t)
      else ipAddrAddApply d k t iface ip nodeIP addRoute
        (if IP.To4 (ParseIP ip) ≠ [] then fullMask ipv4NetMaskBits else fullMask ipv6NetMaskBits)
        (if IP.To4 (ParseIP ip) ≠ [] then [] else ["-6"])
        (if IP.To4 (ParseIP ip) ≠ [] then false else true) := by
  unfold ipAddrAdd
  by_cases h4 : IP.To4 (ParseIP ip) = [] <;> by_cases hn : IP.To4 (ParseIP nodeIP) = [] <;>
    cases addRoute <;> simp [h4, hn, Xor']

theorem ipAddrAddRoute_calls (k : Kernel) (t : List Call) (ip nodeIP : String)
    (netMask : List Nat) (ipRouteCmdArgs : List String) (isIPv6 : Bool) :
    ∃ calls, (ipAddrAddRoute k t ip nodeIP netMask ipRouteCmdArgs isIPv6).2 =
      t ++ Call.CombinedOutput "ip" (ipRouteCmdArgs ++ ipRouteArgs "replace" ip nodeIP) ::
        calls := by
  have hroutes : ∀ (routes : List Route) (t' : List Call),
      ∃ calls, ipAddrAddRoutes (ParseIP nodeIP) routes t' = t' ++ calls := by
    intro routes
    induction routes with
    | nil => intro t'; exact ⟨[], by simp [ipAddrAddRoutes]⟩
    | cons r rs ih =>
      intro t'
      unfold ipAddrAddRoutes
      split
      · obtain ⟨c, hc⟩ := ih (t' ++ [Call.RouteDel r])
        exact ⟨Call.RouteDel r :: c, by rw [hc]; simp⟩
      · exact ih t'
  unfold ipAddrAddRoute
  split
  · exact ⟨[], by simp⟩
  · split
    · split
      · exact ⟨[Call.RouteListFiltered FAMILY_V6
          { Dst := ParseIP ip, DstMask := netMask, Src := [], Table := RT_TABLE_UNSPEC }],
          by simp⟩
      · rename_i routes _
        obtain ⟨c, hc⟩ := hroutes routes (t ++ [Call.CombinedOutput "ip"
          (ipRouteCmdArgs ++ ipRouteArgs "replace" ip nodeIP),
          Call.RouteListFiltered FAMILY_V6
            { Dst := ParseIP ip, DstMask := netMask, Src := [], Table := RT_TABLE_UNSPEC }])
        exact ⟨Call.RouteListFiltered FAMILY_V6
          { Dst := ParseIP ip, DstMask := netMask, Src := [], Table := RT_TABLE_UNSPEC } :: c,
          by rw [hc]; simp⟩
    · exact ⟨[], by simp⟩

theorem ipAddrAddApply_present {F : Type} (d : ProxyDecls F) (k : Kernel) (t : List Call)
    (iface : Link) (ip nodeIP : String) (addRoute : Bool) (netMask : List Nat)
    (ipRouteCmdArgs : List String) (isIPv6 : Bool)
    (hadd : k.AddrAdd t iface (Addr.mk (ParseIP ip) netMask RT_SCOPE_LINK) =
      some d.IfaceHasAddr) :
    ipAddrAddApply d k t iface ip nodeIP addRoute netMask ipRouteCmdArgs isIPv6 =
      ipAddrAddApply d { k with AddrAdd := fun _ _ _ => none } t iface ip nodeIP addRoute netMask
        ipRouteCmdArgs isIPv6 := by
  unfold ipAddrAddApply
  rw [hadd]
  simp only [ne_eq, not_true_eq_false, if_false]
  rfl

theorem ipAddrAddApply_error {F : Type} (d : ProxyDecls F) (k : Kernel) (t : List Call)
    (iface : Link) (ip nodeIP : String) (addRoute : Bool) (netMask : List Nat)
    (ipRouteCmdArgs : List String) (isIPv6 : Bool) (e : String)
    (hadd : k.AddrAdd t iface (Addr.mk (ParseIP ip) netMask RT_SCOPE_LINK) = some e)
    (he : e ≠ d.IfaceHasAddr) :
    ipAddrAddApply d k t iface ip nodeIP addRoute netMask ipRouteCmdArgs isIPv6 =
      (some e, t ++ [Call.AddrAdd iface (Addr.mk (ParseIP ip) netMask RT_SCOPE_LINK)]) := by
  unfold ipAddrAddApply
  rw [hadd]
  simp [he]

theorem ipAddrAddApply_no_route {F : Type} (d : ProxyDecls F) (k : Kernel) (t : List Call)
    (iface : Link) (ip nodeIP : String) (netMask : List Nat)
    (ipRouteCmdArgs : List String) (isIPv6 : Bool) :
    ipAddrAddApply d k t iface ip nodeIP false netMask ipRouteCmdArgs isIPv6 =
      (match k.AddrAdd t iface (Addr.mk (ParseIP ip) netMask RT_SCOPE_LINK) with
        | some e => if e ≠ d.IfaceHasAddr then some e else none
        | none => none,
        t ++ [Call.AddrAdd iface (Addr.mk (ParseIP ip) netMask RT_SCOPE_LINK)]) := by
  unfold ipAddrAddApply
  cases k.AddrAdd t iface (Addr.mk (ParseIP ip) netMask RT_SCOPE_LINK) with
  | none => simp
  | some e => by_cases he : e = d.IfaceHasAddr <;> simp [he]

theorem ipAddrAddApply_route {F : Type} (d : ProxyDecls F) (k : Kernel) (t : List Call)
    (iface : Link) (ip nodeIP : String) (netMask : List Nat)
    (ipRouteCmdArgs : List String) (isIPv6 : Bool)
    (hadd : k.AddrAdd t iface (Addr.mk (ParseIP ip) netMask RT_SCOPE_LINK) =
      some d.IfaceHasAddr) :
    ipAddrAddApply d k t iface ip nodeIP true netMask ipRouteCmdArgs isIPv6 =
      ipAddrAddRoute k (t ++ [Call.AddrAdd iface (Addr.mk (ParseIP ip) netMask RT_SCOPE_LINK)])
        ip nodeIP netMask ipRouteCmdArgs isIPv6 := by
  unfold ipAddrAddApply
  rw [hadd]
  simp

/-- C20: in `ipAddrAdd`, with `naddr` the address passed to `netlink.AddrAdd`: when the add
fails with the error `IfaceHasAddr`, the result is the one of a kernel in which the add
succeeds, and with `addRoute` set the `ip route replace` command is the next call unless the
families of the address and of the node address differ; when the add fails with another
error, that error is returned and the add is the only call; and when `addRoute` is not set,
the add is the only call, the result is `nil` unless the add fails with another error, and
the result does not depend on `nodeIP`. -/
theorem ipAddrAdd_address_present {F : Type} (d : ProxyDecls F) (k : Kernel) (t : List Call)
    (iface : Link) (ip nodeIP : String) (addRoute : Bool) (naddr : Addr)
    (hnaddr : naddr = Addr.mk (ParseIP ip)
      (if IP.To4 (ParseIP ip) ≠ [] then fullMask ipv4NetMaskBits else fullMask ipv6NetMaskBits)
      RT_SCOPE_LINK) :
    (k.AddrAdd t iface naddr = some d.IfaceHasAddr →
      ipAddrAdd d k t iface ip nodeIP addRoute =
        ipAddrAdd d { k with AddrAdd := fun _ _ _ => none } t iface ip nodeIP addRoute) ∧
    (k.AddrAdd t iface naddr = some d.IfaceHasAddr → addRoute = true →
      ¬ Xor' (IP.To4 (ParseIP ip) ≠ []) (IP.To4 (ParseIP nodeIP) ≠ []) →
      ∃ family calls, (ipAddrAdd d k t iface ip nodeIP addRoute).2 =
        t ++ Call.AddrAdd iface naddr ::
          Call.CombinedOutput "ip" (family ++ ipRouteArgs "replace" ip nodeIP) :: calls) ∧
    (∀ e, k.AddrAdd t iface naddr = some e → e ≠ d.IfaceHasAddr →
      ¬ (addRoute = true ∧ Xor' (IP.To4 (ParseIP ip) ≠ []) (IP.To4 (ParseIP nodeIP) ≠ [])) →
      ipAddrAdd d k t iface ip nodeIP addRoute = (some e, t ++ [Call.AddrAdd iface naddr])) ∧
    (addRoute = false →
      (ipAddrAdd d k t iface ip nodeIP addRoute).2 = t ++ [Call.AddrAdd iface naddr] ∧
      ((ipAddrAdd d k t iface ip nodeIP addRoute).1 = none ↔
        (k.AddrAdd t iface naddr = none ∨ k.AddrAdd t iface naddr = some d.IfaceHasAddr)) ∧
      ∀ nodeIP', ipAddrAdd d k t iface ip nodeIP' addRoute =
        ipAddrAdd d k t iface ip nodeIP addRoute) := by
  subst hnaddr
  refine ⟨?_, ?_, ?_, ?_⟩
  · intro hadd
    rw [ipAddrAdd_eq, ipAddrAdd_eq, ipAddrAddApply_present d k t iface ip nodeIP addRoute _ _ _
      hadd]
  · intro hadd hroute hx
    subst hroute
    rw [ipAddrAdd_eq, if_neg (fun h => hx h.2), ipAddrAddApply_route d k t iface ip nodeIP _ _ _
      hadd]
    obtain ⟨calls, hc⟩ := ipAddrAddRoute_calls k (t ++ [Call.AddrAdd iface (Addr.mk (ParseIP ip)
      (if IP.To4 (ParseIP ip) ≠ [] then fullMask ipv4NetMaskBits else fullMask ipv6NetMaskBits)
      RT_SCOPE_LINK)]) ip nodeIP
      (if IP.To4 (ParseIP ip) ≠ [] then fullMask ipv4NetMaskBits else fullMask ipv6NetMaskBits)
      (if IP.To4 (ParseIP ip) ≠ [] then [] else ["-6"])
      (if IP.To4 (ParseIP ip) ≠ [] then false else true)
    exact ⟨if IP.To4 (ParseIP ip) ≠ [] then [] else ["-6"], calls, by rw [hc]; simp⟩
  · intro e hadd he hx
    rw [ipAddrAdd_eq, if_neg hx, ipAddrAddApply_error d k t iface ip nodeIP addRoute _ _ _ e
      hadd he]
  · intro hroute
    subst hroute
    have key : ∀ n, ipAddrAdd d k t iface ip n false = _ := fun n => by
      rw [ipAddrAdd_eq, if_neg (by simp), ipAddrAddApply_no_route]
    refine ⟨by rw [key], ?_, fun n => by rw [key, key]⟩
    rw [key]
    cases k.AddrAdd t iface (Addr.mk (ParseIP ip)
      (if IP.To4 (ParseIP ip) ≠ [] then fullMask ipv4NetMaskBits else fullMask ipv6NetMaskBits)
      RT_SCOPE_LINK) with
    | none => simp
    | some e => by_cases he : e = d.IfaceHasAddr <;> simp [he]

/-! ### The standard library: an address that starts with `fe80:` is not an IPv4 address -/

theorem To4_eq_nil_of_head (ip : IP) (hlen : ip.length = 16) (hhead : ip.head? = some 254) :
    IP.To4 ip = [] := by
  match ip, hlen, hhead with
  | b :: rest, hlen, hhead =>
    simp only [List.head?_cons, Option.some.injEq] at hhead
    subst hhead
    simp [IP.To4, hlen]

theorem parseIPv4FieldsLoop_length (s : List Char) (val pos digLen : Nat)
    (atStart prevDot : Bool) (fields out : List Nat)
    (h : parseIPv4FieldsLoop s val pos digLen atStart prevDot fields = some out) :
    out.length = fields.length := by
  induction s generalizing val pos digLen atStart prevDot fields with
  | nil =>
    unfold parseIPv4FieldsLoop at h
    split at h
    · exact absurd h (by simp)
    · simp only [Option.some.injEq] at h
      rw [← h, List.length_set]
  | cons c rest ih =>
    unfold parseIPv4FieldsLoop at h
    split at h
    · split at h
      · exact absurd h (by simp)
      · split at h
        · exact absurd h (by simp)
        · exact ih _ _ _ _ _ _ h
    · split at h
      · split at h
        · exact absurd h (by simp)
        · split at h
          · exact absurd h (by simp)
          · rw [ih _ _ _ _ _ _ h, List.length_set]
      · exact absurd h (by simp)

theorem parseIPv4Fields_length (s : List Char) (out : List Nat)
    (h : parseIPv4Fields s = some out) : out.length = 4 :=
  parseIPv4FieldsLoop_length s 0 0 0 true false [0, 0, 0, 0] out h

theorem head?_set_of_pos (l : List Nat) (n a : Nat) (hn : 0 < n) :
    (l.set n a).head? = l.head? := by
  cases l with
  | nil => rfl
  | cons b l =>
    cases n with
    | zero => exact absurd hn (by decide)
    | succ n => rfl

theorem head?_take_append (l m : List Nat) (n : Nat) (hn : 0 < n) (hl : 0 < l.length) :
    (l.take n ++ m).head? = l.head? := by
  cases l with
  | nil => exact absurd hl (by decide)
  | cons b l =>
    cases n with
    | zero => exact absurd hn (by decide)
    | succ n => rfl

/-- The loop of `parseIPv6` after the first group keeps the length of the address and its
first byte, and leaves the ellipsis after the first group. -/
theorem parseIPv6Loop_first (g : Nat) (hg : g ≤ 7) (s : List Char) (ip : List Nat)
    (e : Option Nat) (hlen : ip.length = 16) (he : ∀ n, e = some n → 2 ≤ n ∧ n ≤ 16 - 2 * g)
    (s' : List Char) (ip' : List Nat) (i' : Nat) (e' : Option Nat)
    (h : parseIPv6Loop g s ip e = some (s', ip', i', e')) :
    ip'.length = 16 ∧ ip'.head? = ip.head? ∧ 2 ≤ i' ∧ i' ≤ 16 ∧
      ∀ n, e' = some n → 2 ≤ n ∧ n ≤ i' := by
  induction g generalizing s ip e with
  | zero =>
    simp only [parseIPv6Loop, Option.some.injEq, Prod.mk.injEq] at h
    obtain ⟨_, rfl, rfl, rfl⟩ := h
    exact ⟨hlen, rfl, by decide, by decide, fun n hn => by simpa using he n hn⟩
  | succ g ih =>
    have hset : ∀ a b : Nat, ((ip.set (16 - 2 * (g + 1)) a).set (16 - 2 * (g + 1) + 1) b).length
        = 16 ∧ ((ip.set (16 - 2 * (g + 1)) a).set (16 - 2 * (g + 1) + 1) b).head? = ip.head? := by
      intro a b
      refine ⟨by simp [hlen], ?_⟩
      rw [head?_set_of_pos _ _ _ (by omega), head?_set_of_pos _ _ _ (by omega)]
    unfold parseIPv6Loop at h
    split at h
    · exact absurd h (by simp)
    · rename_i off acc rest _
      split at h
      · exact absurd h (by simp)
      · split at h
        · split at h
          · exact absurd h (by simp)
          · split at h
            · exact absurd h (by simp)
            · split at h
              · exact absurd h (by simp)
              · rename_i fields hf
                simp only [Option.some.injEq, Prod.mk.injEq] at h
                obtain ⟨_, rfl, rfl, rfl⟩ := h
                have hfl := parseIPv4Fields_length _ _ hf
                refine ⟨?_, by
                    rw [List.append_assoc]
                    exact head?_take_append ip _ (16 - 2 * (g + 1)) (by omega) (by omega),
                  by omega, by omega, fun n hn => ?_⟩
                · simp only [List.length_append, List.length_take, List.length_drop, hlen, hfl]
                  omega
                · have := he n hn
                  omega
        · simp only [Option.some.injEq, Prod.mk.injEq] at h
          obtain ⟨_, rfl, rfl, rfl⟩ := h
          exact ⟨(hset _ _).1, (hset _ _).2, by omega, by omega, fun n hn => by
            have := he n hn
            omega⟩
        · exact absurd h (by simp)
        · split at h
          · exact absurd h (by simp)
          · split at h
            · exact absurd h (by simp)
            · split at h
              · simp only [Option.some.injEq, Prod.mk.injEq] at h
                obtain ⟨_, rfl, rfl, rfl⟩ := h
                exact ⟨(hset _ _).1, (hset _ _).2, by omega, by omega, fun n hn => by
                  simp only [Option.some.injEq] at hn
                  omega⟩
              · obtain ⟨h1, h2, h3⟩ := ih (by omega) _ _ _ (hset _ _).1 (fun n hn => by
                  simp only [Option.some.injEq] at hn
                  omega) h
                exact ⟨h1, h2.trans (hset _ _).2, h3⟩
        · split at h
          · exact absurd h (by simp)
          · obtain ⟨h1, h2, h3⟩ := ih (by omega) _ _ _ (hset _ _).1 (fun n hn => by
              have := he n hn
              omega) h
            exact ⟨h1, h2.trans (hset _ _).2, h3⟩

theorem parseIPv6Finish_first (s : List Char) (ip : List Nat) (i : Nat) (e : Option Nat)
    (hlen : ip.length = 16) (hi : 2 ≤ i ∧ i ≤ 16) (he : ∀ n, e = some n → 2 ≤ n ∧ n ≤ i)
    (out : List Nat) (h : parseIPv6Finish (s, ip, i, e) = some out) :
    out.length = 16 ∧ out.head? = ip.head? := by
  unfold parseIPv6Finish at h
  simp only at h
  split at h
  · exact absurd h (by simp)
  · split at h
    · split at h
      · exact absurd h (by simp)
      · rename_i n
        simp only [Option.some.injEq] at h
        subst h
        have hn := he n rfl
        refine ⟨?_, ?_⟩
        · simp only [List.length_append, List.length_take, List.length_drop,
            List.length_replicate, hlen]
          omega
        · rw [List.append_assoc]
          exact head?_take_append ip _ n (by omega) (by omega)
    · split at h
      · exact absurd h (by simp)
      · simp only [Option.some.injEq] at h
        subst h
        exact ⟨hlen, rfl⟩

theorem hexGroup_fe80 (a : List Char) :
    hexGroup ('f' :: 'e' :: '8' :: '0' :: ':' :: a) 0 0 = some (4, 65152, ':' :: a) := by
  simp [hexGroup, hexDigit?]

theorem parseIPv6Loop_fe80 (a : List Char) (s' : List Char) (ip' : List Nat) (i' : Nat)
    (e' : Option Nat)
    (h : parseIPv6Loop 8 ('f' :: 'e' :: '8' :: '0' :: ':' :: a) (List.replicate 16 0) none =
      some (s', ip', i', e')) :
    ip'.length = 16 ∧ ip'.head? = some 254 ∧ 2 ≤ i' ∧ i' ≤ 16 ∧
      ∀ n, e' = some n → 2 ≤ n ∧ n ≤ i' := by
  unfold parseIPv6Loop at h
  simp only [hexGroup_fe80] at h
  have hip : (((List.replicate 16 0).set (16 - 2 * (7 + 1)) (65152 / 256 % 256)).set
      (16 - 2 * (7 + 1) + 1) (65152 % 256)).length = 16 ∧
      (((List.replicate 16 0).set (16 - 2 * (7 + 1)) (65152 / 256 % 256)).set
      (16 - 2 * (7 + 1) + 1) (65152 % 256)).head? = some 254 := by decide
  cases a with
  | nil => simp at h
  | cons x r =>
    by_cases hx : x = ':'
    · subst hx
      cases r with
      | nil =>
        simp only [Nat.reduceEqDiff, if_false, ne_eq, not_true_eq_false, Option.isSome_none,
          Bool.false_eq_true, Option.some.injEq, Prod.mk.injEq] at h
        obtain ⟨_, rfl, rfl, rfl⟩ := h
        exact ⟨hip.1, hip.2, by decide, by decide, fun n hn => by
          simp only [Option.some.injEq] at hn
          omega⟩
      | cons y r =>
        simp only [Nat.reduceEqDiff, if_false, ne_eq, not_true_eq_false, Option.isSome_none,
          Bool.false_eq_true] at h
        obtain ⟨h1, h2, h3⟩ := parseIPv6Loop_first 7 (le_refl _) _ _ _ hip.1 (fun n hn => by
          simp only [Option.some.injEq] at hn
          omega) _ _ _ _ h
        exact ⟨h1, h2.trans hip.2, h3⟩
    · simp only [Nat.reduceEqDiff, if_false] at h
      split at h
      · rename_i heq
        simp at heq
      · rename_i heq
        simp at heq
      · rename_i heq
        simp at heq
      · rename_i heq
        simp only [List.cons.injEq] at heq
        exact absurd heq.2.1 hx
      · rename_i c rest1 _ _ _ _ heq
        simp only [List.cons.injEq] at heq
        obtain ⟨rfl, rfl⟩ := heq
        simp only [ne_eq, not_true_eq_false, if_false] at h
        obtain ⟨h1, h2, h3⟩ := parseIPv6Loop_first 7 (le_refl _) _ _ _ hip.1 (fun n hn => by
          simp at hn) _ _ _ _ h
        exact ⟨h1, h2.trans hip.2, h3⟩

theorem parseIPv6_fe80 (a : List Char) (out : List Nat) (zone : List Char)
    (h : parseIPv6 ('f' :: 'e' :: '8' :: '0' :: ':' :: a) = some (out, zone)) :
    out.length = 16 ∧ out.head? = some 254 := by
  unfold parseIPv6 at h
  simp only [List.takeWhile_cons, ne_eq, Char.reduceEq, not_false_eq_true, decide_True,
    if_true] at h
  split at h
  · exact absurd h (by simp)
  · split at h
    · rename_i heq
      simp at heq
    · simp only [Option.map_eq_some', Option.bind_eq_some, Prod.mk.injEq] at h
      obtain ⟨ip, ⟨⟨s', ip', i', e'⟩, hloop, hfin⟩, rfl, _⟩ := h
      obtain ⟨h1, h2, h3, h4, h5⟩ := parseIPv6Loop_fe80 _ _ _ _ _ hloop
      obtain ⟨h6, h7⟩ := parseIPv6Finish_first s' ip' i' e' h1 ⟨h3, h4⟩ h5 ip hfin
      exact ⟨h6, h7.trans h2⟩

/-- A text that starts with `fe80:` does not parse as an IPv4 address: `net.ParseIP` gives
`nil` or an address whose first byte is `0xfe`. -/
theorem ParseIP_fe80 (ip : String) (h : stringsHasPrefix ip "fe80:" = true) :
    IP.To4 (ParseIP ip) = [] := by
  obtain ⟨a, ha⟩ := List.isPrefixOf_iff_prefix.mp h
  have hdata : ip.data = 'f' :: 'e' :: '8' :: '0' :: ':' :: a := ha.symm
  unfold ParseIP ParseAddr
  rw [hdata]
  simp only [List.find?, Char.reduceEq, or_self, decide_False, or_true, decide_True]
  cases hp : parseIPv6 ('f' :: 'e' :: '8' :: '0' :: ':' :: a) with
  | none => rfl
  | some r =>
    obtain ⟨out, zone⟩ := r
    cases zone with
    | nil =>
      obtain ⟨h1, h2⟩ := parseIPv6_fe80 a out [] hp
      exact To4_eq_nil_of_head out h1 h2
    | cons z zs => rfl

/-! ### The proxy controller: link-local addresses -/

/-- C18, as amended: for every `ip` that starts with `fe80:` and every `nodeIP`, `ipAddrDel`
makes no call, so it does not call `netlink.AddrDel` and runs no `ip route` command; it
returns `nil` when `nodeIP` does not parse as an IPv4 address, and the error of the family
mismatch when it does. -/
theorem ipAddrDel_link_local {F : Type} (d : ProxyDecls F) (k : Kernel) (t : List Call)
    (iface : Link) (ip nodeIP : String) (hip : stringsHasPrefix ip "fe80:" = true) :
    ipAddrDel d k t iface ip nodeIP =
      (if IP.To4 (ParseIP nodeIP) = [] then none else some (familyMismatchError ip nodeIP),
        t) := by
  unfold ipAddrDel
  rw [ParseIP_fe80 ip hip]
  by_cases hn : IP.To4 (ParseIP nodeIP) = [] <;> simp [hn, hip]

set_option maxRecDepth 100000 in
theorem ipAddrDel_link_local_witness :
    stringsHasPrefix "fe80::1" "fe80:" = true ∧
    ipAddrDel exampleProxyDecls exampleKernel [] exampleLink "fe80::1" "2001:db8::1" =
      (if IP.To4 (ParseIP "2001:db8::1") = [] then none
        else some (familyMismatchError "fe80::1" "2001:db8::1"), []) ∧
    IP.To4 (ParseIP "2001:db8::1") = [] :=
  ⟨by decide,
    ipAddrDel_link_local exampleProxyDecls exampleKernel [] exampleLink "fe80::1"
      "2001:db8::1" (by decide),
    by decide⟩

set_option maxRecDepth 100000 in
/-- C18, as stated, fails: `FE80::1` and `febf::1` are spellings of link-local addresses
that `net.ParseIP` accepts, and for them `ipAddrDel` calls `netlink.AddrDel` and runs
`ip -6 route delete`; and for `fe80::1` with an IPv4 node address it returns an error. -/
theorem ipAddrDel_link_local_counterexample :
    ParseIP "FE80::1" = [254, 128, 0, 0, 0, 0, 0, 0, 0, 0, 0, 0, 0, 0, 0, 1] ∧
    ipAddrDel exampleProxyDecls exampleKernel [] exampleLink "FE80::1" "2001:db8::1" =
      (none,
        [Call.AddrDel exampleLink
          { IP := [254, 128, 0, 0, 0, 0, 0, 0, 0, 0, 0, 0, 0, 0, 0, 1],
            Mask := List.replicate 16 255, Scope := 253 },
         Call.CombinedOutput "ip" ["-6", "route", "delete", "local", "FE80::1", "dev",
           "kube-dummy-if", "table", "local", "proto", "kernel", "scope", "host", "src",
           "2001:db8::1", "table", "local"]]) ∧
    ParseIP "febf::1" = [254, 191, 0, 0, 0, 0, 0, 0, 0, 0, 0, 0, 0, 0, 0, 1] ∧
    (ipAddrDel exampleProxyDecls exampleKernel [] exampleLink "febf::1" "2001:db8::1").2 ≠
      [] ∧
    ipAddrDel exampleProxyDecls exampleKernel [] exampleLink "fe80::1" "192.168.0.1" =
      (some "nodeIP fe80::1 does not match family for VIP IP: 192.168.0.1, unable to proceed",
        []) := by
  decide

theorem ipAddrAddApply_first_call {F : Type} (d : ProxyDecls F) (k : Kernel) (t : List Call)
    (iface : Link) (ip nodeIP : String) (addRoute : Bool) (netMask : List Nat)
    (ipRouteCmdArgs : List String) (isIPv6 : Bool) :
    ∃ calls, (ipAddrAddApply d k t iface ip nodeIP addRoute netMask ipRouteCmdArgs isIPv6).2 =
      t ++ Call.AddrAdd iface (Addr.mk (ParseIP ip) netMask RT_SCOPE_LINK) :: calls := by
  have hroute := ipAddrAddRoute_calls k
    (t ++ [Call.AddrAdd iface (Addr.mk (ParseIP ip) netMask RT_SCOPE_LINK)]) ip nodeIP netMask
    ipRouteCmdArgs isIPv6
  obtain ⟨c, hc⟩ := hroute
  unfold ipAddrAddApply
  split
  · split
    · exact ⟨[], by simp⟩
    · split
      · exact ⟨[], by simp⟩
      · exact ⟨Call.CombinedOutput "ip" (ipRouteCmdArgs ++ ipRouteArgs "replace" ip nodeIP) :: c,
        by rw [hc]; simp⟩
  · split
    · exact ⟨[], by simp⟩
    · exact ⟨Call.CombinedOutput "ip" (ipRouteCmdArgs ++ ipRouteArgs "replace" ip nodeIP) :: c,
        by rw [hc]; simp⟩

/-- C19, as amended: `ipAddrAdd` has no case for link-local addresses.  For every `ip` that
starts with `fe80:`, when `addRoute` is set and `nodeIP` parses as an IPv4 address it returns
the error of the family mismatch and makes no call; otherwise its first call is
`netlink.AddrAdd` with the parsed address and a mask of 128 bits, and when `addRoute` is set
and the add succeeds its second call is `ip -6 route replace`. -/
theorem ipAddrAdd_link_local {F : Type} (d : ProxyDecls F) (k : Kernel) (t : List Call)
    (iface : Link) (ip nodeIP : String) (addRoute : Bool)
    (hip : stringsHasPrefix ip "fe80:" = true) :
    (addRoute = true ∧ IP.To4 (ParseIP nodeIP) ≠ [] →
      ipAddrAdd d k t iface ip nodeIP addRoute = (some (familyMismatchError ip nodeIP), t)) ∧
    (¬ (addRoute = true ∧ IP.To4 (ParseIP nodeIP) ≠ []) →
      ∃ calls, (ipAddrAdd d k t iface ip nodeIP addRoute).2 =
        t ++ Call.AddrAdd iface (Addr.mk (ParseIP ip) (fullMask ipv6NetMaskBits) RT_SCOPE_LINK) ::
          calls) ∧
    (addRoute = true → IP.To4 (ParseIP nodeIP) = [] →
      k.AddrAdd t iface (Addr.mk (ParseIP ip) (fullMask ipv6NetMaskBits) RT_SCOPE_LINK) = none →
      ∃ calls, (ipAddrAdd d k t iface ip nodeIP addRoute).2 =
        t ++ Call.AddrAdd iface (Addr.mk (ParseIP ip) (fullMask ipv6NetMaskBits) RT_SCOPE_LINK) ::
          Call.CombinedOutput "ip" ("-6" :: ipRouteArgs "replace" ip nodeIP) :: calls) := by
  have h4 := ParseIP_fe80 ip hip
  refine ⟨?_, ?_, ?_⟩
  · intro h
    unfold ipAddrAdd
    simp [h4, h.1, h.2]
  · intro h
    have heq : ipAddrAdd d k t iface ip nodeIP addRoute =
        ipAddrAddApply d k t iface ip nodeIP addRoute (fullMask ipv6NetMaskBits) ["-6"] true := by
      unfold ipAddrAdd
      simp only [h4, ne_eq, not_true_eq_false, if_false]
      rw [if_neg h]
    rw [heq]
    exact ipAddrAddApply_first_call d k t iface ip nodeIP addRoute _ _ _
  · intro hroute hn hadd
    subst hroute
    have heq : ipAddrAdd d k t iface ip nodeIP true =
        ipAddrAddRoute k
          (t ++ [Call.AddrAdd iface (Addr.mk (ParseIP ip) (fullMask ipv6NetMaskBits)
            RT_SCOPE_LINK)]) ip nodeIP (fullMask ipv6NetMaskBits) ["-6"] true := by
      unfold ipAddrAdd
      simp only [h4, hn, ne_eq, not_true_eq_false, if_false, and_false]
      unfold ipAddrAddApply
      rw [hadd]
      simp
    rw [heq]
    obtain ⟨c, hc⟩ := ipAddrAddRoute_calls k
      (t ++ [Call.AddrAdd iface (Addr.mk (ParseIP ip) (fullMask ipv6NetMaskBits)
        RT_SCOPE_LINK)]) ip nodeIP (fullMask ipv6NetMaskBits) ["-6"] true
    exact ⟨c, by rw [hc]; simp⟩

set_option maxRecDepth 100000 in
theorem ipAddrAdd_link_local_witness :
    stringsHasPrefix "fe80::1" "fe80:" = true ∧
    ¬ (false = true ∧ IP.To4 (ParseIP "2001:db8::1") ≠ []) ∧
    ∃ calls, (ipAddrAdd exampleProxyDecls exampleKernel [] exampleLink "fe80::1" "2001:db8::1"
        false).2 =
      [] ++ Call.AddrAdd exampleLink
        (Addr.mk (ParseIP "fe80::1") (fullMask ipv6NetMaskBits) RT_SCOPE_LINK) :: calls :=
  ⟨by decide, by decide,
    (ipAddrAdd_link_local exampleProxyDecls exampleKernel [] exampleLink "fe80::1"
      "2001:db8::1" false (by decide)).2.1 (by decide)⟩

set_option maxRecDepth 100000 in
/-- C19, as stated, fails: for `fe80::1`, `ipAddrAdd` calls `netlink.AddrAdd`, and with
`addRoute` set it runs `ip -6 route replace`. -/
theorem ipAddrAdd_link_local_counterexample :
    stringsHasPrefix "fe80::1" "fe80:" = true ∧
    ipAddrAdd exampleProxyDecls exampleKernel [] exampleLink "fe80::1" "2001:db8::1" false =
      (none,
        [Call.AddrAdd exampleLink
          { IP := [254, 128, 0, 0, 0, 0, 0, 0, 0, 0, 0, 0, 0, 0, 0, 1],
            Mask := List.replicate 16 255, Scope := 253 }]) ∧
    ipAddrAdd exampleProxyDecls exampleKernel [] exampleLink "fe80::1" "2001:db8::1" true =
      (none,
        [Call.AddrAdd exampleLink
          { IP := [254, 128, 0, 0, 0, 0, 0, 0, 0, 0, 0, 0, 0, 0, 0, 1],
            Mask := List.replicate 16 255, Scope := 253 },
         Call.CombinedOutput "ip" ["-6", "route", "replace", "local", "fe80::1", "dev",
           "kube-dummy-if", "table", "local", "proto", "kernel", "scope", "host", "src",
           "2001:db8::1", "table", "local"],
         Call.RouteListFiltered 10
           { Dst := [254, 128, 0, 0, 0, 0, 0, 0, 0, 0, 0, 0, 0, 0, 0, 1],
             DstMask := List.replicate 16 255, Src := [], Table := 0 }]) := by
  decide

/-! ### The proxy controller: `ipvsAddService` -/

theorem deref_set_ne (heap : ServiceHeap) (p q : Nat) (v : Service) (h : q ≠ p) :
    ServiceHeap.deref (heap.set p v) q = heap.deref q := by
  simp [ServiceHeap.deref, List.getD_eq_getElem?_getD, List.getElem?_set_ne (Ne.symm h)]

theorem deref_set_eq (heap : ServiceHeap) (p : Nat) (v : Service) (h : p < heap.length) :
    ServiceHeap.deref (heap.set p v) p = v := by
  simp [ServiceHeap.deref, List.getD_eq_getElem?_getD, h]

theorem deref_append (heap : ServiceHeap) (v : Service) (q : Nat) (h : q < heap.length) :
    ServiceHeap.deref (heap ++ [v]) q = heap.deref q := by
  simp [ServiceHeap.deref, List.getD_eq_getElem?_getD, List.getElem?_append_left h]

theorem deref_append_new (heap : ServiceHeap) (v : Service) :
    ServiceHeap.deref (heap ++ [v]) heap.length = v := by
  simp [ServiceHeap.deref, List.getD_eq_getElem?_getD]

theorem updatesOnly_refl (svcs : List Nat) (p : Nat) (heap : ServiceHeap) (t : List Call) :
    UpdatesOnly { svcs := svcs, svc := some p, err := none, heap := heap, trace := t } svcs p
      heap t :=
  ⟨rfl, fun _ => rfl, ⟨[], by simp⟩, rfl, fun _ _ => rfl⟩

theorem updatesOnly_failed (svcs : List Nat) (p : Nat) (heap : ServiceHeap) (t : List Call)
    (e : String) (v : Service) (calls : List Call) (hcalls : calls.all isUpdateCall = true) :
    UpdatesOnly
      { svcs := svcs, svc := none, err := some e, heap := heap.set p v, trace := t ++ calls }
      svcs p heap t :=
  ⟨rfl, fun h => by simp at h, ⟨calls, rfl, hcalls⟩, by simp,
    fun q hq => deref_set_ne heap p q v hq⟩

theorem updatesOnly_step (r : IpvsResult) (svcs : List Nat) (p : Nat) (heap : ServiceHeap)
    (t : List Call) (v : Service)
    (h : UpdatesOnly r svcs p (heap.set p v) (t ++ [Call.ipvsUpdateService v])) :
    UpdatesOnly r svcs p heap t := by
  obtain ⟨h1, h2, ⟨calls, h3, h4⟩, h5, h6⟩ := h
  refine ⟨h1, h2, ⟨Call.ipvsUpdateService v :: calls, by rw [h3]; simp, ?_⟩, by simpa using h5,
    fun q hq => (h6 q hq).trans (deref_set_ne heap p q v hq)⟩
  simpa [isUpdateCall] using h4

theorem ipvsAddServiceScheduler_updates {F : Type} (d : ProxyDecls F) (k : Kernel)
    (svcs : List Nat) (p : Nat) (scheduler : String) (heap : ServiceHeap) (t : List Call) :
    UpdatesOnly (ipvsAddServiceScheduler d k svcs p scheduler heap t) svcs p heap t := by
  unfold ipvsAddServiceScheduler
  split
  · split
    · exact updatesOnly_failed svcs p heap t _ _ [_] (by simp [isUpdateCall])
    · exact updatesOnly_step _ svcs p heap t _ (updatesOnly_refl svcs p _ _)
  · exact updatesOnly_refl svcs p heap t

theorem ipvsAddServiceSchedFlags_updates {F : Type} (d : ProxyDecls F) (k : Kernel)
    (svcs : List Nat) (p : Nat) (scheduler : String) (flags : F) (heap : ServiceHeap)
    (t : List Call) :
    UpdatesOnly (ipvsAddServiceSchedFlags d k svcs p scheduler flags heap t) svcs p heap t := by
  unfold ipvsAddServiceSchedFlags
  split
  · split
    · exact updatesOnly_failed svcs p heap t _ _ [_] (by simp [isUpdateCall])
    · exact updatesOnly_step _ svcs p heap t _
        (ipvsAddServiceScheduler_updates d k svcs p scheduler _ _)
  · exact ipvsAddServiceScheduler_updates d k svcs p scheduler heap t

theorem ipvsAddServiceUpdate_updates {F : Type} (d : ProxyDecls F) (k : Kernel)
    (svcs : List Nat) (p : Nat) (persistent : Bool) (persistentTimeout : Int)
    (scheduler : String) (flags : F) (heap : ServiceHeap) (t : List Call) :
    UpdatesOnly (ipvsAddServiceUpdate d k svcs p persistent persistentTimeout scheduler flags
      heap t) svcs p heap t := by
  unfold ipvsAddServiceUpdate
  split
  · exact ⟨rfl, fun h => by simp at h, ⟨[], by simp⟩, rfl, fun _ _ => rfl⟩
  · split
    · split
      · have := updatesOnly_failed svcs p heap t
          ("failed to set persistence for service " ++ d.ipvsServiceString ‹Service› ++
            " due to: " ++ ‹String›) ‹Service› [] (by simp)
        simpa using this
      · split
        · exact updatesOnly_failed svcs p heap t _ _ [_] (by simp [isUpdateCall])
        · exact updatesOnly_step _ svcs p heap t _
            (ipvsAddServiceSchedFlags_updates d k svcs p scheduler flags _ _)
    · exact ipvsAddServiceSchedFlags_updates d k svcs p scheduler flags heap t

theorem ipvsAddServiceLoop_eq {F : Type} (d : ProxyDecls F) (k : Kernel) (svcs : List Nat)
    (vip : IP) (protocol port : Nat) (persistent : Bool) (persistentTimeout : Int)
    (scheduler : String) (flags : F) (heap : ServiceHeap) (t : List Call) (l : List Nat) :
    ipvsAddServiceLoop d k svcs vip protocol port persistent persistentTimeout scheduler flags
        heap t l =
      (l.find? (fun q => serviceMatches vip protocol port (heap.deref q))).map (fun p =>
        ipvsAddServiceUpdate d k svcs p persistent persistentTimeout scheduler flags heap t) := by
  induction l with
  | nil => rfl
  | cons q l ih =>
    unfold ipvsAddServiceLoop
    by_cases hq : serviceMatches vip protocol port (heap.deref q) = true
    · simp [hq]
    · simp only [hq, Bool.false_eq_true, if_false, List.find?_cons]
      rw [ih]

theorem isNewServiceCall_of_update (calls : List Call) (h : calls.all isUpdateCall = true) :
    calls.all (fun c => !isNewServiceCall c) = true := by
  rw [List.all_eq_true] at h ⊢
  intro c hc
  have := h c hc
  cases c <;> simp_all [isUpdateCall, isNewServiceCall]

/-- C11: when the list passed to `ipvsAddService` holds a service with the address, the
protocol and the port, then with `p` the first such service of the list: the list returned is
the list passed; when there is no error the service returned is `p`; every call made is an
`ipvsUpdateService`, so `ipvsNewService` is not called; and when the service at `p` has the
flag of persistence, the timeout, the flags of the scheduler and the scheduler asked for, no
call is made at all and the memory is left as it is. -/
theorem ipvsAddService_existing {F : Type} (d : ProxyDecls F) (k : Kernel)
    (heap : ServiceHeap) (t : List Call) (svcs : List Nat) (vip : IP) (protocol port : Nat)
    (persistent : Bool) (persistentTimeout : Int) (scheduler : String) (flags : F)
    (h : ∃ q ∈ svcs, serviceMatches vip protocol port (heap.deref q) = true) :
    ∃ p, svcs.find? (fun q => serviceMatches vip protocol port (heap.deref q)) = some p ∧
      (ipvsAddService d k heap t svcs vip protocol port persistent persistentTimeout scheduler
        flags).svcs = svcs ∧
      ((ipvsAddService d k heap t svcs vip protocol port persistent persistentTimeout scheduler
        flags).err = none →
        (ipvsAddService d k heap t svcs vip protocol port persistent persistentTimeout scheduler
          flags).svc = some p) ∧
      (∃ calls, (ipvsAddService d k heap t svcs vip protocol port persistent persistentTimeout
          scheduler flags).trace = t ++ calls ∧
        calls.all isUpdateCall = true ∧ calls.all (fun c => !isNewServiceCall c) = true) ∧
      (persistenceFlagDiffers d (heap.deref p) persistent = false →
        ((heap.deref p).Timeout : Int) = persistentTimeout →
        d.changedIpvsSchedFlags (heap.deref p) flags = false →
        (heap.deref p).SchedName = scheduler →
        ipvsAddService d k heap t svcs vip protocol port persistent persistentTimeout scheduler
            flags =
          { svcs := svcs, svc := some p, err := none, heap := heap, trace := t }) := by
  obtain ⟨q, hq, hm⟩ := h
  cases hfind : svcs.find? (fun q => serviceMatches vip protocol port (heap.deref q)) with
  | none =>
    rw [List.find?_eq_none] at hfind
    exact absurd hm (by simpa using hfind q hq)
  | some p =>
    have heq : ipvsAddService d k heap t svcs vip protocol port persistent persistentTimeout
        scheduler flags =
        ipvsAddServiceUpdate d k svcs p persistent persistentTimeout scheduler flags heap t := by
      unfold ipvsAddService
      rw [ipvsAddServiceLoop_eq, hfind]
      rfl
    obtain ⟨h1, h2, ⟨calls, h3, h4⟩, _, _⟩ := ipvsAddServiceUpdate_updates d k svcs p persistent
      persistentTimeout scheduler flags heap t
    refine ⟨p, rfl, ?_, ?_, ⟨calls, ?_, h4, isNewServiceCall_of_update calls h4⟩, ?_⟩
    · rw [heq]; exact h1
    · rw [heq]; exact h2
    · rw [heq]; exact h3
    · intro hp hto hsf hsn
      rw [heq]
      have hnn : ¬ persistentTimeout < 0 := by rw [← hto]; omega
      have hnat : persistentTimeout.toNat = (heap.deref p).Timeout := by rw [← hto]; simp
      simp [ipvsAddServiceUpdate, safecastToUint32, hnn, hp, hnat, ipvsAddServiceSchedFlags, hsf,
        ipvsAddServiceScheduler, hsn]

/-- Two addresses are equal for `IP.Equal` exactly when their 16-byte forms are the same. -/
theorem IP.Equal_iff (ip x : IP) : IP.Equal ip x = true ↔ IP.To16 ip = IP.To16 x := by
  have hpre : v4InV6Prefix.length = 12 := rfl
  unfold IP.Equal IP.To16
  by_cases h1 : ip.length = x.length
  · rw [if_pos h1]
    by_cases h4 : x.length = 4
    · rw [if_pos (h1.trans h4), if_pos h4]
      simp
    · rw [if_neg (fun h => h4 (h1 ▸ h)), if_neg h4]
      simp
  · rw [if_neg h1]
    by_cases h4 : ip.length = 4
    · have hx4 : ¬ x.length = 4 := fun h => h1 (h4.trans h.symm)
      rw [if_pos h4, if_neg hx4]
      by_cases h16 : x.length = 16
      · rw [if_pos ⟨h4, h16⟩]
        simp only [Bool.and_eq_true, beq_iff_eq]
        constructor
        · rintro ⟨ha, hb⟩
          rw [← ha, hb, List.take_append_drop]
        · intro h
          rw [← h]
          exact ⟨by rw [List.take_left' hpre], by rw [List.drop_left' hpre]⟩
      · rw [if_neg (fun h => h16 h.2), if_neg (fun h => hx4 h.2)]
        simp only [Bool.false_eq_true, false_iff]
        intro h
        have := congrArg List.length h
        rw [List.length_append, hpre, h4] at this
        exact h16 this.symm
    · rw [if_neg (fun h => h4 h.1), if_neg h4]
      by_cases hx4 : x.length = 4
      · rw [if_pos hx4]
        by_cases h16 : ip.length = 16
        · rw [if_pos ⟨h16, hx4⟩]
          simp only [Bool.and_eq_true, beq_iff_eq]
          constructor
          · rintro ⟨ha, hb⟩
            rw [← ha, ← hb, List.take_append_drop]
          · intro h
            rw [h]
            exact ⟨by rw [List.take_left' hpre], by rw [List.drop_left' hpre]⟩
        · rw [if_neg (fun h => h16 h.1)]
          simp only [Bool.false_eq_true, false_iff]
          intro h
          have := congrArg List.length h
          rw [List.length_append, hpre, hx4] at this
          exact h16 this
      · rw [if_neg (fun h => hx4 h.2), if_neg hx4]
        simp only [Bool.false_eq_true, false_iff]
        intro h
        exact h1 (congrArg List.length h)

theorem IP.Equal_refl (ip : IP) : IP.Equal ip ip = true := (IP.Equal_iff ip ip).mpr rfl

theorem serviceMatches_iff (vip : IP) (protocol port : Nat) (svc : Service) :
    serviceMatches vip protocol port svc = true ↔
      IP.To16 vip = IP.To16 svc.Address ∧ protocol = svc.Protocol ∧ port = svc.Port := by
  simp [serviceMatches, IP.Equal_iff, and_assoc]

theorem serviceMatches_key (vip : IP) (protocol port : Nat) (a b : Service)
    (h : serviceKey a = serviceKey b) :
    serviceMatches vip protocol port a = serviceMatches vip protocol port b := by
  simp only [serviceKey, Prod.mk.injEq] at h
  simp [serviceMatches, h.1, h.2.1, h.2.2]

theorem keysKept_refl (heap : ServiceHeap) : KeysKept heap heap := ⟨rfl, fun _ => rfl⟩

theorem keysKept_trans {h1 h2 h3 : ServiceHeap} (a : KeysKept h1 h2) (b : KeysKept h2 h3) :
    KeysKept h1 h3 :=
  ⟨b.1.trans a.1, fun q => (b.2 q).trans (a.2 q)⟩

theorem keysKept_set (heap : ServiceHeap) (p : Nat) (v : Service)
    (h : serviceKey v = serviceKey (heap.deref p)) : KeysKept heap (heap.set p v) := by
  refine ⟨by simp, fun q => ?_⟩
  by_cases hq : q = p
  · subst hq
    by_cases hlt : q < heap.length
    · rw [deref_set_eq heap q v hlt, h]
    · rw [List.set_eq_of_length_le (by omega)]
  · rw [deref_set_ne heap p q v hq]

theorem ipvsAddServiceScheduler_keys {F : Type} (d : ProxyDecls F) (k : Kernel)
    (svcs : List Nat) (p : Nat) (scheduler : String) (heap : ServiceHeap) (t : List Call) :
    KeysKept heap (ipvsAddServiceScheduler d k svcs p scheduler heap t).heap := by
  unfold ipvsAddServiceScheduler
  split
  · split
    · exact keysKept_set heap p _ rfl
    · exact keysKept_set heap p _ rfl
  · exact keysKept_refl heap

theorem ipvsAddServiceSchedFlags_keys {F : Type} (d : ProxyDecls F) (hk : KeepsKey d)
    (k : Kernel) (svcs : List Nat) (p : Nat) (scheduler : String) (flags : F)
    (heap : ServiceHeap) (t : List Call) :
    KeysKept heap (ipvsAddServiceSchedFlags d k svcs p scheduler flags heap t).heap := by
  unfold ipvsAddServiceSchedFlags
  split
  · split
    · exact keysKept_set heap p _ (hk.2 _ _)
    · exact keysKept_trans (keysKept_set heap p _ (hk.2 _ _))
        (ipvsAddServiceScheduler_keys d k svcs p scheduler _ _)
  · exact ipvsAddServiceScheduler_keys d k svcs p scheduler heap t

theorem ipvsAddServiceUpdate_keys {F : Type} (d : ProxyDecls F) (hk : KeepsKey d)
    (k : Kernel) (svcs : List Nat) (p : Nat) (persistent : Bool) (persistentTimeout : Int)
    (scheduler : String) (flags : F) (heap : ServiceHeap) (t : List Call) :
    KeysKept heap (ipvsAddServiceUpdate d k svcs p persistent persistentTimeout scheduler flags
      heap t).heap := by
  unfold ipvsAddServiceUpdate
  split
  · exact keysKept_refl heap
  · split
    · split
      · rename_i svc1 e heq
        exact keysKept_set heap p svc1 (by
          have := hk.1 (heap.deref p) persistent persistentTimeout
          rw [heq] at this
          exact this)
      · rename_i svc1 heq
        have hkey : serviceKey svc1 = serviceKey (heap.deref p) := by
          have := hk.1 (heap.deref p) persistent persistentTimeout
          rw [heq] at this
          exact this
        split
        · exact keysKept_set heap p svc1 hkey
        · exact keysKept_trans (keysKept_set heap p svc1 hkey)
            (ipvsAddServiceSchedFlags_keys d hk k svcs p scheduler flags _ _)
    · exact ipvsAddServiceSchedFlags_keys d hk k svcs p scheduler flags heap t

/-- One call of `ipvsAddService`: either a service of the list matches, and the list and the
size of the memory stay; or none matches, and then the list stays when the creation fails
and gets the new service, with the address, protocol and port asked for, when it succeeds.
The services in the memory keep their address, protocol and port. -/
theorem ipvsAddService_step {F : Type} (d : ProxyDecls F) (hk : KeepsKey d) (k : Kernel)
    (heap : ServiceHeap) (t : List Call) (svcs : List Nat) (vip : IP) (protocol port : Nat)
    (persistent : Bool) (persistentTimeout : Int) (scheduler : String) (flags : F) :
    (∀ q, q < heap.length →
      serviceKey ((ipvsAddService d k heap t svcs vip protocol port persistent persistentTimeout
        scheduler flags).heap.deref q) = serviceKey (heap.deref q)) ∧
    (((ipvsAddService d k heap t svcs vip protocol port persistent persistentTimeout scheduler
        flags).svcs = svcs ∧
      (ipvsAddService d k heap t svcs vip protocol port persistent persistentTimeout scheduler
        flags).heap.length = heap.length) ∨
     ((∀ q ∈ svcs, serviceMatches vip protocol port (heap.deref q) = false) ∧
      (ipvsAddService d k heap t svcs vip protocol port persistent persistentTimeout scheduler
        flags).err = none ∧
      (ipvsAddService d k heap t svcs vip protocol port persistent persistentTimeout scheduler
        flags).svcs = svcs ++ [heap.length] ∧
      (ipvsAddService d k heap t svcs vip protocol port persistent persistentTimeout scheduler
        flags).svc = some heap.length ∧
      ∃ svc, serviceKey svc = (vip, protocol, port) ∧
        (ipvsAddService d k heap t svcs vip protocol port persistent persistentTimeout scheduler
          flags).heap = heap ++ [svc] ∧
        (ipvsAddService d k heap t svcs vip protocol port persistent persistentTimeout scheduler
          flags).trace = t ++ [Call.ipvsNewService svc])) := by
  unfold ipvsAddService
  rw [ipvsAddServiceLoop_eq]
  cases hfind : svcs.find? (fun q => serviceMatches vip protocol port (heap.deref q)) with
  | some p =>
    simp only [Option.map_some']
    have hkeys := ipvsAddServiceUpdate_keys d hk k svcs p persistent persistentTimeout scheduler
      flags heap t
    have hupd := ipvsAddServiceUpdate_updates d k svcs p persistent persistentTimeout scheduler
      flags heap t
    exact ⟨fun q _ => hkeys.2 q, Or.inl ⟨hupd.1, hkeys.1⟩⟩
  | none =>
    simp only [Option.map_none']
    have hnone : ∀ q ∈ svcs, serviceMatches vip protocol port (heap.deref q) = false := by
      intro q hq
      have := List.find?_eq_none.mp hfind q hq
      simpa using this
    unfold ipvsAddServiceCreate
    split
    · exact ⟨fun _ _ => rfl, Or.inl ⟨rfl, rfl⟩⟩
    · rename_i svc1 heq
      split
      · exact ⟨fun _ _ => rfl, Or.inl ⟨rfl, rfl⟩⟩
      · refine ⟨fun q hq => by rw [deref_append heap _ q hq], Or.inr ⟨hnone, rfl, rfl, rfl,
          d.ipvsSetSchedFlags svc1 flags, ?_, rfl, rfl⟩⟩
        have h1 := hk.1 (newService vip protocol port scheduler) persistent persistentTimeout
        rw [heq] at h1
        rw [hk.2, h1]
        rfl

theorem keyMatches_of_key (a a' b b' : Service) (ha : serviceKey a = serviceKey a')
    (hb : serviceKey b = serviceKey b') : keyMatches b a = keyMatches b' a' := by
  simp only [serviceKey, Prod.mk.injEq] at ha hb
  simp [keyMatches, serviceMatches, ha.1, ha.2.1, ha.2.2, hb.1, hb.2.1, hb.2.2]

/-- The services that a sequence of calls of `ipvsAddService` creates: they are appended to
the list, and none of them matches the address, protocol and port of a service that is
before it in the list. -/
theorem ipvsAddServiceAll_created {F : Type} (d : ProxyDecls F) (hk : KeepsKey d) (k : Kernel)
    (reqs : List (ServiceRequest F)) (heap : ServiceHeap) (t : List Call) (svcs : List Nat)
    (hvalid : ∀ q ∈ svcs, q < heap.length) :
    ∃ created, (ipvsAddServiceAll d k reqs heap t svcs).1 = svcs ++ created ∧
      heap.length ≤ (ipvsAddServiceAll d k reqs heap t svcs).2.1.length ∧
      (∀ q, q < heap.length →
        serviceKey ((ipvsAddServiceAll d k reqs heap t svcs).2.1.deref q) =
          serviceKey (heap.deref q)) ∧
      (∀ b ∈ created, heap.length ≤ b ∧
        b < (ipvsAddServiceAll d k reqs heap t svcs).2.1.length) ∧
      (∀ a ∈ svcs, ∀ b ∈ created,
        keyMatches ((ipvsAddServiceAll d k reqs heap t svcs).2.1.deref b)
          ((ipvsAddServiceAll d k reqs heap t svcs).2.1.deref a) = false) ∧
      created.Pairwise (fun a b =>
        keyMatches ((ipvsAddServiceAll d k reqs heap t svcs).2.1.deref b)
          ((ipvsAddServiceAll d k reqs heap t svcs).2.1.deref a) = false) := by
  induction reqs generalizing heap t svcs with
  | nil =>
    exact ⟨[], by simp [ipvsAddServiceAll], le_refl _, fun _ _ => rfl, by simp, by simp,
      List.Pairwise.nil⟩
  | cons r rs ih =>
    obtain ⟨hkept, hstep⟩ := ipvsAddService_step d hk k heap t svcs r.vip r.protocol r.port
      r.persistent r.persistentTimeout r.scheduler r.flags
    rw [ipvsAddServiceAll]
    generalize ipvsAddService d k heap t svcs r.vip r.protocol r.port r.persistent
      r.persistentTimeout r.scheduler r.flags = res at hkept hstep ⊢
    obtain ⟨rsvcs, rsvc, rerr, rheap, rtrace⟩ := res
    simp only at hkept hstep ⊢
    rcases hstep with ⟨hsv, hlen⟩ | ⟨hnone, _, hsv, _, svc, hkey, hheap, _⟩
    · subst hsv
      obtain ⟨created, h1, h2, h3, h4, h5, h6⟩ := ih rheap rtrace rsvcs
        (fun q hq => by rw [hlen]; exact hvalid q hq)
      rw [hlen] at h2 h3 h4
      exact ⟨created, h1, h2, fun q hq => (h3 q hq).trans (hkept q hq), h4, h5, h6⟩
    · subst hsv hheap
      obtain ⟨created, h1, h2, h3, h4, h5, h6⟩ := ih (heap ++ [svc]) rtrace
        (svcs ++ [heap.length])
        (fun q hq => by
          rw [List.length_append, List.length_singleton]
          rcases List.mem_append.mp hq with hq | hq
          · exact Nat.lt_succ_of_lt (hvalid q hq)
          · rw [List.mem_singleton.mp hq]; exact Nat.lt_succ_self _)
      rw [List.length_append, List.length_singleton] at h2 h3 h4
      have hnew : serviceKey ((ipvsAddServiceAll d k rs (heap ++ [svc]) rtrace
          (svcs ++ [heap.length])).2.1.deref heap.length) = (r.vip, r.protocol, r.port) := by
        rw [h3 heap.length (Nat.lt_succ_self _), deref_append_new, hkey]
      have hold : ∀ q, q < heap.length → serviceKey ((ipvsAddServiceAll d k rs (heap ++ [svc])
          rtrace (svcs ++ [heap.length])).2.1.deref q) = serviceKey (heap.deref q) :=
        fun q hq => (h3 q (Nat.lt_succ_of_lt hq)).trans (hkept q hq)
      refine ⟨heap.length :: created, by rw [h1]; simp, by omega, hold, ?_, ?_, ?_⟩
      · intro b hb
        rcases List.mem_cons.mp hb with hb | hb
        · subst hb; exact ⟨le_refl _, by omega⟩
        · have := h4 b hb
          omega
      · intro a ha b hb
        rcases List.mem_cons.mp hb with hb | hb
        · subst hb
          have hm := hnone a ha
          rw [← hm]
          simp only [keyMatches]
          have h7 := hnew
          simp only [serviceKey, Prod.mk.injEq] at h7
          rw [h7.1, h7.2.1, h7.2.2]
          exact serviceMatches_key _ _ _ _ _ (hold a (hvalid a ha))
        · exact h5 a (List.mem_append.mpr (Or.inl ha)) b hb
      · exact List.Pairwise.cons (fun b hb =>
          h5 heap.length (List.mem_append.mpr (Or.inr (List.mem_singleton.mpr rfl))) b hb) h6

theorem filter_length_le_one {α : Type} (R : α → α → Prop) (P : α → Bool) (l : List α)
    (hpair : l.Pairwise R) (hR : ∀ a b, P a = true → P b = true → ¬ R a b) :
    (l.filter P).length ≤ 1 := by
  induction l with
  | nil => simp
  | cons a l ih =>
    rw [List.pairwise_cons] at hpair
    by_cases ha : P a = true
    · have hnil : l.filter P = [] := by
        rw [List.filter_eq_nil_iff]
        intro b hb hPb
        exact hR a b ha hPb (hpair.1 b hb)
      simp [List.filter_cons, ha, hnil]
    · simp only [List.filter_cons, ha, Bool.false_eq_true, if_false]
      exact ih hpair.2

theorem keyMatches_of_matches (vip : IP) (protocol port : Nat) (a b : Service)
    (ha : serviceMatches vip protocol port a = true)
    (hb : serviceMatches vip protocol port b = true) : keyMatches b a = true := by
  rw [serviceMatches_iff] at ha hb
  rw [keyMatches, serviceMatches_iff]
  exact ⟨hb.1.symm.trans ha.1, hb.2.1.symm.trans ha.2.1, hb.2.2.symm.trans ha.2.2⟩

theorem find?_append_singleton (f : Nat → Bool) (l : List Nat) (n : Nat)
    (hl : ∀ q ∈ l, f q = false) (hn : f n = true) : (l ++ [n]).find? f = some n := by
  induction l with
  | nil => simp [List.find?, hn]
  | cons a l ih =>
    have ha := hl a (List.mem_cons_self a l)
    simp only [List.cons_append, List.find?_cons, ha]
    exact ih (fun q hq => hl q (List.mem_cons_of_mem a hq))

/-- C12: with helpers that leave the address, protocol and port of a service alone, and a
list of pointers into the memory.  When no service of the list matches and there is no
error, the list returned is the list passed with the new service appended last, the new
service has the address, protocol and port asked for, and `ipvsNewService` is the one call
made; a second call with the list returned and the same address, protocol and port returns
that list and that service, and calls `ipvsNewService` no more.  And in a sequence of calls
in which every call gets the list that the call before it returned, the services created
are appended to the list, at most one of them matches a given address, protocol and port,
and none does when a service of the first list matches already. -/
theorem ipvsAddService_creates_once {F : Type} (d : ProxyDecls F) (hk : KeepsKey d)
    (k : Kernel) (heap : ServiceHeap) (t : List Call) (svcs : List Nat)
    (hvalid : ∀ q ∈ svcs, q < heap.length) :
    (∀ (vip : IP) (protocol port : Nat) (persistent : Bool) (persistentTimeout : Int)
        (scheduler : String) (flags : F),
      (∀ q ∈ svcs, serviceMatches vip protocol port (heap.deref q) = false) →
      (ipvsAddService d k heap t svcs vip protocol port persistent persistentTimeout scheduler
        flags).err = none →
      ∃ svc, serviceKey svc = (vip, protocol, port) ∧
        ipvsAddService d k heap t svcs vip protocol port persistent persistentTimeout scheduler
            flags =
          { svcs := svcs ++ [heap.length], svc := some heap.length, err := none,
            heap := heap ++ [svc], trace := t ++ [Call.ipvsNewService svc] } ∧
        ∀ (persistent' : Bool) (persistentTimeout' : Int) (scheduler' : String) (flags' : F),
          (ipvsAddService d k (heap ++ [svc]) (t ++ [Call.ipvsNewService svc])
            (svcs ++ [heap.length]) vip protocol port persistent' persistentTimeout' scheduler'
            flags').svcs = svcs ++ [heap.length] ∧
          ((ipvsAddService d k (heap ++ [svc]) (t ++ [Call.ipvsNewService svc])
            (svcs ++ [heap.length]) vip protocol port persistent' persistentTimeout' scheduler'
            flags').err = none →
            (ipvsAddService d k (heap ++ [svc]) (t ++ [Call.ipvsNewService svc])
              (svcs ++ [heap.length]) vip protocol port persistent' persistentTimeout'
              scheduler' flags').svc = some heap.length) ∧
          ∃ calls, (ipvsAddService d k (heap ++ [svc]) (t ++ [Call.ipvsNewService svc])
              (svcs ++ [heap.length]) vip protocol port persistent' persistentTimeout'
              scheduler' flags').trace = t ++ [Call.ipvsNewService svc] ++ calls ∧
            calls.all (fun c => !isNewServiceCall c) = true) ∧
    (∀ reqs : List (ServiceRequest F),
      ∃ created, (ipvsAddServiceAll d k reqs heap t svcs).1 = svcs ++ created ∧
        ∀ (vip : IP) (protocol port : Nat),
          (created.filter (fun q => serviceMatches vip protocol port
            ((ipvsAddServiceAll d k reqs heap t svcs).2.1.deref q))).length ≤ 1 ∧
          ((∃ a ∈ svcs, serviceMatches vip protocol port (heap.deref a) = true) →
            created.filter (fun q => serviceMatches vip protocol port
              ((ipvsAddServiceAll d k reqs heap t svcs).2.1.deref q)) = [])) := by
  refine ⟨?_, ?_⟩
  · intro vip protocol port persistent persistentTimeout scheduler flags hnone herr
    have hfind : svcs.find? (fun q => serviceMatches vip protocol port (heap.deref q)) = none :=
      List.find?_eq_none.mpr (fun q hq => by simp [hnone q hq])
    have heq : ipvsAddService d k heap t svcs vip protocol port persistent persistentTimeout
        scheduler flags =
        ipvsAddServiceCreate d k svcs vip protocol port persistent persistentTimeout scheduler
          flags heap t := by
      unfold ipvsAddService
      rw [ipvsAddServiceLoop_eq, hfind]
      rfl
    rw [heq] at herr ⊢
    unfold ipvsAddServiceCreate at herr ⊢
    split at herr
    · exact absurd herr (by simp)
    · rename_i svc1 hsp
      split at herr
      · exact absurd herr (by simp)
      · rename_i hnew
        have hkey : serviceKey (d.ipvsSetSchedFlags svc1 flags) = (vip, protocol, port) := by
          have h1 := hk.1 (newService vip protocol port scheduler) persistent persistentTimeout
          rw [hsp] at h1
          rw [hk.2, h1]
          rfl
        refine ⟨d.ipvsSetSchedFlags svc1 flags, hkey, rfl, ?_⟩
        intro persistent' persistentTimeout' scheduler' flags'
        have hmatch : serviceMatches vip protocol port
            (ServiceHeap.deref (heap ++ [d.ipvsSetSchedFlags svc1 flags]) heap.length) = true := by
          rw [deref_append_new, serviceMatches_iff]
          simp only [serviceKey, Prod.mk.injEq] at hkey
          exact ⟨by rw [hkey.1], hkey.2.1.symm, hkey.2.2.symm⟩
        have hfind2 : (svcs ++ [heap.length]).find? (fun q => serviceMatches vip protocol port
            (ServiceHeap.deref (heap ++ [d.ipvsSetSchedFlags svc1 flags]) q)) =
            some heap.length :=
          find?_append_singleton _ svcs heap.length
            (fun q hq => by
              rw [deref_append heap _ q (hvalid q hq)]
              exact hnone q hq) hmatch
        have heq2 : ipvsAddService d k (heap ++ [d.ipvsSetSchedFlags svc1 flags])
            (t ++ [Call.ipvsNewService (d.ipvsSetSchedFlags svc1 flags)])
            (svcs ++ [heap.length]) vip protocol port persistent' persistentTimeout' scheduler'
            flags' =
            ipvsAddServiceUpdate d k (svcs ++ [heap.length]) heap.length persistent'
              persistentTimeout' scheduler' flags'
              (heap ++ [d.ipvsSetSchedFlags svc1 flags])
              (t ++ [Call.ipvsNewService (d.ipvsSetSchedFlags svc1 flags)]) := by
          unfold ipvsAddService
          rw [ipvsAddServiceLoop_eq, hfind2]
          rfl
        rw [heq2]
        obtain ⟨h1, h2, ⟨calls, h3, h4⟩, _, _⟩ := ipvsAddServiceUpdate_updates d k
          (svcs ++ [heap.length]) heap.length persistent' persistentTimeout' scheduler' flags'
          (heap ++ [d.ipvsSetSchedFlags svc1 flags])
          (t ++ [Call.ipvsNewService (d.ipvsSetSchedFlags svc1 flags)])
        exact ⟨h1, h2, calls, h3, isNewServiceCall_of_update calls h4⟩
  · intro reqs
    obtain ⟨created, h1, _, h3, _, h5, h6⟩ :=
      ipvsAddServiceAll_created d hk k reqs heap t svcs hvalid
    refine ⟨created, h1, fun vip protocol port => ⟨?_, ?_⟩⟩
    · exact filter_length_le_one _ _ created h6 (fun a b ha hb hR => by
        rw [keyMatches_of_matches vip protocol port _ _ ha hb] at hR
        exact absurd hR (by simp))
    · rintro ⟨a, ha, hm⟩
      rw [List.filter_eq_nil_iff]
      intro b hb hmb
      have hma : serviceMatches vip protocol port
          ((ipvsAddServiceAll d k reqs heap t svcs).2.1.deref a) = true := by
        rw [serviceMatches_key vip protocol port _ _ (h3 a (hvalid a ha))]
        exact hm
      have := h5 a ha b hb
      rw [keyMatches_of_matches vip protocol port _ _ hma hmb] at this
      exact absurd this (by simp)

/-! ### The proxy controller: `ipvsAddFWMarkService` -/

theorem ipvsAddFWMarkServiceFamily_updates {F : Type} (d : ProxyDecls F) (k : Kernel)
    (svcs : List Nat) (p : Nat) (family : Nat) (heap : ServiceHeap) (t : List Call) :
    UpdatesOnly (ipvsAddFWMarkServiceFamily d k svcs p family heap t) svcs p heap t ∧
      ((ipvsAddFWMarkServiceFamily d k svcs p family heap t).err = none → p < heap.length →
        ((ipvsAddFWMarkServiceFamily d k svcs p family heap t).heap.deref p).AddressFamily =
          family) := by
  unfold ipvsAddFWMarkServiceFamily
  split
  · split
    · exact ⟨updatesOnly_failed svcs p heap t _ _ [_] (by simp [isUpdateCall]),
        fun h => by simp at h⟩
    · exact ⟨updatesOnly_step _ svcs p heap t _ (updatesOnly_refl svcs p _ _),
        fun _ hp => by simp only; rw [deref_set_eq heap p _ hp]⟩
  · rename_i h
    exact ⟨updatesOnly_refl svcs p heap t, fun _ _ => not_not.mp h⟩

theorem ipvsAddFWMarkServiceScheduler_updates {F : Type} (d : ProxyDecls F) (k : Kernel)
    (svcs : List Nat) (p : Nat) (family : Nat) (scheduler : String) (heap : ServiceHeap)
    (t : List Call) :
    UpdatesOnly (ipvsAddFWMarkServiceScheduler d k svcs p family scheduler heap t) svcs p heap
        t ∧
      ((ipvsAddFWMarkServiceScheduler d k svcs p family scheduler heap t).err = none →
        p < heap.length →
        ((ipvsAddFWMarkServiceScheduler d k svcs p family scheduler heap t).heap.deref
          p).AddressFamily = family) := by
  unfold ipvsAddFWMarkServiceScheduler
  split
  · split
    · exact ⟨updatesOnly_failed svcs p heap t _ _ [_] (by simp [isUpdateCall]),
        fun h => by simp at h⟩
    · have := ipvsAddFWMarkServiceFamily_updates d k svcs p family
        (heap.set p { heap.deref p with SchedName := scheduler })
        (t ++ [Call.ipvsUpdateService { heap.deref p with SchedName := scheduler }])
      exact ⟨updatesOnly_step _ svcs p heap t _ this.1,
        fun he hp => this.2 he (by simpa using hp)⟩
  · exact ipvsAddFWMarkServiceFamily_updates d k svcs p family heap t

theorem ipvsAddFWMarkServiceSchedFlags_updates {F : Type} (d : ProxyDecls F) (k : Kernel)
    (svcs : List Nat) (p : Nat) (family : Nat) (scheduler : String) (flags : F)
    (heap : ServiceHeap) (t : List Call) :
    UpdatesOnly (ipvsAddFWMarkServiceSchedFlags d k svcs p family scheduler flags heap t) svcs p
        heap t ∧
      ((ipvsAddFWMarkServiceSchedFlags d k svcs p family scheduler flags heap t).err = none →
        p < heap.length →
        ((ipvsAddFWMarkServiceSchedFlags d k svcs p family scheduler flags heap t).heap.deref
          p).AddressFamily = family) := by
  unfold ipvsAddFWMarkServiceSchedFlags
  split
  · split
    · exact ⟨updatesOnly_failed svcs p heap t _ _ [_] (by simp [isUpdateCall]),
        fun h => by simp at h⟩
    · have := ipvsAddFWMarkServiceScheduler_updates d k svcs p family scheduler
        (heap.set p (d.ipvsSetSchedFlags (heap.deref p) flags))
        (t ++ [Call.ipvsUpdateService (d.ipvsSetSchedFlags (heap.deref p) flags)])
      exact ⟨updatesOnly_step _ svcs p heap t _ this.1,
        fun he hp => this.2 he (by simpa using hp)⟩
  · exact ipvsAddFWMarkServiceScheduler_updates d k svcs p family scheduler heap t

theorem ipvsAddFWMarkServiceUpdate_updates {F : Type} (d : ProxyDecls F) (k : Kernel)
    (svcs : List Nat) (p : Nat) (family : Nat) (persistent : Bool) (persistentTimeout : Int)
    (scheduler : String) (flags : F) (heap : ServiceHeap) (t : List Call) :
    UpdatesOnly (ipvsAddFWMarkServiceUpdate d k svcs p family persistent persistentTimeout
        scheduler flags heap t) svcs p heap t ∧
      ((ipvsAddFWMarkServiceUpdate d k svcs p family persistent persistentTimeout scheduler
        flags heap t).err = none → p < heap.length →
        ((ipvsAddFWMarkServiceUpdate d k svcs p family persistent persistentTimeout scheduler
          flags heap t).heap.deref p).AddressFamily = family) := by
  unfold ipvsAddFWMarkServiceUpdate
  split
  · split
    · have := updatesOnly_failed svcs p heap t
        ("failed to set persistence for service " ++ d.ipvsServiceString ‹Service› ++
          " due to: " ++ ‹String›) ‹Service› [] (by simp)
      exact ⟨by simpa using this, fun h => by simp at h⟩
    · rename_i svc1 _
      split
      · exact ⟨updatesOnly_failed svcs p heap t _ _ [_] (by simp [isUpdateCall]),
          fun h => by simp at h⟩
      · have := ipvsAddFWMarkServiceSchedFlags_updates d k svcs p family scheduler flags
          (heap.set p (persistenceUpdate d svc1 flags))
          (t ++ [Call.ipvsUpdateService (persistenceUpdate d svc1 flags)])
        exact ⟨updatesOnly_step _ svcs p heap t _ this.1,
          fun he hp => this.2 he (by simpa using hp)⟩
  · exact ipvsAddFWMarkServiceSchedFlags_updates d k svcs p family scheduler flags heap t

theorem ipvsAddFWMarkServiceLoop_eq {F : Type} (d : ProxyDecls F) (k : Kernel)
    (svcs : List Nat) (fwMark family : Nat) (persistent : Bool) (persistentTimeout : Int)
    (scheduler : String) (flags : F) (heap : ServiceHeap) (t : List Call) (l : List Nat) :
    ipvsAddFWMarkServiceLoop d k svcs fwMark family persistent persistentTimeout scheduler flags
        heap t l =
      (l.find? (fun q => decide (fwMark = (heap.deref q).FWMark))).map (fun p =>
        ipvsAddFWMarkServiceUpdate d k svcs p family persistent persistentTimeout scheduler flags
          heap t) := by
  induction l with
  | nil => rfl
  | cons q l ih =>
    unfold ipvsAddFWMarkServiceLoop
    by_cases hq : fwMark = (heap.deref q).FWMark
    · simp [hq]
    · simp only [hq, if_false, List.find?_cons, decide_False]
      rw [ih]

/-- C14, as amended: `ipvsAddFWMarkService` looks a service up by its mark alone.  With `p`
the first service of the list that has the mark, whatever its family, and also when the
mark is `0` and the service has an address: the list stays, `p` is returned when there is
no error, every call made is an `ipvsUpdateService`, and the memory differs at `p` at most,
so every other service is left as it is; when there is no error the service at `p` ends with
the family asked for; and when only its family differs from what is asked for, the family
and the netmask are set and `ipvsUpdateService` is called once.  When no service of the list
has the mark, no service of the memory is changed. -/
theorem ipvsAddFWMarkService_by_mark {F : Type} (d : ProxyDecls F) (k : Kernel)
    (heap : ServiceHeap) (t : List Call) (svcs : List Nat) (fwMark family protocol port : Nat)
    (persistent : Bool) (persistentTimeout : Int) (scheduler : String) (flags : F) :
    (∀ p, svcs.find? (fun q => decide (fwMark = (heap.deref q).FWMark)) = some p →
      UpdatesOnly (ipvsAddFWMarkService d k heap t svcs fwMark family protocol port persistent
        persistentTimeout scheduler flags) svcs p heap t ∧
      ((ipvsAddFWMarkService d k heap t svcs fwMark family protocol port persistent
        persistentTimeout scheduler flags).err = none → p < heap.length →
        ((ipvsAddFWMarkService d k heap t svcs fwMark family protocol port persistent
          persistentTimeout scheduler flags).heap.deref p).AddressFamily = family) ∧
      (persistenceFlagDiffers d (heap.deref p) persistent = false →
        d.changedIpvsSchedFlags (heap.deref p) flags = false →
        (heap.deref p).SchedName = scheduler →
        (heap.deref p).AddressFamily ≠ family →
        (ipvsAddFWMarkService d k heap t svcs fwMark family protocol port persistent
          persistentTimeout scheduler flags).trace =
          t ++ [Call.ipvsUpdateService
            { heap.deref p with AddressFamily := family, Netmask := netmaskForFamily family }] ∧
        (ipvsAddFWMarkService d k heap t svcs fwMark family protocol port persistent
          persistentTimeout scheduler flags).heap =
          heap.set p
            { heap.deref p with AddressFamily := family, Netmask := netmaskForFamily family })) ∧
    (svcs.find? (fun q => decide (fwMark = (heap.deref q).FWMark)) = none →
      ∀ q, q < heap.length →
        (ipvsAddFWMarkService d k heap t svcs fwMark family protocol port persistent
          persistentTimeout scheduler flags).heap.deref q = heap.deref q) := by
  refine ⟨?_, ?_⟩
  · intro p hfind
    have heq : ipvsAddFWMarkService d k heap t svcs fwMark family protocol port persistent
        persistentTimeout scheduler flags =
        ipvsAddFWMarkServiceUpdate d k svcs p family persistent persistentTimeout scheduler flags
          heap t := by
      unfold ipvsAddFWMarkService
      rw [ipvsAddFWMarkServiceLoop_eq, hfind]
      rfl
    rw [heq]
    obtain ⟨h1, h2⟩ := ipvsAddFWMarkServiceUpdate_updates d k svcs p family persistent
      persistentTimeout scheduler flags heap t
    refine ⟨h1, h2, ?_⟩
    intro hp hsf hsn hfam
    have hsn' : ¬ scheduler ≠ (heap.deref p).SchedName := by rw [hsn]; simp
    unfold ipvsAddFWMarkServiceUpdate
    simp only [hp, Bool.false_eq_true, if_false]
    unfold ipvsAddFWMarkServiceSchedFlags
    simp only [hsf, Bool.false_eq_true, if_false]
    unfold ipvsAddFWMarkServiceScheduler
    rw [if_neg hsn']
    unfold ipvsAddFWMarkServiceFamily
    rw [if_pos hfam]
    split <;> exact ⟨rfl, rfl⟩
  · intro hfind q hq
    have heq : ipvsAddFWMarkService d k heap t svcs fwMark family protocol port persistent
        persistentTimeout scheduler flags =
        ipvsAddFWMarkServiceCreate d k svcs fwMark family persistent persistentTimeout flags
          heap t := by
      unfold ipvsAddFWMarkService
      rw [ipvsAddFWMarkServiceLoop_eq, hfind]
      rfl
    rw [heq]
    unfold ipvsAddFWMarkServiceCreate
    split
    · rfl
    · split
      · rfl
      · exact deref_append heap _ q hq

theorem ipvsAddFWMarkService_by_mark_witness :
    [0].find? (fun q => decide (5 = (ServiceHeap.deref [exampleFWMarkService] q).FWMark)) =
      some 0 ∧
    ((ipvsAddFWMarkService exampleProxyDecls exampleKernel [exampleFWMarkService] [] [0] 5 10 0 0
      true 100 "rr" exampleNoFlags).heap.deref 0).AddressFamily = 10 :=
  ⟨by decide,
    ((ipvsAddFWMarkService_by_mark exampleProxyDecls exampleKernel [exampleFWMarkService] [] [0]
      5 10 0 0 true 100 "rr" exampleNoFlags).1 0 (by decide)).2.1 (by decide) (by decide)⟩

/-- C14, as stated, fails: a service of the mark `5` for IPv4 in the list is taken for the
service of the mark `5` for IPv6 and gets the family `AF_INET6` and the netmask `128`; and
the service `10.96.0.10:53`, which has no mark, is taken for the service of the mark `0`
and gets its scheduler. -/
theorem ipvsAddFWMarkService_by_mark_counterexample :
    ipvsAddFWMarkService exampleProxyDecls exampleKernel [exampleFWMarkService] [] [0] 5 AF_INET6
        0 0 true 100 "rr" exampleNoFlags =
      { svcs := [0], svc := some 0, err := none,
        heap := [{ exampleFWMarkService with AddressFamily := 10, Netmask := 128 }],
        trace := [Call.ipvsUpdateService
          { exampleFWMarkService with AddressFamily := 10, Netmask := 128 }] } ∧
    exampleFWMarkService.AddressFamily = AF_INET ∧
    exampleService.FWMark = 0 ∧ exampleService.Address = [10, 96, 0, 10] ∧
    ipvsAddFWMarkService exampleProxyDecls exampleKernel [exampleService] [] [0] 0 AF_INET 0 0
        false 0 "sh" exampleNoFlags =
      { svcs := [0], svc := some 0, err := none,
        heap := [{ exampleService with SchedName := "sh" }],
        trace := [Call.ipvsUpdateService { exampleService with SchedName := "sh" }] } := by
  decide

/-- C13, at the failing input: the service of the mark `5` in the list has persistence for
100 seconds and persistence for 200 seconds is asked for; `ipvsAddFWMarkService` makes no
call and leaves the timeout at 100, while `ipvsAddService`, for a service that differs from
what is asked for in the same way, sets the timeout and calls `ipvsUpdateService`. -/
theorem ipvsAddFWMarkService_timeout_not_compared :
    ipvsAddFWMarkService exampleProxyDecls exampleKernel [exampleFWMarkService] [] [0] 5 AF_INET
        0 0 true 200 "rr" exampleNoFlags =
      { svcs := [0], svc := some 0, err := none, heap := [exampleFWMarkService], trace := [] } ∧
    exampleFWMarkService.Timeout = 100 ∧
    ipvsAddService exampleProxyDecls exampleKernel [examplePersistentService] [] [0]
        [10, 96, 0, 10] 17 53 true 200 "rr" exampleNoFlags =
      { svcs := [0], svc := some 0, err := none,
        heap := [{ examplePersistentService with Timeout := 200 }],
        trace := [Call.ipvsUpdateService { examplePersistentService with Timeout := 200 }] } := by
  decide

/-- C15, at the failing input: `ipvsAddFWMarkService` is asked for a service of the mark `5`
with the scheduler `sh`; from an empty list it creates the service with the scheduler `rr`,
and a second call with the same arguments and the created service in the list sets the
scheduler and calls `ipvsUpdateService`. -/
theorem ipvsAddFWMarkService_second_call_updates :
    ipvsAddFWMarkService exampleProxyDecls exampleKernel [] [] [] 5 AF_INET 0 0 false 0 "sh"
        exampleNoFlags =
      { svcs := [], svc := some 0, err := none,
        heap := [{ exampleFWMarkService with Flags := 0, Timeout := 0 }],
        trace := [Call.ipvsNewService { exampleFWMarkService with Flags := 0, Timeout := 0 }] } ∧
    exampleFWMarkService.SchedName = "rr" ∧
    ipvsAddFWMarkService exampleProxyDecls exampleKernel
        [{ exampleFWMarkService with Flags := 0, Timeout := 0 }]
        [Call.ipvsNewService { exampleFWMarkService with Flags := 0, Timeout := 0 }] [0] 5
        AF_INET 0 0 false 0 "sh" exampleNoFlags =
      { svcs := [0], svc := some 0, err := none,
        heap := [{ exampleFWMarkService with Flags := 0, Timeout := 0, SchedName := "sh" }],
        trace := [Call.ipvsNewService { exampleFWMarkService with Flags := 0, Timeout := 0 },
          Call.ipvsUpdateService
            { exampleFWMarkService with Flags := 0, Timeout := 0, SchedName := "sh" }] } := by
  decide

/-! ### The claims at the example data -/

theorem exampleProxyDecls_keepsKey : KeepsKey exampleProxyDecls := by
  refine ⟨fun svc persistent timeout => ?_, fun svc flags => rfl⟩
  simp only [exampleProxyDecls]
  split
  · rfl
  · split <;> rfl

theorem ipvsAddService_existing_witness :
    (∃ q ∈ [0], serviceMatches [10, 96, 0, 10] 17 53
      (ServiceHeap.deref [exampleService] q) = true) ∧
    ipvsAddService exampleProxyDecls exampleKernel [exampleService] [] [0] [10, 96, 0, 10] 17 53
        false 0 "rr" exampleNoFlags =
      { svcs := [0], svc := some 0, err := none, heap := [exampleService], trace := [] } ∧
    (ipvsAddService exampleProxyDecls exampleKernel [exampleService] [] [0] [10, 96, 0, 10] 17
      53 true 100 "rr" exampleNoFlags).svcs = [0] :=
  ⟨⟨0, by decide, by decide⟩, by decide,
    (ipvsAddService_existing exampleProxyDecls exampleKernel [exampleService] [] [0]
      [10, 96, 0, 10] 17 53 true 100 "rr" exampleNoFlags ⟨0, by decide, by decide⟩).elim
      (fun _ h => h.2.1)⟩

theorem ipvsAddService_creates_once_witness :
    KeepsKey exampleProxyDecls ∧
    (∀ q ∈ ([] : List Nat), q < ([] : ServiceHeap).length) ∧
    (ipvsAddServiceAll exampleProxyDecls exampleKernel exampleRequests [] [] []).1 = [0, 1] ∧
    ∃ created,
      (ipvsAddServiceAll exampleProxyDecls exampleKernel exampleRequests [] [] []).1 =
        [] ++ created ∧
      ∀ (vip : IP) (protocol port : Nat),
        (created.filter (fun q => serviceMatches vip protocol port
          ((ipvsAddServiceAll exampleProxyDecls exampleKernel exampleRequests [] [] []).2.1.deref
            q))).length ≤ 1 ∧
        ((∃ a ∈ ([] : List Nat), serviceMatches vip protocol port
            (ServiceHeap.deref [] a) = true) →
          created.filter (fun q => serviceMatches vip protocol port
            ((ipvsAddServiceAll exampleProxyDecls exampleKernel exampleRequests [] []
              []).2.1.deref q)) = []) :=
  ⟨exampleProxyDecls_keepsKey, by simp, by decide,
    (ipvsAddService_creates_once exampleProxyDecls exampleProxyDecls_keepsKey exampleKernel [] []
      [] (by simp)).2 exampleRequests⟩

set_option maxRecDepth 100000 in
theorem ipAddrAdd_address_present_witness :
    exampleBusyKernel.AddrAdd [] exampleLink
        (Addr.mk (ParseIP "10.96.0.10")
          (if IP.To4 (ParseIP "10.96.0.10") ≠ [] then fullMask ipv4NetMaskBits
            else fullMask ipv6NetMaskBits) RT_SCOPE_LINK) =
      some exampleProxyDecls.IfaceHasAddr ∧
    ipAddrAdd exampleProxyDecls exampleBusyKernel [] exampleLink "10.96.0.10" "192.168.0.1"
        true =
      ipAddrAdd exampleProxyDecls { exampleBusyKernel with AddrAdd := fun _ _ _ => none } []
        exampleLink "10.96.0.10" "192.168.0.1" true ∧
    ipAddrAdd exampleProxyDecls exampleBusyKernel [] exampleLink "10.96.0.10" "192.168.0.1"
        true =
      (none,
        [Call.AddrAdd exampleLink
          { IP := [0, 0, 0, 0, 0, 0, 0, 0, 0, 0, 255, 255, 10, 96, 0, 10],
            Mask := [255, 255, 255, 255], Scope := 253 },
         Call.CombinedOutput "ip" ["route", "replace", "local", "10.96.0.10", "dev",
           "kube-dummy-if", "table", "local", "proto", "kernel", "scope", "host", "src",
           "192.168.0.1", "table", "local"]]) :=
  ⟨rfl,
    (ipAddrAdd_address_present exampleProxyDecls exampleBusyKernel [] exampleLink "10.96.0.10"
      "192.168.0.1" true _ rfl).1 rfl,
    by decide⟩

/-! ### The name of a pod chain depends on the concatenation -/

/-- C29: the chain name of a pod depends on the namespace, the name and the version only
through their concatenation.  Characters may move from the namespace to the name and from the
name to the version without a change of the chain name; two pairs of a namespace and a name
with the same concatenation get the same chain name, and the pairs `("a", "bc")` and
`("ab", "c")` are such pairs that differ. -/
theorem podFirewallChainName_concatenation (a b c v : String) :
    podFirewallChainName (a ++ b) c v = podFirewallChainName a (b ++ c) v ∧
    podFirewallChainName a (b ++ c) v = podFirewallChainName a b (c ++ v) ∧
    (∀ ns1 n1 ns2 n2 : String, ns1 ++ n1 = ns2 ++ n2 →
      podFirewallChainName ns1 n1 v = podFirewallChainName ns2 n2 v) ∧
    (("a", "bc") ≠ (("ab", "c") : String × String) ∧
      podFirewallChainName "a" "bc" v = podFirewallChainName "ab" "c" v) := by
  refine ⟨?_, ?_, ?_, ?_, ?_⟩
  · simp only [podFirewallChainName, String.append_assoc]
  · simp only [podFirewallChainName, String.append_assoc]
  · intro ns1 n1 ns2 n2 hcat
    unfold podFirewallChainName
    rw [hcat]
  · decide
  · unfold podFirewallChainName
    rfl

/-! ### The handlers of the pod events -/

/-- C28: the handlers of the pod events return, and the only call they make is
`RequestFullSync`.  `AddFunc` calls it once for a pod that is actionable and not at all
otherwise; `UpdateFunc` calls it once when both objects are pods and the update is relevant,
whether the pods are actionable or not, and not at all otherwise; `DeleteFunc` calls it once
for a pod and for a tombstone that holds a pod, and not at all otherwise. -/
theorem podEventHandler_requests_full_sync (d : Decls)
    (isPodUpdateNetPolRelevant : Pod → Pod → Bool) (obj oldObj newObj : Obj) :
    ((∃ p, obj = Obj.pod p ∧ d.isNetPolActionable p = true) →
      AddFunc d obj = some [ControllerCall.RequestFullSync]) ∧
    ((¬ ∃ p, obj = Obj.pod p ∧ d.isNetPolActionable p = true) → AddFunc d obj = some []) ∧
    ((∃ o n, oldObj = Obj.pod o ∧ newObj = Obj.pod n ∧ isPodUpdateNetPolRelevant o n = true) →
      UpdateFunc isPodUpdateNetPolRelevant oldObj newObj =
        some [ControllerCall.RequestFullSync]) ∧
    ((¬ ∃ o n, oldObj = Obj.pod o ∧ newObj = Obj.pod n ∧
        isPodUpdateNetPolRelevant o n = true) →
      UpdateFunc isPodUpdateNetPolRelevant oldObj newObj = some []) ∧
    ((∃ p, obj = Obj.pod p ∨ ∃ key, obj = Obj.DeletedFinalStateUnknown key (Obj.pod p)) →
      DeleteFunc obj = some [ControllerCall.RequestFullSync]) ∧
    ((¬ ∃ p, obj = Obj.pod p ∨ ∃ key, obj = Obj.DeletedFinalStateUnknown key (Obj.pod p)) →
      DeleteFunc obj = some []) := by
  refine ⟨?_, ?_, ?_, ?_, ?_, ?_⟩
  · rintro ⟨p, rfl, hp⟩
    simp [AddFunc, OnPodUpdate, hp]
  · intro hno
    cases obj with
    | pod p =>
      have hp : d.isNetPolActionable p = false := by
        cases hq : d.isNetPolActionable p with
        | false => rfl
        | true => exact absurd ⟨p, rfl, hq⟩ hno
      simp [AddFunc, hp]
    | DeletedFinalStateUnknown key o => rfl
    | other s => rfl
  · rintro ⟨o, n, rfl, rfl, hrel⟩
    simp [UpdateFunc, OnPodUpdate, hrel]
  · intro hno
    cases newObj with
    | pod n =>
      cases oldObj with
      | pod o =>
        have hrel : isPodUpdateNetPolRelevant o n = false := by
          cases hq : isPodUpdateNetPolRelevant o n with
          | false => rfl
          | true => exact absurd ⟨o, n, rfl, rfl, hq⟩ hno
        simp [UpdateFunc, hrel]
      | DeletedFinalStateUnknown key o => rfl
      | other s => rfl
    | DeletedFinalStateUnknown key o => rfl
    | other s => rfl
  · rintro ⟨p, hp | ⟨key, hp⟩⟩ <;> subst hp <;> rfl
  · intro hno
    cases obj with
    | pod p => exact absurd ⟨p, Or.inl rfl⟩ hno
    | DeletedFinalStateUnknown key o =>
      cases o with
      | pod p => exact absurd ⟨p, Or.inr ⟨key, rfl⟩⟩ hno
      | DeletedFinalStateUnknown key2 o2 => rfl
      | other s => rfl
    | other s => rfl

/-! ### The dummy interface -/

/-- C30: `getKubeDummyInterface` returns an error only when the first lookup answered
`IfaceNotFound` and then the creation, the second lookup or the bringing up failed, and the
link it returns is then `nil`.  When the first lookup fails with another error, the link of
that lookup, which is the `nil` link when the lookup returned none, is returned with a `nil`
error; when it succeeds, its link is returned.  In both cases the lookup is the only step.
When the interface is created, looked up and brought up, the link of the second lookup is
returned. -/
theorem getKubeDummyInterface_result (dd : DSRDecls) (h : Host) (t : List Step) :
    let found := h.LinkByName t KubeDummyIf
    let t1 := t ++ [Step.LinkByName KubeDummyIf found.link found.err]
    let added := h.LinkAdd t1 (NewLink.Dummy KubeDummyIf)
    let t2 := t1 ++ [Step.LinkAdd (NewLink.Dummy KubeDummyIf) added]
    let again := h.LinkByName t2 KubeDummyIf
    let t3 := t2 ++ [Step.LinkByName KubeDummyIf again.link again.err]
    ((getKubeDummyInterface dd h t).1.2 ≠ none →
      found.err = some dd.IfaceNotFound ∧ (getKubeDummyInterface dd h t).1.1 = none ∧
      (added ≠ none ∨ (added = none ∧ again.err ≠ none) ∨
        (added = none ∧ ∃ link, again = LinkAnswer.found link ∧
          h.LinkSetUp t3 link ≠ none))) ∧
    (∀ link err, found = LinkAnswer.failed link err → err ≠ dd.IfaceNotFound →
      getKubeDummyInterface dd h t = ((link, none), t1)) ∧
    (∀ err, found = LinkAnswer.failed none err → err ≠ dd.IfaceNotFound →
      getKubeDummyInterface dd h t = ((none, none), t1)) ∧
    (∀ link, found = LinkAnswer.found link →
      getKubeDummyInterface dd h t = ((some link, none), t1)) ∧
    (found.err = some dd.IfaceNotFound → added = none →
      ∀ link, again = LinkAnswer.found link → h.LinkSetUp t3 link = none →
      getKubeDummyInterface dd h t =
        ((some link, none), t3 ++ [Step.LinkSetUp link none])) := by
  dsimp only
  unfold getKubeDummyInterface
  dsimp only
  generalize h.LinkByName t KubeDummyIf = found
  cases found with
  | found link => simp [LinkAnswer.link, LinkAnswer.err]
  | failed link e =>
    simp only [LinkAnswer.link, LinkAnswer.err]
    by_cases hnf : e = dd.IfaceNotFound
    · subst hnf
      simp only [ne_eq, reduceCtorEq, not_false_eq_true, and_self, if_true]
      generalize h.LinkAdd _ _ = added
      cases added with
      | some a => simp
      | none =>
        dsimp only
        generalize h.LinkByName _ KubeDummyIf = again
        cases again with
        | failed link2 e2 => simp [LinkAnswer.err]
        | found link2 =>
          dsimp only
          simp only [LinkAnswer.link, LinkAnswer.err]
          generalize hup : h.LinkSetUp _ _ = up
          cases up with
          | none => simp
          | some a =>
            simp only [List.append_assoc, List.cons_append, List.nil_append] at hup
            simp [hup]
    · simp [hnf]

set_option maxRecDepth 100000 in
/-- The three ways of `getKubeDummyInterface`, at hosts: a lookup that fails with an error
that is not `IfaceNotFound` gives the `nil` link and the `nil` error; a lookup that succeeds
gives its link; and an interface that is not found is created, looked up and brought up. -/
theorem getKubeDummyInterface_example :
    getKubeDummyInterface exampleDSRDecls exampleNoLookupHost [] =
      ((none, none),
        [Step.LinkByName "kube-dummy-if" none (some "operation not permitted")]) ∧
    getKubeDummyInterface exampleDSRDecls exampleHost [] =
      ((some (Link.mk "kube-dummy-if" 9), none),
        [Step.LinkByName "kube-dummy-if" (some (Link.mk "kube-dummy-if" 9)) none]) ∧
    getKubeDummyInterface exampleDSRDecls exampleCreateHost [] =
      ((some (Link.mk "kube-dummy-if" 9), none),
        [Step.LinkByName "kube-dummy-if" none (some "Link not found"),
          Step.LinkAdd (NewLink.Dummy "kube-dummy-if") none,
          Step.LinkByName "kube-dummy-if" (some (Link.mk "kube-dummy-if" 9)) none,
          Step.LinkSetUp (Link.mk "kube-dummy-if" 9) none]) ∧
    getKubeDummyInterface exampleDSRDecls (exampleFileHost "") [] =
      ((none, some "failed to add dummy interface: operation not permitted"),
        [Step.LinkByName "kube-dummy-if" none (some "Link not found"),
          Step.LinkAdd (NewLink.Dummy "kube-dummy-if") (some "operation not permitted")]) := by
  refine ⟨?_, ?_, ?_, ?_⟩ <;> decide

/-! ### The identifier of the interface of a container -/

theorem atoiDigits_ok_iff (negative : Bool) (digits : List Char) (n : Int) :
    atoiDigits negative digits = (n, none) ↔
      digits ≠ [] ∧ (∀ c ∈ digits, '0' ≤ c ∧ c ≤ '9') ∧
      n = (if negative then -(decimalValue digits : Int) else (decimalValue digits : Int)) ∧
      fitsInt n := by
  unfold atoiDigits fitsInt
  by_cases hbad : digits = [] ∨ ¬ (digits.all (fun c => decide ('0' ≤ c ∧ c ≤ '9')) = true)
  · rw [if_pos hbad]
    constructor
    · intro h
      simp at h
    · rintro ⟨hne, hall, -, -⟩
      rcases hbad with hnil | hnot
      · exact absurd hnil hne
      · exact absurd (by simpa using hall) hnot
  · rw [if_neg hbad]
    have hne : digits ≠ [] := fun hnil => hbad (Or.inl hnil)
    have hall : ∀ c ∈ digits, '0' ≤ c ∧ c ≤ '9' := by
      by_contra hc
      exact hbad (Or.inr (by simpa using hc))
    cases negative with
    | true =>
      by_cases hbig : decimalValue digits > 2 ^ 63
      · simp only [if_true, if_pos hbig]
        constructor
        · intro h
          simp at h
        · rintro ⟨-, -, hn, hlo, -⟩
          subst hn
          omega
      · simp only [if_true, if_neg hbig]
        constructor
        · intro h
          have hn : n = -(decimalValue digits : Int) := by
            have := congrArg Prod.fst h
            exact this.symm
          subst hn
          exact ⟨hne, hall, rfl, by omega, by omega⟩
        · rintro ⟨-, -, hn, -, -⟩
          rw [hn]
    | false =>
      by_cases hbig : decimalValue digits > 2 ^ 63 - 1
      · simp only [Bool.false_eq_true, if_false, if_pos hbig]
        constructor
        · intro h
          simp at h
        · rintro ⟨-, -, hn, -, hhi⟩
          subst hn
          omega
      · simp only [Bool.false_eq_true, if_false, if_neg hbig]
        constructor
        · intro h
          have hn : n = (decimalValue digits : Int) := by
            have := congrArg Prod.fst h
            exact this.symm
          subst hn
          exact ⟨hne, hall, rfl, by omega, by omega⟩
        · rintro ⟨-, -, hn, -, -⟩
          rw [hn]

/-- The function `strconv.Atoi` succeeds with `n` exactly on the decimal integers `n` that
fit in an `int`. -/
theorem Atoi_ok_iff (s : String) (n : Int) :
    Atoi s = (n, none) ↔ isDecimalInteger s n ∧ fitsInt n := by
  have hminus : ¬ ('0' ≤ '-' ∧ '-' ≤ '9') := by decide
  have hplus : ¬ ('0' ≤ '+' ∧ '+' ≤ '9') := by decide
  unfold Atoi isDecimalInteger
  split
  · rename_i digits hdata
    rw [atoiDigits_ok_iff]
    constructor
    · rintro ⟨hne, hall, hn, hfit⟩
      exact ⟨⟨digits, hne, hall, Or.inr ⟨hdata, by simpa using hn⟩⟩, hfit⟩
    · rintro ⟨⟨ds, hne, hall, ⟨hd | hd, hn⟩ | ⟨hd, hn⟩⟩, hfit⟩
      · rw [hdata] at hd
        exact absurd (hall '-' (by rw [← hd]; simp)) hminus
      · rw [hdata] at hd
        simp at hd
      · rw [hdata] at hd
        have hds : digits = ds := by simpa using hd
        subst hds
        exact ⟨hne, hall, by simpa using hn, hfit⟩
  · rename_i digits hdata
    rw [atoiDigits_ok_iff]
    constructor
    · rintro ⟨hne, hall, hn, hfit⟩
      exact ⟨⟨digits, hne, hall, Or.inl ⟨Or.inr hdata, by simpa using hn⟩⟩, hfit⟩
    · rintro ⟨⟨ds, hne, hall, ⟨hd | hd, hn⟩ | ⟨hd, hn⟩⟩, hfit⟩
      · rw [hdata] at hd
        exact absurd (hall '+' (by rw [← hd]; simp)) hplus
      · rw [hdata] at hd
        have hds : digits = ds := by simpa using hd
        subst hds
        exact ⟨hne, hall, by simpa using hn, hfit⟩
      · rw [hdata] at hd
        simp at hd
  · rename_i hnominus hnoplus
    rw [atoiDigits_ok_iff]
    constructor
    · rintro ⟨hne, hall, hn, hfit⟩
      exact ⟨⟨s.data, hne, hall, Or.inl ⟨Or.inl rfl, by simpa using hn⟩⟩, hfit⟩
    · rintro ⟨⟨ds, hne, hall, ⟨hd | hd, hn⟩ | ⟨hd, hn⟩⟩, hfit⟩
      · rw [hd]
        exact ⟨hne, hall, by simpa using hn, hfit⟩
      · exact absurd hd (hnoplus ds)
      · exact absurd hd (hnominus ds)

theorem digitChar_ne_slash : ∀ m, m < 10 → Nat.digitChar m ≠ '/' := by decide

theorem toDigitsCore_no_slash (fuel : Nat) : ∀ (n : Nat) (acc : List Char),
    (∀ c ∈ acc, c ≠ '/') → ∀ c ∈ Nat.toDigitsCore 10 fuel n acc, c ≠ '/' := by
  induction fuel with
  | zero =>
    intro n acc hacc
    simpa [Nat.toDigitsCore] using hacc
  | succ fuel ih =>
    intro n acc hacc
    have hcons : ∀ c ∈ Nat.digitChar (n % 10) :: acc, c ≠ '/' := by
      intro c hc
      rcases List.mem_cons.mp hc with rfl | hc
      · exact digitChar_ne_slash _ (Nat.mod_lt _ (by decide))
      · exact hacc c hc
    simp only [Nat.toDigitsCore]
    split
    · exact hcons
    · exact ih _ _ hcons

theorem toDigitsCore_ne_nil (fuel : Nat) : ∀ (n : Nat) (acc : List Char),
    acc ≠ [] → Nat.toDigitsCore 10 fuel n acc ≠ [] := by
  induction fuel with
  | zero =>
    intro n acc hacc
    simpa [Nat.toDigitsCore] using hacc
  | succ fuel ih =>
    intro n acc _
    simp only [Nat.toDigitsCore]
    split
    · simp
    · exact ih _ _ (by simp)

theorem toDigits_no_slash (n : Nat) : ∀ c ∈ Nat.toDigits 10 n, c ≠ '/' :=
  toDigitsCore_no_slash _ _ _ (by simp)

theorem toDigits_ne_nil (n : Nat) : Nat.toDigits 10 n ≠ [] := by
  unfold Nat.toDigits
  simp only [Nat.toDigitsCore]
  split
  · simp
  · exact toDigitsCore_ne_nil _ _ _ (by simp)

theorem Itoa_no_slash (n : Int) : ∀ c ∈ (Itoa n).data, c ≠ '/' := by
  unfold Itoa
  split
  · intro c hc
    simp only [String.data_append, List.mem_append] at hc
    rcases hc with hc | hc
    · have : c = '-' := by simpa using hc
      rw [this]
      decide
    · exact toDigits_no_slash _ c hc
  · exact toDigits_no_slash _

theorem Itoa_ne_nil (n : Int) : (Itoa n).data ≠ [] := by
  unfold Itoa
  split
  · simp [String.data_append]
  · exact toDigits_ne_nil _

theorem collapseSlashes_no_slash (xs rest : List Char) (hxs : ∀ c ∈ xs, c ≠ '/') :
    collapseSlashes (xs ++ rest) = xs ++ collapseSlashes rest := by
  induction xs with
  | nil => rfl
  | cons x xs ih =>
    have hx : x ≠ '/' := hxs x (by simp)
    have htail := ih (fun c hc => hxs c (by simp [hc]))
    rw [List.cons_append, collapseSlashes.eq_def]
    split
    · rename_i heq
      simp only [List.cons.injEq] at heq
      exact absurd heq.1 hx
    · rename_i c cs _ heq
      simp only [List.cons.injEq] at heq
      rw [← heq.1, ← heq.2, htail, List.cons_append]
    · rename_i heq
      simp at heq

theorem collapseSlashes_slash (xs rest : List Char) (hne : xs ≠ [])
    (hxs : ∀ c ∈ xs, c ≠ '/') :
    collapseSlashes ('/' :: (xs ++ rest)) = '/' :: (xs ++ collapseSlashes rest) := by
  cases xs with
  | nil => exact absurd rfl hne
  | cons x xs =>
    have hx : x ≠ '/' := hxs x (by simp)
    rw [← collapseSlashes_no_slash (x :: xs) rest hxs, List.cons_append,
      collapseSlashes.eq_def]
    split
    · rename_i heq
      simp only [List.cons.injEq] at heq
      exact absurd heq.2.1 hx
    · rename_i c cs _ heq
      simp only [List.cons.injEq] at heq
      rw [← heq.1, ← heq.2]
    · rename_i heq
      simp at heq

/-- The path that `findIfaceLinkForPid` reads, as a text. -/
theorem ifaceSysPath_eq (pid : Int) :
    ifaceSysPath pid = "/proc/" ++ Itoa pid ++ "/cwd/sys/class/net/eth0/iflink" := by
  have hne : (Itoa pid != "") = true := by
    have := Itoa_ne_nil pid
    simp only [bne_iff_ne, ne_eq]
    intro h
    rw [h] at this
    exact this rfl
  apply String.ext
  unfold ifaceSysPath pathJoin
  simp only [List.filter, hne, procFSBasePath, procFSCWDRelPath, sysFSBasePath,
    sysFSNetClassRelPath, assumedContainerIfaceName, sysFSIfLinkRelPath]
  simp only [String.intercalate, String.intercalate.go, String.data_append]
  have h1 : collapseSlashes ("/proc".data ++ "/".data ++ (Itoa pid).data ++ "/".data ++
      "cwd".data ++ "/".data ++ "/sys".data ++ "/".data ++ "class/net".data ++ "/".data ++
      "eth0".data ++ "/".data ++ "iflink".data) =
      "/proc/".data ++ (Itoa pid).data ++ "/cwd/sys/class/net/eth0/iflink".data := by
    have e1 : "/proc".data ++ "/".data ++ (Itoa pid).data ++ "/".data ++
      "cwd".data ++ "/".data ++ "/sys".data ++ "/".data ++ "class/net".data ++ "/".data ++
      "eth0".data ++ "/".data ++ "iflink".data =
      ['/', 'p', 'r', 'o', 'c'] ++ ('/' :: ((Itoa pid).data ++
        "/cwd//sys/class/net/eth0/iflink".data)) := by
      simp
    have e2 : collapseSlashes "/cwd//sys/class/net/eth0/iflink".data =
        "/cwd/sys/class/net/eth0/iflink".data := by decide
    rw [e1]
    show collapseSlashes ('/' :: (['p', 'r', 'o', 'c'] ++ ('/' :: ((Itoa pid).data ++
      "/cwd//sys/class/net/eth0/iflink".data)))) = _
    rw [collapseSlashes_slash ['p', 'r', 'o', 'c'] _ (by simp) (by decide),
      collapseSlashes_slash (Itoa pid).data _ (Itoa_ne_nil pid) (Itoa_no_slash pid), e2]
    rfl
  exact h1

/-- C21: `findIfaceLinkForPid` reads the file `/proc/<pid>/cwd/sys/class/net/eth0/iflink`
first.  It returns `(n, nil)` exactly when the file can be read and its content, without one
newline at its end, is a decimal integer `n` of the type `int` that is not zero.  It returns
an error exactly when the file cannot be read, the content is not a decimal integer of the
type `int`, or the content is a decimal integer zero. -/
theorem findIfaceLinkForPid_result (dd : DSRDecls) (h : Host) (t : List Step) (pid n : Int) :
    let path := "/proc/" ++ Itoa pid ++ "/cwd/sys/class/net/eth0/iflink"
    let answer := h.ReadFile t path
    (∃ steps, (findIfaceLinkForPid dd h t pid).2 =
      t ++ Step.ReadFile path answer.1 answer.2 :: steps) ∧
    ((findIfaceLinkForPid dd h t pid).1 = (n, none) ↔
      answer.2 = none ∧ isDecimalInteger (stringsTrimSuffix answer.1 "\n") n ∧ fitsInt n ∧
        n ≠ 0) ∧
    ((findIfaceLinkForPid dd h t pid).1.2 ≠ none ↔
      answer.2 ≠ none ∨
        (∀ m, fitsInt m → ¬ isDecimalInteger (stringsTrimSuffix answer.1 "\n") m) ∨
        isDecimalInteger (stringsTrimSuffix answer.1 "\n") 0) := by
  dsimp only
  unfold findIfaceLinkForPid listAvailableIfaces
  rw [ifaceSysPath_eq]
  dsimp only
  generalize h.ReadFile t _ = answer
  obtain ⟨content, err⟩ := answer
  cases err with
  | some e =>
    dsimp only
    refine ⟨⟨_, by rw [List.append_assoc]; rfl⟩, ?_, ?_⟩
    · simp
    · simp
  | none =>
    dsimp only
    have hok := Atoi_ok_iff (stringsTrimSuffix content "\n")
    generalize Atoi (stringsTrimSuffix content "\n") = parsed at hok ⊢
    obtain ⟨value, perr⟩ := parsed
    dsimp only
    have hzero : fitsInt 0 := by decide
    by_cases hbad : value = 0 ∨ perr ≠ none
    · rw [if_pos hbad]
      refine ⟨⟨_, by rw [List.append_assoc]; rfl⟩, ?_, ?_⟩
      · constructor
        · intro hres
          simp at hres
        · rintro ⟨-, hdec, hfit, hn⟩
          have hatoi := (hok n).mpr ⟨hdec, hfit⟩
          simp only [Prod.mk.injEq] at hatoi
          rcases hbad with hv | hp
          · exact absurd (hatoi.1.symm.trans hv) hn
          · exact absurd hatoi.2 hp
      · constructor
        · intro _
          right
          rcases hbad with hv | hp
          · by_cases hp : perr = none
            · right
              subst hv hp
              exact ((hok 0).mp rfl).1
            · left
              intro m hfit hdec
              have hatoi := (hok m).mpr ⟨hdec, hfit⟩
              simp only [Prod.mk.injEq] at hatoi
              exact hp hatoi.2
          · left
            intro m hfit hdec
            have hatoi := (hok m).mpr ⟨hdec, hfit⟩
            simp only [Prod.mk.injEq] at hatoi
            exact hp hatoi.2
        · intro _
          simp
    · rw [if_neg hbad]
      have hv : value ≠ 0 := fun hv => hbad (Or.inl hv)
      have hp : perr = none := by
        by_contra hp
        exact hbad (Or.inr hp)
      subst hp
      refine ⟨⟨[], rfl⟩, ?_, ?_⟩
      · constructor
        · intro hres
          simp only [Prod.mk.injEq, and_true] at hres
          subst hres
          have := (hok value).mp rfl
          exact ⟨rfl, this.1, this.2, hv⟩
        · rintro ⟨-, hdec, hfit, -⟩
          have hatoi := (hok n).mpr ⟨hdec, hfit⟩
          simp only [Prod.mk.injEq, and_true] at hatoi
          rw [hatoi]
      · constructor
        · intro hres
          simp at hres
        · rintro (hread | hnone | hzerodec)
          · simp at hread
          · have := (hok value).mp rfl
            exact absurd this.1 (hnone value this.2)
          · have hatoi := (hok 0).mpr ⟨hzerodec, hzero⟩
            simp only [Prod.mk.injEq, and_true] at hatoi
            exact absurd hatoi hv

set_option maxRecDepth 100000 in
/-- An identifier is read from a file that ends with a newline; a file with the text `0`
gives an error, and the directory of the interfaces is listed. -/
theorem findIfaceLinkForPid_example :
    findIfaceLinkForPid exampleDSRDecls (exampleFileHost "17\n") [] 42 =
      ((17, none), [Step.ReadFile "/proc/42/cwd/sys/class/net/eth0/iflink" "17\n" none]) ∧
    findIfaceLinkForPid exampleDSRDecls (exampleFileHost "0\n") [] 42 =
      ((0, some ("unable to find the ifaceID inside the container from " ++
        "/proc/42/cwd/sys/class/net/eth0/iflink, output was: 0\n, error was <nil>")),
        [Step.ReadFile "/proc/42/cwd/sys/class/net/eth0/iflink" "0\n" none,
          Step.ReadDir "/proc/42/cwd/sys/class/net" ["eth0", "lo"] none]) ∧
    (findIfaceLinkForPid exampleDSRDecls (exampleFileHost "17\n\n") [] 42).1 =
      (0, some ("unable to find the ifaceID inside the container from " ++
        "/proc/42/cwd/sys/class/net/eth0/iflink, output was: 17\n\n, error was " ++
        "strconv.Atoi: parsing \"17\n\": invalid syntax")) := by
  refine ⟨?_, ?_, ?_⟩ <;> decide

/-! ### The configuration of a container for direct server return -/

theorem configureReturn_ok (h : Host) (t : List Step) (endpoint host : Nat)
    (hok : (configureReturn h t endpoint host).1 = none) :
    ∃ back, (configureReturn h t endpoint host).2 =
      t ++ [Step.NetnsSet host none, Step.NetnsGet back none, Step.Close back,
        Step.Close endpoint] := by
  unfold configureReturn at hok ⊢
  dsimp only at hok ⊢
  generalize h.NetnsSet t host = set at hok ⊢
  cases set with
  | some e => simp at hok
  | none =>
    dsimp only at hok ⊢
    generalize h.NetnsGet _ = active at hok ⊢
    obtain ⟨back, err⟩ := active
    cases err with
    | some e => simp at hok
    | none => exact ⟨back, by simp⟩

theorem configureSysctl_ok (dd : DSRDecls) (h : Host) (t : List Step) (endpoint host : Nat)
    (hok : (configureSysctl dd h t endpoint host).1 = none) :
    ∃ back, (configureSysctl dd h t endpoint host).2 =
      t ++ [Step.SetSysctlSingleTemplate dd.IPv4ConfRPFilterTemplate "kube-tunnel-if" 0 none,
        Step.SetSysctlSingleTemplate dd.IPv4ConfRPFilterTemplate "eth0" 0 none,
        Step.SetSysctlSingleTemplate dd.IPv4ConfRPFilterTemplate "all" 0 none,
        Step.NetnsSet host none, Step.NetnsGet back none, Step.Close back,
        Step.Close endpoint] := by
  unfold configureSysctl at hok ⊢
  dsimp only at hok ⊢
  generalize h.SetSysctlSingleTemplate t _ _ _ = first at hok ⊢
  cases first with
  | some e => simp at hok
  | none =>
    dsimp only at hok ⊢
    generalize h.SetSysctlSingleTemplate _ _ _ _ = second at hok ⊢
    cases second with
    | some e => simp at hok
    | none =>
      dsimp only at hok ⊢
      generalize h.SetSysctlSingleTemplate _ _ _ _ = third at hok ⊢
      cases third with
      | some e => simp at hok
      | none =>
        dsimp only at hok ⊢
        obtain ⟨back, hback⟩ := configureReturn_ok h _ endpoint host hok
        exact ⟨back, by rw [hback]; simp [assumedContainerIfaceName]⟩

theorem kernelCalls_append (s t : List Step) :
    kernelCalls (s ++ t) = kernelCalls s ++ kernelCalls t := by
  induction s with
  | nil => rfl
  | cons x s ih => cases x <;> simp [kernelCalls, ih]

/-- The method `ipAddrAdd` without a route makes one call, and its error is the error of the
kernel when that is not the error that the address exists. -/
theorem ipAddrAdd_no_route {F : Type} (d : ProxyDecls F) (k : Kernel) (t : List Call)
    (iface : Link) (ip : String) :
    ipAddrAdd d k t iface ip "" false =
      (match k.AddrAdd t iface (vipAddr ip) with
        | some e => if e ≠ d.IfaceHasAddr then some e else none
        | none => none,
        t ++ [Call.AddrAdd iface (vipAddr ip)]) := by
  rw [ipAddrAdd_eq]
  simp only [Bool.false_eq_true, false_and, if_false]
  rw [ipAddrAddApply_no_route]
  rfl

theorem configureTunnel_ok {F : Type} (d : ProxyDecls F) (dd : DSRDecls) (k : Kernel)
    (h : Host) (t : List Step) (tunIf : Link) (vip : String) (endpoint host : Nat)
    (hok : (configureTunnel d dd k h t tunIf vip endpoint host).1 = none) :
    (k.AddrAdd (kernelCalls t) tunIf (vipAddr vip) = none ∨
      k.AddrAdd (kernelCalls t) tunIf (vipAddr vip) = some d.IfaceHasAddr) ∧
    ∃ back, (configureTunnel d dd k h t tunIf vip endpoint host).2 =
      t ++ [Step.LinkSetUp tunIf none, Step.kernel (Call.AddrAdd tunIf (vipAddr vip)),
        Step.SetSysctlSingleTemplate dd.IPv4ConfRPFilterTemplate "kube-tunnel-if" 0 none,
        Step.SetSysctlSingleTemplate dd.IPv4ConfRPFilterTemplate "eth0" 0 none,
        Step.SetSysctlSingleTemplate dd.IPv4ConfRPFilterTemplate "all" 0 none,
        Step.NetnsSet host none, Step.NetnsGet back none, Step.Close back,
        Step.Close endpoint] := by
  unfold configureTunnel at hok ⊢
  dsimp only at hok ⊢
  generalize h.LinkSetUp t tunIf = up at hok ⊢
  cases up with
  | some e => simp at hok
  | none =>
    dsimp only at hok ⊢
    have hcalls : kernelCalls (t ++ [Step.LinkSetUp tunIf none]) = kernelCalls t := by
      rw [kernelCalls_append]
      simp [kernelCalls]
    rw [hcalls, ipAddrAdd_no_route] at hok ⊢
    dsimp only at hok ⊢
    have hdrop : (List.drop (kernelCalls t).length
        (kernelCalls t ++ [Call.AddrAdd tunIf (vipAddr vip)])).map Step.kernel =
        [Step.kernel (Call.AddrAdd tunIf (vipAddr vip))] := by
      simp
    rw [hdrop] at hok ⊢
    cases hadd : k.AddrAdd (kernelCalls t) tunIf (vipAddr vip) with
    | none =>
      rw [hadd] at hok
      simp only [ne_eq, not_true_eq_false, false_and, if_false] at hok ⊢
      obtain ⟨back, hback⟩ := configureSysctl_ok dd h _ endpoint host hok
      exact ⟨by simp, back, by rw [hback]; simp⟩
    | some e =>
      rw [hadd] at hok
      by_cases he : e = d.IfaceHasAddr
      · subst he
        simp only [ne_eq, not_true_eq_false, if_false, false_and] at hok ⊢
        obtain ⟨back, hback⟩ := configureSysctl_ok dd h _ endpoint host hok
        exact ⟨by simp, back, by rw [hback]; simp⟩
      · have hne : (some e : Option String) ≠ some d.IfaceHasAddr := by
          simpa using he
        simp [he, hne] at hok

theorem waitForTunnel_ok (dd : DSRDecls) (h : Host) (name : String) (more : Nat) :
    ∀ (t : List Step) (tunIf : Link),
      (waitForTunnel dd h name more t).1 = LinkAnswer.found tunIf →
      ∃ waits, (waitForTunnel dd h name more t).2 =
          t ++ waits ++ [Step.Sleep dd.interfaceWaitSleepTime,
            Step.LinkByName name (some tunIf) none] ∧
        ∀ s ∈ waits, isWaitStep dd name s = true := by
  induction more with
  | zero =>
    intro t tunIf hok
    unfold waitForTunnel at hok ⊢
    dsimp only at hok ⊢
    rw [hok]
    exact ⟨[], by simp [LinkAnswer.link, LinkAnswer.err], by simp⟩
  | succ more ih =>
    intro t tunIf hok
    rw [waitForTunnel] at hok ⊢
    generalize h.LinkByName _ name = found at hok ⊢
    cases found with
    | found link =>
      dsimp only at hok ⊢
      have hlink : link = tunIf := by simpa using hok
      subst hlink
      exact ⟨[], by simp [LinkAnswer.link, LinkAnswer.err], by simp⟩
    | failed link e =>
      dsimp only at hok ⊢
      by_cases he : e = dd.IfaceNotFound
      · rw [if_pos he] at hok ⊢
        obtain ⟨waits, hsteps, hwaits⟩ := ih _ _ hok
        refine ⟨[Step.Sleep dd.interfaceWaitSleepTime, Step.LinkByName name link (some e)] ++
          waits, ?_, ?_⟩
        · rw [hsteps]
          simp [LinkAnswer.link, LinkAnswer.err]
        · intro s hs
          rcases List.mem_append.mp hs with hs | hs
          · simp only [List.mem_cons, List.mem_singleton, List.not_mem_nil, or_false] at hs
            rcases hs with rfl | rfl
            · simp [isWaitStep]
            · simp [isWaitStep, he]
          · exact hwaits s hs
      · simp [he] at hok

theorem configureLookup_ok {F : Type} (d : ProxyDecls F) (dd : DSRDecls) (k : Kernel)
    (h : Host) (t : List Step) (ipTunLink : NewLink) (vip endpointIP : String)
    (endpoint host : Nat)
    (hok : (configureLookup d dd k h t ipTunLink vip endpointIP endpoint host).1 = none) :
    ∃ lookups tunIf back,
      TunnelFoundOrCreated dd ipTunLink tunIf lookups ∧
      (k.AddrAdd (kernelCalls t) tunIf (vipAddr vip) = none ∨
        k.AddrAdd (kernelCalls t) tunIf (vipAddr vip) = some d.IfaceHasAddr) ∧
      (configureLookup d dd k h t ipTunLink vip endpointIP endpoint host).2 =
        t ++ lookups ++ [Step.LinkSetUp tunIf none,
          Step.kernel (Call.AddrAdd tunIf (vipAddr vip)),
          Step.SetSysctlSingleTemplate dd.IPv4ConfRPFilterTemplate "kube-tunnel-if" 0 none,
          Step.SetSysctlSingleTemplate dd.IPv4ConfRPFilterTemplate "eth0" 0 none,
          Step.SetSysctlSingleTemplate dd.IPv4ConfRPFilterTemplate "all" 0 none,
          Step.NetnsSet host none, Step.NetnsGet back none, Step.Close back,
          Step.Close endpoint] := by
  have hnok : ∀ (s : List Step), (∀ x ∈ s, ∀ c, x ≠ Step.kernel c) →
      kernelCalls (t ++ s) = kernelCalls t := by
    intro s hs
    rw [kernelCalls_append]
    suffices hnil : kernelCalls s = [] by rw [hnil, List.append_nil]
    induction s with
    | nil => rfl
    | cons x s ih =>
      have hx := hs x (by simp)
      have hrest := ih (fun y hy => hs y (by simp [hy]))
      cases x <;> first | exact hrest | exact absurd rfl (hx _)
  unfold configureLookup at hok ⊢
  dsimp only at hok ⊢
  generalize h.LinkByName t ipTunLink.Name = found at hok ⊢
  cases found with
  | found first =>
    dsimp only at hok ⊢
    simp only [LinkAnswer.link, LinkAnswer.err] at hok ⊢
    obtain ⟨hadd, back, hback⟩ := configureTunnel_ok d dd k h _ first vip endpoint host hok
    refine ⟨[Step.LinkByName ipTunLink.Name (some first) none], first, back, Or.inl rfl, ?_,
      hback⟩
    rw [hnok _ (by simp)] at hadd
    exact hadd
  | failed first e =>
    dsimp only at hok ⊢
    simp only [LinkAnswer.link, LinkAnswer.err] at hok ⊢
    by_cases he : e = dd.IfaceNotFound
    · subst he
      simp only [ne_eq, not_true_eq_false, if_false] at hok ⊢
      generalize h.LinkAdd _ ipTunLink = added at hok ⊢
      cases added with
      | some a => simp at hok
      | none =>
        dsimp only at hok ⊢
        have hwait := waitForTunnel_ok dd h ipTunLink.Name (tunnelRetries - 1)
          (t ++ [Step.LinkByName ipTunLink.Name first (some dd.IfaceNotFound)] ++
            [Step.LinkAdd ipTunLink none])
        generalize waitForTunnel dd h ipTunLink.Name (tunnelRetries - 1) _ = waited
          at hok hwait ⊢
        obtain ⟨answer, steps⟩ := waited
        cases answer with
        | failed wlink werr => simp at hok
        | found tunIf =>
          dsimp only at hok hwait ⊢
          obtain ⟨waits, hsteps, hwaits⟩ := hwait tunIf rfl
          subst hsteps
          obtain ⟨hadd, back, hback⟩ :=
            configureTunnel_ok d dd k h _ tunIf vip endpoint host hok
          refine ⟨[Step.LinkByName ipTunLink.Name first (some dd.IfaceNotFound),
            Step.LinkAdd ipTunLink none] ++ waits ++ [Step.Sleep dd.interfaceWaitSleepTime,
              Step.LinkByName ipTunLink.Name (some tunIf) none], tunIf, back,
            Or.inr ⟨first, waits, rfl, hwaits⟩, ?_, ?_⟩
          · have hcalls : kernelCalls (t ++
                [Step.LinkByName ipTunLink.Name first (some dd.IfaceNotFound)] ++
                [Step.LinkAdd ipTunLink none] ++ waits ++
                [Step.Sleep dd.interfaceWaitSleepTime,
                  Step.LinkByName ipTunLink.Name (some tunIf) none]) = kernelCalls t := by
              simp only [List.append_assoc]
              apply hnok
              intro x hx c
              simp only [List.mem_append, List.mem_cons, List.mem_singleton,
                List.not_mem_nil, or_false] at hx
              rcases hx with rfl | rfl | hx | rfl | rfl
              · simp
              · simp
              · have := hwaits x hx
                intro hxc
                subst hxc
                simp [isWaitStep] at this
              · simp
              · simp
            rw [hcalls] at hadd
            exact hadd
          · rw [hback]
            simp
    · simp [he] at hok

/-- C23: when `configureContainerForDSR` returns `nil`, the endpoint address was parsed, and
the steps made are: the handle of the endpoint is got and its namespace entered; the tunnel
interface is found, or created and found then; it is brought up; the virtual address is added
to it, which succeeds or fails because the address is there; `rp_filter` is set to 0 on
`kube-tunnel-if`, `eth0` and `all`, in that order; and the namespace of the host is entered,
which is the last namespace switch.  When the endpoint address is not an IP address, the
method returns the parse error and makes no step. -/
theorem configureContainerForDSR_success {F : Type} (d : ProxyDecls F) (dd : DSRDecls)
    (k : Kernel) (h : Host) (t : List Step) (vip endpointIP containerID : String) (pid : Int)
    (host : Nat) :
    ((configureContainerForDSR d dd k h t vip endpointIP containerID pid host).1 = none →
      ParseIP endpointIP ≠ [] ∧
      ∃ endpoint active lookups tunIf back,
        TunnelFoundOrCreated dd (tunnelLink dd endpointIP) tunIf lookups ∧
        (k.AddrAdd (kernelCalls t) tunIf (vipAddr vip) = none ∨
          k.AddrAdd (kernelCalls t) tunIf (vipAddr vip) = some d.IfaceHasAddr) ∧
        (configureContainerForDSR d dd k h t vip endpointIP containerID pid host).2 =
          t ++ [Step.GetFromPid pid endpoint none, Step.NetnsSet endpoint none,
            Step.NetnsGet active none, Step.Close active] ++ lookups ++
          [Step.LinkSetUp tunIf none, Step.kernel (Call.AddrAdd tunIf (vipAddr vip)),
            Step.SetSysctlSingleTemplate dd.IPv4ConfRPFilterTemplate "kube-tunnel-if" 0 none,
            Step.SetSysctlSingleTemplate dd.IPv4ConfRPFilterTemplate "eth0" 0 none,
            Step.SetSysctlSingleTemplate dd.IPv4ConfRPFilterTemplate "all" 0 none,
            Step.NetnsSet host none, Step.NetnsGet back none, Step.Close back,
            Step.Close endpoint]) ∧
    (ParseIP endpointIP = [] →
      configureContainerForDSR d dd k h t vip endpointIP containerID pid host =
        (some ("failed to parse endpoint IP " ++ endpointIP), t)) := by
  constructor
  · intro hok
    unfold configureContainerForDSR at hok ⊢
    by_cases hparse : ParseIP endpointIP = []
    · simp [hparse] at hok
    · refine ⟨hparse, ?_⟩
      rw [if_neg hparse] at hok ⊢
      dsimp only at hok ⊢
      generalize h.GetFromPid t pid = got at hok ⊢
      obtain ⟨endpoint, gerr⟩ := got
      cases gerr with
      | some e => simp at hok
      | none =>
        dsimp only at hok ⊢
        generalize h.NetnsSet _ endpoint = set at hok ⊢
        cases set with
        | some e => simp at hok
        | none =>
          dsimp only at hok ⊢
          generalize h.NetnsGet _ = got2 at hok ⊢
          obtain ⟨active, aerr⟩ := got2
          cases aerr with
          | some e => simp at hok
          | none =>
            dsimp only at hok ⊢
            obtain ⟨lookups, tunIf, back, hfound, hadd, hsteps⟩ :=
              configureLookup_ok d dd k h _ _ vip endpointIP endpoint host hok
            refine ⟨endpoint, active, lookups, tunIf, back, hfound, ?_, ?_⟩
            · have hcalls : kernelCalls (t ++ [Step.GetFromPid pid endpoint none] ++
                  [Step.NetnsSet endpoint none] ++ [Step.NetnsGet active none] ++
                  [Step.Close active]) = kernelCalls t := by
                simp [kernelCalls_append, kernelCalls]
              rw [hcalls] at hadd
              exact hadd
            · rw [hsteps]
              simp
  · intro hparse
    unfold configureContainerForDSR
    rw [if_pos hparse]

set_option maxRecDepth 100000 in
/-- The method returns `nil` in a host where the tunnel interface exists, and in a host where
it is found after it has been added. -/
theorem configureContainerForDSR_example :
    configureContainerForDSR exampleProxyDecls exampleDSRDecls exampleKernel exampleHost []
        "203.0.113.7" "10.244.1.5" "1f2e3d" 42 1 =
      (none, [Step.GetFromPid 42 3 none, Step.NetnsSet 3 none, Step.NetnsGet 4 none,
        Step.Close 4,
        Step.LinkByName "kube-tunnel-if" (some (Link.mk "kube-tunnel-if" 9)) none,
        Step.LinkSetUp (Link.mk "kube-tunnel-if" 9) none,
        Step.kernel (Call.AddrAdd (Link.mk "kube-tunnel-if" 9) (vipAddr "203.0.113.7")),
        Step.SetSysctlSingleTemplate "net/ipv4/conf/%s/rp_filter" "kube-tunnel-if" 0 none,
        Step.SetSysctlSingleTemplate "net/ipv4/conf/%s/rp_filter" "eth0" 0 none,
        Step.SetSysctlSingleTemplate "net/ipv4/conf/%s/rp_filter" "all" 0 none,
        Step.NetnsSet 1 none, Step.NetnsGet 4 none, Step.Close 4, Step.Close 3]) ∧
    configureContainerForDSR exampleProxyDecls exampleDSRDecls exampleKernel exampleCreateHost
        [] "203.0.113.7" "10.244.1.5" "1f2e3d" 42 1 =
      (none, [Step.GetFromPid 42 3 none, Step.NetnsSet 3 none, Step.NetnsGet 4 none,
        Step.Close 4, Step.LinkByName "kube-tunnel-if" none (some "Link not found"),
        Step.LinkAdd (NewLink.Iptun "kube-tunnel-if" (ParseIP "10.244.1.5")) none,
        Step.Sleep 250000000,
        Step.LinkByName "kube-tunnel-if" (some (Link.mk "kube-tunnel-if" 9)) none,
        Step.LinkSetUp (Link.mk "kube-tunnel-if" 9) none,
        Step.kernel (Call.AddrAdd (Link.mk "kube-tunnel-if" 9) (vipAddr "203.0.113.7")),
        Step.SetSysctlSingleTemplate "net/ipv4/conf/%s/rp_filter" "kube-tunnel-if" 0 none,
        Step.SetSysctlSingleTemplate "net/ipv4/conf/%s/rp_filter" "eth0" 0 none,
        Step.SetSysctlSingleTemplate "net/ipv4/conf/%s/rp_filter" "all" 0 none,
        Step.NetnsSet 1 none, Step.NetnsGet 4 none, Step.Close 4, Step.Close 3]) := by
  constructor <;> decide

set_option maxRecDepth 100000 in
/-- C22, as stated, fails: in a host where the namespace of the endpoint is entered and the
handle of the active namespace cannot be got then, `configureContainerForDSR` returns the
error without a call of `attemptNamespaceResetAfterError`; the deferred close of the handle
of the endpoint is its last step.  In a host where a later step fails, here the bringing up
of the tunnel interface, the reset is attempted before the error is returned. -/
theorem configureContainerForDSR_reset_skipped :
    configureContainerForDSR exampleProxyDecls exampleDSRDecls exampleKernel
        exampleNoHandleHost [] "203.0.113.7" "10.244.1.5" "1f2e3d" 42 1 =
      (some "failed to get activeNetworkNamespace due to too many open files",
        [Step.GetFromPid 42 3 none, Step.NetnsSet 3 none,
          Step.NetnsGet 0 (some "too many open files"), Step.Close 3]) ∧
    Step.attemptNamespaceResetAfterError 1 ∉
      (configureContainerForDSR exampleProxyDecls exampleDSRDecls exampleKernel
        exampleNoHandleHost [] "203.0.113.7" "10.244.1.5" "1f2e3d" 42 1).2 ∧
    configureContainerForDSR exampleProxyDecls exampleDSRDecls exampleKernel
        exampleDownHost [] "203.0.113.7" "10.244.1.5" "1f2e3d" 42 1 =
      (some ("failed to bring up ipip tunnel interface in endpoint namespace due to " ++
        "operation not permitted"),
        [Step.GetFromPid 42 3 none, Step.NetnsSet 3 none, Step.NetnsGet 4 none,
          Step.Close 4,
        Step.LinkByName "kube-tunnel-if" (some (Link.mk "kube-tunnel-if" 9)) none,
          Step.LinkSetUp (Link.mk "kube-tunnel-if" 9) (some "operation not permitted"),
          Step.attemptNamespaceResetAfterError 1, Step.Close 3]) := by
  refine ⟨?_, ?_, ?_⟩ <;> decide

theorem configureReturn_failure (h : Host) (t : List Step) (endpoint host : Nat)
    (herr : (configureReturn h t endpoint host).1 ≠ none) :
    FailsOnReturn host endpoint (configureReturn h t endpoint host).2 := by
  unfold configureReturn at herr ⊢
  dsimp only at herr ⊢
  generalize h.NetnsSet t host = set at herr ⊢
  cases set with
  | some e => exact ⟨t, Or.inl ⟨e, by simp⟩⟩
  | none =>
    dsimp only at herr ⊢
    generalize h.NetnsGet _ = active at herr ⊢
    obtain ⟨back, err⟩ := active
    cases err with
    | some e => exact ⟨t, Or.inr ⟨back, e, by simp⟩⟩
    | none => simp at herr

theorem configureSysctl_failure (dd : DSRDecls) (h : Host) (t : List Step)
    (endpoint host : Nat) (herr : (configureSysctl dd h t endpoint host).1 ≠ none) :
    EndsWithReset host endpoint (configureSysctl dd h t endpoint host).2 ∨
      FailsOnReturn host endpoint (configureSysctl dd h t endpoint host).2 := by
  unfold configureSysctl at herr ⊢
  dsimp only at herr ⊢
  generalize h.SetSysctlSingleTemplate t _ _ _ = first at herr ⊢
  cases first with
  | some e => exact Or.inl ⟨_, rfl⟩
  | none =>
    dsimp only at herr ⊢
    generalize h.SetSysctlSingleTemplate _ _ _ _ = second at herr ⊢
    cases second with
    | some e => exact Or.inl ⟨_, rfl⟩
    | none =>
      dsimp only at herr ⊢
      generalize h.SetSysctlSingleTemplate _ _ _ _ = third at herr ⊢
      cases third with
      | some e => exact Or.inl ⟨_, rfl⟩
      | none => exact Or.inr (configureReturn_failure h _ endpoint host herr)

theorem configureTunnel_failure {F : Type} (d : ProxyDecls F) (dd : DSRDecls) (k : Kernel)
    (h : Host) (t : List Step) (tunIf : Link) (vip : String) (endpoint host : Nat)
    (herr : (configureTunnel d dd k h t tunIf vip endpoint host).1 ≠ none) :
    EndsWithReset host endpoint (configureTunnel d dd k h t tunIf vip endpoint host).2 ∨
      FailsOnReturn host endpoint (configureTunnel d dd k h t tunIf vip endpoint host).2 := by
  unfold configureTunnel at herr ⊢
  dsimp only at herr ⊢
  generalize h.LinkSetUp t tunIf = up at herr ⊢
  cases up with
  | some e => exact Or.inl ⟨_, rfl⟩
  | none =>
    dsimp only at herr ⊢
    split
    · exact Or.inl ⟨_, rfl⟩
    · rename_i hadd
      rw [if_neg hadd] at herr
      exact configureSysctl_failure dd h _ endpoint host herr

theorem configureLookup_failure {F : Type} (d : ProxyDecls F) (dd : DSRDecls) (k : Kernel)
    (h : Host) (t : List Step) (ipTunLink : NewLink) (vip endpointIP : String)
    (endpoint host : Nat)
    (herr : (configureLookup d dd k h t ipTunLink vip endpointIP endpoint host).1 ≠ none) :
    EndsWithReset host endpoint
        (configureLookup d dd k h t ipTunLink vip endpointIP endpoint host).2 ∨
      FailsOnReturn host endpoint
        (configureLookup d dd k h t ipTunLink vip endpointIP endpoint host).2 := by
  unfold configureLookup at herr ⊢
  dsimp only at herr ⊢
  generalize h.LinkByName t ipTunLink.Name = found at herr ⊢
  cases found with
  | found first => exact configureTunnel_failure d dd k h _ first vip endpoint host herr
  | failed first e =>
    dsimp only at herr ⊢
    split
    · exact Or.inl ⟨_, rfl⟩
    · rename_i he
      rw [if_neg he] at herr
      generalize h.LinkAdd _ ipTunLink = added at herr ⊢
      cases added with
      | some a => exact Or.inl ⟨_, rfl⟩
      | none =>
        dsimp only at herr ⊢
        generalize waitForTunnel dd h ipTunLink.Name (tunnelRetries - 1) _ = waited
          at herr ⊢
        obtain ⟨answer, steps⟩ := waited
        cases answer with
        | failed wlink werr => exact Or.inl ⟨_, rfl⟩
        | found tunIf => exact configureTunnel_failure d dd k h _ tunIf vip endpoint host herr

/-- The failures of `configureContainerForDSR`, one by one: the endpoint address is not
parsed; the handle of the endpoint is not got; its namespace is not entered; the handle of
the active namespace is not got after the namespace is entered, and then no reset is
attempted; a later step fails and the reset is attempted; or the way back to the namespace of
the host fails. -/
theorem configureContainerForDSR_failure {F : Type} (d : ProxyDecls F) (dd : DSRDecls)
    (k : Kernel) (h : Host) (t : List Step) (vip endpointIP containerID : String) (pid : Int)
    (host : Nat)
    (herr : (configureContainerForDSR d dd k h t vip endpointIP containerID pid host).1 ≠
      none) :
    (configureContainerForDSR d dd k h t vip endpointIP containerID pid host).2 = t ∨
    (∃ endpoint e, (configureContainerForDSR d dd k h t vip endpointIP containerID pid host).2 =
      t ++ [Step.GetFromPid pid endpoint (some e)]) ∨
    (∃ endpoint e, (configureContainerForDSR d dd k h t vip endpointIP containerID pid host).2 =
      t ++ [Step.GetFromPid pid endpoint none, Step.NetnsSet endpoint (some e),
        Step.Close endpoint]) ∨
    (∃ endpoint active e,
      (configureContainerForDSR d dd k h t vip endpointIP containerID pid host).2 =
        t ++ [Step.GetFromPid pid endpoint none, Step.NetnsSet endpoint none,
          Step.NetnsGet active (some e), Step.Close endpoint]) ∨
    (∃ endpoint,
      EndsWithReset host endpoint
        (configureContainerForDSR d dd k h t vip endpointIP containerID pid host).2 ∨
      FailsOnReturn host endpoint
        (configureContainerForDSR d dd k h t vip endpointIP containerID pid host).2) := by
  unfold configureContainerForDSR at herr ⊢
  by_cases hparse : ParseIP endpointIP = []
  · rw [if_pos hparse]
    exact Or.inl rfl
  · rw [if_neg hparse] at herr ⊢
    dsimp only at herr ⊢
    generalize h.GetFromPid t pid = got at herr ⊢
    obtain ⟨endpoint, gerr⟩ := got
    cases gerr with
    | some e => exact Or.inr (Or.inl ⟨endpoint, e, rfl⟩)
    | none =>
      dsimp only at herr ⊢
      generalize h.NetnsSet _ endpoint = set at herr ⊢
      cases set with
      | some e => exact Or.inr (Or.inr (Or.inl ⟨endpoint, e, by simp⟩))
      | none =>
        dsimp only at herr ⊢
        generalize h.NetnsGet _ = got2 at herr ⊢
        obtain ⟨active, aerr⟩ := got2
        cases aerr with
        | some e => exact Or.inr (Or.inr (Or.inr (Or.inl ⟨endpoint, active, e, by simp⟩)))
        | none =>
          exact Or.inr (Or.inr (Or.inr (Or.inr ⟨endpoint,
            configureLookup_failure d dd k h _ _ vip endpointIP endpoint host herr⟩)))

/-! ### The routes of the external addresses -/

theorem mem_dsrExternalIPs (svcs : List serviceInfo) (ip : String) :
    ip ∈ dsrExternalIPs svcs ↔
      ∃ svc ∈ svcs, svc.directServerReturn = true ∧ ip ∈ svc.externalIPs := by
  unfold dsrExternalIPs
  simp only [List.mem_flatMap, List.mem_filter]
  constructor
  · rintro ⟨svc, ⟨hmem, hdsr⟩, hip⟩
    exact ⟨svc, hmem, hdsr, hip⟩
  · rintro ⟨svc, hmem, hdsr, hip⟩
    exact ⟨svc, ⟨hmem, hdsr⟩, hip⟩

theorem dsrExternalIPs_cons (svc : serviceInfo) (svcs : List serviceInfo) :
    dsrExternalIPs (svc :: svcs) =
      (if svc.directServerReturn then svc.externalIPs else []) ++ dsrExternalIPs svcs := by
  unfold dsrExternalIPs
  cases hdsr : svc.directServerReturn <;> simp [List.filter_cons, hdsr]

/-- The inner loop adds the addresses of a service with direct server return to the active
addresses, and runs one command for each of them that the listing does not contain. -/
theorem addRoutesOfService_eq (dd : DSRDecls) (h : Host) (ipArgs : List String)
    (outStr : String) (svc : serviceInfo) (externalIPs : List String) :
    ∀ (active : List String) (t : List Step),
      ∃ adds,
        addRoutesOfService dd h ipArgs outStr svc externalIPs (active, t) =
          (active ++ (if svc.directServerReturn then externalIPs else []), t ++ adds) ∧
        adds.map Step.command =
          ((if svc.directServerReturn then externalIPs else []).filter
            (fun ip => !stringsContains outStr ip)).map
            (fun ip => some (ipArgs, routeAddArgs dd ip)) := by
  induction externalIPs with
  | nil =>
    intro active t
    exact ⟨[], by simp [addRoutesOfService], by simp⟩
  | cons ip ips ih =>
    intro active t
    cases hdsr : svc.directServerReturn with
    | false =>
      obtain ⟨adds, hres, hcmd⟩ := ih active t
      rw [hdsr] at hres hcmd
      refine ⟨adds, ?_, ?_⟩
      · rw [addRoutesOfService]
        simp only [hdsr, Bool.not_false, if_true]
        exact hres
      · simpa using hcmd
    | true =>
      cases hcont : stringsContains outStr ip with
      | false =>
        obtain ⟨adds, hres, hcmd⟩ := ih (active ++ [ip])
          (t ++ [Step.ipCommand ipArgs (routeAddArgs dd ip)
            (h.ipCommand t ipArgs (routeAddArgs dd ip)).1
            (h.ipCommand t ipArgs (routeAddArgs dd ip)).2])
        rw [hdsr] at hres hcmd
        refine ⟨Step.ipCommand ipArgs (routeAddArgs dd ip)
            (h.ipCommand t ipArgs (routeAddArgs dd ip)).1
            (h.ipCommand t ipArgs (routeAddArgs dd ip)).2 :: adds, ?_, ?_⟩
        · rw [addRoutesOfService]
          simp only [hdsr, hcont, Bool.not_true, Bool.not_false, if_true, if_false,
            Bool.false_eq_true]
          rw [hres]
          simp
        · simp only [if_true] at hcmd ⊢
          rw [List.map_cons, hcmd, List.filter_cons]
          simp [hcont, Step.command]
      | true =>
        obtain ⟨adds, hres, hcmd⟩ := ih (active ++ [ip]) t
        rw [hdsr] at hres hcmd
        refine ⟨adds, ?_, ?_⟩
        · rw [addRoutesOfService]
          simp only [hdsr, hcont, Bool.not_true, if_false, Bool.false_eq_true]
          rw [hres]
          simp
        · simp only [if_true] at hcmd ⊢
          rw [hcmd, List.filter_cons]
          simp [hcont]

/-- The outer loop makes the external addresses of the services with direct server return
active, and runs one command for each of them that the listing does not contain. -/
theorem addRoutes_eq (dd : DSRDecls) (h : Host) (ipArgs : List String) (outStr : String)
    (svcs : List serviceInfo) :
    ∀ (active : List String) (t : List Step),
      ∃ adds,
        addRoutes dd h ipArgs outStr svcs (active, t) =
          (active ++ dsrExternalIPs svcs, t ++ adds) ∧
        adds.map Step.command =
          ((dsrExternalIPs svcs).filter (fun ip => !stringsContains outStr ip)).map
            (fun ip => some (ipArgs, routeAddArgs dd ip)) := by
  induction svcs with
  | nil =>
    intro active t
    exact ⟨[], by simp [addRoutes, dsrExternalIPs], by simp [dsrExternalIPs]⟩
  | cons svc svcs ih =>
    intro active t
    obtain ⟨adds1, hres1, hcmd1⟩ :=
      addRoutesOfService_eq dd h ipArgs outStr svc svc.externalIPs active t
    obtain ⟨adds2, hres2, hcmd2⟩ :=
      ih (active ++ (if svc.directServerReturn then svc.externalIPs else [])) (t ++ adds1)
    refine ⟨adds1 ++ adds2, ?_, ?_⟩
    · rw [addRoutes, hres1, hres2, dsrExternalIPs_cons]
      simp
    · rw [List.map_append, hcmd1, hcmd2, dsrExternalIPs_cons, List.filter_append,
        List.map_append]

/-- The cleanup runs one command for each line of which the destination is not active. -/
theorem delRoutes_eq (dd : DSRDecls) (h : Host) (ipArgs : List String) (active : List String)
    (lines : List String) :
    ∀ t : List Step,
      ∃ dels,
        delRoutes dd h ipArgs active lines t = t ++ dels ∧
        dels.map Step.command =
          (lines.filter (fun line => decide (routeDestination line ∉ active))).map
            (fun line => some (ipArgs, routeDelArgs dd (routeFields line))) := by
  induction lines with
  | nil =>
    intro t
    exact ⟨[], by simp [delRoutes], by simp⟩
  | cons line lines ih =>
    intro t
    by_cases hact : routeDestination line ∈ active
    · obtain ⟨dels, hres, hcmd⟩ := ih t
      refine ⟨dels, ?_, ?_⟩
      · rw [delRoutes]
        have hact2 : (stringsSplitChar (stringsTrimChar line ' ') ' ').headD "" ∈ active :=
          hact
        simp only [hact2, not_true_eq_false, if_false]
        exact hres
      · rw [hcmd, List.filter_cons]
        simp [hact]
    · obtain ⟨dels, hres, hcmd⟩ := ih
        (t ++ [Step.ipCommand ipArgs (routeDelArgs dd (routeFields line))
          (h.ipCommand t ipArgs (routeDelArgs dd (routeFields line))).1
          (h.ipCommand t ipArgs (routeDelArgs dd (routeFields line))).2])
      refine ⟨Step.ipCommand ipArgs (routeDelArgs dd (routeFields line))
          (h.ipCommand t ipArgs (routeDelArgs dd (routeFields line))).1
          (h.ipCommand t ipArgs (routeDelArgs dd (routeFields line))).2 :: dels, ?_, ?_⟩
      · rw [delRoutes]
        have hact2 : (stringsSplitChar (stringsTrimChar line ' ') ' ').headD "" ∉ active :=
          hact
        simp only [hact2, not_false_eq_true, if_true]
        rw [show stringsSplitChar (stringsTrimChar line ' ') ' ' = routeFields line from rfl,
          hres]
        simp
      · rw [List.map_cons, hcmd, List.filter_cons]
        simp [hact, Step.command]

theorem dsrExternalIPs_perm {order svcs : List serviceInfo} (hperm : order.Perm svcs) :
    (dsrExternalIPs order).Perm (dsrExternalIPs svcs) := by
  unfold dsrExternalIPs
  exact (hperm.filter _).flatMap_right _

/-- The part of the closure after the rule: the listing, then the commands that add routes,
then the commands that delete routes.  It returns `nil`. -/
theorem setupRoutes_eq (dd : DSRDecls) (h : Host) (t : List Step) (svcs : List serviceInfo)
    (ipArgs : List String)
    (hrange : ∀ steps, (h.rangeServices steps svcs).Perm svcs) :
    ∃ outStr err adds dels,
      (outStr, err) = h.ipCommand t ipArgs ["route", "list", "table",
        dd.externalIPRouteTableID] ∧
      setupRoutes dd h t svcs ipArgs =
        (none, t ++ [Step.ipCommand ipArgs ["route", "list", "table",
          dd.externalIPRouteTableID] outStr err] ++ adds ++ dels) ∧
      (adds.map Step.command).Perm
        (((dsrExternalIPs svcs).filter (fun ip => !stringsContains outStr ip)).map
          (fun ip => some (ipArgs, routeAddArgs dd ip))) ∧
      dels.map Step.command =
        ((routeLines outStr).filter
          (fun line => decide (routeDestination line ∉ dsrExternalIPs svcs))).map
          (fun line => some (ipArgs, routeDelArgs dd (routeFields line))) := by
  unfold setupRoutes
  dsimp only
  generalize h.ipCommand t ipArgs _ = listed
  obtain ⟨outStr, err⟩ := listed
  dsimp only
  have hperm := hrange (t ++ [Step.ipCommand ipArgs ["route", "list", "table",
    dd.externalIPRouteTableID] outStr err])
  generalize h.rangeServices _ svcs = order at hperm ⊢
  obtain ⟨adds, hres, hcmd⟩ := addRoutes_eq dd h ipArgs outStr order []
    (t ++ [Step.ipCommand ipArgs ["route", "list", "table", dd.externalIPRouteTableID]
      outStr err])
  have hmem : ∀ ip, ip ∈ dsrExternalIPs order ↔ ip ∈ dsrExternalIPs svcs :=
    fun ip => (dsrExternalIPs_perm hperm).mem_iff
  have hadds : (adds.map Step.command).Perm
      (((dsrExternalIPs svcs).filter (fun ip => !stringsContains outStr ip)).map
        (fun ip => some (ipArgs, routeAddArgs dd ip))) := by
    rw [hcmd]
    exact (((dsrExternalIPs_perm hperm).filter _).map _)
  rw [hres]
  simp only [List.nil_append]
  by_cases hlen : outStr.length > 0
  · rw [if_pos hlen]
    obtain ⟨dels, hdres, hdcmd⟩ := delRoutes_eq dd h ipArgs (dsrExternalIPs order)
      (stringsSplitChar (stringsTrimChar outStr '\n') '\n')
      (t ++ [Step.ipCommand ipArgs ["route", "list", "table", dd.externalIPRouteTableID]
        outStr err] ++ adds)
    refine ⟨outStr, err, adds, dels, rfl, by rw [hdres], hadds, ?_⟩
    rw [hdcmd]
    unfold routeLines
    rw [if_pos hlen]
    congr 1
    apply List.filter_congr
    intro line _
    simp only [hmem]
  · rw [if_neg hlen]
    refine ⟨outStr, err, adds, [], rfl, by simp, hadds, ?_⟩
    unfold routeLines
    rw [if_neg hlen]
    rfl

/-- The closure returns `nil` exactly when the rules are listed and the rule of the table
exists or is added; the routes are set up then. -/
theorem setupIPRulesAndRoutes_ok (dd : DSRDecls) (h : Host) (t : List Step)
    (svcs : List serviceInfo) (ipArgs : List String)
    (hok : (setupIPRulesAndRoutes dd h t svcs ipArgs).1 = none) :
    ∃ rules,
      setupIPRulesAndRoutes dd h t svcs ipArgs = setupRoutes dd h (t ++ rules) svcs ipArgs ∧
      ((∃ out, rules = [Step.ipCommand ipArgs ["rule", "list"] out none]) ∨
        (∃ out out2, rules = [Step.ipCommand ipArgs ["rule", "list"] out none,
          Step.ipCommand ipArgs ["rule", "add", "prio", "32765", "from", "all", "lookup",
            dd.externalIPRouteTableID] out2 none])) := by
  unfold setupIPRulesAndRoutes at hok ⊢
  dsimp only at hok ⊢
  generalize h.ipCommand t ipArgs ["rule", "list"] = rules at hok ⊢
  obtain ⟨out, err⟩ := rules
  cases err with
  | some e => simp at hok
  | none =>
    dsimp only at hok ⊢
    split
    · rename_i hrule
      rw [if_pos hrule] at hok
      generalize h.ipCommand _ ipArgs _ = run at hok ⊢
      obtain ⟨out2, err2⟩ := run
      cases err2 with
      | some e => simp at hok
      | none =>
        exact ⟨_, by simp only [List.append_assoc]; rfl, Or.inr ⟨out, out2, rfl⟩⟩
    · exact ⟨_, rfl, Or.inl ⟨out, rfl⟩⟩

/-- C25: in a run of the closure `setupIPRulesAndRoutes` for a family that lists the table
of the external addresses, the steps are the commands about the rule, the listing, the
commands that add routes, and then the commands that delete routes: one `route del` with the
fields of the line for each line of the listing of which the destination, its first field,
is not an external address of a service with direct server return, in the order of the
lines, and no other.  No other step of the run is a `route del`, and an empty listing
gives no `route del`.  The method runs the closure for IPv4 when IPv4 is set up, and for IPv6
when IPv6 is set up and the run for IPv4 did not fail. -/
theorem setupIPRulesAndRoutes_deletes (dd : DSRDecls) (h : Host) (t : List Step)
    (svcs : List serviceInfo) (ipArgs : List String)
    (hrange : ∀ steps, (h.rangeServices steps svcs).Perm svcs)
    (hok : (setupIPRulesAndRoutes dd h t svcs ipArgs).1 = none) :
    (∃ rules outStr err adds dels,
      (setupIPRulesAndRoutes dd h t svcs ipArgs).2 =
        t ++ rules ++ [Step.ipCommand ipArgs ["route", "list", "table",
          dd.externalIPRouteTableID] outStr err] ++ adds ++ dels ∧
      (∀ s ∈ rules ++ adds, ∀ route, s.command ≠ some (ipArgs, routeDelArgs dd route)) ∧
      dels.map Step.command =
        ((routeLines outStr).filter
          (fun line => decide (routeDestination line ∉ dsrExternalIPs svcs))).map
          (fun line => some (ipArgs, routeDelArgs dd (routeFields line))) ∧
      (outStr = "" → dels = [])) ∧
    (∀ ip, ip ∈ dsrExternalIPs svcs ↔
      ∃ svc ∈ svcs, svc.directServerReturn = true ∧ ip ∈ svc.externalIPs) ∧
    (∀ setupIPv6, h.RouteTableAdd t dd.externalIPRouteTableID dd.externalIPRouteTableName =
        none →
      setupRoutesForExternalIPForDSR dd h t svcs true setupIPv6 =
        (match (setupIPRulesAndRoutes dd h (t ++ [Step.RouteTableAdd
            dd.externalIPRouteTableID dd.externalIPRouteTableName none]) svcs []).1 with
          | some e => (some e, (setupIPRulesAndRoutes dd h (t ++ [Step.RouteTableAdd
              dd.externalIPRouteTableID dd.externalIPRouteTableName none]) svcs []).2)
          | none =>
            if setupIPv6 then
              setupIPRulesAndRoutes dd h (setupIPRulesAndRoutes dd h (t ++
                [Step.RouteTableAdd dd.externalIPRouteTableID dd.externalIPRouteTableName
                  none]) svcs []).2 svcs ["-6"]
            else (none, (setupIPRulesAndRoutes dd h (t ++ [Step.RouteTableAdd
              dd.externalIPRouteTableID dd.externalIPRouteTableName none]) svcs []).2)) ∧
      setupRoutesForExternalIPForDSR dd h t svcs false true =
        setupIPRulesAndRoutes dd h (t ++ [Step.RouteTableAdd dd.externalIPRouteTableID
          dd.externalIPRouteTableName none]) svcs ["-6"] ∧
      setupRoutesForExternalIPForDSR dd h t svcs false false =
        (none, t ++ [Step.RouteTableAdd dd.externalIPRouteTableID
          dd.externalIPRouteTableName none])) := by
  refine ⟨?_, mem_dsrExternalIPs svcs, ?_⟩
  · obtain ⟨rules, hres, hrules⟩ := setupIPRulesAndRoutes_ok dd h t svcs ipArgs hok
    obtain ⟨outStr, err, adds, dels, -, hsteps, hadds, hdels⟩ :=
      setupRoutes_eq dd h (t ++ rules) svcs ipArgs hrange
    refine ⟨rules, outStr, err, adds, dels, by rw [hres, hsteps], ?_, hdels, ?_⟩
    · intro s hs route hcmd
      rcases List.mem_append.mp hs with hs | hs
      · rcases hrules with ⟨out, rfl⟩ | ⟨out, out2, rfl⟩
        · simp only [List.mem_singleton] at hs
          subst hs
          simp [Step.command, routeDelArgs] at hcmd
        · simp only [List.mem_cons, List.mem_singleton, List.not_mem_nil, or_false] at hs
          rcases hs with rfl | rfl <;> simp [Step.command, routeDelArgs] at hcmd
      · have hmem : s.command ∈ adds.map Step.command := List.mem_map_of_mem _ hs
        rw [hadds.mem_iff, hcmd] at hmem
        simp [routeAddArgs, routeDelArgs] at hmem
    · intro hempty
      subst hempty
      have hnil : dels.map Step.command = [] := by
        rw [hdels]
        rfl
      simpa using hnil
  · intro setupIPv6 hadd
    refine ⟨?_, ?_, ?_⟩
    · unfold setupRoutesForExternalIPForDSR
      simp only [hadd, if_true]
    · unfold setupRoutesForExternalIPForDSR
      simp [hadd]
    · unfold setupRoutesForExternalIPForDSR
      simp [hadd]

set_option maxRecDepth 100000 in
theorem setupIPRulesAndRoutes_deletes_witness :
    (∀ steps, (exampleStaleRouteHost.rangeServices steps exampleDSRServiceInfoMap).Perm
      exampleDSRServiceInfoMap) ∧
    (setupIPRulesAndRoutes exampleDSRDecls exampleStaleRouteHost [] exampleDSRServiceInfoMap
      []).1 = none ∧
    (∃ rules outStr err adds dels,
      (setupIPRulesAndRoutes exampleDSRDecls exampleStaleRouteHost []
          exampleDSRServiceInfoMap []).2 =
        [] ++ rules ++ [Step.ipCommand [] ["route", "list", "table",
          exampleDSRDecls.externalIPRouteTableID] outStr err] ++ adds ++ dels ∧
      (∀ s ∈ rules ++ adds, ∀ route,
        s.command ≠ some ([], routeDelArgs exampleDSRDecls route)) ∧
      dels.map Step.command =
        ((routeLines outStr).filter
          (fun line => decide (routeDestination line ∉
            dsrExternalIPs exampleDSRServiceInfoMap))).map
          (fun line => some ([], routeDelArgs exampleDSRDecls (routeFields line))) ∧
      (outStr = "" → dels = [])) :=
  ⟨fun _ => List.Perm.refl _, by decide,
    (setupIPRulesAndRoutes_deletes exampleDSRDecls exampleStaleRouteHost []
      exampleDSRServiceInfoMap [] (fun _ => List.Perm.refl _) (by decide)).1⟩

set_option maxRecDepth 100000 in
/-- The cleanup at work: the route to `198.51.100.9`, the external address of a service
without direct server return, is deleted, the route to `198.51.100.7` is kept, and a route
to `198.51.100.8` is added. -/
theorem setupRoutesForExternalIPForDSR_example :
    setupRoutesForExternalIPForDSR exampleDSRDecls exampleStaleRouteHost []
        exampleDSRServiceInfoMap true false =
      (none, [Step.RouteTableAdd "79" "external_ip" none,
        Step.ipCommand [] ["rule", "list"]
          "0:\tfrom all lookup local\n32765:\tfrom all lookup external_ip\n" none,
        Step.ipCommand [] ["route", "list", "table", "79"]
          ("198.51.100.7 dev kube-bridge scope link \n" ++
            "198.51.100.9 dev kube-bridge scope link \n") none,
        Step.ipCommand [] ["route", "add", "198.51.100.8", "dev", "kube-bridge", "table", "79"]
          "" none,
        Step.ipCommand []
          ["route", "del", "table", "79", "198.51.100.9", "dev", "kube-bridge", "scope",
            "link"] "" none]) := by
  decide

/-- The commands that add routes, in a run of the closure `setupIPRulesAndRoutes` that lists
the table: one `route add` for each external address of a service with direct server return
that the text of the listing does not contain, and no other. -/
theorem setupIPRulesAndRoutes_adds (dd : DSRDecls) (h : Host) (t : List Step)
    (svcs : List serviceInfo) (ipArgs : List String)
    (hrange : ∀ steps, (h.rangeServices steps svcs).Perm svcs)
    (hok : (setupIPRulesAndRoutes dd h t svcs ipArgs).1 = none) :
    ∃ rules outStr err adds dels,
      (setupIPRulesAndRoutes dd h t svcs ipArgs).2 =
        t ++ rules ++ [Step.ipCommand ipArgs ["route", "list", "table",
          dd.externalIPRouteTableID] outStr err] ++ adds ++ dels ∧
      (∀ s ∈ rules ++ dels, ∀ ip, s.command ≠ some (ipArgs, routeAddArgs dd ip)) ∧
      (adds.map Step.command).Perm
        (((dsrExternalIPs svcs).filter (fun ip => !stringsContains outStr ip)).map
          (fun ip => some (ipArgs, routeAddArgs dd ip))) := by
  obtain ⟨rules, hres, hrules⟩ := setupIPRulesAndRoutes_ok dd h t svcs ipArgs hok
  obtain ⟨outStr, err, adds, dels, -, hsteps, hadds, hdels⟩ :=
    setupRoutes_eq dd h (t ++ rules) svcs ipArgs hrange
  refine ⟨rules, outStr, err, adds, dels, by rw [hres, hsteps], ?_, hadds⟩
  intro s hs ip hcmd
  rcases List.mem_append.mp hs with hs | hs
  · rcases hrules with ⟨out, rfl⟩ | ⟨out, out2, rfl⟩
    · simp only [List.mem_singleton] at hs
      subst hs
      simp [Step.command, routeAddArgs] at hcmd
    · simp only [List.mem_cons, List.mem_singleton, List.not_mem_nil, or_false] at hs
      rcases hs with rfl | rfl <;> simp [Step.command, routeAddArgs] at hcmd
  · have hmem : s.command ∈ dels.map Step.command := List.mem_map_of_mem _ hs
    rw [hdels, hcmd] at hmem
    simp [routeAddArgs, routeDelArgs] at hmem

set_option maxRecDepth 100000 in
/-- C24, as stated, fails: the service `default/web` has direct server return and the
external address `10.0.0.1`; the table of the external addresses lists one route, to
`10.0.0.10`.  The address `10.0.0.1` is not the destination of a listed route, but the text
of the listing contains it, and the method runs no command that adds its route.  With the
address `10.0.0.2` in its place, the route is added. -/
theorem setupRoutesForExternalIPForDSR_route_not_added :
    setupRoutesForExternalIPForDSR exampleDSRDecls exampleRouteHost [] exampleServiceInfoMap
        true false =
      (none, [Step.RouteTableAdd "79" "external_ip" none,
        Step.ipCommand [] ["rule", "list"]
          "0:\tfrom all lookup local\n32765:\tfrom all lookup external_ip\n" none,
        Step.ipCommand [] ["route", "list", "table", "79"]
          "10.0.0.10 dev kube-bridge scope link \n" none]) ∧
    (∃ svc ∈ exampleServiceInfoMap, svc.directServerReturn = true ∧
      "10.0.0.1" ∈ svc.externalIPs) ∧
    (List.map routeDestination (routeLines "10.0.0.10 dev kube-bridge scope link \n") =
      ["10.0.0.10"]) ∧
    setupRoutesForExternalIPForDSR exampleDSRDecls exampleRouteHost []
        [serviceInfo.mk "web" "default" ["10.0.0.2"] true,
          serviceInfo.mk "api" "default" ["10.0.0.10"] true] true false =
      (none, [Step.RouteTableAdd "79" "external_ip" none,
        Step.ipCommand [] ["rule", "list"]
          "0:\tfrom all lookup local\n32765:\tfrom all lookup external_ip\n" none,
        Step.ipCommand [] ["route", "list", "table", "79"]
          "10.0.0.10 dev kube-bridge scope link \n" none,
        Step.ipCommand [] ["route", "add", "10.0.0.2", "dev", "kube-bridge", "table", "79"]
          "" none]) := by
  refine ⟨?_, ?_, ?_, ?_⟩ <;> decide

/-! ### The flags and the presets of the configuration -/

/-- The configuration after the calls of `AddFlags` does not depend on the flag set: every
call stores its value. -/
theorem runFlagCalls_config (calls : List FlagCall) :
    ∀ (s : KubeRouterConfig) (fs : FlagSet) (c : KubeRouterConfig) (added : FlagSet),
      runFlagCalls calls s fs = some (c, added) →
      c = calls.foldl (fun config call => call.store config) s := by
  induction calls with
  | nil =>
    intro s fs c added hrun
    simp only [runFlagCalls, Option.some.injEq, Prod.mk.injEq] at hrun
    simp [hrun.1]
  | cons call calls ih =>
    intro s fs c added hrun
    rw [runFlagCalls] at hrun
    cases hadd : fs.AddFlag call.name call.shorthand with
    | none => simp [hadd] at hrun
    | some fs1 =>
      simp only [hadd] at hrun
      rw [List.foldl_cons]
      exact ih _ _ _ _ hrun

set_option maxRecDepth 1000000 in
theorem AddFlags_empty_isSome : (AddFlags NewKubeRouterConfig []).isSome = true := by
  decide

set_option maxRecDepth 1000000 in
/-- C26: `AddFlags` on an empty flag set returns, and after `AddFlags` on any flag set on
which it does not panic, every field that `NewKubeRouterConfig` preset has its preset value;
the seven periods that must be greater than 0 have the values 5m, 5m, 5m, 1m, 60s, 30s and
1m, which are positive. -/
theorem AddFlags_keeps_presets :
    (∃ c added, AddFlags NewKubeRouterConfig [] = some (c, added)) ∧
    ∀ (fs : FlagSet) (c : KubeRouterConfig) (added : FlagSet),
      AddFlags NewKubeRouterConfig fs = some (c, added) →
      (c.BGPGracefulRestartDeferralTime = NewKubeRouterConfig.BGPGracefulRestartDeferralTime ∧
        c.BGPGracefulRestartTime = NewKubeRouterConfig.BGPGracefulRestartTime ∧
        c.BGPHoldTime = NewKubeRouterConfig.BGPHoldTime ∧
        c.CacheSyncTimeout = NewKubeRouterConfig.CacheSyncTimeout ∧
        c.ClusterIPCIDRs = NewKubeRouterConfig.ClusterIPCIDRs ∧
        c.EnableOverlay = NewKubeRouterConfig.EnableOverlay ∧
        c.IPTablesSyncPeriod = NewKubeRouterConfig.IPTablesSyncPeriod ∧
        c.InjectedRoutesSyncPeriod = NewKubeRouterConfig.InjectedRoutesSyncPeriod ∧
        c.IpvsGracefulPeriod = NewKubeRouterConfig.IpvsGracefulPeriod ∧
        c.IpvsSyncPeriod = NewKubeRouterConfig.IpvsSyncPeriod ∧
        c.LoadBalancerSyncPeriod = NewKubeRouterConfig.LoadBalancerSyncPeriod ∧
        c.NodePortRange = NewKubeRouterConfig.NodePortRange ∧
        c.OverlayType = NewKubeRouterConfig.OverlayType ∧
        c.RoutesSyncPeriod = NewKubeRouterConfig.RoutesSyncPeriod ∧
        c.ServiceTCPTimeout = NewKubeRouterConfig.ServiceTCPTimeout ∧
        c.ServiceTCPFinTimeout = NewKubeRouterConfig.ServiceTCPFinTimeout ∧
        c.ServiceUDPTimeout = NewKubeRouterConfig.ServiceUDPTimeout) ∧
      (c.IPTablesSyncPeriod = 5 * Minute ∧ c.IpvsSyncPeriod = 5 * Minute ∧
        c.RoutesSyncPeriod = 5 * Minute ∧ c.LoadBalancerSyncPeriod = 1 * Minute ∧
        c.InjectedRoutesSyncPeriod = 60 * Second ∧ c.IpvsGracefulPeriod = 30 * Second ∧
        c.CacheSyncTimeout = 1 * Minute) ∧
      (0 < c.IPTablesSyncPeriod ∧ 0 < c.IpvsSyncPeriod ∧ 0 < c.RoutesSyncPeriod ∧
        0 < c.LoadBalancerSyncPeriod ∧ 0 < c.InjectedRoutesSyncPeriod ∧
        0 < c.IpvsGracefulPeriod ∧ 0 < c.CacheSyncTimeout) := by
  constructor
  · have hsome := AddFlags_empty_isSome
    rw [Option.isSome_iff_exists] at hsome
    obtain ⟨⟨c, added⟩, hc⟩ := hsome
    exact ⟨c, added, hc⟩
  · intro fs c added hrun
    have hc := runFlagCalls_config flagCalls NewKubeRouterConfig fs c added hrun
    subst hc
    decide

/-! ### The order of the rules of a pod chain -/

theorem insertsInto_iff (X l : String) :
    insertsInto X l = true ↔ '-' :: 'I' :: ' ' :: (X.data ++ [' ', '1', ' ']) <+: l.data := by
  simp [insertsInto, List.isPrefixOf_iff_prefix]

theorem not_insertsInto_of_append (X l : String) (r : List Char)
    (h : l.data = '-' :: 'A' :: r) : insertsInto X l = false := by
  rw [← Bool.not_eq_true, insertsInto_iff, h]
  simp

theorem not_appendsTo_of_insert (X l : String) (r : List Char)
    (h : l.data = '-' :: 'I' :: r) : appendsTo X l = false := by
  rw [← Bool.not_eq_true, appendsTo_iff, h]
  simp

theorem not_insertsInto_chainDeclaration (X c : String) :
    insertsInto X (chainDeclaration c) = false := by
  rw [← Bool.not_eq_true, insertsInto_iff]
  simp [chainDeclaration]

/-- Every line of `setupPodNetpolRules` starts with `-I`, the chain and the position 1. -/
theorem netpolRules_start (d : Decls) (pod : podInfo) (X : String)
    (nps : List networkPolicyInfo) (version : String) (f : IPFamily) (ip : String) :
    ∀ l ∈ netpolRules d pod X nps version f ip,
      ∃ r, l.data = '-' :: 'I' :: ' ' :: (X.data ++ ' ' :: '1' :: ' ' :: r) := by
  intro l hl
  simp only [netpolRules, policyJumpRules, defaultJumpRules, List.mem_append, List.mem_cons,
    List.mem_singleton, List.mem_map, List.not_mem_nil, or_false] at hl
  rcases hl with ((⟨p, _, rfl⟩ | h | h) | h | h | h)
  · cases hty : p.policyType <;>
      exact ⟨_, by simp only [policyJumpRule, hty, String.data_append, List.append_assoc,
        List.cons_append, List.nil_append]; rfl⟩
  · by_cases hc : hasIngressPolicy pod nps = true
    · simp [hc] at h
    · simp only [hc, if_false, List.mem_singleton, Bool.false_eq_true] at h
      subst h
      exact ⟨_, by simp only [defaultIngressRule, String.data_append, List.append_assoc,
        List.cons_append, List.nil_append]; rfl⟩
  · by_cases hc : hasEgressPolicy pod nps = true
    · simp [hc] at h
    · simp only [hc, if_false, List.mem_singleton, Bool.false_eq_true] at h
      subst h
      exact ⟨_, by simp only [defaultEgressRule, String.data_append, List.append_assoc,
        List.cons_append, List.nil_append]; rfl⟩
  · subst h
    exact ⟨_, by simp only [localAcceptRule, String.data_append, List.append_assoc,
      List.cons_append, List.nil_append]; rfl⟩
  · subst h
    exact ⟨_, by simp only [invalidDropRule, String.data_append, List.append_assoc,
      List.cons_append, List.nil_append]; rfl⟩
  · subst h
    exact ⟨_, by simp only [statefulAcceptRule, String.data_append, List.append_assoc,
      List.cons_append, List.nil_append]; rfl⟩

/-- The lines of one pod iteration that insert into a pod chain: the lines of
`setupPodNetpolRules` when the chain is the chain of the pod, none otherwise. -/
theorem podRules_filter_insertsInto (d : Decls) (loops : podInfo → RangeOrders)
    (pod : podInfo) (nps : List networkPolicyInfo) (version : String) (f : IPFamily)
    (buf : Buffer) (ip : String) (hip : d.getPodIPForFamily pod f = some ip)
    (ns name : String) :
    (podRules d loops pod nps version f buf).filter
        (insertsInto (podFirewallChainName ns name version)) =
      if podFirewallChainName pod.namespace_ pod.name version =
          podFirewallChainName ns name version then
        netpolRules d pod (podFirewallChainName pod.namespace_ pod.name version) nps version
          f ip
      else [] := by
  have hA : ∀ (l : String) (r : List Char), l.data = '-' :: 'A' :: r →
      insertsInto (podFirewallChainName ns name version) l = false :=
    fun l r h => not_insertsInto_of_append _ l r h
  have hin : (inboundRules pod (podFirewallChainName pod.namespace_ pod.name version)
      ip).filter (insertsInto (podFirewallChainName ns name version)) = [] := by
    rw [List.filter_eq_nil_iff]
    intro l hl
    rw [Bool.not_eq_true]
    simp only [inboundRules, List.mem_cons, List.mem_singleton, List.not_mem_nil, or_false]
      at hl
    rcases hl with h | h | h <;> subst h
    · exact hA _ _ (by simp only [inboundRule, String.data_append, List.append_assoc]; rfl)
    · exact hA _ _ (by simp only [inboundRule, String.data_append, List.append_assoc]; rfl)
    · exact hA _ _ (by
        simp only [inboundBridgedRule, String.data_append, List.append_assoc]; rfl)
  have hout : (outboundRules pod (podFirewallChainName pod.namespace_ pod.name version) ip
      ((loops pod).defaultChains f)).filter
      (insertsInto (podFirewallChainName ns name version)) = [] := by
    rw [List.filter_eq_nil_iff]
    intro l hl
    rw [Bool.not_eq_true]
    simp only [outboundRules, List.mem_append, List.mem_map, List.mem_singleton] at hl
    rcases hl with ⟨c, _, rfl⟩ | h
    · exact hA _ _ (by simp only [outboundRule, String.data_append, List.append_assoc]; rfl)
    · subst h
      exact hA _ _ (by
        simp only [outboundBridgedRule, String.data_append, List.append_assoc]; rfl)
  have hdrop : ∀ b, (dropRules pod (podFirewallChainName pod.namespace_ pod.name version)
      b).filter (insertsInto (podFirewallChainName ns name version)) = [] := by
    intro b
    rw [List.filter_eq_nil_iff]
    intro l hl
    rw [Bool.not_eq_true]
    unfold dropRules at hl
    split at hl
    · cases hl
    · simp only [List.mem_cons, List.mem_singleton, List.not_mem_nil, or_false] at hl
      rcases hl with h | h | h <;> subst h
      · exact hA _ _ (by simp only [nflogRule, String.data_append, List.append_assoc]; rfl)
      · exact hA _ _ (by simp only [rejectRule, String.data_append, List.append_assoc]; rfl)
      · exact hA _ _ (by
          simp only [markClearRule, String.data_append, List.append_assoc]; rfl)
  have hmark : insertsInto (podFirewallChainName ns name version)
      (markAcceptRule (podFirewallChainName pod.namespace_ pod.name version)) = false :=
    hA _ _ (by simp only [markAcceptRule, String.data_append, List.append_assoc]; rfl)
  have hdecl := not_insertsInto_chainDeclaration (podFirewallChainName ns name version)
    (podFirewallChainName pod.namespace_ pod.name version)
  simp only [podRules, hip, podHeadRules, List.filter_append, hin, hout, hdrop,
    List.append_nil, List.filter_cons, hdecl, hmark, List.filter_nil, Bool.false_eq_true,
    if_false, List.nil_append]
  by_cases hX : podFirewallChainName pod.namespace_ pod.name version =
      podFirewallChainName ns name version
  · rw [if_pos hX, ← hX, List.filter_eq_self]
    intro l hl
    obtain ⟨r, hr⟩ := netpolRules_start d pod _ nps version f ip l hl
    rw [insertsInto_iff, hr]
    simp
  · rw [if_neg hX, List.filter_eq_nil_iff]
    intro l hl hins
    obtain ⟨r, hr⟩ := netpolRules_start d pod _ nps version f ip l hl
    rw [insertsInto_iff, hr] at hins
    have h' : (podFirewallChainName ns name version).data ++ [' ', '1', ' '] <+:
        (podFirewallChainName pod.namespace_ pod.name version).data ++
          (' ' :: '1' :: ' ' :: r) := by
      simpa using hins
    exact hX (String.ext (prefix_eq_of_length _ _ _ _ h'
      ((podFirewallChainName_length _ _ _).trans (podFirewallChainName_length _ _ _).symm))).symm

/-- The pods with another chain insert nothing into a pod chain. -/
theorem bufferAfter_filter_insertsInto_other (d : Decls) (loops : podInfo → RangeOrders)
    (nps : List networkPolicyInfo) (version : String) (f : IPFamily)
    (pods : List (String × podInfo)) (buf : Buffer) (ns name : String)
    (hother : ∀ e ∈ pods, podFirewallChainName e.2.namespace_ e.2.name version ≠
      podFirewallChainName ns name version) :
    (bufferAfter d loops nps version f pods buf).filter
        (insertsInto (podFirewallChainName ns name version)) =
      buf.filter (insertsInto (podFirewallChainName ns name version)) := by
  induction pods generalizing buf with
  | nil => simp [bufferAfter]
  | cons e es ih =>
    rw [bufferAfter_cons, ih _ (fun x hx => hother x (List.mem_cons_of_mem _ hx)),
      List.filter_append]
    cases hip : d.getPodIPForFamily e.2 f with
    | none => simp [podRules, hip]
    | some ip =>
      rw [podRules_filter_insertsInto d loops e.2 nps version f buf ip hip ns name,
        if_neg (hother e (List.mem_cons_self _ _))]
      simp

/-- The lines of the buffer that insert into the chain of a pod, when no other pod visited
has the same chain name: the lines of `setupPodNetpolRules` for the pod. -/
theorem bufferAfter_inserted (d : Decls) (loops : podInfo → RangeOrders)
    (nps : List networkPolicyInfo) (version : String) (f : IPFamily)
    (pods : List (String × podInfo)) (hnodup : pods.Nodup) (e : String × podInfo)
    (he : e ∈ pods) (ip : String) (hip : d.getPodIPForFamily e.2 f = some ip)
    (huniq : ∀ x ∈ pods, podFirewallChainName x.2.namespace_ x.2.name version =
      podFirewallChainName e.2.namespace_ e.2.name version → x = e) :
    (bufferAfter d loops nps version f pods []).filter
        (insertsInto (podFirewallChainName e.2.namespace_ e.2.name version)) =
      netpolRules d e.2 (podFirewallChainName e.2.namespace_ e.2.name version) nps version
        f ip := by
  obtain ⟨l1, l2, hsplit⟩ := List.append_of_mem he
  have hn1 : e ∉ l1 := by
    intro h
    rw [hsplit] at hnodup
    exact (List.nodup_append.mp hnodup).2.2 h (List.mem_cons_self _ _)
  have hn2 : e ∉ l2 := by
    rw [hsplit] at hnodup
    exact (List.nodup_cons.mp (List.nodup_append.mp hnodup).2.1).1
  have hm1 : ∀ x ∈ l1, x ∈ pods := fun x hx => hsplit ▸ List.mem_append_left _ hx
  have hm2 : ∀ x ∈ l2, x ∈ pods :=
    fun x hx => hsplit ▸ List.mem_append_right _ (List.mem_cons_of_mem _ hx)
  have ho1 : ∀ x ∈ l1, podFirewallChainName x.2.namespace_ x.2.name version ≠
      podFirewallChainName e.2.namespace_ e.2.name version :=
    fun x hx h => hn1 (huniq x (hm1 x hx) h ▸ hx)
  have ho2 : ∀ x ∈ l2, podFirewallChainName x.2.namespace_ x.2.name version ≠
      podFirewallChainName e.2.namespace_ e.2.name version :=
    fun x hx h => hn2 (huniq x (hm2 x hx) h ▸ hx)
  have hbuf : bufferAfter d loops nps version f pods [] =
      bufferAfter d loops nps version f l2
        (bufferAfter d loops nps version f l1 [] ++
          podRules d loops e.2 nps version f (bufferAfter d loops nps version f l1 [])) := by
    rw [hsplit, bufferAfter_append, bufferAfter_cons]
  rw [hbuf, bufferAfter_filter_insertsInto_other d loops nps version f l2 _ _ _ ho2,
    List.filter_append,
    bufferAfter_filter_insertsInto_other d loops nps version f l1 _ _ _ ho1,
    podRules_filter_insertsInto d loops e.2 nps version f _ ip hip]
  simp

/-- The chain that results from a buffer: the lines that insert into it, the last first,
and then the lines that append to it. -/
theorem iptablesChain_eq (X : String) (buf : Buffer) :
    iptablesChain X buf =
      (buf.filter (insertsInto X)).reverse ++ buf.filter (appendsTo X) := by
  have hexcl : ∀ l, insertsInto X l = true → appendsTo X l = false := by
    intro l hl
    rw [insertsInto_iff] at hl
    obtain ⟨t, ht⟩ := hl
    exact not_appendsTo_of_insert X l _ (by rw [← ht]; rfl)
  have hgen : ∀ (lines : Buffer) (rules : List String),
      lines.foldl (fun rules line =>
        if insertsInto X line then line :: rules
        else if appendsTo X line then rules ++ [line]
        else rules) rules =
      (lines.filter (insertsInto X)).reverse ++ rules ++ lines.filter (appendsTo X) := by
    intro lines
    induction lines with
    | nil => simp
    | cons l ls ih =>
      intro rules
      rw [List.foldl_cons, ih]
      by_cases hins : insertsInto X l = true
      · simp [hins, hexcl l hins, List.filter_cons]
      · by_cases happ : appendsTo X l = true
        · simp [hins, happ, List.filter_cons]
        · simp [hins, happ, List.filter_cons]
  unfold iptablesChain
  rw [hgen]
  simp

/-- C27, as amended: after one run of `syncPodFirewallChains` from an empty buffer, for every
pod recorded in `allLocalPods` with an address in the family, if no other recorded pod has
the same chain name, the names, addresses and chain names that go into the lines have no
blank and no newline, and no chain of `defaultChains` starts like a pod chain, then the
chain of the pod that results from the buffer of the family, read with `-I chain 1` as an
insertion at the head and `-A chain` as an addition at the end, holds in this order: the
rule for RELATED,ESTABLISHED, the rule for INVALID, the rule for traffic from the node, the
jumps to the default chain (for traffic from the pod before the one for traffic to the
pod), the jumps to the chains of the policies that target the pod (the last policy of the
list first), and then the NFLOG rule, the REJECT rule, the rule that clears the mark and the
rule that sets the mark. -/
theorem syncPodFirewallChains_chain_order (d : Decls) (sch : Schedule)
    (npc : NetworkPolicyController) (networkPoliciesInfo : List networkPolicyInfo)
    (version : String)
    (hperm : (sch.pods (allLocalPods d npc)).Perm (allLocalPods d npc))
    (e : String × podInfo) (he : e ∈ allLocalPods d npc) (ipFamily : IPFamily)
    (hbuf : npc.filterTableRules ipFamily = some []) (ip : String)
    (hip : d.getPodIPForFamily e.2 ipFamily = some ip)
    (huniq : ∀ x ∈ allLocalPods d npc,
      podFirewallChainName x.2.namespace_ x.2.name version =
        podFirewallChainName e.2.namespace_ e.2.name version → x = e)
    (hpods : ∀ x ∈ allLocalPods d npc,
      isWord x.2.name = true ∧ isWord x.2.namespace_ = true ∧
        ∀ ip' ∈ d.getPodIPForFamily x.2 ipFamily, isWord ip' = true)
    (hpol : ∀ policy ∈ networkPoliciesInfo, isWord policy.name = true ∧
      isWord (d.networkPolicyChainName policy.namespace_ policy.name version ipFamily) = true)
    (hloops : ∀ x ∈ allLocalPods d npc,
      ((sch.loops x.2).defaultChains ipFamily).Perm d.defaultChains)
    (hchains : ∀ c ∈ d.defaultChains, isWord c = true ∧ ¬ "KUBE-POD-FW-".data <+: c.data) :
    ∃ buf : Buffer,
      (syncPodFirewallChains d sch npc networkPoliciesInfo version).2 ipFamily = some buf ∧
      iptablesChain (podFirewallChainName e.2.namespace_ e.2.name version) buf =
        podChainRules d e.2 (podFirewallChainName e.2.namespace_ e.2.name version)
          networkPoliciesInfo version ipFamily ip := by
  refine ⟨_, by rw [syncPodFirewallChains_rules, hbuf]; rfl, ?_⟩
  have hmem : ∀ x, x ∈ sch.pods (allLocalPods d npc) ↔ x ∈ allLocalPods d npc :=
    fun x => hperm.mem_iff
  have hch : ∀ x ∈ sch.pods (allLocalPods d npc), ∀ c ∈ (sch.loops x.2).defaultChains ipFamily,
      isWord c = true ∧ ¬ "KUBE-POD-FW-".data <+: c.data :=
    fun x hx c hc => hchains c ((hloops x ((hmem x).mp hx)).mem_iff.mp hc)
  have hnodup := hperm.nodup_iff.mpr (allLocalPods_nodup d npc)
  obtain ⟨before, post, hbefore, _, hfilter⟩ :=
    bufferAfter_appended d sch.loops networkPoliciesInfo version ipFamily
      (sch.pods (allLocalPods d npc)) hnodup e
      ((hmem e).mpr he) ip hip (fun x hx c hc => (hch x hx c hc).2)
      (fun x hx h => huniq x ((hmem x).mp hx) h)
  have hins := bufferAfter_inserted d sch.loops networkPoliciesInfo version ipFamily
    (sch.pods (allLocalPods d npc)) hnodup e ((hmem e).mpr he) ip hip
    (fun x hx h => huniq x ((hmem x).mp hx) h)
  have hguard := nflogRule_not_in_buffer d sch.loops networkPoliciesInfo version ipFamily
    before e ip hip
    (fun x hx => by
      have hx' : x ∈ allLocalPods d npc := by
        rcases hx with h | h
        · exact (hmem x).mp (hbefore x h).1
        · exact h ▸ he
      exact hpods x hx')
    hpol
    (fun x hx c hc => by
      have hx' : x ∈ sch.pods (allLocalPods d npc) := by
        rcases hx with h | h
        · exact (hbefore x h).1
        · exact h ▸ (hmem e).mpr he
      exact (hch x hx' c hc).1)
    (fun x hx hsame => (hbefore x hx).2
      (huniq x ((hmem x).mp (hbefore x hx).1) (by rw [hsame.1, hsame.2])))
  rw [iptablesChain_eq, hfilter, hins]
  simp [dropRules, hguard, netpolRules, podChainRules]

set_option maxRecDepth 100000 in
theorem syncPodFirewallChains_chain_order_witness :
    (exampleSchedule.pods (allLocalPods exampleDecls exampleNpc)).Perm
      (allLocalPods exampleDecls exampleNpc) ∧
    ("10.0.0.5", examplePodInfo) ∈ allLocalPods exampleDecls exampleNpc ∧
    exampleNpc.filterTableRules IPFamily.IPv4 = some [] ∧
    exampleDecls.getPodIPForFamily examplePodInfo IPFamily.IPv4 = some "10.0.0.5" ∧
    (∀ x ∈ allLocalPods exampleDecls exampleNpc,
      podFirewallChainName x.2.namespace_ x.2.name "1" =
        podFirewallChainName "default" "web" "1" → x = ("10.0.0.5", examplePodInfo)) ∧
    (∀ x ∈ allLocalPods exampleDecls exampleNpc,
      isWord x.2.name = true ∧ isWord x.2.namespace_ = true ∧
        ∀ ip' ∈ exampleDecls.getPodIPForFamily x.2 IPFamily.IPv4, isWord ip' = true) ∧
    (∀ policy ∈ [examplePolicy], isWord policy.name = true ∧
      isWord (exampleDecls.networkPolicyChainName policy.namespace_ policy.name "1"
        IPFamily.IPv4) = true) ∧
    (∀ x ∈ allLocalPods exampleDecls exampleNpc,
      ((exampleSchedule.loops x.2).defaultChains IPFamily.IPv4).Perm
        exampleDecls.defaultChains) ∧
    (∀ c ∈ exampleDecls.defaultChains,
      isWord c = true ∧ ¬ "KUBE-POD-FW-".data <+: c.data) ∧
    ∃ buf : Buffer,
      (syncPodFirewallChains exampleDecls exampleSchedule exampleNpc [examplePolicy] "1").2
        IPFamily.IPv4 = some buf ∧
      iptablesChain (podFirewallChainName "default" "web" "1") buf =
        podChainRules exampleDecls examplePodInfo (podFirewallChainName "default" "web" "1")
          [examplePolicy] "1" IPFamily.IPv4 "10.0.0.5" :=
  ⟨List.Perm.refl _, by decide, rfl, rfl, by decide, by decide, by decide, by decide,
    by decide,
    syncPodFirewallChains_chain_order exampleDecls exampleSchedule exampleNpc
      [examplePolicy] "1" (List.Perm.refl _) ("10.0.0.5", examplePodInfo) (by decide)
      IPFamily.IPv4 rfl "10.0.0.5" rfl (by decide) (by decide) (by decide) (by decide)
      (by decide)⟩

set_option maxRecDepth 100000 in
/-- C27, as stated, fails: for the pod `default/web` with one ingress policy, the chain that
results from the IPv4 buffer has the jump to the default chain for traffic from the pod
before the jump to the chain of the policy, not after it. -/
theorem syncPodFirewallChains_chain_order_counterexample :
    iptablesChain (podFirewallChainName "default" "web" "1")
        (((syncPodFirewallChains exampleDecls exampleSchedule exampleNpc [examplePolicy]
          "1").2 IPFamily.IPv4).getD []) =
      [statefulAcceptRule (podFirewallChainName "default" "web" "1"),
        invalidDropRule (podFirewallChainName "default" "web" "1"),
        localAcceptRule (podFirewallChainName "default" "web" "1") "10.0.0.5",
        defaultEgressRule (podFirewallChainName "default" "web" "1") "10.0.0.5",
        policyJumpRule exampleDecls (podFirewallChainName "default" "web" "1") "1"
          IPFamily.IPv4 "10.0.0.5" examplePolicy,
        nflogRule examplePodInfo (podFirewallChainName "default" "web" "1"),
        rejectRule examplePodInfo (podFirewallChainName "default" "web" "1"),
        markClearRule (podFirewallChainName "default" "web" "1"),
        markAcceptRule (podFirewallChainName "default" "web" "1")] ∧
    iptablesChain (podFirewallChainName "default" "web" "1")
        (((syncPodFirewallChains exampleDecls exampleSchedule exampleNpc [examplePolicy]
          "1").2 IPFamily.IPv4).getD []) ≠
      specChainRules exampleDecls examplePodInfo (podFirewallChainName "default" "web" "1")
        [examplePolicy] "1" IPFamily.IPv4 "10.0.0.5" := by
  decide

/-! ### The jumps to the policy chains, counted -/

theorem jumpsTo_iff (X l : String) :
    jumpsTo X l = true ↔ " -j ".data ++ X.data ++ " \n".data <:+ l.data := by
  simp [jumpsTo, List.isSuffixOf_iff_suffix]

/-- A line that ends with the jump to the word `Y` jumps to the word `X` exactly when `X` is
`Y`. -/
theorem jumpsTo_word (X Y l : String) (H : List Char) (hX : isWord X = true)
    (hY : isWord Y = true) (hl : l.data = H ++ " -j ".data ++ Y.data ++ " \n".data) :
    jumpsTo X l = true ↔ X = Y := by
  rw [jumpsTo_iff, hl]
  constructor
  · intro h
    have h1 : " -j ".data ++ X.data <:+ H ++ " -j ".data ++ Y.data :=
      suffix_append_cancel _ _ _ h
    have h2 : " -j".data ++ ' ' :: X.data <:+ (H ++ " -j".data) ++ ' ' :: Y.data := by
      simpa using h1
    exact String.ext (suffix_word_align ' ' X.data Y.data _ _ ((isWord_iff X).mp hX).1
      ((isWord_iff Y).mp hY).1 h2).1
  · intro h
    subst h
    exact ⟨H, by simp⟩

theorem policyJumpRule_jump (d : Decls) (X version : String) (f : IPFamily) (ip : String)
    (p : networkPolicyInfo) :
    ∃ H, (policyJumpRule d X version f ip p).data =
      H ++ " -j ".data ++ (d.networkPolicyChainName p.namespace_ p.name version f).data ++
        " \n".data := by
  have key : ∃ H, (policyJumpRule d X version f ip p).data =
      H ++ "\" -j ".data ++ (d.networkPolicyChainName p.namespace_ p.name version f).data ++
        " \n".data := by
    cases h : p.policyType <;>
      simp only [policyJumpRule, h, String.data_append] <;> exact ⟨_, rfl⟩
  obtain ⟨H, hH⟩ := key
  refine ⟨H ++ ['"'], ?_⟩
  rw [hH]
  simp

theorem defaultIngressRule_jump (X ip : String) :
    ∃ H, (defaultIngressRule X ip).data =
      H ++ " -j ".data ++ kubeDefaultNetpolChain.data ++ " \n".data := by
  have key : ∃ H, (defaultIngressRule X ip).data =
      H ++ " -m comment --comment \"run through default ingress network policy chain\" -j ".data
        ++ kubeDefaultNetpolChain.data ++ " \n".data := by
    simp only [defaultIngressRule, String.data_append]
    exact ⟨_, rfl⟩
  obtain ⟨H, hH⟩ := key
  refine ⟨H ++ " -m comment --comment \"run through default ingress network policy chain\"".data,
    ?_⟩
  rw [hH]
  simp

theorem defaultEgressRule_jump (X ip : String) :
    ∃ H, (defaultEgressRule X ip).data =
      H ++ " -j ".data ++ kubeDefaultNetpolChain.data ++ " \n".data := by
  have key : ∃ H, (defaultEgressRule X ip).data =
      H ++ " -m comment --comment \"run through default egress network policy chain\" -j ".data
        ++ kubeDefaultNetpolChain.data ++ " \n".data := by
    simp only [defaultEgressRule, String.data_append]
    exact ⟨_, rfl⟩
  obtain ⟨H, hH⟩ := key
  refine ⟨H ++ " -m comment --comment \"run through default egress network policy chain\"".data,
    ?_⟩
  rw [hH]
  simp

theorem localAcceptRule_jump (X ip : String) :
    ∃ H, (localAcceptRule X ip).data = H ++ " -j ".data ++ "ACCEPT".data ++ " \n".data := by
  have key : ∃ H, (localAcceptRule X ip).data = H ++ " -j ACCEPT \n".data := by
    simp only [localAcceptRule, String.data_append]
    exact ⟨_, rfl⟩
  obtain ⟨H, hH⟩ := key
  exact ⟨H, by rw [hH]; simp⟩

theorem invalidDropRule_jump (X : String) :
    ∃ H, (invalidDropRule X).data = H ++ " -j ".data ++ "DROP".data ++ " \n".data := by
  refine ⟨"-I ".data ++ X.data ++ (" 1 -m comment --comment \"rule to drop invalid state " ++
    "for pod\" -m conntrack --ctstate INVALID").data, ?_⟩
  simp only [invalidDropRule, String.data_append, List.append_assoc]
  rfl

theorem statefulAcceptRule_jump (X : String) :
    ∃ H, (statefulAcceptRule X).data = H ++ " -j ".data ++ "ACCEPT".data ++ " \n".data := by
  refine ⟨"-I ".data ++ X.data ++ (" 1 -m comment --comment \"rule for stateful firewall " ++
    "for pod\" -m conntrack --ctstate RELATED,ESTABLISHED").data, ?_⟩
  simp only [statefulAcceptRule, String.data_append, List.append_assoc]
  rfl

theorem filter_eq_singleton {α β : Type} [DecidableEq β] (f : α → β) (a : α) :
    ∀ l : List α, (l.map f).Nodup → a ∈ l →
      l.filter (fun q => decide (f q = f a)) = [a] := by
  intro l
  induction l with
  | nil => intro _ h; cases h
  | cons x xs ih =>
    intro hnodup hmem
    rw [List.map_cons, List.nodup_cons] at hnodup
    by_cases hax : a = x
    · subst hax
      rw [List.filter_cons_of_pos (by simp)]
      congr 1
      rw [List.filter_eq_nil_iff]
      intro q hq hfq
      simp only [decide_eq_true_eq] at hfq
      exact hnodup.1 (hfq ▸ List.mem_map_of_mem f hq)
    · have hin : a ∈ xs := by
        rcases List.mem_cons.mp hmem with h | h
        · exact absurd h hax
        · exact h
      have hne : f x ≠ f a := fun h => hnodup.1 (h ▸ List.mem_map_of_mem f hin)
      rw [List.filter_cons_of_neg (by simpa using hne)]
      exact ih hnodup.2 hin

/-- The lines of `setupPodNetpolRules` that jump to a chain: the jumps of the policies that
target the pod and have that chain, in the order of the list. -/
theorem netpolRules_filter_jumpsTo (d : Decls) (pod : podInfo) (X : String)
    (nps : List networkPolicyInfo) (version : String) (f : IPFamily) (ip chain : String)
    (hchain : isWord chain = true) (hdefault : chain ≠ kubeDefaultNetpolChain)
    (haccept : chain ≠ "ACCEPT") (hdrop : chain ≠ "DROP")
    (hwords : ∀ q ∈ nps, mapHasKey q.targetPods pod.ip = true →
      isWord (d.networkPolicyChainName q.namespace_ q.name version f) = true) :
    (netpolRules d pod X nps version f ip).filter (jumpsTo chain) =
      (nps.filter (jumpsToChain d pod version f chain)).map
        (policyJumpRule d X version f ip) := by
  have hpol : (policyJumpRules d pod X version f ip nps).filter (jumpsTo chain) =
      (nps.filter (jumpsToChain d pod version f chain)).map
        (policyJumpRule d X version f ip) := by
    unfold policyJumpRules
    induction nps with
    | nil => rfl
    | cons q qs ih =>
      have ih' := ih (fun r hr => hwords r (List.mem_cons_of_mem _ hr))
      by_cases ht : mapHasKey q.targetPods pod.ip = true
      · have hw := hwords q (List.mem_cons_self _ _) ht
        obtain ⟨H, hH⟩ := policyJumpRule_jump d X version f ip q
        have hj := jumpsTo_word chain _ _ H hchain hw hH
        rw [List.filter_cons_of_pos (by simpa [policyTargetsPod] using ht), List.map_cons]
        by_cases hc : d.networkPolicyChainName q.namespace_ q.name version f = chain
        · rw [List.filter_cons_of_pos (hj.mpr hc.symm),
            List.filter_cons_of_pos (by simp [jumpsToChain, ht, hc]), List.map_cons, ih']
        · rw [List.filter_cons_of_neg (fun h => hc (hj.mp h).symm),
            List.filter_cons_of_neg (by simp [jumpsToChain, hc]), ih']
      · rw [List.filter_cons_of_neg (by simpa [policyTargetsPod] using ht),
          List.filter_cons_of_neg (by simp [jumpsToChain, ht]), ih']
  have hword : ∀ (Y l : String) (H : List Char), isWord Y = true → chain ≠ Y →
      l.data = H ++ " -j ".data ++ Y.data ++ " \n".data → jumpsTo chain l = false := by
    intro Y l H hY hne hl
    rw [← Bool.not_eq_true]
    exact fun h => hne ((jumpsTo_word chain Y l H hchain hY hl).mp h)
  have hdef : (defaultJumpRules pod X ip nps).filter (jumpsTo chain) = [] := by
    rw [List.filter_eq_nil_iff]
    intro l hl
    rw [Bool.not_eq_true]
    rcases defaultJumpRules_mem pod X ip nps l hl with h | h <;> subst h
    · obtain ⟨H, hH⟩ := defaultIngressRule_jump X ip
      exact hword _ _ H (by decide) hdefault hH
    · obtain ⟨H, hH⟩ := defaultEgressRule_jump X ip
      exact hword _ _ H (by decide) hdefault hH
  have h1 : jumpsTo chain (localAcceptRule X ip) = false := by
    obtain ⟨H, hH⟩ := localAcceptRule_jump X ip
    exact hword _ _ H (by decide) haccept hH
  have h2 : jumpsTo chain (invalidDropRule X) = false := by
    obtain ⟨H, hH⟩ := invalidDropRule_jump X
    exact hword _ _ H (by decide) hdrop hH
  have h3 : jumpsTo chain (statefulAcceptRule X) = false := by
    obtain ⟨H, hH⟩ := statefulAcceptRule_jump X
    exact hword _ _ H (by decide) haccept hH
  unfold netpolRules
  rw [List.filter_append, List.filter_append, hpol, hdef]
  simp [List.filter_cons, h1, h2, h3]

/-- C4, as amended: for every pod and every family in which the pod has an address `ip`,
`setupPodNetpolRules` writes, for each entry of `networkPoliciesInfo` whose `targetPods` has
the primary address of the pod as a key, one jump from the pod chain to
`networkPolicyChainName(policy.namespace, policy.name, version, family)`, and no line for
the other entries; the jump is `policyJumpRule`, which matches on `-d ip` for an ingress
policy, on `-s ip` for an egress policy, and on neither for a policy of both types.  For a
chain whose name is a word and is not the default chain, `ACCEPT` or `DROP`, when the chain
names of the entries that target the pod are words, the lines written that jump to the chain
are the jumps of the entries that target the pod and have that chain: exactly one, the jump
of the policy, when the policy targets the pod and the chain names of the entries that
target the pod are pairwise different, and none when no entry that targets the pod has that
chain.  The lines written after the jumps are the jumps to the default chain and the three
rules that accept or drop. -/
theorem setupPodNetpolRules_policy_jumps (d : Decls) (v4First : Bool) (pod : podInfo)
    (podFwChainName : String) (networkPoliciesInfo : List networkPolicyInfo)
    (version : String) (rules : FilterTableRules) (ipFamily : IPFamily) (buf : Buffer)
    (ip : String) (hbuf : rules ipFamily = some buf)
    (hip : d.getPodIPForFamily pod ipFamily = some ip)
    (chain : String) (hchain : isWord chain = true)
    (hdefault : chain ≠ kubeDefaultNetpolChain) (haccept : chain ≠ "ACCEPT")
    (hdrop : chain ≠ "DROP")
    (hwords : ∀ q ∈ networkPoliciesInfo, mapHasKey q.targetPods pod.ip = true →
      isWord (d.networkPolicyChainName q.namespace_ q.name version ipFamily) = true) :
    ∃ written : List String,
      setupPodNetpolRules d v4First pod podFwChainName networkPoliciesInfo version rules
        ipFamily = some (buf ++ written) ∧
      written =
        networkPoliciesInfo.flatMap (fun policy =>
          if mapHasKey policy.targetPods pod.ip then
            [policyJumpRule d podFwChainName version ipFamily ip policy]
          else []) ++
        defaultJumpRules pod podFwChainName ip networkPoliciesInfo ++
        [localAcceptRule podFwChainName ip, invalidDropRule podFwChainName,
          statefulAcceptRule podFwChainName] ∧
      written.filter (jumpsTo chain) =
        (networkPoliciesInfo.filter (jumpsToChain d pod version ipFamily chain)).map
          (policyJumpRule d podFwChainName version ipFamily ip) ∧
      (((networkPoliciesInfo.filter (fun q => mapHasKey q.targetPods pod.ip)).map
          (fun q => d.networkPolicyChainName q.namespace_ q.name version ipFamily)).Nodup →
        ∀ policy ∈ networkPoliciesInfo, mapHasKey policy.targetPods pod.ip = true →
          d.networkPolicyChainName policy.namespace_ policy.name version ipFamily = chain →
          written.filter (jumpsTo chain) =
            [policyJumpRule d podFwChainName version ipFamily ip policy]) ∧
      ((∀ q ∈ networkPoliciesInfo, mapHasKey q.targetPods pod.ip = true →
          d.networkPolicyChainName q.namespace_ q.name version ipFamily ≠ chain) →
        written.filter (jumpsTo chain) = []) := by
  have hfilter := netpolRules_filter_jumpsTo d pod podFwChainName networkPoliciesInfo version
    ipFamily ip chain hchain hdefault haccept hdrop hwords
  refine ⟨netpolRules d pod podFwChainName networkPoliciesInfo version ipFamily ip, ?_, ?_,
    hfilter, ?_, ?_⟩
  · rw [setupPodNetpolRules_apply, hbuf, hip]
    rfl
  · simp only [netpolRules, policyJumpRules_eq_flatMap, List.append_assoc]
  · intro hnodup policy hmem htarget hname
    rw [hfilter]
    have hsplit : networkPoliciesInfo.filter (jumpsToChain d pod version ipFamily chain) =
        (networkPoliciesInfo.filter (fun q => mapHasKey q.targetPods pod.ip)).filter
          (fun q => decide (d.networkPolicyChainName q.namespace_ q.name version ipFamily =
            d.networkPolicyChainName policy.namespace_ policy.name version ipFamily)) := by
      rw [List.filter_filter, hname]
      apply List.filter_congr
      intro q _
      simp [jumpsToChain, Bool.and_comm]
    rw [hsplit, filter_eq_singleton
      (fun q => d.networkPolicyChainName q.namespace_ q.name version ipFamily) policy _ hnodup
      (List.mem_filter.mpr ⟨hmem, htarget⟩)]
    rfl
  · intro hnone
    rw [hfilter]
    have : networkPoliciesInfo.filter (jumpsToChain d pod version ipFamily chain) = [] := by
      rw [List.filter_eq_nil_iff]
      intro q hq hj
      simp only [jumpsToChain, Bool.and_eq_true, decide_eq_true_eq] at hj
      exact hnone q hq hj.1 hj.2
    rw [this]
    rfl

set_option maxRecDepth 100000 in
theorem setupPodNetpolRules_policy_jumps_witness :
    exampleNpc.filterTableRules IPFamily.IPv4 = some [] ∧
    exampleDecls.getPodIPForFamily examplePodInfo IPFamily.IPv4 = some "10.0.0.5" ∧
    isWord "KUBE-NWPLCY-default-allow-client-1-4" = true ∧
    "KUBE-NWPLCY-default-allow-client-1-4" ≠ kubeDefaultNetpolChain ∧
    "KUBE-NWPLCY-default-allow-client-1-4" ≠ "ACCEPT" ∧
    "KUBE-NWPLCY-default-allow-client-1-4" ≠ "DROP" ∧
    (∀ q ∈ [examplePolicy, exampleOtherPolicy],
      mapHasKey q.targetPods examplePodInfo.ip = true →
      isWord (exampleDecls.networkPolicyChainName q.namespace_ q.name "1" IPFamily.IPv4) =
        true) ∧
    (([examplePolicy, exampleOtherPolicy].filter
        (fun q => mapHasKey q.targetPods examplePodInfo.ip)).map
      (fun q => exampleDecls.networkPolicyChainName q.namespace_ q.name "1"
        IPFamily.IPv4)).Nodup ∧
    exampleDecls.networkPolicyChainName examplePolicy.namespace_ examplePolicy.name "1"
      IPFamily.IPv4 = "KUBE-NWPLCY-default-allow-client-1-4" ∧
    ∃ written : List String,
      setupPodNetpolRules exampleDecls true examplePodInfo "KUBE-POD-FW-A"
        [examplePolicy, exampleOtherPolicy] "1" exampleNpc.filterTableRules IPFamily.IPv4 =
        some ([] ++ written) ∧
      written =
        [policyJumpRule exampleDecls "KUBE-POD-FW-A" "1" IPFamily.IPv4 "10.0.0.5"
          examplePolicy,
          defaultEgressRule "KUBE-POD-FW-A" "10.0.0.5",
          localAcceptRule "KUBE-POD-FW-A" "10.0.0.5", invalidDropRule "KUBE-POD-FW-A",
          statefulAcceptRule "KUBE-POD-FW-A"] ∧
      written.filter (jumpsTo "KUBE-NWPLCY-default-allow-client-1-4") =
        [policyJumpRule exampleDecls "KUBE-POD-FW-A" "1" IPFamily.IPv4 "10.0.0.5"
          examplePolicy] ∧
      written.filter (jumpsTo "KUBE-NWPLCY-team-a-web-1-4") = [] := by
  have hwords : ∀ q ∈ [examplePolicy, exampleOtherPolicy],
      mapHasKey q.targetPods examplePodInfo.ip = true →
      isWord (exampleDecls.networkPolicyChainName q.namespace_ q.name "1" IPFamily.IPv4) =
        true := by decide
  have hnodup : (([examplePolicy, exampleOtherPolicy].filter
        (fun q => mapHasKey q.targetPods examplePodInfo.ip)).map
      (fun q => exampleDecls.networkPolicyChainName q.namespace_ q.name "1"
        IPFamily.IPv4)).Nodup := by decide
  obtain ⟨written, hrun, hwritten, _, hone, _⟩ :=
    setupPodNetpolRules_policy_jumps exampleDecls true examplePodInfo "KUBE-POD-FW-A"
      [examplePolicy, exampleOtherPolicy] "1" exampleNpc.filterTableRules IPFamily.IPv4 []
      "10.0.0.5" rfl rfl "KUBE-NWPLCY-default-allow-client-1-4" (by decide) (by decide)
      (by decide) (by decide) hwords
  obtain ⟨written2, hrun2, _, _, _, hnone⟩ :=
    setupPodNetpolRules_policy_jumps exampleDecls true examplePodInfo "KUBE-POD-FW-A"
      [examplePolicy, exampleOtherPolicy] "1" exampleNpc.filterTableRules IPFamily.IPv4 []
      "10.0.0.5" rfl rfl "KUBE-NWPLCY-team-a-web-1-4" (by decide) (by decide)
      (by decide) (by decide) hwords
  have hsame : written2 = written := by
    rw [hrun] at hrun2
    simpa using hrun2.symm
  subst hsame
  refine ⟨rfl, rfl, by decide, by decide, by decide, by decide, hwords, hnodup, rfl,
    written2, hrun, ?_, hone hnodup examplePolicy (by decide) (by decide) rfl,
    hnone (by decide)⟩
  rw [hwritten]
  decide

set_option maxRecDepth 100000 in
/-- C4, as stated, fails.  With the policy `default/allow-client` twice in the list, two
jumps to its chain are written.  With the policy `team-a/web`, which targets the pod, and
the policy `team/a-web`, which does not and has the same chain name, one jump to the chain of
`team/a-web` is written. -/
theorem setupPodNetpolRules_policy_jumps_counterexample :
    mapHasKey examplePolicy.targetPods examplePodInfo.ip = true ∧
    ((setupPodNetpolRules exampleDecls true examplePodInfo "KUBE-POD-FW-A"
        [examplePolicy, examplePolicy] "1" exampleNpc.filterTableRules
        IPFamily.IPv4).getD []).countP
      (jumpsTo (exampleDecls.networkPolicyChainName examplePolicy.namespace_
        examplePolicy.name "1" IPFamily.IPv4)) = 2 ∧
    mapHasKey exampleOtherPolicy.targetPods examplePodInfo.ip = false ∧
    ((setupPodNetpolRules exampleDecls true examplePodInfo "KUBE-POD-FW-A"
        [exampleTeamPolicy, exampleOtherPolicy] "1" exampleNpc.filterTableRules
        IPFamily.IPv4).getD []).countP
      (jumpsTo (exampleDecls.networkPolicyChainName exampleOtherPolicy.namespace_
        exampleOtherPolicy.name "1" IPFamily.IPv4)) = 1 := by
  decide

end KubeRouter
